import Mathlib

/-! Fargate custom-executor driver: a verification development.

A shallow embedding of the Prepare / Run / Cleanup stage commands, of the
file-backed metadata store and of the storage-key derivation, followed by
theorems about them.

Conventions of the embedding.

* A Go `string` is a sequence of bytes (`GoString`); a Go `[]byte` is
  `GoBytes`, where `none` is the nil slice.
* A Go `error` value is a `GoError`; the interface value `nil` is `none` in
  `Option GoError`.
* Collaborators reached through interfaces (`aws.Fargate`,
  `task.MetadataManager`, `ssh.KeyFactory`, `executors.Executor`, `fs.FS`) are
  records of state-passing functions.  A command runs in a `World`: the state
  of its collaborators together with the chronological trace of the calls the
  code under study has made, each event carrying the arguments and the result
  of the call.
-/

set_option linter.unusedVariables false

/-! ## Strings, bytes and errors -/

/-- One byte. -/
abbrev Byte := Fin 256

/-- Go `string`: an immutable sequence of bytes, not necessarily valid UTF-8. -/
abbrev GoString := List Byte

/-- Go `[]byte`; `none` is the nil slice, `some []` an empty non-nil slice. -/
abbrev GoBytes := Option (List Byte)

/-- Go `utf8.RuneError`, the replacement character U+FFFD. -/
def utf8.RuneError : Nat := 0xFFFD

/-- Go `utf8.EncodeRune`: the UTF-8 encoding of a rune; a surrogate or a
value above U+10FFFF is encoded as `RuneError`. -/
def utf8.EncodeRune (r : Nat) : List Byte :=
  if r < 0x80 then [Fin.ofNat r]
  else if r < 0x800 then [Fin.ofNat (0xC0 + r / 64), Fin.ofNat (0x80 + r % 64)]
  else if 0x10FFFF < r ∨ (0xD800 ≤ r ∧ r ≤ 0xDFFF) then [0xEF, 0xBF, 0xBD]
  else if r < 0x10000 then
    [Fin.ofNat (0xE0 + r / 4096), Fin.ofNat (0x80 + r / 64 % 64), Fin.ofNat (0x80 + r % 64)]
  else
    [Fin.ofNat (0xF0 + r / 262144), Fin.ofNat (0x80 + r / 4096 % 64),
     Fin.ofNat (0x80 + r / 64 % 64), Fin.ofNat (0x80 + r % 64)]

/-- The bytes of a Go string literal (Go source text is UTF-8). -/
def str (s : String) : GoString := s.data.flatMap fun c => utf8.EncodeRune c.toNat

/-- Go conversion `string(b)` of a byte slice: the same bytes, nil giving `""`. -/
def GoBytes.toGoString (b : GoBytes) : GoString := b.getD []

/-- Go `error` values.  `errorString` is what `errors.New` returns (the
sentinels of the program and the errors of external collaborators);
`wrapError` is what `fmt.Errorf` returns for a format ending in `%w`: it keeps
the format, the other arguments and the wrapped error.  The last four are the
two error types the program declares: `*errInvalidPrivateKey` (of
`executors/ssh`) and `*BuildFailureError` (of `internal/runner`), each with
a wrapped error or with a nil one. -/
inductive GoError where
  | errorString (text : String)
  | wrapError (format : String) (args : List GoString) (err : GoError)
  | invalidPrivateKey (inner : GoError)
  | invalidPrivateKeyNil
  | buildFailure (msg : String) (err : GoError)
  | buildFailureNil (msg : String)
  deriving DecidableEq, Repr

/-- Go `fmt.Errorf(format, args..., err)` where the last verb of `format` is `%w`. -/
def fmt.Errorf (format : String) (args : List GoString) (err : GoError) : GoError :=
  GoError.wrapError format args err

/-- Go `errors.Unwrap`. -/
def errors.Unwrap : GoError → Option GoError
  | .errorString _ => none
  | .wrapError _ _ err => some err
  | .invalidPrivateKey inner => some inner
  | .invalidPrivateKeyNil => none
  | .buildFailure _ err => some err
  | .buildFailureNil _ => none

/-- The type assertion `err.(*errInvalidPrivateKey)` succeeds. -/
def GoError.isInvalidPrivateKey : GoError → Bool
  | .invalidPrivateKey _ => true
  | .invalidPrivateKeyNil => true
  | _ => false

/-- The type assertion `err.(*BuildFailureError)` succeeds. -/
def GoError.isBuildFailure : GoError → Bool
  | .buildFailure _ _ => true
  | .buildFailureNil _ => true
  | _ => false

/-- Go `errors.Is(err, target)` for a non-nil `err`: walks the `Unwrap` chain;
an element matches when it equals the target or when its own `Is` method
accepts the target (the two declared error types accept every target of their
own type). -/
def errors.Is : GoError → GoError → Bool
  | .errorString text, target => decide (GoError.errorString text = target)
  | .wrapError format args err, target =>
    decide (GoError.wrapError format args err = target) || errors.Is err target
  | .invalidPrivateKey inner, target =>
    decide (GoError.invalidPrivateKey inner = target) || target.isInvalidPrivateKey ||
      errors.Is inner target
  | .invalidPrivateKeyNil, target =>
    decide (GoError.invalidPrivateKeyNil = target) || target.isInvalidPrivateKey
  | .buildFailure msg err, target =>
    decide (GoError.buildFailure msg err = target) || target.isBuildFailure ||
      errors.Is err target
  | .buildFailureNil msg, target =>
    decide (GoError.buildFailureNil msg = target) || target.isBuildFailure

/-- The `Unwrap` chain of an error, the error itself first. -/
def errors.chain : GoError → List GoError
  | .errorString text => [.errorString text]
  | .wrapError format args err => .wrapError format args err :: errors.chain err
  | .invalidPrivateKey inner => .invalidPrivateKey inner :: errors.chain inner
  | .invalidPrivateKeyNil => [.invalidPrivateKeyNil]
  | .buildFailure msg err => .buildFailure msg err :: errors.chain err
  | .buildFailureNil msg => [.buildFailureNil msg]

/-- Go `os.ErrNotExist`. -/
def os.ErrNotExist : GoError := .errorString "file does not exist"

/-! ## Configuration, logging and the command-line context -/

/-- Go `config.Fargate`. -/
structure config.Fargate where
  Cluster : GoString := []
  EnablePublicIP : Bool := false
  PlatformVersion : GoString := []
  Region : GoString := []
  Subnet : GoString := []
  SecurityGroup : GoString := []
  TaskDefinition : GoString := []
  deriving DecidableEq, Repr

/-- Go `config.TaskMetadata`. -/
structure config.TaskMetadata where
  Directory : GoString := []
  deriving DecidableEq, Repr

/-- Go `config.SSH`. -/
structure config.SSH where
  Username : GoString := []
  Port : Int := 0
  deriving DecidableEq, Repr

/-- Go `config.Global`. -/
structure config.Global where
  LogLevel : GoString := []
  LogFile : GoString := []
  LogFormat : GoString := []
  Fargate : config.Fargate := {}
  TaskMetadata : config.TaskMetadata := {}
  SSH : config.SSH := {}
  deriving DecidableEq, Repr

/-- A value attached to a log entry by `WithField` or `WithError`. -/
inductive logging.Value where
  | text (s : GoString)
  | error (err : GoError)
  deriving DecidableEq, Repr

/-- Go `logging.Logger`, reduced to the fields accumulated with `WithField`,
`WithFields` and `WithError`; what it prints is recorded in the trace. -/
structure logging.Logger where
  fields : List (String × logging.Value) := []
  deriving DecidableEq, Repr

/-- Go `Logger.WithField` for a string value. -/
def logging.Logger.WithField (l : logging.Logger) (key : String) (value : GoString) :
    logging.Logger :=
  { fields := l.fields ++ [(key, logging.Value.text value)] }

/-- Go `Logger.WithError`. -/
def logging.Logger.WithError (l : logging.Logger) (err : GoError) : logging.Logger :=
  { fields := l.fields ++ [("error", logging.Value.error err)] }

/-- Go `cli.Context`: the positional arguments of the wrapped command line
(`Cli.Args()`), the configuration and the logger.  The `context.Context` it
also carries is handed unchanged to every collaborator and is not modelled. -/
structure cli.Context where
  Args : List GoString := []
  config : config.Global := {}
  logger : logging.Logger := {}
  deriving DecidableEq, Repr

/-- Go `(*cli.Context).Config`. -/
def cli.Context.Config (ctx : cli.Context) : config.Global := ctx.config

/-- Go `(*cli.Context).Logger`. -/
def cli.Context.Logger (ctx : cli.Context) : logging.Logger := ctx.logger

/-- Go `ctx.Cli.NArg()`. -/
def cli.Context.NArg (ctx : cli.Context) : Int := ctx.Args.length

/-- Go `ctx.Cli.Args().Get(n)`: the n-th argument, or `""` when there is none. -/
def cli.Context.ArgsGet (ctx : cli.Context) (n : Nat) : GoString := ctx.Args.getD n []

/-! ## Data exchanged with the collaborators -/

/-- Go `aws.TaskSettings`; the environment map is an association list. -/
structure aws.TaskSettings where
  Cluster : GoString := []
  TaskDefinition : GoString := []
  PlatformVersion : GoString := []
  EnvironmentVariables : List (GoString × GoString) := []
  deriving DecidableEq, Repr

/-- Go `aws.ConnectionSettings`. -/
structure aws.ConnectionSettings where
  Subnet : GoString := []
  SecurityGroup : GoString := []
  EnablePublicIP : Bool := false
  deriving DecidableEq, Repr

/-- Go `ssh.KeyPair`. -/
structure ssh.KeyPair where
  PublicKey : GoBytes := none
  PrivateKey : GoBytes := none
  deriving DecidableEq, Repr

/-- Go `task.Data`: the record persisted between the stages. -/
structure task.Data where
  TaskARN : GoString := []
  ContainerIP : GoString := []
  PrivateKey : GoBytes := none
  deriving DecidableEq, Repr

/-- Go `executors.ConnectionSettings`. -/
structure executors.ConnectionSettings where
  Hostname : GoString := []
  Port : Int := 0
  Username : GoString := []
  PrivateKey : GoBytes := none
  deriving DecidableEq, Repr

/-- Go `executors.DefaultPort`. -/
def executors.DefaultPort : Int := 22

/-! ## Data of the AWS SDK and of the SSH library

The request and response types of `aws-sdk-go` are reduced to the fields the
adapter writes or reads.  A field the SDK declares as a pointer, and an
element of a slice of pointers, is an `Option`: `none` is the nil pointer. -/

/-- Go `ecs.KeyValuePair`. -/
structure ecs.KeyValuePair where
  Name : Option GoString := none
  Value : Option GoString := none
  deriving DecidableEq, Repr

/-- Go `ecs.ContainerOverride`. -/
structure ecs.ContainerOverride where
  Name : Option GoString := none
  Environment : List (Option ecs.KeyValuePair) := []
  deriving DecidableEq, Repr

/-- Go `ecs.TaskOverride`. -/
structure ecs.TaskOverride where
  ContainerOverrides : List (Option ecs.ContainerOverride) := []
  deriving DecidableEq, Repr

/-- Go `ecs.AwsVpcConfiguration`. -/
structure ecs.AwsVpcConfiguration where
  SecurityGroups : List (Option GoString) := []
  Subnets : List (Option GoString) := []
  AssignPublicIp : Option GoString := none
  deriving DecidableEq, Repr

/-- Go `ecs.NetworkConfiguration`. -/
structure ecs.NetworkConfiguration where
  AwsvpcConfiguration : Option ecs.AwsVpcConfiguration := none
  deriving DecidableEq, Repr

/-- Go `ecs.RunTaskInput`. -/
structure ecs.RunTaskInput where
  TaskDefinition : Option GoString := none
  Cluster : Option GoString := none
  NetworkConfiguration : Option ecs.NetworkConfiguration := none
  Overrides : Option ecs.TaskOverride := none
  PlatformVersion : Option GoString := none
  deriving DecidableEq, Repr

/-- Go `ecs.NetworkInterface`. -/
structure ecs.NetworkInterface where
  PrivateIpv4Address : Option GoString := none
  deriving DecidableEq, Repr

/-- Go `ecs.Container`. -/
structure ecs.Container where
  NetworkInterfaces : List (Option ecs.NetworkInterface) := []
  deriving DecidableEq, Repr

/-- Go `ecs.Attachment`. -/
structure ecs.Attachment where
  Details : List (Option ecs.KeyValuePair) := []
  deriving DecidableEq, Repr

/-- Go `ecs.Task`. -/
structure ecs.Task where
  TaskArn : Option GoString := none
  Containers : List (Option ecs.Container) := []
  Attachments : List (Option ecs.Attachment) := []
  deriving DecidableEq, Repr

/-- Go `ecs.RunTaskOutput`. -/
structure ecs.RunTaskOutput where
  Tasks : List (Option ecs.Task) := []
  deriving DecidableEq, Repr

/-- Go `ecs.DescribeTasksInput`. -/
structure ecs.DescribeTasksInput where
  Cluster : Option GoString := none
  Tasks : List (Option GoString) := []
  deriving DecidableEq, Repr

/-- Go `ecs.DescribeTasksOutput`. -/
structure ecs.DescribeTasksOutput where
  Tasks : List (Option ecs.Task) := []
  deriving DecidableEq, Repr

/-- Go `ecs.StopTaskInput`. -/
structure ecs.StopTaskInput where
  Cluster : Option GoString := none
  Task : Option GoString := none
  deriving DecidableEq, Repr

/-- Go `ec2.NetworkInterfaceAssociation`. -/
structure ec2.NetworkInterfaceAssociation where
  PublicIp : Option GoString := none
  deriving DecidableEq, Repr

/-- Go `ec2.NetworkInterface`. -/
structure ec2.NetworkInterface where
  Association : Option ec2.NetworkInterfaceAssociation := none
  deriving DecidableEq, Repr

/-- Go `ec2.DescribeNetworkInterfacesInput`. -/
structure ec2.DescribeNetworkInterfacesInput where
  NetworkInterfaceIds : List (Option GoString) := []
  deriving DecidableEq, Repr

/-- Go `ec2.DescribeNetworkInterfacesOutput`. -/
structure ec2.DescribeNetworkInterfacesOutput where
  NetworkInterfaces : List (Option ec2.NetworkInterface) := []
  deriving DecidableEq, Repr

/-- A value of Go `ssh.Signer`, as `ssh.ParsePrivateKey` returns it: it is
told apart by the key material it signs with. -/
structure ssh.Signer where
  material : List Byte
  deriving DecidableEq, Repr

/-- Go `ssh.ClientConfig`, as `connect` fills it: the user, the signers of the
one `ssh.PublicKeys` authentication method, and whether the host-key callback
is `ssh.InsecureIgnoreHostKey()`. -/
structure ssh.ClientConfig where
  User : GoString := []
  Auth : List (Option ssh.Signer) := []
  InsecureIgnoreHostKey : Bool := false
  deriving DecidableEq, Repr

/-- A non-nil value of the Go interface `client.Client`: the connection it
stands for is told apart by a number. -/
structure client.Client where
  id : Nat
  deriving DecidableEq, Repr

/-- A non-nil value of the Go interface `session.Session`. -/
structure session.Session where
  id : Nat
  deriving DecidableEq, Repr

/-- A Go `io.Writer`, told apart by a number. -/
structure io.Writer where
  fd : Nat
  deriving DecidableEq, Repr

/-- Go `os.Stdout`. -/
def os.Stdout : io.Writer := ⟨1⟩

/-- Go `os.Stderr`. -/
def os.Stderr : io.Writer := ⟨2⟩

/-- Go `ssh.Signal`. -/
abbrev ssh.Signal := GoString

/-- Go `ssh.SIGINT`. -/
def ssh.SIGINT : ssh.Signal := str "INT"

/-- What the `select` statement of `ExecuteScript` proceeds with: the value
received from the channel `waitErr` (the result of the remote command), or
the closing of `ctx.Done()`. -/
inductive session.Selected where
  | waitErr (err : Option GoError)
  | ctxDone
  deriving DecidableEq, Repr

/-! ## Worlds, traces and collaborator interfaces -/

/-- One call made by the code under study, with its arguments and its result:
the calls of the stage commands and of the metadata manager first, then those
of the AWS adapter on its clients, of the SSH executor on its connection and
sessions, of a session on the SSH library, and of the runner adapter. -/
inductive Event where
  | newFargate (awsRegion : GoString)
  | newMetadataManager (directory : GoString)
  | newKeyFactory
  | newExecutor
  | newFS
  | Init (err : Option GoError)
  | Create (bitSize : Int) (keyPair : Option ssh.KeyPair) (err : Option GoError)
  | RunTask (taskSettings : aws.TaskSettings) (connection : aws.ConnectionSettings)
      (taskARN : GoString) (err : Option GoError)
  | WaitUntilTaskRunning (taskARN cluster : GoString) (err : Option GoError)
  | StopTask (taskARN cluster : GoString) (err : Option GoError)
  | GetContainerIP (taskARN cluster : GoString) (usePublicIP : Bool)
      (containerIP : GoString) (err : Option GoError)
  | Persist (data : task.Data) (err : Option GoError)
  | Get (data : task.Data) (err : Option GoError)
  | Clear (err : Option GoError)
  | ReadFile (filename : GoString) (content : GoBytes) (err : Option GoError)
  | WriteFile (filename : GoString) (data : GoBytes) (perm : Nat) (err : Option GoError)
  | Exists (path : GoString) (found : Bool) (err : Option GoError)
  | Remove (path : GoString) (err : Option GoError)
  | Execute (connection : executors.ConnectionSettings) (script : GoBytes)
      (err : Option GoError)
  | log (level : String) (logger : logging.Logger) (message : String)
  | sessionCreator (awsRegion : GoString) (err : Option GoError)
  | RunTaskWithContext (input : ecs.RunTaskInput) (output : Option ecs.RunTaskOutput)
      (err : Option GoError)
  | WaitUntilTasksRunningWithContext (input : ecs.DescribeTasksInput) (err : Option GoError)
  | StopTaskWithContext (input : ecs.StopTaskInput) (err : Option GoError)
  | DescribeTasksWithContext (input : ecs.DescribeTasksInput)
      (output : Option ecs.DescribeTasksOutput) (err : Option GoError)
  | DescribeNetworkInterfacesWithContext (input : ec2.DescribeNetworkInterfacesInput)
      (output : Option ec2.DescribeNetworkInterfacesOutput) (err : Option GoError)
  | connectClient (network addr : GoString) (config : ssh.ClientConfig)
      (cli : Option client.Client) (err : Option GoError)
  | NewSession (cli : client.Client) (stdout stderr : io.Writer)
      (sess : Option session.Session) (err : Option GoError)
  | Disconnect (cli : client.Client) (err : Option GoError)
  | ExecuteScript (sess : session.Session) (script : GoString) (err : Option GoError)
  | Close (sess : session.Session)
  | goRun (script : GoString)
  | selected (communication : session.Selected)
  | Signal (sig : ssh.Signal) (err : Option GoError)
  | internalClose (err : Option GoError)
  | osExiter (code : Int)
  deriving DecidableEq, Repr

/-- The state of the collaborators together with the trace of calls so far
(oldest first). -/
structure World (σ : Type) where
  st : σ
  trace : List Event

/-- A state-passing operation on a state `S`. -/
abbrev Op (S α : Type) : Type := S → α × S

/-- Appends one event to the trace. -/
def World.record {σ : Type} (w : World σ) (e : Event) : World σ :=
  { w with trace := w.trace ++ [e] }

/-- Runs a collaborator call and records it, with its result, in the trace. -/
def traced {σ α : Type} (op : Op (World σ) α) (event : α → Event) : Op (World σ) α := fun w =>
  match op w with
  | (a, w1) => (a, w1.record (event a))

/-- A logger call: it only leaves an entry in the trace. -/
def logging.Logger.emit {σ : Type} (l : logging.Logger) (level message : String)
    (w : World σ) : World σ :=
  w.record (Event.log level l message)

/-- An operation of a collaborator whose state is `σ`, run inside a world: it
sees and changes the collaborator state only, never the trace. -/
def inWorld {σ α : Type} (op : Op σ α) : Op (World σ) α := fun w =>
  match op w.st with
  | (a, s) => (a, { w with st := s })

/-- Go interface `aws.Fargate`. -/
structure aws.Fargate (S : Type) where
  RunTask : aws.TaskSettings → aws.ConnectionSettings → Op S (GoString × Option GoError)
  WaitUntilTaskRunning : GoString → GoString → Op S (Option GoError)
  StopTask : GoString → GoString → Op S (Option GoError)
  GetContainerIP : GoString → GoString → Bool → Op S (GoString × Option GoError)
  Init : Op S (Option GoError)

/-- Go interface `task.MetadataManager`. -/
structure task.MetadataManager (S : Type) where
  Persist : task.Data → Op S (Option GoError)
  Get : Op S (task.Data × Option GoError)
  Clear : Op S (Option GoError)

/-- Go interface `ssh.KeyFactory`; `Create` returns a possibly nil pointer. -/
structure ssh.KeyFactory (S : Type) where
  Create : Int → Op S (Option ssh.KeyPair × Option GoError)

/-- Go interface `executors.Executor`. -/
structure executors.Executor (S : Type) where
  Execute : executors.ConnectionSettings → GoBytes → Op S (Option GoError)

/-- Go interface `fs.FS`, without `TempDir`, which none of the stage commands
and none of the metadata manager's methods calls. -/
structure fs.FS (S : Type) where
  ReadFile : GoString → Op S (GoBytes × Option GoError)
  WriteFile : GoString → GoBytes → Nat → Op S (Option GoError)
  Exists : GoString → Op S (Bool × Option GoError)
  Remove : GoString → Op S (Option GoError)

/-- An arbitrary Fargate adapter with state `σ`, placed in a world. -/
def aws.Fargate.lift {σ : Type} (f : aws.Fargate σ) : aws.Fargate (World σ) where
  RunTask := fun taskSettings connection => inWorld (f.RunTask taskSettings connection)
  WaitUntilTaskRunning := fun taskARN cluster => inWorld (f.WaitUntilTaskRunning taskARN cluster)
  StopTask := fun taskARN cluster => inWorld (f.StopTask taskARN cluster)
  GetContainerIP := fun taskARN cluster usePublicIP =>
    inWorld (f.GetContainerIP taskARN cluster usePublicIP)
  Init := inWorld f.Init

/-- An arbitrary metadata manager with state `σ`, placed in a world. -/
def task.MetadataManager.lift {σ : Type} (m : task.MetadataManager σ) :
    task.MetadataManager (World σ) where
  Persist := fun data => inWorld (m.Persist data)
  Get := inWorld m.Get
  Clear := inWorld m.Clear

/-- An arbitrary key factory with state `σ`, placed in a world. -/
def ssh.KeyFactory.lift {σ : Type} (k : ssh.KeyFactory σ) : ssh.KeyFactory (World σ) where
  Create := fun bitSize => inWorld (k.Create bitSize)

/-- An arbitrary executor with state `σ`, placed in a world. -/
def executors.Executor.lift {σ : Type} (e : executors.Executor σ) :
    executors.Executor (World σ) where
  Execute := fun connection script => inWorld (e.Execute connection script)

/-- An arbitrary filesystem with state `σ`, placed in a world. -/
def fs.FS.lift {σ : Type} (f : fs.FS σ) : fs.FS (World σ) where
  ReadFile := fun filename => inWorld (f.ReadFile filename)
  WriteFile := fun filename data perm => inWorld (f.WriteFile filename data perm)
  Exists := fun path => inWorld (f.Exists path)
  Remove := fun path => inWorld (f.Remove path)

/-! ## The Prepare stage (`cmd/fargate/commands/custom/prepare.go`) -/

/-- What a call of a command does: it returns an error value (`none` is nil),
or it panics. -/
inductive Outcome where
  | returned (err : Option GoError)
  | panicked
  deriving DecidableEq, Repr

/-- Go constant `defaultBitSize`. -/
def defaultBitSize : Int := 4096

/-- Go `PrepareCommand`: the constructors it is built with and the fields
that `init` fills.  In Go the three interface fields are nil until `init`
assigns them, and no code path reads one before its assignment; here they
start as what the constructors return. -/
structure PrepareCommand (σ : Type) where
  newFargate : logging.Logger → GoString → aws.Fargate (World σ)
  newMetadataManager : logging.Logger → GoString → task.MetadataManager (World σ)
  newKeyFactory : logging.Logger → ssh.KeyFactory (World σ)
  cfg : config.Global := {}
  logger : logging.Logger := {}
  awsFargate : aws.Fargate (World σ) := newFargate {} []
  metadataManager : task.MetadataManager (World σ) := newMetadataManager {} []
  keyFactory : ssh.KeyFactory (World σ) := newKeyFactory {}

/-- Go `(*PrepareCommand).init`.  Returns the error and the command with the
fields assigned so far. -/
def PrepareCommand.init {σ : Type} (c : PrepareCommand σ) (ctx : cli.Context) :
    Op (World σ) (Option GoError × PrepareCommand σ) := fun w =>
  let c := { c with cfg := ctx.Config }
  let c := { c with logger := ctx.Logger.WithField "command" (str "prepare_exec") }
  let w := w.record (Event.newFargate c.cfg.Fargate.Region)
  let c := { c with awsFargate := c.newFargate c.logger c.cfg.Fargate.Region }
  match traced c.awsFargate.Init Event.Init w with
  | (some err, w) => ((some (fmt.Errorf "initializing Fargate adapter: %w" [] err), c), w)
  | (none, w) =>
    let w := w.record (Event.newMetadataManager c.cfg.TaskMetadata.Directory)
    let c := { c with
      metadataManager := c.newMetadataManager c.logger c.cfg.TaskMetadata.Directory }
    let w := w.record Event.newKeyFactory
    let c := { c with keyFactory := c.newKeyFactory c.logger }
    ((none, c), w)

/-- Go `(*PrepareCommand).startNewFargateTask`. -/
def PrepareCommand.startNewFargateTask {σ : Type} (c : PrepareCommand σ) (publicKey : GoBytes) :
    Op (World σ) (GoString × Option GoError) := fun w =>
  let w := c.logger.emit "info" "Starting new Fargate task" w
  let taskSettings : aws.TaskSettings :=
    { Cluster := c.cfg.Fargate.Cluster
      TaskDefinition := c.cfg.Fargate.TaskDefinition
      PlatformVersion := c.cfg.Fargate.PlatformVersion
      EnvironmentVariables := [(str "SSH_PUBLIC_KEY", publicKey.toGoString)] }
  let connection : aws.ConnectionSettings :=
    { Subnet := c.cfg.Fargate.Subnet
      SecurityGroup := c.cfg.Fargate.SecurityGroup
      EnablePublicIP := c.cfg.Fargate.EnablePublicIP }
  match traced (c.awsFargate.RunTask taskSettings connection)
      (fun r => Event.RunTask taskSettings connection r.1 r.2) w with
  | ((taskARN, some err), w) =>
    ((taskARN, some (fmt.Errorf "running new task on Fargate: %w" [] err)), w)
  | ((taskARN, none), w) => ((taskARN, none), w)

/-- Go `(*PrepareCommand).stopFargateTaskOnError`. -/
def PrepareCommand.stopFargateTaskOnError {σ : Type} (c : PrepareCommand σ) (taskARN : GoString)
    (err : GoError) (logMessage : String) (w : World σ) : World σ :=
  if taskARN = [] then w
  else
    let logger := c.logger.WithField "taskARN" taskARN
    let w := (logger.WithError err).emit "error" logMessage w
    match traced (c.awsFargate.StopTask taskARN c.cfg.Fargate.Cluster)
        (Event.StopTask taskARN c.cfg.Fargate.Cluster) w with
    | (some stopErr, w) => (logger.WithError stopErr).emit "error" "Error during stop task" w
    | (none, w) => w

/-- Go `(*PrepareCommand).persistDataForLaterStages`. -/
def PrepareCommand.persistDataForLaterStages {σ : Type} (c : PrepareCommand σ)
    (taskDetails : task.Data) : Op (World σ) (Option GoError) := fun w =>
  let w := (c.logger.WithField "taskARN" taskDetails.TaskARN).emit "info"
    "Persisting data that will be used by other commands" w
  match traced (c.metadataManager.Persist taskDetails) (Event.Persist taskDetails) w with
  | (some err, w) => (some (fmt.Errorf "persisting metadata: %w" [] err), w)
  | (none, w) => (none, w)

/-- Go `(*PrepareCommand).waitFargateTaskReady`. -/
def PrepareCommand.waitFargateTaskReady {σ : Type} (c : PrepareCommand σ) (taskARN : GoString) :
    Op (World σ) (GoString × Option GoError) := fun w =>
  let w := (c.logger.WithField "taskARN" taskARN).emit "info"
    "Waiting Fargate task to be ready" w
  match traced (c.awsFargate.WaitUntilTaskRunning taskARN c.cfg.Fargate.Cluster)
      (Event.WaitUntilTaskRunning taskARN c.cfg.Fargate.Cluster) w with
  | (some err, w) =>
    (([], some (fmt.Errorf "waiting for Fargate task to be in running state: %w" [] err)), w)
  | (none, w) =>
    match traced
        (c.awsFargate.GetContainerIP taskARN c.cfg.Fargate.Cluster c.cfg.Fargate.EnablePublicIP)
        (fun r => Event.GetContainerIP taskARN c.cfg.Fargate.Cluster
          c.cfg.Fargate.EnablePublicIP r.1 r.2) w with
    | ((containerIP, some err), w) =>
      ((containerIP, some (fmt.Errorf "fetching the container IP: %w" [] err)), w)
    | ((containerIP, none), w) => ((containerIP, none), w)

/-- Go `(*PrepareCommand).CustomExecute`.  A nil key pair returned without an
error makes the dereference `keyPair.PublicKey` panic. -/
def PrepareCommand.CustomExecute {σ : Type} (c : PrepareCommand σ) (ctx : cli.Context) :
    Op (World σ) Outcome := fun w =>
  match c.init ctx w with
  | ((some err, c), w) =>
    (.returned (some (fmt.Errorf "initializing PrepareCommand: %w" [] err)), w)
  | ((none, c), w) =>
    let w := c.logger.emit "info" "Executing the command" w
    match traced (c.keyFactory.Create defaultBitSize)
        (fun r => Event.Create defaultBitSize r.1 r.2) w with
    | ((_, some err), w) =>
      (.returned (some (fmt.Errorf "generating public/private keys: %w" [] err)), w)
    | ((none, none), w) => (.panicked, w)
    | ((some keyPair, none), w) =>
      match c.startNewFargateTask keyPair.PublicKey w with
      | ((taskARN, some err), w) =>
        let w := c.stopFargateTaskOnError taskARN err
          "Error when starting a new Fargate task. Will stop the task for cleanup" w
        (.returned (some (fmt.Errorf "starting new Fargate task: %w" [] err)), w)
      | ((taskARN, none), w) =>
        let taskDetails : task.Data := { TaskARN := taskARN, PrivateKey := keyPair.PrivateKey }
        match c.persistDataForLaterStages taskDetails w with
        | (some err, w) =>
          let w := c.stopFargateTaskOnError taskARN err
            "Error when persisting the task ARN. Will stop the task for cleanup" w
          (.returned (some (fmt.Errorf "persisting task ARN for later stages: %w" [] err)), w)
        | (none, w) =>
          match c.waitFargateTaskReady taskARN w with
          | ((_, some err), w) =>
            let w := c.stopFargateTaskOnError taskARN err
              "Error when waiting for task initialization. Will stop the task for cleanup" w
            (.returned (some (fmt.Errorf "waiting Fargate task to be ready: %w" [] err)), w)
          | ((containerIP, none), w) =>
            let taskDetails := { taskDetails with ContainerIP := containerIP }
            match c.persistDataForLaterStages taskDetails w with
            | (some err, w) =>
              let w := c.stopFargateTaskOnError taskARN err
                "Error persisting container IP. Will stop the task for cleanup" w
              (.returned
                (some (fmt.Errorf "persisting container IP for later stages: %w" [] err)), w)
            | (none, w) => (.returned none, w)

/-- A Prepare command whose three constructors hand out the given collaborators. -/
def PrepareCommand.mk0 {σ : Type} (fargate : aws.Fargate σ) (manager : task.MetadataManager σ)
    (keys : ssh.KeyFactory σ) : PrepareCommand σ :=
  { newFargate := fun _ _ => fargate.lift
    newMetadataManager := fun _ _ => manager.lift
    newKeyFactory := fun _ => keys.lift }

/-- A run of the Prepare stage over the given collaborators, from their state
`s` and an empty trace: the outcome and the final world. -/
def runPrepare {σ : Type} (fargate : aws.Fargate σ) (manager : task.MetadataManager σ)
    (keys : ssh.KeyFactory σ) (ctx : cli.Context) (s : σ) : Outcome × World σ :=
  (PrepareCommand.mk0 fargate manager keys).CustomExecute ctx ⟨s, []⟩

/-! ## The Cleanup stage (`cmd/fargate/commands/custom/cleanup.go`) -/

/-- Go `CleanupCommand`: the constructors it is built with and the fields
that `init` fills (see `PrepareCommand` for their initial value). -/
structure CleanupCommand (σ : Type) where
  newFargate : logging.Logger → GoString → aws.Fargate (World σ)
  newMetadataManager : logging.Logger → GoString → task.MetadataManager (World σ)
  cfg : config.Global := {}
  logger : logging.Logger := {}
  awsFargate : aws.Fargate (World σ) := newFargate {} []
  metadataManager : task.MetadataManager (World σ) := newMetadataManager {} []

/-- Go `(*CleanupCommand).init`. -/
def CleanupCommand.init {σ : Type} (c : CleanupCommand σ) (ctx : cli.Context) :
    Op (World σ) (Option GoError × CleanupCommand σ) := fun w =>
  let c := { c with cfg := ctx.Config }
  let c := { c with logger := ctx.Logger.WithField "command" (str "cleanup_exec") }
  let w := w.record (Event.newFargate c.cfg.Fargate.Region)
  let c := { c with awsFargate := c.newFargate c.logger c.cfg.Fargate.Region }
  match traced c.awsFargate.Init Event.Init w with
  | (some err, w) => ((some (fmt.Errorf "initializing Fargate adapter: %w" [] err), c), w)
  | (none, w) =>
    let w := w.record (Event.newMetadataManager c.cfg.TaskMetadata.Directory)
    let c := { c with
      metadataManager := c.newMetadataManager c.logger c.cfg.TaskMetadata.Directory }
    ((none, c), w)

/-- Go `(*CleanupCommand).CustomExecute`. -/
def CleanupCommand.CustomExecute {σ : Type} (c : CleanupCommand σ) (ctx : cli.Context) :
    Op (World σ) (Option GoError) := fun w =>
  match c.init ctx w with
  | ((some err, c), w) => (some (fmt.Errorf "initializing CleanupCommand: %w" [] err), w)
  | ((none, c), w) =>
    let w := c.logger.emit "info" "Executing the command" w
    let w := c.logger.emit "info" "Fetching task data from metadata storage" w
    match traced c.metadataManager.Get (fun r => Event.Get r.1 r.2) w with
    | ((_, some err), w) =>
      (some (fmt.Errorf "obtaining information about the running task: %w" [] err), w)
    | ((taskData, none), w) =>
      let logger := c.logger.WithField "taskARN" taskData.TaskARN
      let w := logger.emit "info" "Stopping Fargate task" w
      match traced (c.awsFargate.StopTask taskData.TaskARN c.cfg.Fargate.Cluster)
          (Event.StopTask taskData.TaskARN c.cfg.Fargate.Cluster) w with
      | (some err, w) =>
        (some (fmt.Errorf "stopping Fargate Task %q: %w" [taskData.TaskARN] err), w)
      | (none, w) =>
        let w := logger.emit "info" "Clear metadata related to the stopped Fargate Task" w
        match traced c.metadataManager.Clear Event.Clear w with
        | (some err, w) =>
          (some (fmt.Errorf "deleting metadata related to the stopped Fargate Task %q: %w"
            [taskData.TaskARN] err), w)
        | (none, w) => (none, w)

/-- A Cleanup command whose two constructors hand out the given collaborators. -/
def CleanupCommand.mk0 {σ : Type} (fargate : aws.Fargate (World σ))
    (manager : task.MetadataManager (World σ)) : CleanupCommand σ :=
  { newFargate := fun _ _ => fargate
    newMetadataManager := fun _ _ => manager }

/-- A run of the Cleanup stage over arbitrary collaborators with state `σ`,
from their state `s` and an empty trace. -/
def runCleanup {σ : Type} (fargate : aws.Fargate σ) (manager : task.MetadataManager σ)
    (ctx : cli.Context) (s : σ) : Option GoError × World σ :=
  (CleanupCommand.mk0 fargate.lift manager.lift).CustomExecute ctx ⟨s, []⟩

/-! ## The Run stage (`cmd/fargate/commands/custom/run.go`) -/

/-- Go `ErrMissingRequiredArguments`. -/
def ErrMissingRequiredArguments : GoError := .errorString "missing required arguments"

/-- Go `RunCommand`: the constructors it is built with and the fields that
`init` fills (see `PrepareCommand` for their initial value). -/
structure RunCommand (σ : Type) where
  newMetadataManager : logging.Logger → GoString → task.MetadataManager (World σ)
  newExecutor : logging.Logger → executors.Executor (World σ)
  newFS : fs.FS (World σ)
  cfg : config.Global := {}
  logger : logging.Logger := {}
  metadataManager : task.MetadataManager (World σ) := newMetadataManager {} []
  sshExecutor : executors.Executor (World σ) := newExecutor {}
  fs : fs.FS (World σ) := newFS

/-- Go `(*RunCommand).init`.  The two logger fields are added in key order. -/
def RunCommand.init {σ : Type} (c : RunCommand σ) (ctx : cli.Context) :
    Op (World σ) (RunCommand σ) := fun w =>
  let c := { c with cfg := ctx.Config }
  let c := { c with
    logger := (ctx.Logger.WithField "command" (str "run_exec")).WithField "stage"
      (ctx.ArgsGet 1) }
  let w := w.record Event.newExecutor
  let c := { c with sshExecutor := c.newExecutor c.logger }
  let w := w.record (Event.newMetadataManager c.cfg.TaskMetadata.Directory)
  let c := { c with
    metadataManager := c.newMetadataManager c.logger c.cfg.TaskMetadata.Directory }
  let w := w.record Event.newFS
  let c := { c with fs := c.newFS }
  (c, w)

/-- Go `(*RunCommand).readFileContent`. -/
def RunCommand.readFileContent {σ : Type} (c : RunCommand σ) (filePath : GoString) :
    Op (World σ) (GoBytes × Option GoError) := fun w =>
  let w := (c.logger.WithField "file" filePath).emit "info" "Reading file content" w
  match traced (c.fs.ReadFile filePath) (fun r => Event.ReadFile filePath r.1 r.2) w with
  | ((content, some err), w) =>
    ((content, some (fmt.Errorf "reading file %q: %w" [filePath] err)), w)
  | ((content, none), w) => ((content, none), w)

/-- Go `(*RunCommand).obtainTaskData`. -/
def RunCommand.obtainTaskData {σ : Type} (c : RunCommand σ) :
    Op (World σ) (task.Data × Option GoError) := fun w =>
  let w := c.logger.emit "info" "Fetching task data from metadata storage" w
  match traced c.metadataManager.Get (fun r => Event.Get r.1 r.2) w with
  | ((fargateTaskData, some err), w) =>
    ((fargateTaskData, some (fmt.Errorf "fetching data from metadata storage: %w" [] err)), w)
  | ((fargateTaskData, none), w) => ((fargateTaskData, none), w)

/-- Go `(*RunCommand).executeScriptOnTaskContainer`. -/
def RunCommand.executeScriptOnTaskContainer {σ : Type} (c : RunCommand σ) (taskData : task.Data)
    (sshConfig : config.SSH) (script : GoBytes) : Op (World σ) (Option GoError) := fun w =>
  let w := (c.logger.WithField "taskARN" taskData.TaskARN).emit "info"
    "Executing script in the task container" w
  let port := if sshConfig.Port < 1 then executors.DefaultPort else sshConfig.Port
  let settings : executors.ConnectionSettings :=
    { Hostname := taskData.ContainerIP
      Port := port
      Username := sshConfig.Username
      PrivateKey := taskData.PrivateKey }
  match traced (c.sshExecutor.Execute settings script) (Event.Execute settings script) w with
  | (some err, w) =>
    (some (fmt.Errorf "executing script on container with IP %q: %w" [taskData.ContainerIP] err),
      w)
  | (none, w) => (none, w)

/-- Go `(*RunCommand).CustomExecute`. -/
def RunCommand.CustomExecute {σ : Type} (c : RunCommand σ) (ctx : cli.Context) :
    Op (World σ) (Option GoError) := fun w =>
  let argsCnt := ctx.NArg
  if argsCnt < 2 then (some ErrMissingRequiredArguments, w)
  else
    match c.init ctx w with
    | (c, w) =>
      let w := c.logger.emit "info" "Executing the command" w
      let scriptPath := ctx.ArgsGet 0
      match c.readFileContent scriptPath w with
      | ((_, some err), w) => (some (fmt.Errorf "reading the script content: %w" [] err), w)
      | ((script, none), w) =>
        match c.obtainTaskData w with
        | ((_, some err), w) =>
          (some (fmt.Errorf "obtaining information about the running task: %w" [] err), w)
        | ((taskData, none), w) =>
          match c.executeScriptOnTaskContainer taskData c.cfg.SSH script w with
          | (some err, w) =>
            (some (fmt.Errorf "executing the script on the remote host: %w" [] err), w)
          | (none, w) => (none, w)

/-- A Run command whose three constructors hand out the given collaborators. -/
def RunCommand.mk0 {σ : Type} (manager : task.MetadataManager (World σ))
    (executor : executors.Executor (World σ)) (files : fs.FS (World σ)) : RunCommand σ :=
  { newMetadataManager := fun _ _ => manager
    newExecutor := fun _ => executor
    newFS := files }

/-- A run of the Run stage over arbitrary collaborators with state `σ`, from
their state `s` and a trace `trace`. -/
def runRun {σ : Type} (manager : task.MetadataManager σ) (executor : executors.Executor σ)
    (files : fs.FS σ) (ctx : cli.Context) (s : σ) (trace : List Event) :
    Option GoError × World σ :=
  (RunCommand.mk0 manager.lift executor.lift files.lift).CustomExecute ctx ⟨s, trace⟩

/-! ## Formatting helpers of the Go standard library -/

/-- The ASCII decimal digit of a number below ten. -/
def decimalDigit (n : Nat) : Byte := Fin.ofNat (48 + n % 10)

/-- Decimal digits of a natural number, least significant first; the first
argument bounds the number of digits. -/
def decimalRev : Nat → Nat → List Byte
  | 0, _ => []
  | fuel + 1, n => if n < 10 then [decimalDigit n] else decimalDigit n :: decimalRev fuel (n / 10)

/-- Go verb `%d` applied to an unsigned magnitude. -/
def formatNat (n : Nat) : GoString := (decimalRev (n + 1) n).reverse

/-- Go verb `%d` applied to an `int64`. -/
def formatInt (i : Int) : GoString :=
  if i < 0 then str "-" ++ formatNat i.natAbs else formatNat i.natAbs

/-- One lowercase hexadecimal digit. -/
def hexDigit (n : Nat) : Byte := Fin.ofNat (if n % 16 < 10 then 48 + n % 16 else 87 + n % 16)

/-- Go verb `%x` applied to a byte array: two lowercase hexadecimal digits per byte. -/
def formatHex (bs : List Byte) : GoString :=
  bs.flatMap fun b => [hexDigit (b.val / 16), hexDigit (b.val % 16)]

/-- Splits a path at every `/`. -/
def splitSlash : List Byte → List (List Byte)
  | [] => [[]]
  | b :: rest =>
    if b = 47 then [] :: splitSlash rest
    else
      match splitSlash rest with
      | [] => [[b]]
      | first :: others => (b :: first) :: others

/-- One step of Go `filepath.Clean` on Unix: `stack` holds the elements kept
so far, last first. -/
def cleanStep (rooted : Bool) (stack : List GoString) (elem : GoString) : List GoString :=
  if elem = [] ∨ elem = str "." then stack
  else if elem = str ".." then
    match stack with
    | [] => if rooted then [] else [elem]
    | top :: rest => if top = str ".." then elem :: stack else rest
  else elem :: stack

/-- Go `filepath.Clean` on Unix: empty and `.` elements are dropped, an inner
`..` removes the element before it, a `..` at the start of a rooted path is
dropped, and the empty result is `.`. -/
def filepath.Clean (path : GoString) : GoString :=
  if path = [] then str "."
  else
    let rooted := path.head? = some 47
    let kept := ((splitSlash path).foldl (cleanStep rooted) []).reverse
    let body := (str "/").intercalate kept
    if rooted then str "/" ++ body
    else if body = [] then str "." else body

/-- Go `filepath.Join` of two elements on Unix: the elements from the first
non-empty one on are joined with `/` and the result is cleaned. -/
def filepath.Join (a b : GoString) : GoString :=
  if a ≠ [] then filepath.Clean (a ++ str "/" ++ b)
  else if b ≠ [] then filepath.Clean b
  else []

/-! ## SHA-256 (`crypto/sha256`), on 32-bit words held in natural numbers -/

/-- The round constants. -/
def sha256.K : List Nat := [
  0x428a2f98, 0x71374491, 0xb5c0fbcf, 0xe9b5dba5, 0x3956c25b, 0x59f111f1, 0x923f82a4, 0xab1c5ed5,
  0xd807aa98, 0x12835b01, 0x243185be, 0x550c7dc3, 0x72be5d74, 0x80deb1fe, 0x9bdc06a7, 0xc19bf174,
  0xe49b69c1, 0xefbe4786, 0x0fc19dc6, 0x240ca1cc, 0x2de92c6f, 0x4a7484aa, 0x5cb0a9dc, 0x76f988da,
  0x983e5152, 0xa831c66d, 0xb00327c8, 0xbf597fc7, 0xc6e00bf3, 0xd5a79147, 0x06ca6351, 0x14292967,
  0x27b70a85, 0x2e1b2138, 0x4d2c6dfc, 0x53380d13, 0x650a7354, 0x766a0abb, 0x81c2c92e, 0x92722c85,
  0xa2bfe8a1, 0xa81a664b, 0xc24b8b70, 0xc76c51a3, 0xd192e819, 0xd6990624, 0xf40e3585, 0x106aa070,
  0x19a4c116, 0x1e376c08, 0x2748774c, 0x34b0bcb5, 0x391c0cb3, 0x4ed8aa4a, 0x5b9cca4f, 0x682e6ff3,
  0x748f82ee, 0x78a5636f, 0x84c87814, 0x8cc70208, 0x90befffa, 0xa4506ceb, 0xbef9a3f7, 0xc67178f2]

/-- The eight working variables. -/
structure sha256.Digest where
  a : Nat
  b : Nat
  c : Nat
  d : Nat
  e : Nat
  f : Nat
  g : Nat
  h : Nat

/-- The initial hash value. -/
def sha256.init : sha256.Digest :=
  ⟨0x6a09e667, 0xbb67ae85, 0x3c6ef372, 0xa54ff53a, 0x510e527f, 0x9b05688c, 0x1f83d9ab, 0x5be0cd19⟩

/-- Rotation of a 32-bit word to the right. -/
def sha256.rotr (x n : Nat) : Nat := ((x >>> n) ||| (x <<< (32 - n))) % 2 ^ 32

/-- Addition modulo 2^32. -/
def sha256.add32 (x y : Nat) : Nat := (x + y) % 2 ^ 32

/-- The `len` low-order bytes of `n`, most significant first. -/
def sha256.bigEndian (n len : Nat) : List Nat :=
  (List.range len).map fun i => (n >>> (8 * (len - 1 - i))) % 256

/-- Padding: a 1 bit, zeros up to 56 modulo 64 bytes, and the bit length on 8 bytes. -/
def sha256.pad (msg : List Nat) : List Nat :=
  msg ++ [0x80] ++ List.replicate ((64 - (msg.length + 9) % 64) % 64) 0 ++
    sha256.bigEndian (8 * msg.length) 8

/-- Groups bytes four by four into big-endian words. -/
def sha256.words : List Nat → List Nat
  | a :: b :: c :: d :: rest => (((a * 256 + b) * 256 + c) * 256 + d) :: sha256.words rest
  | _ => []

/-- Extends the message schedule by `n` words; `wrev` holds the words so far,
last first. -/
def sha256.schedule : Nat → List Nat → List Nat
  | 0, wrev => wrev
  | n + 1, wrev =>
    let w2 := wrev.getD 1 0
    let w7 := wrev.getD 6 0
    let w15 := wrev.getD 14 0
    let w16 := wrev.getD 15 0
    let s0 := sha256.rotr w15 7 ^^^ sha256.rotr w15 18 ^^^ (w15 >>> 3)
    let s1 := sha256.rotr w2 17 ^^^ sha256.rotr w2 19 ^^^ (w2 >>> 10)
    sha256.schedule n
      (sha256.add32 (sha256.add32 (sha256.add32 s1 w7) s0) w16 :: wrev)

/-- One round of the compression function, for a constant and a schedule word. -/
def sha256.round (s : sha256.Digest) (kw : Nat × Nat) : sha256.Digest :=
  let S1 := sha256.rotr s.e 6 ^^^ sha256.rotr s.e 11 ^^^ sha256.rotr s.e 25
  let ch := (s.e &&& s.f) ^^^ ((s.e ^^^ 0xffffffff) &&& s.g)
  let t1 := sha256.add32 (sha256.add32 (sha256.add32 (sha256.add32 s.h S1) ch) kw.1) kw.2
  let S0 := sha256.rotr s.a 2 ^^^ sha256.rotr s.a 13 ^^^ sha256.rotr s.a 22
  let maj := (s.a &&& s.b) ^^^ (s.a &&& s.c) ^^^ (s.b &&& s.c)
  let t2 := sha256.add32 S0 maj
  ⟨sha256.add32 t1 t2, s.a, s.b, s.c, sha256.add32 s.d t1, s.e, s.f, s.g⟩

/-- The compression of one 64-byte block. -/
def sha256.compress (h : sha256.Digest) (block : List Nat) : sha256.Digest :=
  let w := (sha256.schedule 48 (sha256.words block).reverse).reverse
  let s := (sha256.K.zip w).foldl sha256.round h
  ⟨sha256.add32 h.a s.a, sha256.add32 h.b s.b, sha256.add32 h.c s.c, sha256.add32 h.d s.d,
   sha256.add32 h.e s.e, sha256.add32 h.f s.f, sha256.add32 h.g s.g, sha256.add32 h.h s.h⟩

/-- Cuts the padded message into 64-byte blocks (at most `n` of them). -/
def sha256.blocks : Nat → List Nat → List (List Nat)
  | 0, _ => []
  | n + 1, l => if l.isEmpty then [] else l.take 64 :: sha256.blocks n (l.drop 64)

/-- Go `sha256.Sum256`: the 32 bytes of the digest. -/
def sha256.Sum256 (msg : List Byte) : List Byte :=
  let m := sha256.pad (msg.map Fin.val)
  let s := (sha256.blocks m.length m).foldl sha256.compress sha256.init
  ([s.a, s.b, s.c, s.d, s.e, s.f, s.g, s.h].flatMap fun w => sha256.bigEndian w 4).map Fin.ofNat

/-! ## The storage key (`task/filename.go`) and the runner adapter -/

/-- Go `task.RunnerData`. -/
structure task.RunnerData where
  ShortToken : GoString := []
  ProjectURL : GoString := []
  PipelineID : Int := 0
  JobID : Int := 0
  deriving DecidableEq, Repr

/-- The string that `GenerateFilename` hashes: `fmt.Sprintf("%s-%d-%d", ...)`. -/
def task.longID (data : task.RunnerData) : GoString :=
  data.ProjectURL ++ str "-" ++ formatInt data.PipelineID ++ str "-" ++ formatInt data.JobID

/-- Go `task.GenerateFilename`. -/
def task.GenerateFilename (data : task.RunnerData) : GoString :=
  data.ShortToken ++ str "-" ++ formatHex (sha256.Sum256 (task.longID data))

/-- Go `runner.Adapter`. -/
structure runner.Adapter where
  buildFailureExitCode : Int := 0
  systemFailureExitCode : Int := 0
  shortToken : GoString := []
  projectURL : GoString := []
  pipelineID : Int := 0
  jobID : Int := 0
  deriving DecidableEq, Repr

/-- Go `(*Adapter).ShortToken`. -/
def runner.Adapter.ShortToken (a : runner.Adapter) : GoString := a.shortToken

/-- Go `(*Adapter).ProjectURL`. -/
def runner.Adapter.ProjectURL (a : runner.Adapter) : GoString := a.projectURL

/-- Go `(*Adapter).PipelineID`. -/
def runner.Adapter.PipelineID (a : runner.Adapter) : Int := a.pipelineID

/-- Go `(*Adapter).JobID`. -/
def runner.Adapter.JobID (a : runner.Adapter) : Int := a.jobID

/-- A byte is one of the sixteen lowercase hexadecimal digits `0`-`9`, `a`-`f`. -/
def isLowerHex (c : Byte) : Bool :=
  (48 ≤ c.val && c.val ≤ 57) || (97 ≤ c.val && c.val ≤ 102)

/-! ## The metadata manager (`task/metadata.go`) -/

/-- Go interface `encoding.Encoder`, at the type `task.Data`.  `Encode`
returns the bytes it wrote to the target and its error; `Decode` takes the
bytes of the source and the current value of the target and returns the new
value of the target and its error. -/
structure encoding.Encoder where
  Encode : task.Data → List Byte × Option GoError
  Decode : List Byte → task.Data → task.Data × Option GoError

/-- Go `fsMetadataManager`. -/
structure fsMetadataManager (σ : Type) where
  logger : logging.Logger
  fs : fs.FS (World σ)
  encoder : encoding.Encoder
  directory : GoString
  filename : GoString

/-- Go `task.NewMetadataManager`.  The filesystem `fs.NewOS()`, the encoder
`encoding.NewJSON()` and the initialised runner adapter `runner.GetAdapter()`
are taken as arguments. -/
def task.NewMetadataManager {σ : Type} (osFS : fs.FS (World σ)) (jsonEncoder : encoding.Encoder)
    (runnerAdapter : runner.Adapter) (logger : logging.Logger) (filesDir : GoString) :
    fsMetadataManager σ :=
  let runnerData : task.RunnerData :=
    { ShortToken := runnerAdapter.ShortToken
      ProjectURL := runnerAdapter.ProjectURL
      PipelineID := runnerAdapter.PipelineID
      JobID := runnerAdapter.JobID }
  { logger := logger
    fs := osFS
    encoder := jsonEncoder
    directory := filesDir
    filename := task.GenerateFilename runnerData }

/-- Go `(*fsMetadataManager).getFullFilePath`. -/
def fsMetadataManager.getFullFilePath {σ : Type} (f : fsMetadataManager σ) : GoString :=
  filepath.Join f.directory (f.filename ++ str ".json")

/-- Go `(*bytes.Buffer).Bytes` of a buffer that started empty and received
`written`: nil when nothing was written. -/
def bufferBytes (written : List Byte) : GoBytes :=
  if written = [] then none else some written

/-- Go `(*fsMetadataManager).Persist`; the file mode 0600 is 384. -/
def fsMetadataManager.Persist {σ : Type} (f : fsMetadataManager σ) (data : task.Data) :
    Op (World σ) (Option GoError) := fun w =>
  let w := f.logger.emit "debug" "[Persist] Will persist metadata" w
  match f.encoder.Encode data with
  | (_, some err) => (some (fmt.Errorf "encoding data to JSON: %w" [] err), w)
  | (buf, none) =>
    match traced (f.fs.WriteFile f.getFullFilePath (bufferBytes buf) 384)
        (Event.WriteFile f.getFullFilePath (bufferBytes buf) 384) w with
    | (some err, w) => (some (fmt.Errorf "writing file %q: %w" [f.getFullFilePath] err), w)
    | (none, w) =>
      let w := f.logger.emit "debug" "[Persist] Metadata was persisted" w
      (none, w)

/-- Go `(*fsMetadataManager).errIfFileNotExists`. -/
def fsMetadataManager.errIfFileNotExists {σ : Type} (f : fsMetadataManager σ) :
    Op (World σ) (Option GoError) := fun w =>
  match traced (f.fs.Exists f.getFullFilePath)
      (fun r => Event.Exists f.getFullFilePath r.1 r.2) w with
  | ((_, some err), w) => (some err, w)
  | ((false, none), w) => (some os.ErrNotExist, w)
  | ((true, none), w) => (none, w)

/-- Go `(*fsMetadataManager).Get`.  When decoding fails the record returned
with the error is whatever the encoder left in the target. -/
def fsMetadataManager.Get {σ : Type} (f : fsMetadataManager σ) :
    Op (World σ) (task.Data × Option GoError) := fun w =>
  let w := f.logger.emit "debug" "[Get] Will get existing metadata" w
  let data : task.Data := {}
  match f.errIfFileNotExists w with
  | (some err, w) =>
    ((data, some (fmt.Errorf "trying to access file %q: %w" [f.getFullFilePath] err)), w)
  | (none, w) =>
    match traced (f.fs.ReadFile f.getFullFilePath)
        (fun r => Event.ReadFile f.getFullFilePath r.1 r.2) w with
    | ((_, some err), w) =>
      ((data, some (fmt.Errorf "reading file %q: %w" [f.getFullFilePath] err)), w)
    | ((fileContent, none), w) =>
      match f.encoder.Decode (fileContent.getD []) data with
      | (data, some err) => ((data, some (fmt.Errorf "decoding JSON: %w" [] err)), w)
      | (data, none) =>
        let w := f.logger.emit "debug" "[Get] Metadata was fetched" w
        ((data, none), w)

/-- Go `(*fsMetadataManager).Clear`. -/
def fsMetadataManager.Clear {σ : Type} (f : fsMetadataManager σ) :
    Op (World σ) (Option GoError) := fun w =>
  let w := f.logger.emit "debug" "[Clear] Will delete existing metadata" w
  match f.errIfFileNotExists w with
  | (some err, w) =>
    (some (fmt.Errorf "trying to access file %q: %w" [f.getFullFilePath] err), w)
  | (none, w) =>
    match traced (f.fs.Remove f.getFullFilePath) (Event.Remove f.getFullFilePath) w with
    | (some err, w) => (some (fmt.Errorf "deleting file %q: %w" [f.getFullFilePath] err), w)
    | (none, w) =>
      let w := f.logger.emit "debug" "[Clear] Metadata was deleted" w
      (none, w)

/-- The manager seen through the interface `task.MetadataManager`. -/
def fsMetadataManager.asManager {σ : Type} (f : fsMetadataManager σ) :
    task.MetadataManager (World σ) where
  Persist := f.Persist
  Get := f.Get
  Clear := f.Clear

/-! ## A filesystem that stores what is written -/

/-- The files of an in-memory filesystem: a content for each path that exists,
the most recently written first. -/
abbrev MemFiles := List (GoString × List Byte)

/-- The error of an operation on a path that holds no file: a path error
wrapping `os.ErrNotExist`. -/
def memPathError (op : String) (path : GoString) : GoError :=
  .wrapError (op ++ " %s: %w") [path] os.ErrNotExist

/-- An in-memory filesystem in the manner of `afero.NewMemMapFs`, with files
only: a write creates or replaces the file and always succeeds, a read returns
the bytes last written, a removal deletes the file. -/
def memFS : fs.FS MemFiles where
  ReadFile := fun filename files =>
    match files.lookup filename with
    | some content => ((some content, none), files)
    | none => ((none, some (memPathError "open" filename)), files)
  WriteFile := fun filename data _ files =>
    (none, (filename, data.getD []) :: files.filter fun entry => entry.1 ≠ filename)
  Exists := fun path files => (((files.lookup path).isSome, none), files)
  Remove := fun path files =>
    match files.lookup path with
    | some _ => (none, files.filter fun entry => entry.1 ≠ path)
    | none => (some (memPathError "remove" path), files)

/-- An operation on the first component of a pair of states. -/
def onFst {σ τ α : Type} (op : Op σ α) : Op (σ × τ) α := fun s =>
  match op s.1 with
  | (a, s1) => (a, (s1, s.2))

/-- An operation on the second component of a pair of states. -/
def onSnd {σ τ α : Type} (op : Op τ α) : Op (σ × τ) α := fun s =>
  match op s.2 with
  | (a, s2) => (a, (s.1, s2))

/-- A Fargate adapter with state `σ`, run next to a filesystem it cannot touch. -/
def aws.Fargate.besideFiles {σ : Type} (f : aws.Fargate σ) : aws.Fargate (σ × MemFiles) where
  RunTask := fun taskSettings connection => onFst (f.RunTask taskSettings connection)
  WaitUntilTaskRunning := fun taskARN cluster => onFst (f.WaitUntilTaskRunning taskARN cluster)
  StopTask := fun taskARN cluster => onFst (f.StopTask taskARN cluster)
  GetContainerIP := fun taskARN cluster usePublicIP =>
    onFst (f.GetContainerIP taskARN cluster usePublicIP)
  Init := onFst f.Init

/-- The in-memory filesystem, run next to collaborators with state `σ`. -/
def memFSBeside (σ : Type) : fs.FS (σ × MemFiles) where
  ReadFile := fun filename => onSnd (memFS.ReadFile filename)
  WriteFile := fun filename data perm => onSnd (memFS.WriteFile filename data perm)
  Exists := fun path => onSnd (memFS.Exists path)
  Remove := fun path => onSnd (memFS.Remove path)

/-- The metadata manager that the stage commands construct, over the
in-memory filesystem. -/
def fileManager (σ : Type) (encoder : encoding.Encoder) (runnerAdapter : runner.Adapter)
    (logger : logging.Logger) (filesDir : GoString) : fsMetadataManager (σ × MemFiles) :=
  task.NewMetadataManager (memFSBeside σ).lift encoder runnerAdapter logger filesDir

/-- A run of the Cleanup stage with an arbitrary Fargate adapter (state `s`)
and the file-backed metadata manager over the in-memory filesystem holding
`files`, from an empty trace. -/
def runCleanupOnFiles {σ : Type} (fargate : aws.Fargate σ) (encoder : encoding.Encoder)
    (runnerAdapter : runner.Adapter) (ctx : cli.Context) (s : σ) (files : MemFiles) :
    Option GoError × World (σ × MemFiles) :=
  CleanupCommand.CustomExecute
    { newFargate := fun _ _ => fargate.besideFiles.lift
      newMetadataManager := fun logger filesDir =>
        (fileManager σ encoder runnerAdapter logger filesDir).asManager }
    ctx ⟨(s, files), []⟩

/-! ## UTF-8 decoding (`unicode/utf8`) -/

/-- Go `utf8.DecodeRune`: the first rune of `p` and its width in bytes; an
invalid or truncated encoding gives `(RuneError, 1)` and the empty input
`(RuneError, 0)`.  The five acceptance ranges of the second byte are those
of Go's table: `A0..BF` after `E0`, `80..9F` after `ED`, `90..BF` after `F0`,
`80..8F` after `F4`, and `80..BF` otherwise. -/
def utf8.DecodeRune (p : List Byte) : Nat × Nat :=
  match p with
  | [] => (utf8.RuneError, 0)
  | p0 :: rest =>
    if p0.val < 0x80 then (p0.val, 1)
    else if p0.val < 0xC2 ∨ 0xF4 < p0.val then (utf8.RuneError, 1)
    else
      let lo := if p0.val = 0xE0 then 0xA0 else if p0.val = 0xF0 then 0x90 else 0x80
      let hi := if p0.val = 0xED then 0x9F else if p0.val = 0xF4 then 0x8F else 0xBF
      match rest with
      | [] => (utf8.RuneError, 1)
      | b1 :: rest1 =>
        if b1.val < lo ∨ hi < b1.val then (utf8.RuneError, 1)
        else if p0.val < 0xE0 then (p0.val % 32 * 64 + b1.val % 64, 2)
        else
          match rest1 with
          | [] => (utf8.RuneError, 1)
          | b2 :: rest2 =>
            if b2.val < 0x80 ∨ 0xBF < b2.val then (utf8.RuneError, 1)
            else if p0.val < 0xF0 then
              (p0.val % 16 * 4096 + b1.val % 64 * 64 + b2.val % 64, 3)
            else
              match rest2 with
              | [] => (utf8.RuneError, 1)
              | b3 :: _ =>
                if b3.val < 0x80 ∨ 0xBF < b3.val then (utf8.RuneError, 1)
                else
                  (p0.val % 8 * 262144 + b1.val % 64 * 4096 + b2.val % 64 * 64 + b3.val % 64, 4)

/-- The loop of Go `utf8.ValidString`; the first argument bounds the number of runes. -/
def utf8.validLoop : Nat → List Byte → Bool
  | _, [] => true
  | 0, _ :: _ => false
  | fuel + 1, b :: rest =>
    if b.val < 0x80 then utf8.validLoop fuel rest
    else if (utf8.DecodeRune (b :: rest)).1 = utf8.RuneError ∧ (utf8.DecodeRune (b :: rest)).2 = 1
    then false
    else utf8.validLoop fuel ((b :: rest).drop (utf8.DecodeRune (b :: rest)).2)

/-- Go `utf8.ValidString`: the string consists of valid UTF-8 encodings only. -/
def utf8.ValidString (s : GoString) : Bool := utf8.validLoop s.length s

/-! ## Base64 (`encoding/base64`, standard alphabet with padding) -/

/-- The character of the standard alphabet for a 6-bit value. -/
def base64.encodeChar (v : Nat) : Byte :=
  if v < 26 then Fin.ofNat (65 + v)
  else if v < 52 then Fin.ofNat (97 + (v - 26))
  else if v < 62 then Fin.ofNat (48 + (v - 52))
  else if v = 62 then 43
  else 47

/-- The 6-bit value of a character of the standard alphabet. -/
def base64.decodeChar (c : Byte) : Option Nat :=
  if 65 ≤ c.val ∧ c.val ≤ 90 then some (c.val - 65)
  else if 97 ≤ c.val ∧ c.val ≤ 122 then some (c.val - 97 + 26)
  else if 48 ≤ c.val ∧ c.val ≤ 57 then some (c.val - 48 + 52)
  else if c.val = 43 then some 62
  else if c.val = 47 then some 63
  else none

/-- Go `base64.StdEncoding.EncodeToString`. -/
def base64.encode : List Byte → List Byte
  | [] => []
  | [a] => [base64.encodeChar (a.val / 4), base64.encodeChar (a.val % 4 * 16), 61, 61]
  | [a, b] =>
    [base64.encodeChar (a.val / 4), base64.encodeChar (a.val % 4 * 16 + b.val / 16),
     base64.encodeChar (b.val % 16 * 4), 61]
  | a :: b :: c :: rest =>
    base64.encodeChar (a.val / 4) :: base64.encodeChar (a.val % 4 * 16 + b.val / 16) ::
      base64.encodeChar (b.val % 16 * 4 + c.val / 64) :: base64.encodeChar (c.val % 64) ::
      base64.encode rest

/-- The quanta of Go `base64.StdEncoding.Decode`, on an input without line
breaks: four characters give three bytes; padding is accepted in the last
quantum only; `none` is a `CorruptInputError`. -/
def base64.decodeQuanta : List Byte → Option (List Byte)
  | [] => some []
  | c0 :: c1 :: c2 :: c3 :: rest =>
    match base64.decodeChar c0, base64.decodeChar c1 with
    | some v0, some v1 =>
      if c2 = 61 then
        if c3 = 61 ∧ rest = [] then some [Fin.ofNat (v0 * 4 + v1 / 16)] else none
      else
        match base64.decodeChar c2 with
        | none => none
        | some v2 =>
          if c3 = 61 then
            if rest = [] then
              some [Fin.ofNat (v0 * 4 + v1 / 16), Fin.ofNat (v1 % 16 * 16 + v2 / 4)]
            else none
          else
            match base64.decodeChar c3 with
            | none => none
            | some v3 =>
              (base64.decodeQuanta rest).map fun tail =>
                Fin.ofNat (v0 * 4 + v1 / 16) :: Fin.ofNat (v1 % 16 * 16 + v2 / 4) ::
                  Fin.ofNat (v2 % 4 * 64 + v3) :: tail
    | _, _ => none
  | _ => none

/-- Go `base64.StdEncoding.Decode`: carriage returns and line feeds are
skipped wherever they stand. -/
def base64.decode (s : List Byte) : Option (List Byte) :=
  base64.decodeQuanta (s.filter fun c => c ≠ 10 ∧ c ≠ 13)

/-! ## The JSON encoder (`internal/encoding/json.go` over `encoding/json`)

`encoding/json` is modelled at the type `task.Data`, as of the Go releases up
to 1.21 (which write the control characters U+0008 and U+000C as `\u0008` and
`\u000c`). -/

/-- Go `htmlSafeSet`: the ASCII bytes written unescaped inside a JSON string. -/
def json.htmlSafe (b : Byte) : Bool :=
  0x20 ≤ b.val && b.val < 0x80 && b.val != 0x22 && b.val != 0x5C && b.val != 0x3C &&
    b.val != 0x3E && b.val != 0x26

/-- What the encoder writes for one ASCII byte of a string. -/
def json.escapeByte (b : Byte) : List Byte :=
  if json.htmlSafe b then [b]
  else if b.val = 0x5C ∨ b.val = 0x22 then [0x5C, b]
  else if b.val = 0x0A then [0x5C, 0x6E]
  else if b.val = 0x0D then [0x5C, 0x72]
  else if b.val = 0x09 then [0x5C, 0x74]
  else [0x5C, 0x75, 0x30, 0x30, hexDigit (b.val / 16), hexDigit (b.val % 16)]

/-- The loop of Go `encodeState.string` with HTML escaping on: the bytes
written between the quotes.  The first argument bounds the number of runes. -/
def json.stringLoop : Nat → List Byte → List Byte
  | _, [] => []
  | 0, _ :: _ => []
  | fuel + 1, b :: rest =>
    if b.val < 0x80 then json.escapeByte b ++ json.stringLoop fuel rest
    else if (utf8.DecodeRune (b :: rest)).1 = utf8.RuneError ∧ (utf8.DecodeRune (b :: rest)).2 = 1
    then [0x5C, 0x75, 0x66, 0x66, 0x66, 0x64] ++ json.stringLoop fuel rest
    else if (utf8.DecodeRune (b :: rest)).1 = 0x2028 ∨ (utf8.DecodeRune (b :: rest)).1 = 0x2029
    then
      [0x5C, 0x75, 0x32, 0x30, 0x32, hexDigit ((utf8.DecodeRune (b :: rest)).1 % 16)] ++
        json.stringLoop fuel ((b :: rest).drop (utf8.DecodeRune (b :: rest)).2)
    else
      (b :: rest).take (utf8.DecodeRune (b :: rest)).2 ++
        json.stringLoop fuel ((b :: rest).drop (utf8.DecodeRune (b :: rest)).2)

/-- The JSON text of a Go string. -/
def json.encodeString (s : GoString) : List Byte :=
  0x22 :: json.stringLoop s.length s ++ [0x22]

/-- The JSON text of a Go byte slice: `null` for nil, else its base64 text in quotes. -/
def json.encodeBytes : GoBytes → List Byte
  | none => str "null"
  | some b => 0x22 :: base64.encode b ++ [0x22]

/-- Go `json.Marshal` of a `task.Data`: the three fields in declaration order. -/
def json.Marshal (data : task.Data) : List Byte :=
  str "\x7b\"TaskARN\":" ++ json.encodeString data.TaskARN ++
  str ",\"ContainerIP\":" ++ json.encodeString data.ContainerIP ++
  str ",\"PrivateKey\":" ++ json.encodeBytes data.PrivateKey ++ str "\x7d"

/-- Go `(*json).Encode` at the type `task.Data`: `json.NewEncoder(target).Encode`
writes the JSON text and a line feed, and cannot fail at this type. -/
def json.Encode (source : task.Data) : List Byte × Option GoError :=
  (json.Marshal source ++ [0x0A], none)

/-! ## The JSON decoder (`encoding/json`), at the type `task.Data`

The decoder is modelled on the documents that are a JSON object whose member
values are strings or `null`, with white space allowed between the tokens:
this covers everything the encoder writes.  Any other document (a syntax
error, or a member value of another kind) is rejected with `json.errRejected`. -/

/-- The white space the scanner skips between tokens. -/
def json.isSpace (c : Byte) : Bool :=
  c.val = 0x20 || c.val = 0x09 || c.val = 0x0D || c.val = 0x0A

/-- Skips white space. -/
def json.skipSpace : List Byte → List Byte
  | [] => []
  | c :: rest => if json.isSpace c then json.skipSpace rest else c :: rest

/-- A hexadecimal digit, of either case. -/
def json.isHex (c : Byte) : Bool :=
  (48 ≤ c.val && c.val ≤ 57) || (97 ≤ c.val && c.val ≤ 102) || (65 ≤ c.val && c.val ≤ 70)

/-- The value of a hexadecimal digit. -/
def json.hexValue (c : Byte) : Nat :=
  if c.val ≤ 57 then c.val - 48 else if 97 ≤ c.val then c.val - 87 else c.val - 55

/-- The characters that may follow a backslash, `u` apart. -/
def json.isSimpleEscape (e : Byte) : Bool :=
  e.val = 0x62 || e.val = 0x66 || e.val = 0x6E || e.val = 0x72 || e.val = 0x74 ||
    e.val = 0x5C || e.val = 0x2F || e.val = 0x22

/-- The scanner inside a string literal, from the byte after the opening
quote: the text of the literal up to the closing quote, and what follows the
closing quote.  Control characters, an unknown escape, a `\u` not followed by
four hexadecimal digits and a missing closing quote are syntax errors. -/
def json.scanString : List Byte → Option (List Byte × List Byte)
  | [] => none
  | c :: rest =>
    if c.val = 0x22 then some ([], rest)
    else if c.val = 0x5C then
      match rest with
      | [] => none
      | e :: rest1 =>
        if json.isSimpleEscape e then
          (json.scanString rest1).map fun r => (c :: e :: r.1, r.2)
        else if e.val = 0x75 then
          match rest1 with
          | h1 :: h2 :: h3 :: h4 :: rest2 =>
            if json.isHex h1 ∧ json.isHex h2 ∧ json.isHex h3 ∧ json.isHex h4 then
              (json.scanString rest2).map fun r => (c :: e :: h1 :: h2 :: h3 :: h4 :: r.1, r.2)
            else none
          | _ => none
        else none
    else if c.val < 0x20 then none
    else (json.scanString rest).map fun r => (c :: r.1, r.2)

/-- Go `getu4`: the value of a `\uXXXX` escape at the head of the input. -/
def json.getu4 : List Byte → Option Nat
  | c :: e :: h1 :: h2 :: h3 :: h4 :: _ =>
    if c.val = 0x5C ∧ e.val = 0x75 ∧ json.isHex h1 ∧ json.isHex h2 ∧ json.isHex h3 ∧
        json.isHex h4 then
      some (((json.hexValue h1 * 16 + json.hexValue h2) * 16 + json.hexValue h3) * 16 +
        json.hexValue h4)
    else none
  | _ => none

/-- One iteration of the rewriting loop of Go `unquoteBytes`, on a non-empty
input: the bytes it appends to the result and the input left.  An escape is
replaced, a surrogate pair is combined and a lone surrogate becomes U+FFFD,
and every other rune is decoded and encoded again (which turns invalid UTF-8
into U+FFFD).  `none` is the failure of `unquoteBytes`. -/
def json.unquoteStep : List Byte → Option (List Byte × List Byte)
  | [] => none
  | c :: rest =>
    if c.val = 0x5C then
      match rest with
      | [] => none
      | e :: rest1 =>
        if e.val = 0x22 ∨ e.val = 0x5C ∨ e.val = 0x2F ∨ e.val = 0x27 then some ([e], rest1)
        else if e.val = 0x62 then some ([0x08], rest1)
        else if e.val = 0x66 then some ([0x0C], rest1)
        else if e.val = 0x6E then some ([0x0A], rest1)
        else if e.val = 0x72 then some ([0x0D], rest1)
        else if e.val = 0x74 then some ([0x09], rest1)
        else if e.val = 0x75 then
          match json.getu4 (c :: rest) with
          | none => none
          | some rr =>
            if 0xD800 ≤ rr ∧ rr < 0xE000 then
              match json.getu4 (rest1.drop 4) with
              | some rr1 =>
                if rr < 0xDC00 ∧ 0xDC00 ≤ rr1 ∧ rr1 < 0xE000 then
                  some (utf8.EncodeRune ((rr - 0xD800) * 1024 + (rr1 - 0xDC00) + 0x10000),
                    rest1.drop 10)
                else some (utf8.EncodeRune utf8.RuneError, rest1.drop 4)
              | none => some (utf8.EncodeRune utf8.RuneError, rest1.drop 4)
            else some (utf8.EncodeRune rr, rest1.drop 4)
        else none
    else if c.val = 0x22 ∨ c.val < 0x20 then none
    else if c.val < 0x80 then some ([c], rest)
    else
      some (utf8.EncodeRune (utf8.DecodeRune (c :: rest)).1,
        (c :: rest).drop (utf8.DecodeRune (c :: rest)).2)

/-- The rewriting loop of Go `unquoteBytes`, on the text between the quotes.
The first argument bounds the number of iterations. -/
def json.unquoteLoop : Nat → List Byte → Option (List Byte)
  | _, [] => some []
  | 0, _ :: _ => none
  | fuel + 1, c :: rest =>
    match json.unquoteStep (c :: rest) with
    | none => none
    | some (out, remaining) => (json.unquoteLoop fuel remaining).map fun t => out ++ t

/-- Go `unquoteBytes` on the text between the quotes of a string literal. -/
def json.unquote (literal : List Byte) : Option GoString :=
  json.unquoteLoop literal.length literal

/-- The letters that fold to an ASCII letter: an ASCII letter is taken to
upper case, the Kelvin sign U+212A to `K` and the long s U+017F to `S`;
other bytes are kept. -/
def json.foldName : List Byte → List Byte
  | [] => []
  | c :: rest =>
    let plain := c :: json.foldName rest
    if 0x61 ≤ c.val ∧ c.val ≤ 0x7A then Fin.ofNat (c.val - 32) :: json.foldName rest
    else if c.val = 0xE2 then
      match rest with
      | c1 :: c2 :: rest3 =>
        if c1.val = 0x84 ∧ c2.val = 0xAA then 0x4B :: json.foldName rest3 else plain
      | _ => plain
    else if c.val = 0xC5 then
      match rest with
      | c1 :: rest2 => if c1.val = 0xBF then 0x53 :: json.foldName rest2 else plain
      | _ => plain
    else plain

/-- The fields of `task.Data`. -/
inductive json.Field where
  | TaskARN
  | ContainerIP
  | PrivateKey
  deriving DecidableEq, Repr

/-- The field a member key designates: the field of that exact name, else
the first field whose name equals the key under case folding; `none` when
the key matches no field (the member is then ignored). -/
def json.fieldOf (key : GoString) : Option json.Field :=
  if key = str "TaskARN" then some .TaskARN
  else if key = str "ContainerIP" then some .ContainerIP
  else if key = str "PrivateKey" then some .PrivateKey
  else if json.foldName key = str "TASKARN" then some .TaskARN
  else if json.foldName key = str "CONTAINERIP" then some .ContainerIP
  else if json.foldName key = str "PRIVATEKEY" then some .PrivateKey
  else none

/-- The error the base64 decoder reports. -/
def base64.CorruptInputError : GoError := .errorString "illegal base64 data"

/-- Go `io.EOF`. -/
def io.EOF : GoError := .errorString "EOF"

/-- The error of a rejected document. -/
def json.errRejected : GoError := .errorString "json: document rejected"

/-- Go `literalStore` for a string literal: a string field receives the
string; the byte-slice field receives its base64 decoding, and an undecodable
text is recorded as the error to return (unless one was recorded before). -/
def json.storeString (target : task.Data) (saved : Option GoError) (field : Option json.Field)
    (s : GoString) : task.Data × Option GoError :=
  match field with
  | none => (target, saved)
  | some .TaskARN => ({ target with TaskARN := s }, saved)
  | some .ContainerIP => ({ target with ContainerIP := s }, saved)
  | some .PrivateKey =>
    match base64.decode s with
    | some b => ({ target with PrivateKey := some b }, saved)
    | none => (target, saved.orElse fun _ => some base64.CorruptInputError)

/-- Go `literalStore` for `null`: the byte slice becomes nil, a string is left as it is. -/
def json.storeNull (target : task.Data) (field : Option json.Field) : task.Data :=
  match field with
  | some .PrivateKey => { target with PrivateKey := none }
  | _ => target

/-- The members of an object, from the opening quote of a key to the closing
brace: the target after all the members were stored, and the recorded error.
`none` is a rejected document.  The first argument bounds the number of members. -/
def json.members : Nat → List Byte → task.Data → Option GoError →
    Option (task.Data × Option GoError)
  | 0, _, _, _ => none
  | fuel + 1, src, target, saved =>
    match src with
    | [] => none
    | q :: rest =>
      if q.val ≠ 0x22 then none
      else
        match json.scanString rest with
        | none => none
        | some (keyLiteral, rest1) =>
          match json.unquote keyLiteral with
          | none => none
          | some key =>
            match json.skipSpace rest1 with
            | [] => none
            | colon :: rest2 =>
              if colon.val ≠ 0x3A then none
              else
                let stored : Option ((task.Data × Option GoError) × List Byte) :=
                  match json.skipSpace rest2 with
                  | [] => none
                  | v :: rest3 =>
                    if v.val = 0x22 then
                      match json.scanString rest3 with
                      | none => none
                      | some (literal, rest4) =>
                        match json.unquote literal with
                        | none => none
                        | some s =>
                          some (json.storeString target saved (json.fieldOf key) s, rest4)
                    else if (v :: rest3).take 4 = str "null" then
                      some ((json.storeNull target (json.fieldOf key), saved), rest3.drop 3)
                    else none
                match stored with
                | none => none
                | some ((target1, saved1), rest5) =>
                  match json.skipSpace rest5 with
                  | [] => none
                  | sep :: rest6 =>
                    if sep.val = 0x2C then
                      json.members fuel (json.skipSpace rest6) target1 saved1
                    else if sep.val = 0x7D then some (target1, saved1)
                    else none

/-- Go `(*json).Decode` at the type `task.Data`: `json.NewDecoder(source).Decode`
reads the first JSON value of the source and stores it into the target; what
follows that value is not read.  An empty source gives `io.EOF`; a rejected
document leaves the target as it was. -/
def json.Decode (source : List Byte) (target : task.Data) : task.Data × Option GoError :=
  match json.skipSpace source with
  | [] => (target, some io.EOF)
  | brace :: rest =>
    if brace.val ≠ 0x7B then (target, some json.errRejected)
    else
      match json.skipSpace rest with
      | [] => (target, some json.errRejected)
      | first :: rest1 =>
        if first.val = 0x7D then (target, none)
        else
          match json.members source.length (first :: rest1) target none with
          | none => (target, some json.errRejected)
          | some (data, saved) => (data, saved)

/-- Go `encoding.NewJSON()`, at the type `task.Data`. -/
def encoding.NewJSON : encoding.Encoder where
  Encode := json.Encode
  Decode := json.Decode

/-! ## Reading traces -/

/-- The `(taskARN, cluster)` arguments of the StopTask calls of a trace, in order. -/
def stopCalls : List Event → List (GoString × GoString)
  | [] => []
  | Event.StopTask taskARN cluster _ :: rest => (taskARN, cluster) :: stopCalls rest
  | _ :: rest => stopCalls rest

/-- The records handed to Persist calls that returned no error, in order. -/
def persisted : List Event → List task.Data
  | [] => []
  | Event.Persist data none :: rest => data :: persisted rest
  | _ :: rest => persisted rest

/-- A step of Prepare that comes after the start of the task (Persist,
WaitUntilTaskRunning or GetContainerIP) appears in the trace as having failed
with `e`. -/
def laterStepFailed (e : GoError) (trace : List Event) : Prop :=
  (∃ data, Event.Persist data (some e) ∈ trace) ∨
  (∃ taskARN cluster, Event.WaitUntilTaskRunning taskARN cluster (some e) ∈ trace) ∨
  (∃ taskARN cluster usePublicIP containerIP,
    Event.GetContainerIP taskARN cluster usePublicIP containerIP (some e) ∈ trace)

/-! ## Shape of a Prepare run -/

/-- The logger of the Prepare command after `init`. -/
def prepareLogger (ctx : cli.Context) : logging.Logger :=
  ctx.logger.WithField "command" (str "prepare_exec")

/-- The task settings Prepare passes to RunTask for a given public key. -/
def prepareTaskSettings (ctx : cli.Context) (publicKey : GoBytes) : aws.TaskSettings :=
  { Cluster := ctx.config.Fargate.Cluster
    TaskDefinition := ctx.config.Fargate.TaskDefinition
    PlatformVersion := ctx.config.Fargate.PlatformVersion
    EnvironmentVariables := [(str "SSH_PUBLIC_KEY", publicKey.toGoString)] }

/-- The connection settings Prepare passes to RunTask. -/
def prepareConnection (ctx : cli.Context) : aws.ConnectionSettings :=
  { Subnet := ctx.config.Fargate.Subnet
    SecurityGroup := ctx.config.Fargate.SecurityGroup
    EnablePublicIP := ctx.config.Fargate.EnablePublicIP }

/-- Events of a Prepare run up to and including a successful key generation. -/
def prepareHead (ctx : cli.Context) (keyPair : ssh.KeyPair) : List Event :=
  [Event.newFargate ctx.config.Fargate.Region, Event.Init none,
   Event.newMetadataManager ctx.config.TaskMetadata.Directory, Event.newKeyFactory,
   Event.log "info" (prepareLogger ctx) "Executing the command",
   Event.Create defaultBitSize (some keyPair) none,
   Event.log "info" (prepareLogger ctx) "Starting new Fargate task"]

/-- Events left by `stopFargateTaskOnError` when StopTask answers `stopErr`. -/
def stopTrace (ctx : cli.Context) (taskARN : GoString) (err : GoError) (logMessage : String)
    (stopErr : Option GoError) : List Event :=
  if taskARN = [] then []
  else
    [Event.log "error" (((prepareLogger ctx).WithField "taskARN" taskARN).WithError err)
       logMessage,
     Event.StopTask taskARN ctx.config.Fargate.Cluster stopErr] ++
    match stopErr with
    | some e =>
      [Event.log "error" (((prepareLogger ctx).WithField "taskARN" taskARN).WithError e)
         "Error during stop task"]
    | none => []

/-- The first record Prepare persists. -/
def firstRecord (taskARN : GoString) (keyPair : ssh.KeyPair) : task.Data :=
  { TaskARN := taskARN, PrivateKey := keyPair.PrivateKey }

/-- The second record Prepare persists. -/
def secondRecord (taskARN containerIP : GoString) (keyPair : ssh.KeyPair) : task.Data :=
  { TaskARN := taskARN, ContainerIP := containerIP, PrivateKey := keyPair.PrivateKey }

/-- Events of a Prepare run from the successful RunTask to the first Persist call. -/
def prepareStarted (ctx : cli.Context) (keyPair : ssh.KeyPair) (taskARN : GoString)
    (persistErr : Option GoError) : List Event :=
  prepareHead ctx keyPair ++
  [Event.RunTask (prepareTaskSettings ctx keyPair.PublicKey) (prepareConnection ctx) taskARN none,
   Event.log "info" ((prepareLogger ctx).WithField "taskARN" taskARN)
     "Persisting data that will be used by other commands",
   Event.Persist (firstRecord taskARN keyPair) persistErr]

/-- Events of a Prepare run from the first successful Persist to the
WaitUntilTaskRunning call. -/
def prepareWaited (ctx : cli.Context) (keyPair : ssh.KeyPair) (taskARN : GoString)
    (waitErr : Option GoError) : List Event :=
  prepareStarted ctx keyPair taskARN none ++
  [Event.log "info" ((prepareLogger ctx).WithField "taskARN" taskARN)
     "Waiting Fargate task to be ready",
   Event.WaitUntilTaskRunning taskARN ctx.config.Fargate.Cluster waitErr]

/-- Every run of Prepare has one of these nine shapes: the outcome and the
trace, given the answers of the collaborators. -/
inductive PrepareRun (ctx : cli.Context) : Outcome → List Event → Prop where
  | initFailed (e : GoError) :
    PrepareRun ctx
      (.returned (some (fmt.Errorf "initializing PrepareCommand: %w" []
        (fmt.Errorf "initializing Fargate adapter: %w" [] e))))
      [Event.newFargate ctx.config.Fargate.Region, Event.Init (some e)]
  | createFailed (keyPair : Option ssh.KeyPair) (e : GoError) :
    PrepareRun ctx
      (.returned (some (fmt.Errorf "generating public/private keys: %w" [] e)))
      [Event.newFargate ctx.config.Fargate.Region, Event.Init none,
       Event.newMetadataManager ctx.config.TaskMetadata.Directory, Event.newKeyFactory,
       Event.log "info" (prepareLogger ctx) "Executing the command",
       Event.Create defaultBitSize keyPair (some e)]
  | createNil :
    PrepareRun ctx .panicked
      [Event.newFargate ctx.config.Fargate.Region, Event.Init none,
       Event.newMetadataManager ctx.config.TaskMetadata.Directory, Event.newKeyFactory,
       Event.log "info" (prepareLogger ctx) "Executing the command",
       Event.Create defaultBitSize none none]
  | runTaskFailed (keyPair : ssh.KeyPair) (taskARN : GoString) (e : GoError)
      (stopErr : Option GoError) :
    PrepareRun ctx
      (.returned (some (fmt.Errorf "starting new Fargate task: %w" []
        (fmt.Errorf "running new task on Fargate: %w" [] e))))
      (prepareHead ctx keyPair ++
       [Event.RunTask (prepareTaskSettings ctx keyPair.PublicKey) (prepareConnection ctx)
          taskARN (some e)] ++
       stopTrace ctx taskARN (fmt.Errorf "running new task on Fargate: %w" [] e)
         "Error when starting a new Fargate task. Will stop the task for cleanup" stopErr)
  | persistARNFailed (keyPair : ssh.KeyPair) (taskARN : GoString) (e : GoError)
      (stopErr : Option GoError) :
    PrepareRun ctx
      (.returned (some (fmt.Errorf "persisting task ARN for later stages: %w" []
        (fmt.Errorf "persisting metadata: %w" [] e))))
      (prepareStarted ctx keyPair taskARN (some e) ++
       stopTrace ctx taskARN (fmt.Errorf "persisting metadata: %w" [] e)
         "Error when persisting the task ARN. Will stop the task for cleanup" stopErr)
  | waitFailed (keyPair : ssh.KeyPair) (taskARN : GoString) (e : GoError)
      (stopErr : Option GoError) :
    PrepareRun ctx
      (.returned (some (fmt.Errorf "waiting Fargate task to be ready: %w" []
        (fmt.Errorf "waiting for Fargate task to be in running state: %w" [] e))))
      (prepareWaited ctx keyPair taskARN (some e) ++
       stopTrace ctx taskARN
         (fmt.Errorf "waiting for Fargate task to be in running state: %w" [] e)
         "Error when waiting for task initialization. Will stop the task for cleanup" stopErr)
  | getContainerIPFailed (keyPair : ssh.KeyPair) (taskARN containerIP : GoString) (e : GoError)
      (stopErr : Option GoError) :
    PrepareRun ctx
      (.returned (some (fmt.Errorf "waiting Fargate task to be ready: %w" []
        (fmt.Errorf "fetching the container IP: %w" [] e))))
      (prepareWaited ctx keyPair taskARN none ++
       [Event.GetContainerIP taskARN ctx.config.Fargate.Cluster ctx.config.Fargate.EnablePublicIP
          containerIP (some e)] ++
       stopTrace ctx taskARN (fmt.Errorf "fetching the container IP: %w" [] e)
         "Error when waiting for task initialization. Will stop the task for cleanup" stopErr)
  | persistIPFailed (keyPair : ssh.KeyPair) (taskARN containerIP : GoString) (e : GoError)
      (stopErr : Option GoError) :
    PrepareRun ctx
      (.returned (some (fmt.Errorf "persisting container IP for later stages: %w" []
        (fmt.Errorf "persisting metadata: %w" [] e))))
      (prepareWaited ctx keyPair taskARN none ++
       [Event.GetContainerIP taskARN ctx.config.Fargate.Cluster ctx.config.Fargate.EnablePublicIP
          containerIP none,
        Event.log "info" ((prepareLogger ctx).WithField "taskARN" taskARN)
          "Persisting data that will be used by other commands",
        Event.Persist (secondRecord taskARN containerIP keyPair) (some e)] ++
       stopTrace ctx taskARN (fmt.Errorf "persisting metadata: %w" [] e)
         "Error persisting container IP. Will stop the task for cleanup" stopErr)
  | success (keyPair : ssh.KeyPair) (taskARN containerIP : GoString) :
    PrepareRun ctx (.returned none)
      (prepareWaited ctx keyPair taskARN none ++
       [Event.GetContainerIP taskARN ctx.config.Fargate.Cluster ctx.config.Fargate.EnablePublicIP
          containerIP none,
        Event.log "info" ((prepareLogger ctx).WithField "taskARN" taskARN)
          "Persisting data that will be used by other commands",
        Event.Persist (secondRecord taskARN containerIP keyPair) none])

/-! ## Sample collaborators used to instantiate the theorems -/

/-- A key pair like the one of the unit tests. -/
def sampleKeyPair : ssh.KeyPair :=
  { PublicKey := some (str "Public key"), PrivateKey := some (str "Private key") }

/-- A stateless Fargate adapter answering with fixed values. -/
def sampleFargate (taskARN containerIP : GoString)
    (initErr runErr waitErr ipErr stopErr : Option GoError) : aws.Fargate Nat where
  RunTask := fun _ _ s => ((taskARN, runErr), s)
  WaitUntilTaskRunning := fun _ _ s => (waitErr, s)
  StopTask := fun _ _ s => (stopErr, s)
  GetContainerIP := fun _ _ _ s => ((containerIP, ipErr), s)
  Init := fun s => (initErr, s)

/-- A metadata manager whose state counts the Persist calls made so far; the
n-th Persist call answers with the n-th element of `persistErrs` (nil beyond). -/
def sampleManager (record : task.Data) (persistErrs : List (Option GoError))
    (getErr clearErr : Option GoError) : task.MetadataManager Nat where
  Persist := fun _ s => (persistErrs.getD s none, s + 1)
  Get := fun s => ((record, getErr), s)
  Clear := fun s => (clearErr, s)

/-- A key factory answering with a fixed key pair. -/
def sampleKeys (keyPair : Option ssh.KeyPair) (err : Option GoError) : ssh.KeyFactory Nat where
  Create := fun _ s => ((keyPair, err), s)

/-- The error used by the unit tests. -/
def testError : GoError := .errorString "simulated error"

/-- The second error used by the unit tests. -/
def testErrorStopTask : GoError := .errorString "simulated error 2"

/-- The command-line context of the Prepare unit tests. -/
def testContext : cli.Context :=
  { config :=
      { Fargate :=
          { Cluster := str "cluster", Region := str "region", Subnet := str "subnet",
            SecurityGroup := str "security-group", TaskDefinition := str "task-definition",
            EnablePublicIP := true }
        TaskMetadata := { Directory := str "directory" } } }

/-- A Prepare run over the sample collaborators, started on an empty trace. -/
def samplePrepare (taskARN containerIP : GoString) (runErr waitErr ipErr stopErr : Option GoError)
    (persistErrs : List (Option GoError)) : Outcome × World Nat :=
  runPrepare (sampleFargate taskARN containerIP none runErr waitErr ipErr stopErr)
    (sampleManager {} persistErrs none none) (sampleKeys (some sampleKeyPair) none) testContext 0

/-! ## Shape of a Cleanup run -/

/-- The logger of the Cleanup command after `init`. -/
def cleanupLogger (ctx : cli.Context) : logging.Logger :=
  ctx.logger.WithField "command" (str "cleanup_exec")

/-- Events of a Cleanup run up to and including the Get call. -/
def cleanupHead (ctx : cli.Context) (taskData : task.Data) (getErr : Option GoError) :
    List Event :=
  [Event.newFargate ctx.config.Fargate.Region, Event.Init none,
   Event.newMetadataManager ctx.config.TaskMetadata.Directory,
   Event.log "info" (cleanupLogger ctx) "Executing the command",
   Event.log "info" (cleanupLogger ctx) "Fetching task data from metadata storage",
   Event.Get taskData getErr]

/-- Events of a Cleanup run from the successful Get to the StopTask call. -/
def cleanupStopped (ctx : cli.Context) (taskData : task.Data) (stopErr : Option GoError) :
    List Event :=
  cleanupHead ctx taskData none ++
  [Event.log "info" ((cleanupLogger ctx).WithField "taskARN" taskData.TaskARN)
     "Stopping Fargate task",
   Event.StopTask taskData.TaskARN ctx.config.Fargate.Cluster stopErr]

/-- Events of a Cleanup run from the successful StopTask to the Clear call. -/
def cleanupCleared (ctx : cli.Context) (taskData : task.Data) (clearErr : Option GoError) :
    List Event :=
  cleanupStopped ctx taskData none ++
  [Event.log "info" ((cleanupLogger ctx).WithField "taskARN" taskData.TaskARN)
     "Clear metadata related to the stopped Fargate Task",
   Event.Clear clearErr]

/-- Every run of Cleanup over collaborators that cannot touch the trace has
one of these five shapes. -/
inductive CleanupRun (ctx : cli.Context) : Option GoError → List Event → Prop where
  | initFailed (e : GoError) :
    CleanupRun ctx
      (some (fmt.Errorf "initializing CleanupCommand: %w" []
        (fmt.Errorf "initializing Fargate adapter: %w" [] e)))
      [Event.newFargate ctx.config.Fargate.Region, Event.Init (some e)]
  | getFailed (taskData : task.Data) (e : GoError) :
    CleanupRun ctx
      (some (fmt.Errorf "obtaining information about the running task: %w" [] e))
      (cleanupHead ctx taskData (some e))
  | stopFailed (taskData : task.Data) (e : GoError) :
    CleanupRun ctx
      (some (fmt.Errorf "stopping Fargate Task %q: %w" [taskData.TaskARN] e))
      (cleanupStopped ctx taskData (some e))
  | clearFailed (taskData : task.Data) (e : GoError) :
    CleanupRun ctx
      (some (fmt.Errorf "deleting metadata related to the stopped Fargate Task %q: %w"
        [taskData.TaskARN] e))
      (cleanupCleared ctx taskData (some e))
  | success (taskData : task.Data) :
    CleanupRun ctx none (cleanupCleared ctx taskData none)

/-- A Cleanup run over the sample collaborators, started on an empty trace. -/
def sampleCleanup (record : task.Data) (initErr getErr stopErr clearErr : Option GoError) :
    Option GoError × World Nat :=
  runCleanup (sampleFargate [] [] initErr none none none stopErr)
    (sampleManager record [] getErr clearErr) testContext 0

/-- The record of the Cleanup unit tests. -/
def testTaskData : task.Data := { TaskARN := str "task-arn" }

/-- An encoder that writes a fixed byte and decodes every file to the record
of the Cleanup unit tests. -/
def sampleEncoder : encoding.Encoder where
  Encode := fun _ => (str "x", none)
  Decode := fun _ _ => ({ TaskARN := str "task-arn" }, none)

/-- The path of the record for the runner adapter `{}` and the directory of
the test context. -/
def samplePath : GoString :=
  (fileManager Nat sampleEncoder {} (cleanupLogger testContext)
    testContext.config.TaskMetadata.Directory).getFullFilePath

/-! ## Persisting and loading a record -/

/-- `Persist(data)` followed by `Get` on the same metadata manager, from the
world `w`: the error of Persist, and the record and error of Get. -/
def persistThenGet {σ : Type} (f : fsMetadataManager σ) (data : task.Data) (w : World σ) :
    Option GoError × task.Data × Option GoError :=
  match f.Persist data w with
  | (persistErr, w1) => (persistErr, (f.Get w1).1)

/-- The record of `TestPersist`. -/
def testData : task.Data :=
  { TaskARN := str "task-arn", ContainerIP := str "192.168.0.1", PrivateKey := some (str "Testing") }

/-- A record whose task handle is the single byte `0xFF`, which is not valid UTF-8. -/
def invalidHandleData : task.Data := { TaskARN := [0xFF] }

/-! ## The AWS adapter (`aws/fargate.go`) -/

/-- What a call with results of type `α` does: it returns them, or it panics
(an index out of range or a nil dereference). -/
inductive Completion (α : Type) where
  | returned (value : α)
  | panicked
  deriving DecidableEq, Repr

/-- Go `defaultContainerName`. -/
def aws.defaultContainerName : GoString := str "ci-coordinator"

/-- Go `aws.ErrNotInitialized`. -/
def aws.ErrNotInitialized : GoError := .errorString "fargate adapter is not initialized"

/-- Go interface `ecsClient`; the output of `StopTaskWithContext`, which the
adapter discards, is left out. -/
structure aws.ecsClient (S : Type) where
  RunTaskWithContext : ecs.RunTaskInput → Op S (Option ecs.RunTaskOutput × Option GoError)
  WaitUntilTasksRunningWithContext : ecs.DescribeTasksInput → Op S (Option GoError)
  StopTaskWithContext : ecs.StopTaskInput → Op S (Option GoError)
  DescribeTasksWithContext :
    ecs.DescribeTasksInput → Op S (Option ecs.DescribeTasksOutput × Option GoError)

/-- Go interface `ec2Client`. -/
structure aws.ec2Client (S : Type) where
  DescribeNetworkInterfacesWithContext : ec2.DescribeNetworkInterfacesInput →
    Op S (Option ec2.DescribeNetworkInterfacesOutput × Option GoError)

/-- Go `awsFargate`.  The two clients are `none` while the interface fields
are nil.  `sessionCreator` returns the error of the session creation; `ecsNew`
and `ec2New` are what `ecs.New` and `ec2.New` make of the session created. -/
structure aws.awsFargate (σ : Type) where
  logger : logging.Logger := {}
  awsRegion : GoString := []
  ecsSvc : Option (aws.ecsClient σ) := none
  ec2Svc : Option (aws.ec2Client σ) := none
  sessionCreator : GoString → Op σ (Option GoError)
  ecsNew : aws.ecsClient σ
  ec2New : aws.ec2Client σ

/-- Go `aws.NewFargate`: both clients are unset. -/
def aws.NewFargate {σ : Type} (sessionCreator : GoString → Op σ (Option GoError))
    (ecsNew : aws.ecsClient σ) (ec2New : aws.ec2Client σ) (logger : logging.Logger)
    (awsRegion : GoString) : aws.awsFargate σ :=
  { logger := logger, awsRegion := awsRegion, sessionCreator := sessionCreator,
    ecsNew := ecsNew, ec2New := ec2New }

/-- Go `(*awsFargate).Init`: the error and the adapter after the call. -/
def aws.awsFargate.Init {σ : Type} (a : aws.awsFargate σ) :
    Op (World σ) (Option GoError × aws.awsFargate σ) := fun w =>
  match traced (inWorld (a.sessionCreator a.awsRegion)) (Event.sessionCreator a.awsRegion) w with
  | (some err, w) => ((some (fmt.Errorf "couldn't create AWS session: %w" [] err), a), w)
  | (none, w) => ((none, { a with ecsSvc := some a.ecsNew, ec2Svc := some a.ec2New }), w)

/-- Go `(*awsFargate).errIfNotInitialized`. -/
def aws.awsFargate.errIfNotInitialized {σ : Type} (a : aws.awsFargate σ) : Option GoError :=
  if a.ecsSvc.isSome ∧ a.ec2Svc.isSome then none else some aws.ErrNotInitialized

/-- Go `(*awsFargate).processEnvVariablesToInject`; the map is an association
list, ranged over in list order (Go leaves the order open).  Every entry
holds the addresses of the two loop variables, which in the Go releases
before 1.22 are the same for all iterations: once the loop has ended all the
entries show the key and the value of the last iteration. -/
def aws.awsFargate.processEnvVariablesToInject {σ : Type} (a : aws.awsFargate σ)
    (envVars : List (GoString × GoString)) : Op (World σ) (Option ecs.TaskOverride) := fun w =>
  match envVars.getLast? with
  | none => (none, w)
  | some last =>
    let environmentVars : List (Option ecs.KeyValuePair) :=
      envVars.map fun _ => some { Name := some last.1, Value := some last.2 }
    let taskOverride : ecs.TaskOverride :=
      { ContainerOverrides :=
          [some { Name := some aws.defaultContainerName, Environment := environmentVars }] }
    let w := a.logger.emit "debug"
      "[processEnvVariablesToInject] Environment variables processed with success" w
    (some taskOverride, w)

/-- Go `(*awsFargate).RunTask`.  The dereference `*taskOutput.Tasks[0].TaskArn`
panics when the output, its first task or that task's ARN is missing. -/
def aws.awsFargate.RunTask {σ : Type} (a : aws.awsFargate σ) (taskSettings : aws.TaskSettings)
    (connection : aws.ConnectionSettings) :
    Op (World σ) (Completion (GoString × Option GoError)) := fun w =>
  match a.errIfNotInitialized with
  | some err =>
    (.returned ([], some (fmt.Errorf "could not start AWS Fargate Task: %w" [] err)), w)
  | none =>
    let w := a.logger.emit "debug" "[RunTask] Will start a new Fargate Task" w
    let publicIP := if connection.EnablePublicIP then str "ENABLED" else str "DISABLED"
    let platformVersion : Option GoString :=
      if taskSettings.PlatformVersion ≠ [] then some taskSettings.PlatformVersion else none
    match a.processEnvVariablesToInject taskSettings.EnvironmentVariables w with
    | (overrides, w) =>
      let taskInput : ecs.RunTaskInput :=
        { TaskDefinition := some taskSettings.TaskDefinition
          Cluster := some taskSettings.Cluster
          NetworkConfiguration := some
            { AwsvpcConfiguration := some
                { SecurityGroups := [some connection.SecurityGroup]
                  Subnets := [some connection.Subnet]
                  AssignPublicIp := some publicIP } }
          Overrides := overrides
          PlatformVersion := platformVersion }
      match a.ecsSvc with
      | none => (.panicked, w)
      | some ecsSvc =>
        match traced (inWorld (ecsSvc.RunTaskWithContext taskInput))
            (fun r => Event.RunTaskWithContext taskInput r.1 r.2) w with
        | ((_, some err), w) =>
          (.returned ([], some (fmt.Errorf "error starting AWS Fargate Task: %w" [] err)), w)
        | ((taskOutput, none), w) =>
          match (taskOutput.bind fun output => output.Tasks.head?.join).bind fun t => t.TaskArn with
          | none => (.panicked, w)
          | some taskARN =>
            let w := (a.logger.WithField "task-arn" taskARN).emit "debug"
              "[RunTask] Fargate Task started with success" w
            (.returned (taskARN, none), w)

/-- Go `(*awsFargate).WaitUntilTaskRunning`. -/
def aws.awsFargate.WaitUntilTaskRunning {σ : Type} (a : aws.awsFargate σ)
    (taskARN cluster : GoString) : Op (World σ) (Completion (Option GoError)) := fun w =>
  match a.errIfNotInitialized with
  | some err => (.returned (some (fmt.Errorf "could not wait AWS Fargate task: %w" [] err)), w)
  | none =>
    let w := (a.logger.WithField "task-arn" taskARN).emit "debug"
      "[WaitUntilTaskRunning] Will wait until Fargate task is in \"Running\" state" w
    let input : ecs.DescribeTasksInput := { Cluster := some cluster, Tasks := [some taskARN] }
    match a.ecsSvc with
    | none => (.panicked, w)
    | some ecsSvc =>
      match traced (inWorld (ecsSvc.WaitUntilTasksRunningWithContext input))
          (Event.WaitUntilTasksRunningWithContext input) w with
      | (some err, w) =>
        (.returned (some (fmt.Errorf
          "error waiting AWS Fargate Task %q to be in \"Running\" state: %w" [taskARN] err)), w)
      | (none, w) =>
        let w := (a.logger.WithField "task-arn" taskARN).emit "debug"
          "[WaitUntilTaskRunning] Fargate Task in \"Running\" state" w
        (.returned none, w)

/-- Go `(*awsFargate).StopTask`. -/
def aws.awsFargate.StopTask {σ : Type} (a : aws.awsFargate σ) (taskARN cluster : GoString) :
    Op (World σ) (Completion (Option GoError)) := fun w =>
  match a.errIfNotInitialized with
  | some err => (.returned (some (fmt.Errorf "could not stop AWS Fargate Task: %w" [] err)), w)
  | none =>
    let w := (a.logger.WithField "task-arn" taskARN).emit "debug" "[StopTask] Will stop the task" w
    let input : ecs.StopTaskInput := { Cluster := some cluster, Task := some taskARN }
    match a.ecsSvc with
    | none => (.panicked, w)
    | some ecsSvc =>
      match traced (inWorld (ecsSvc.StopTaskWithContext input))
          (Event.StopTaskWithContext input) w with
      | (some err, w) =>
        (.returned (some (fmt.Errorf "error stopping AWS Fargate Task %q: %w" [taskARN] err)), w)
      | (none, w) =>
        let w := (a.logger.WithField "task-arn" taskARN).emit "debug"
          "[StopTask] Fargate Task stopped with success" w
        (.returned none, w)

/-- Go `(*awsFargate).getTaskDetails`. -/
def aws.awsFargate.getTaskDetails {σ : Type} (a : aws.awsFargate σ) (taskARN cluster : GoString) :
    Op (World σ) (Completion (Option ecs.DescribeTasksOutput × Option GoError)) := fun w =>
  let input : ecs.DescribeTasksInput := { Cluster := some cluster, Tasks := [some taskARN] }
  match a.ecsSvc with
  | none => (.panicked, w)
  | some ecsSvc =>
    match traced (inWorld (ecsSvc.DescribeTasksWithContext input))
        (fun r => Event.DescribeTasksWithContext input r.1 r.2) w with
    | ((_, some err), w) =>
      (.returned (none, some (fmt.Errorf "error during call to describe fargate task: %w" [] err)),
        w)
    | ((dt, none), w) =>
      let w := a.logger.emit "debug" "[getTaskDetails] Finished fetching the task details" w
      (.returned (dt, none), w)

/-- The value of `*descOut.Tasks[0].Containers[0].NetworkInterfaces[0].PrivateIpv4Address`;
`none` when an index is out of range or a pointer on the way is nil. -/
def aws.privateIPOf (descOut : Option ecs.DescribeTasksOutput) : Option GoString := do
  let output ← descOut
  let task ← output.Tasks.head?.join
  let container ← task.Containers.head?.join
  let networkInterface ← container.NetworkInterfaces.head?.join
  networkInterface.PrivateIpv4Address

/-- Go `(*awsFargate).extractPrivateIP`. -/
def aws.awsFargate.extractPrivateIP {σ : Type} (a : aws.awsFargate σ)
    (descOut : Option ecs.DescribeTasksOutput) : Op (World σ) (Completion GoString) := fun w =>
  match aws.privateIPOf descOut with
  | none => (.panicked, w)
  | some privateIP =>
    let w := (a.logger.WithField "private-ip" privateIP).emit "debug"
      "[extractPrivateIP] Finished extracting the private IP" w
    (.returned privateIP, w)

/-- The loop of `extractNetworkInterfaceID` over the details: the value of the
first detail whose name is `networkInterfaceId`, `""` when the loop ends
without one; `none` when a dereference on the way panics. -/
def aws.scanDetails : List (Option ecs.KeyValuePair) → Option GoString
  | [] => some []
  | none :: _ => none
  | some detail :: rest =>
    match detail.Name with
    | none => none
    | some name =>
      if name = str "networkInterfaceId" then detail.Value else aws.scanDetails rest

/-- The details the loop ranges over, `descOut.Tasks[0].Attachments[0].Details`;
`none` when an index is out of range or a pointer on the way is nil. -/
def aws.detailsOf (descOut : Option ecs.DescribeTasksOutput) :
    Option (List (Option ecs.KeyValuePair)) := do
  let output ← descOut
  let task ← output.Tasks.head?.join
  let attachment ← task.Attachments.head?.join
  pure attachment.Details

/-- Go `(*awsFargate).extractNetworkInterfaceID`. -/
def aws.awsFargate.extractNetworkInterfaceID {σ : Type} (a : aws.awsFargate σ)
    (descOut : Option ecs.DescribeTasksOutput) : Op (World σ) (Completion GoString) := fun w =>
  match (aws.detailsOf descOut).bind aws.scanDetails with
  | none => (.panicked, w)
  | some networkInterfaceID =>
    let w := (a.logger.WithField "network-interface-id" networkInterfaceID).emit "debug"
      "[extractNetworkInterfaceID] Finished extracting the network interface ID" w
    (.returned networkInterfaceID, w)

/-- The value of `*dni.NetworkInterfaces[0].Association.PublicIp`; `none` when
the index is out of range or a pointer on the way is nil. -/
def aws.publicIPOf (dni : Option ec2.DescribeNetworkInterfacesOutput) : Option GoString := do
  let output ← dni
  let networkInterface ← output.NetworkInterfaces.head?.join
  let association ← networkInterface.Association
  association.PublicIp

/-- Go `(*awsFargate).getPublicIP`. -/
def aws.awsFargate.getPublicIP {σ : Type} (a : aws.awsFargate σ) (networkInterfaceID : GoString) :
    Op (World σ) (Completion (GoString × Option GoError)) := fun w =>
  let input : ec2.DescribeNetworkInterfacesInput :=
    { NetworkInterfaceIds := [some networkInterfaceID] }
  match a.ec2Svc with
  | none => (.panicked, w)
  | some ec2Svc =>
    match traced (inWorld (ec2Svc.DescribeNetworkInterfacesWithContext input))
        (fun r => Event.DescribeNetworkInterfacesWithContext input r.1 r.2) w with
    | ((_, some err), w) =>
      (.returned ([], some (fmt.Errorf "error reading network interfaces: %w" [] err)), w)
    | ((dni, none), w) =>
      match aws.publicIPOf dni with
      | none => (.panicked, w)
      | some publicIP =>
        let w := (a.logger.WithField "public-ip" publicIP).emit "debug"
          "[getPublicIP] Finished fetching the public IP" w
        (.returned (publicIP, none), w)

/-- Go `(*awsFargate).GetContainerIP`. -/
def aws.awsFargate.GetContainerIP {σ : Type} (a : aws.awsFargate σ) (taskARN cluster : GoString)
    (usePublicIP : Bool) : Op (World σ) (Completion (GoString × Option GoError)) := fun w =>
  match a.errIfNotInitialized with
  | some err => (.returned ([], some (fmt.Errorf "could not get container IP: %w" [] err)), w)
  | none =>
    let w := (a.logger.WithField "task-arn" taskARN).emit "debug"
      "[GetContainerIP] Will get the IP for the task" w
    match a.getTaskDetails taskARN cluster w with
    | (.panicked, w) => (.panicked, w)
    | (.returned (_, some err), w) =>
      (.returned ([], some (fmt.Errorf "error accessing information about the task %q: %w"
        [taskARN] err)), w)
    | (.returned (taskDetails, none), w) =>
      if ¬ usePublicIP then
        match a.extractPrivateIP taskDetails w with
        | (.panicked, w) => (.panicked, w)
        | (.returned privateIP, w) => (.returned (privateIP, none), w)
      else
        match a.extractNetworkInterfaceID taskDetails w with
        | (.panicked, w) => (.panicked, w)
        | (.returned networkInterfaceID, w) =>
          match a.getPublicIP networkInterfaceID w with
          | (.panicked, w) => (.panicked, w)
          | (.returned (_, some err), w) =>
            (.returned ([], some (fmt.Errorf "error trying to get the public IP: %w" [] err)), w)
          | (.returned (publicIP, none), w) =>
            let w := a.logger.emit "debug" "[GetContainerIP] Ip fetched with success" w
            (.returned (publicIP, none), w)

/-- The ECS calls in a trace, oldest first. -/
def ecsCalls (trace : List Event) : List Event :=
  trace.filter fun e =>
    match e with
    | .RunTaskWithContext _ _ _ => true
    | .WaitUntilTasksRunningWithContext _ _ => true
    | .StopTaskWithContext _ _ => true
    | .DescribeTasksWithContext _ _ _ => true
    | _ => false

/-- The inputs of the EC2 calls in a trace, oldest first. -/
def ec2Calls (trace : List Event) : List ec2.DescribeNetworkInterfacesInput :=
  trace.filterMap fun e =>
    match e with
    | .DescribeNetworkInterfacesWithContext input _ _ => some input
    | _ => none

/-- The network-interface identifier as the specification describes it, on
details that are all present with a name and a value: the value of the first
detail named `networkInterfaceId`, the empty string if no detail has that name. -/
def spec.networkInterfaceID (details : List (GoString × GoString)) : GoString :=
  match details.find? fun d => d.1 = str "networkInterfaceId" with
  | some d => d.2
  | none => []

/-! ## The SSH executor (`executors/ssh/executor.go`) -/

/-- Go `ssh.ErrNotConnected`. -/
def ssh.ErrNotConnected : GoError := .errorString "not connected to server"

/-- What the executor reaches outside itself: the function field
`connectClient`, and the methods of the clients and sessions it hands out
(Go interfaces `client.Client` and `session.Session`), each taking the value
it is called on. -/
structure ssh.Transport (S : Type) where
  connectClient :
    GoString → GoString → ssh.ClientConfig → Op S (Option client.Client × Option GoError)
  NewSession :
    client.Client → io.Writer → io.Writer → Op S (Option session.Session × Option GoError)
  Disconnect : client.Client → Op S (Option GoError)
  ExecuteScript : session.Session → GoString → Op S (Option GoError)
  Close : session.Session → Op S Unit

/-- Go `executor`.  `ParsePrivateKey` is the function of that name of
`golang.org/x/crypto/ssh`: the signer and the error it returns for a key. -/
structure ssh.executor (σ : Type) where
  client : Option client.Client := none
  logger : logging.Logger := {}
  transport : ssh.Transport σ
  ParsePrivateKey : GoBytes → Option ssh.Signer × Option GoError
  stdout : io.Writer := os.Stdout
  stderr : io.Writer := os.Stderr

/-- Go `ssh.NewExecutor`, with the connect function and the key parser it is
linked with. -/
def ssh.NewExecutor {σ : Type} (transport : ssh.Transport σ)
    (ParsePrivateKey : GoBytes → Option ssh.Signer × Option GoError) (logger : logging.Logger) :
    ssh.executor σ :=
  { logger := logger, transport := transport, ParsePrivateKey := ParsePrivateKey,
    stdout := os.Stdout, stderr := os.Stderr }

/-- Go `(*executor).connect`: the error and the executor after the call. -/
def ssh.executor.connect {σ : Type} (s : ssh.executor σ)
    (connection : executors.ConnectionSettings) :
    Op (World σ) (Option GoError × ssh.executor σ) := fun w =>
  let w := s.logger.emit "debug" "[connect] Will connect to server via SSH" w
  match s.ParsePrivateKey connection.PrivateKey with
  | (_, some err) => ((some (GoError.invalidPrivateKey err), s), w)
  | (signer, none) =>
    let config : ssh.ClientConfig :=
      { User := connection.Username, Auth := [signer], InsecureIgnoreHostKey := true }
    let addr := connection.Hostname ++ str ":" ++ formatInt connection.Port
    match traced (inWorld (s.transport.connectClient (str "tcp") addr config))
        (fun r => Event.connectClient (str "tcp") addr config r.1 r.2) w with
    | ((_, some err), w) =>
      ((some (fmt.Errorf "connecting to server %q as user %q: %w"
        [addr, connection.Username] err), s), w)
    | ((cli, none), w) =>
      let s := { s with client := cli }
      let w := s.logger.emit "debug" "[connect] Successfully connected to server" w
      ((none, s), w)

/-- Go `(*executor).disconnect`: the error and the executor after the call. -/
def ssh.executor.disconnect {σ : Type} (s : ssh.executor σ) :
    Op (World σ) (Option GoError × ssh.executor σ) := fun w =>
  let w := s.logger.emit "debug" "[disconnect] Will disconnect from server" w
  match s.client with
  | none => ((none, s), w)
  | some cli =>
    match traced (inWorld (s.transport.Disconnect cli)) (Event.Disconnect cli) w with
    | (some err, w) => ((some (fmt.Errorf "disconnecting from server: %w" [] err), s), w)
    | (none, w) =>
      let s := { s with client := none }
      let w := s.logger.emit "debug" "[disconnect] Successfully disconnected from server" w
      ((none, s), w)

/-- Go `(*executor).executeScript`.  A nil session returned without an error
makes `defer session.Close()` panic.  The deferred `Close` runs when the
function returns, after `ExecuteScript`. -/
def ssh.executor.executeScript {σ : Type} (s : ssh.executor σ) (script : GoBytes)
    (stdout stderr : io.Writer) : Op (World σ) Outcome := fun w =>
  let w := s.logger.emit "debug" "[executeScript] Will execute a remote script" w
  match s.client with
  | none => (.returned (some ssh.ErrNotConnected), w)
  | some cli =>
    match traced (inWorld (s.transport.NewSession cli stdout stderr))
        (fun r => Event.NewSession cli stdout stderr r.1 r.2) w with
    | ((_, some err), w) =>
      (.returned (some (fmt.Errorf "creating session for ssh client: %w" [] err)), w)
    | ((none, none), w) => (.panicked, w)
    | ((some session, none), w) =>
      match traced (inWorld (s.transport.ExecuteScript session script.toGoString))
          (Event.ExecuteScript session script.toGoString) w with
      | (some err, w) =>
        let w := (traced (inWorld (s.transport.Close session)) (fun _ => Event.Close session) w).2
        (.returned (some (fmt.Errorf "executing remote script: %w" [] err)), w)
      | (none, w) =>
        let w := s.logger.emit "debug" "[executeScript] Command executed" w
        let w := (traced (inWorld (s.transport.Close session)) (fun _ => Event.Close session) w).2
        (.returned none, w)

/-- Go `(*executor).Execute`: the outcome and the executor after the call.
The deferred function is registered once `connect` has succeeded; it runs
`disconnect` when `Execute` returns or panics, and replaces a nil result by
the error of `disconnect`. -/
def ssh.executor.Execute {σ : Type} (s : ssh.executor σ)
    (connection : executors.ConnectionSettings) (script : GoBytes) :
    Op (World σ) (Outcome × ssh.executor σ) := fun w =>
  let w := s.logger.emit "debug"
    "[Execute] Will connect to server and execute the specified shell script" w
  match s.connect connection w with
  | ((some err, s), w) => ((.returned (some (fmt.Errorf "connecting to server: %w" [] err)), s), w)
  | ((none, s), w) =>
    match s.executeScript script s.stdout s.stderr w with
    | (.panicked, w) =>
      match s.disconnect w with
      | ((_, s), w) => ((.panicked, s), w)
    | (.returned (some err), w) =>
      match s.disconnect w with
      | ((_, s), w) => ((.returned (some (fmt.Errorf "executing script: %w" [] err)), s), w)
    | (.returned none, w) =>
      let w := s.logger.emit "debug" "[Execute] Successfully executed script" w
      match s.disconnect w with
      | ((some disconnectErr, s), w) =>
        ((.returned (some (fmt.Errorf "disconnecting from server: %w" [] disconnectErr)), s), w)
      | ((none, s), w) => ((.returned none, s), w)

/-- The clients on which `Disconnect` was called, oldest first. -/
def disconnectCalls (trace : List Event) : List client.Client :=
  trace.filterMap fun e =>
    match e with
    | .Disconnect cli _ => some cli
    | _ => none

/-- The sessions on which `Close` was called, oldest first. -/
def closeCalls (trace : List Event) : List session.Session :=
  trace.filterMap fun e =>
    match e with
    | .Close sess => some sess
    | _ => none

/-- The calls of the connect function, of `NewSession` and of `Disconnect` in
a trace, oldest first. -/
def connectionCalls (trace : List Event) : List Event :=
  trace.filter fun e =>
    match e with
    | .connectClient _ _ _ _ _ => true
    | .NewSession _ _ _ _ _ => true
    | .Disconnect _ _ => true
    | _ => false

/-! ## A session (`executors/ssh/internal/session/session.go`) -/

/-- What a `defaultSession` runs on: the `*ssh.Session` it wraps, and the Go
scheduler.  `goRun` is the start of the goroutine that calls
`internal.Run(script)` and sends the result on the channel `waitErr`;
`select` blocks until one of the two communications of the `select`
statement can proceed and tells which one does. -/
structure session.Runtime (S : Type) where
  goRun : GoString → Op S Unit
  select : Op S session.Selected
  Signal : ssh.Signal → Op S (Option GoError)
  Close : Op S (Option GoError)

/-- Go `(*defaultSession).ExecuteScript`. -/
def session.defaultSession.ExecuteScript {σ : Type} (s : session.Runtime σ) (script : GoString) :
    Op (World σ) (Option GoError) := fun w =>
  let w := (traced (inWorld (s.goRun script)) (fun _ => Event.goRun script) w).2
  match traced (inWorld s.select) Event.selected w with
  | (.waitErr (some err), w) => (some (fmt.Errorf "executing SSH command: %w" [] err), w)
  | (.waitErr none, w) => (none, w)
  | (.ctxDone, w) =>
    match traced (inWorld (s.Signal ssh.SIGINT)) (Event.Signal ssh.SIGINT) w with
    | (some err, w) => (some (fmt.Errorf "killing SSH command: %w" [] err), w)
    | (none, w) => (none, w)

/-- Go `(*defaultSession).Close`. -/
def session.defaultSession.Close {σ : Type} (s : session.Runtime σ) : Op (World σ) Unit :=
  fun w => ((), (traced (inWorld s.Close) Event.internalClose w).2)

/-- The signals sent in a trace, oldest first. -/
def signalsSent (trace : List Event) : List ssh.Signal :=
  trace.filterMap fun e =>
    match e with
    | .Signal sig _ => some sig
    | _ => none

/-! ## The exit code (`internal/runner/adapter.go`, `build_error.go`) -/

/-- Go `runner.NewBuildFailureError`; a nil `err` gives the error without a cause. -/
def runner.NewBuildFailureError (err : Option GoError) : GoError :=
  match err with
  | some e => .buildFailure "build failure" e
  | none => .buildFailureNil "build failure"

/-- Go `(*Adapter).GenerateExitFromError`, over the function variable
`osExiter`.  `errors.Is(nil, target)` is false for the non-nil target
`&BuildFailureError{}`. -/
def runner.Adapter.GenerateExitFromError {σ : Type} (a : runner.Adapter)
    (osExiter : Int → Op σ Unit) (err : Option GoError) : Op (World σ) Unit := fun w =>
  let isBuildFailure :=
    match err with
    | none => false
    | some e => errors.Is e (GoError.buildFailureNil "")
  let exitCode := if isBuildFailure then a.buildFailureExitCode else a.systemFailureExitCode
  traced (inWorld (osExiter exitCode)) (fun _ => Event.osExiter exitCode) w

/-- The exit codes the exiter was called with, oldest first. -/
def exitCalls (trace : List Event) : List Int :=
  trace.filterMap fun e =>
    match e with
    | .osExiter code => some code
    | _ => none

/-! ## Sample AWS clients -/

/-- An ECS client that answers every call with the given values and counts the calls. -/
def sampleEcs (runOut : Option ecs.RunTaskOutput) (runErr waitErr stopErr : Option GoError)
    (descOut : Option ecs.DescribeTasksOutput) (descErr : Option GoError) : aws.ecsClient Nat where
  RunTaskWithContext := fun _ n => ((runOut, runErr), n + 1)
  WaitUntilTasksRunningWithContext := fun _ n => (waitErr, n + 1)
  StopTaskWithContext := fun _ n => (stopErr, n + 1)
  DescribeTasksWithContext := fun _ n => ((descOut, descErr), n + 1)

/-- An EC2 client that answers every call with the given values and counts the calls. -/
def sampleEc2 (out : Option ec2.DescribeNetworkInterfacesOutput) (err : Option GoError) :
    aws.ec2Client Nat where
  DescribeNetworkInterfacesWithContext := fun _ n => ((out, err), n + 1)

/-- The task description of `TestGetContainerIP`: private address `10.0.0.1`
and a network interface named in the attachment details. -/
def testDescribeOutput : ecs.DescribeTasksOutput :=
  { Tasks :=
      [some
        { Containers :=
            [some { NetworkInterfaces := [some { PrivateIpv4Address := some (str "10.0.0.1") }] }]
          Attachments :=
            [some
              { Details :=
                  [some { Name := some (str "subnetId"), Value := some (str "subnet-1") },
                   some { Name := some (str "networkInterfaceId"), Value := some (str "eni-1") },
                   some { Name := some (str "networkInterfaceId"),
                          Value := some (str "eni-2") }] }] }] }

/-- The interface description of `TestGetContainerIP`: public address `172.0.0.1`. -/
def testNetworkOutput : ec2.DescribeNetworkInterfacesOutput :=
  { NetworkInterfaces := [some { Association := some { PublicIp := some (str "172.0.0.1") } }] }

/-- An adapter as `NewFargate` makes it, over the sample clients. -/
def sampleNewFargate : aws.awsFargate Nat :=
  aws.NewFargate (fun _ n => (none, n)) (sampleEcs none none none none (some testDescribeOutput) none)
    (sampleEc2 (some testNetworkOutput) none) {} (str "us-east-1")

/-- The sample adapter after `Init`. -/
def sampleAwsFargate : aws.awsFargate Nat := (sampleNewFargate.Init ⟨0, []⟩).1.2

/-! ## Shape of an Execute call -/

/-- A call of Execute on the executor `s`, from the collaborator state `st`
and an empty trace: the outcome with the executor after the call, and the
final world. -/
def runExecute {σ : Type} (s : ssh.executor σ) (connection : executors.ConnectionSettings)
    (script : GoBytes) (st : σ) : (Outcome × ssh.executor σ) × World σ :=
  s.Execute connection script ⟨st, []⟩

/-- The address Execute connects to. -/
def executeAddr (connection : executors.ConnectionSettings) : GoString :=
  connection.Hostname ++ str ":" ++ formatInt connection.Port

/-- The client configuration Execute connects with. -/
def executeConfig (connection : executors.ConnectionSettings) (signer : Option ssh.Signer) :
    ssh.ClientConfig :=
  { User := connection.Username, Auth := [signer], InsecureIgnoreHostKey := true }

/-- Events of an Execute call before the connect function is called. -/
def executeHead (logger : logging.Logger) : List Event :=
  [Event.log "debug" logger
     "[Execute] Will connect to server and execute the specified shell script",
   Event.log "debug" logger "[connect] Will connect to server via SSH"]

/-- Events of an Execute call up to the start of `executeScript`, when the
connect function returned `cli` without an error. -/
def executeConnected (logger : logging.Logger) (connection : executors.ConnectionSettings)
    (signer : Option ssh.Signer) (cli : Option client.Client) : List Event :=
  executeHead logger ++
  [Event.connectClient (str "tcp") (executeAddr connection) (executeConfig connection signer)
     cli none,
   Event.log "debug" logger "[connect] Successfully connected to server",
   Event.log "debug" logger "[executeScript] Will execute a remote script"]

/-- Events left by `disconnect` on the client `cli` when Disconnect answers `r`. -/
def disconnectTrace (logger : logging.Logger) (cli : client.Client) (r : Option GoError) :
    List Event :=
  [Event.log "debug" logger "[disconnect] Will disconnect from server", Event.Disconnect cli r] ++
  match r with
  | some _ => []
  | none => [Event.log "debug" logger "[disconnect] Successfully disconnected from server"]

/-- The client field after `disconnect` on the client `cli` when Disconnect answers `r`. -/
def clientAfter (cli : client.Client) (r : Option GoError) : Option client.Client :=
  match r with
  | some _ => some cli
  | none => none

/-- Every call of Execute has one of these seven shapes: the outcome, the
client field afterwards and the trace, given the answers of the key parser,
of the connect function and of the client and session methods. -/
inductive ExecuteRun {σ : Type} (s : ssh.executor σ) (connection : executors.ConnectionSettings)
    (script : GoBytes) : Outcome → Option client.Client → List Event → Prop where
  | keyInvalid (e : GoError) :
    ExecuteRun s connection script
      (.returned (some (fmt.Errorf "connecting to server: %w" [] (GoError.invalidPrivateKey e))))
      s.client (executeHead s.logger)
  | connectFailed (signer : Option ssh.Signer) (cli : Option client.Client) (e : GoError) :
    ExecuteRun s connection script
      (.returned (some (fmt.Errorf "connecting to server: %w" []
        (fmt.Errorf "connecting to server %q as user %q: %w"
          [executeAddr connection, connection.Username] e))))
      s.client
      (executeHead s.logger ++
       [Event.connectClient (str "tcp") (executeAddr connection) (executeConfig connection signer)
          cli (some e)])
  | notConnected (signer : Option ssh.Signer) :
    ExecuteRun s connection script
      (.returned (some (fmt.Errorf "executing script: %w" [] ssh.ErrNotConnected)))
      none
      (executeConnected s.logger connection signer none ++
       [Event.log "debug" s.logger "[disconnect] Will disconnect from server"])
  | sessionFailed (signer : Option ssh.Signer) (cli : client.Client)
      (sess : Option session.Session) (e : GoError) (r : Option GoError) :
    ExecuteRun s connection script
      (.returned (some (fmt.Errorf "executing script: %w" []
        (fmt.Errorf "creating session for ssh client: %w" [] e))))
      (clientAfter cli r)
      (executeConnected s.logger connection signer (some cli) ++
       [Event.NewSession cli s.stdout s.stderr sess (some e)] ++
       disconnectTrace s.logger cli r)
  | sessionNil (signer : Option ssh.Signer) (cli : client.Client) (r : Option GoError) :
    ExecuteRun s connection script .panicked (clientAfter cli r)
      (executeConnected s.logger connection signer (some cli) ++
       [Event.NewSession cli s.stdout s.stderr none none] ++
       disconnectTrace s.logger cli r)
  | scriptFailed (signer : Option ssh.Signer) (cli : client.Client) (sess : session.Session)
      (e : GoError) (r : Option GoError) :
    ExecuteRun s connection script
      (.returned (some (fmt.Errorf "executing script: %w" []
        (fmt.Errorf "executing remote script: %w" [] e))))
      (clientAfter cli r)
      (executeConnected s.logger connection signer (some cli) ++
       [Event.NewSession cli s.stdout s.stderr (some sess) none,
        Event.ExecuteScript sess script.toGoString (some e),
        Event.Close sess] ++
       disconnectTrace s.logger cli r)
  | scriptDone (signer : Option ssh.Signer) (cli : client.Client) (sess : session.Session)
      (r : Option GoError) :
    ExecuteRun s connection script
      (.returned (r.map fun disconnectErr =>
        fmt.Errorf "disconnecting from server: %w" []
          (fmt.Errorf "disconnecting from server: %w" [] disconnectErr)))
      (clientAfter cli r)
      (executeConnected s.logger connection signer (some cli) ++
       [Event.NewSession cli s.stdout s.stderr (some sess) none,
        Event.ExecuteScript sess script.toGoString none,
        Event.log "debug" s.logger "[executeScript] Command executed",
        Event.Close sess,
        Event.log "debug" s.logger "[Execute] Successfully executed script"] ++
       disconnectTrace s.logger cli r)

/-! ## Sample SSH collaborators -/

/-- A key parser that rejects the key of the unit test `Private key invalid`
and accepts every other key. -/
def sampleParsePrivateKey (key : GoBytes) : Option ssh.Signer × Option GoError :=
  if key = some (str "invalid key") then (none, some (.errorString "ssh: no key found"))
  else (some ⟨key.getD []⟩, none)

/-- A transport that answers every call with the given values and counts the calls. -/
def sampleTransport (cli : Option client.Client) (connectErr : Option GoError)
    (sess : Option session.Session) (sessionErr scriptErr disconnectErr : Option GoError) :
    ssh.Transport Nat where
  connectClient := fun _ _ _ n => ((cli, connectErr), n + 1)
  NewSession := fun _ _ _ n => ((sess, sessionErr), n + 1)
  Disconnect := fun _ n => (disconnectErr, n + 1)
  ExecuteScript := fun _ _ n => (scriptErr, n + 1)
  Close := fun _ n => ((), n + 1)

/-- The connection settings of `TestExecute`, with a key that parses or not. -/
def testConnection (validPrivateKey : Bool) : executors.ConnectionSettings :=
  { Hostname := str "localhost", Port := 22, Username := str "root",
    PrivateKey := some (if validPrivateKey then str "valid key" else str "invalid key") }

/-- The executor of `TestExecute` over a sample transport. -/
def sampleExecutor (transport : ssh.Transport Nat) : ssh.executor Nat :=
  ssh.NewExecutor transport sampleParsePrivateKey {}

/-- The script of `TestExecute`. -/
def testScript : GoBytes := some (str "echo 1")

/-- The error `testErrorScript` of `TestExecute`. -/
def testErrorScript : GoError := .errorString "simulated error 2"

/-! ## Reading traces of Run, Prepare and Persist -/

/-- The connection settings and scripts of the Execute calls of a trace, in order. -/
def executeCalls (trace : List Event) : List (executors.ConnectionSettings × GoBytes) :=
  trace.filterMap fun e =>
    match e with
    | .Execute connection script _ => some (connection, script)
    | _ => none

/-- For each Persist call of a trace, in order: the record it received and
whether a WaitUntilTaskRunning call, respectively a GetContainerIP call, had
returned without an error before it.  The two flags start as given. -/
def persistCallsFrom (waited resolved : Bool) : List Event → List (task.Data × Bool × Bool)
  | [] => []
  | Event.WaitUntilTaskRunning _ _ none :: rest => persistCallsFrom true resolved rest
  | Event.GetContainerIP _ _ _ _ none :: rest => persistCallsFrom waited true rest
  | Event.Persist data _ :: rest => (data, waited, resolved) :: persistCallsFrom waited resolved rest
  | _ :: rest => persistCallsFrom waited resolved rest

/-- The path, content and mode of the WriteFile calls of a trace, in order. -/
def writeCalls (trace : List Event) : List (GoString × GoBytes × Nat) :=
  trace.filterMap fun e =>
    match e with
    | .WriteFile filename data perm _ => some (filename, data, perm)
    | _ => none

/-- The identity that `NewMetadataManager` reads from the runner adapter. -/
def runnerDataOf (runnerAdapter : runner.Adapter) : task.RunnerData :=
  { ShortToken := runnerAdapter.ShortToken
    ProjectURL := runnerAdapter.ProjectURL
    PipelineID := runnerAdapter.PipelineID
    JobID := runnerAdapter.JobID }

/-- The file content the specification describes for a record: a JSON object
with the members `TaskARN` and `ContainerIP`, JSON strings, and `PrivateKey`,
the standard base64 text of the private-key bytes as a JSON string. -/
def spec.recordBody (data : task.Data) : List Byte :=
  str "\x7b\"TaskARN\":" ++ json.encodeString data.TaskARN ++
  str ",\"ContainerIP\":" ++ json.encodeString data.ContainerIP ++
  str ",\"PrivateKey\":\"" ++ base64.encode (data.PrivateKey.getD []) ++ str "\"\x7d"

/-- The record of `TestPersist` without a private key. -/
def testDataWithoutPrivateKey : task.Data :=
  { TaskARN := str "task-arn", ContainerIP := str "192.168.0.1" }

/-- The runner identity of `TestGenerateFilename`. -/
def testRunnerAdapter : runner.Adapter :=
  { shortToken := str "test", projectURL := str "http://gitlab.example.com/my/project",
    pipelineID := 1, jobID := 1 }

/-- A filesystem whose every file holds the script of the unit tests. -/
def sampleScriptFiles : fs.FS Nat where
  ReadFile := fun _ n => ((some (str "echo 1"), none), n)
  WriteFile := fun _ _ _ n => (none, n)
  Exists := fun _ n => ((true, none), n)
  Remove := fun _ n => (none, n)

/-- An executor that answers every call with the given error and counts the calls. -/
def sampleRunExecutor (err : Option GoError) : executors.Executor Nat where
  Execute := fun _ _ n => (err, n + 1)

/-- The command-line context of the Run unit tests: two arguments, the user
`root` and no configured port. -/
def testRunContext : cli.Context :=
  { Args := [str "/path/to/script", str "stage"]
    config := { SSH := { Username := str "root", Port := 0 } } }

/-- A session runtime whose `select` proceeds with the given communication
and whose `Signal` answers with the given error; its state counts the calls. -/
def sampleRuntime (communication : session.Selected) (signalErr : Option GoError) :
    session.Runtime Nat where
  goRun := fun _ n => ((), n + 1)
  select := fun n => (communication, n + 1)
  Signal := fun _ n => (signalErr, n + 1)
  Close := fun n => (none, n + 1)

/-- The runner adapter of `TestAdapter_GenerateExitFromError`: the exit codes
2 for a build failure and 1 for a system failure. -/
def testExitAdapter : runner.Adapter :=
  { buildFailureExitCode := 2, systemFailureExitCode := 1 }

/-! ## Steps of Prepare and of Run -/

/-- A call of Prepare to one of its collaborators, StopTask apart. -/
inductive PrepareStep where
  | Init
  | Create (bitSize : Int)
  | RunTask
  | Persist
  | WaitUntilTaskRunning
  | GetContainerIP
  deriving DecidableEq, Repr

/-- The collaborator calls of a trace other than StopTask, in order, each with
whether it returned a nil error. -/
def prepareSteps : List Event → List (PrepareStep × Bool)
  | [] => []
  | Event.Init err :: rest => (.Init, err.isNone) :: prepareSteps rest
  | Event.Create bitSize _ err :: rest => (.Create bitSize, err.isNone) :: prepareSteps rest
  | Event.RunTask _ _ _ err :: rest => (.RunTask, err.isNone) :: prepareSteps rest
  | Event.Persist _ err :: rest => (.Persist, err.isNone) :: prepareSteps rest
  | Event.WaitUntilTaskRunning _ _ err :: rest =>
    (.WaitUntilTaskRunning, err.isNone) :: prepareSteps rest
  | Event.GetContainerIP _ _ _ _ err :: rest => (.GetContainerIP, err.isNone) :: prepareSteps rest
  | _ :: rest => prepareSteps rest

/-- The sequence of collaborator calls of a complete Prepare. -/
def prepareSequence : List PrepareStep :=
  [.Init, .Create 4096, .RunTask, .Persist, .WaitUntilTaskRunning, .GetContainerIP, .Persist]

/-- The arguments of a call to the Fargate adapter. -/
inductive FargateCall where
  | RunTask (taskSettings : aws.TaskSettings) (connection : aws.ConnectionSettings)
  | WaitUntilTaskRunning (taskARN cluster : GoString)
  | GetContainerIP (taskARN cluster : GoString) (usePublicIP : Bool)
  | StopTask (taskARN cluster : GoString)
  deriving DecidableEq, Repr

/-- The method a call to the Fargate adapter is made on. -/
def FargateCall.method : FargateCall → String
  | .RunTask _ _ => "RunTask"
  | .WaitUntilTaskRunning _ _ => "WaitUntilTaskRunning"
  | .GetContainerIP _ _ _ => "GetContainerIP"
  | .StopTask _ _ => "StopTask"

/-- The arguments of the calls to the Fargate adapter in a trace, in order. -/
def fargateCalls : List Event → List FargateCall
  | [] => []
  | Event.RunTask taskSettings connection _ _ :: rest =>
    .RunTask taskSettings connection :: fargateCalls rest
  | Event.WaitUntilTaskRunning taskARN cluster _ :: rest =>
    .WaitUntilTaskRunning taskARN cluster :: fargateCalls rest
  | Event.GetContainerIP taskARN cluster usePublicIP _ _ :: rest =>
    .GetContainerIP taskARN cluster usePublicIP :: fargateCalls rest
  | Event.StopTask taskARN cluster _ :: rest => .StopTask taskARN cluster :: fargateCalls rest
  | _ :: rest => fargateCalls rest

/-- The handles that RunTask calls returned in a trace, in order. -/
def handles : List Event → List GoString
  | [] => []
  | Event.RunTask _ _ taskARN _ :: rest => taskARN :: handles rest
  | _ :: rest => handles rest

/-- The private keys handed to the Persist calls of a trace, in order. -/
def persistedKeys : List Event → List GoBytes
  | [] => []
  | Event.Persist data _ :: rest => data.PrivateKey :: persistedKeys rest
  | _ :: rest => persistedKeys rest

/-- The arguments Prepare can pass to the Fargate adapter, given the
configuration, the public key and the handle RunTask returned. -/
def prepareFargateCalls (ctx : cli.Context) (publicKey : GoBytes) (taskARN : GoString) :
    List FargateCall :=
  [.RunTask (prepareTaskSettings ctx publicKey) (prepareConnection ctx),
   .WaitUntilTaskRunning taskARN ctx.config.Fargate.Cluster,
   .GetContainerIP taskARN ctx.config.Fargate.Cluster ctx.config.Fargate.EnablePublicIP,
   .StopTask taskARN ctx.config.Fargate.Cluster]

/-- A call of Run to one of its collaborators. -/
inductive RunStep where
  | ReadFile (filename : GoString)
  | Get
  | Execute
  deriving DecidableEq, Repr

/-- The collaborator calls of a trace of Run, in order, each with whether it
returned a nil error. -/
def runSteps : List Event → List (RunStep × Bool)
  | [] => []
  | Event.ReadFile filename _ err :: rest => (.ReadFile filename, err.isNone) :: runSteps rest
  | Event.Get _ err :: rest => (.Get, err.isNone) :: runSteps rest
  | Event.Execute _ _ err :: rest => (.Execute, err.isNone) :: runSteps rest
  | _ :: rest => runSteps rest

/-- The calls of a trace that change the record or the task: Persist, Clear,
StopTask, and the file operations WriteFile and Remove. -/
def changingCalls (trace : List Event) : List Event :=
  trace.filter fun e =>
    match e with
    | .Persist _ _ => true
    | .Clear _ => true
    | .StopTask _ _ _ => true
    | .WriteFile _ _ _ _ => true
    | .Remove _ _ => true
    | _ => false

/-- A key pair with the public key of `sampleKeyPair` and another private key. -/
def otherKeyPair : ssh.KeyPair :=
  { PublicKey := some (str "Public key"), PrivateKey := some (str "Another private key") }

/-- A step of Run (ReadFile, Get or Execute) appears in the trace as having
failed with `e`. -/
def runStepFailed (e : GoError) (trace : List Event) : Prop :=
  (∃ filename content, Event.ReadFile filename content (some e) ∈ trace) ∨
  (∃ data, Event.Get data (some e) ∈ trace) ∨
  (∃ settings script, Event.Execute settings script (some e) ∈ trace)

/-- The sequence of collaborator calls of a complete Run. -/
def runSequence (ctx : cli.Context) : List RunStep :=
  [.ReadFile (ctx.ArgsGet 0), .Get, .Execute]

/-! ## Parsing integers (`strconv`), in base 10

The functions of the Go standard library that `internal/runner` calls, for a
platform whose `int` has 64 bits.  A `*strconv.NumError` is an error wrapping
`ErrSyntax` or `ErrRange`: its `Unwrap` method returns that cause. -/

/-- Go `strconv.ErrSyntax`. -/
def strconv.ErrSyntax : GoError := .errorString "invalid syntax"

/-- Go `strconv.ErrRange`. -/
def strconv.ErrRange : GoError := .errorString "value out of range"

/-- Go `&strconv.NumError{Func: fn, Num: num, Err: err}`. -/
def strconv.NumError (fn : String) (num : GoString) (err : GoError) : GoError :=
  .wrapError ("strconv." ++ fn ++ ": parsing %q: %w") [num] err

/-- Go `maxUint64`, which is 2^64 - 1. -/
def strconv.maxUint64 : Nat := 18446744073709551615

/-- The loop of Go `strconv.ParseUint(s, 10, 64)` from the value `n` read so
far: the value and the cause of the error.  A byte that is not a decimal
digit is a syntax error (base 10 admits neither letters nor underscores), and
the loop stops with a range error as soon as the value exceeds 64 bits
(18446744073709551616 is 2^64). -/
def strconv.parseUintLoop : List Byte → Nat → Nat × Option GoError
  | [], n => (n, none)
  | c :: rest, n =>
    if 48 ≤ c.val ∧ c.val ≤ 57 then
      if strconv.maxUint64 / 10 + 1 ≤ n then (strconv.maxUint64, some strconv.ErrRange)
      else
        let n10 := n * 10 % 18446744073709551616
        let n1 := (n10 + (c.val - 48)) % 18446744073709551616
        if n1 < n10 ∨ strconv.maxUint64 < n1 then (strconv.maxUint64, some strconv.ErrRange)
        else strconv.parseUintLoop rest n1
    else (0, some strconv.ErrSyntax)

/-- Go `strconv.ParseUint(s, 10, 64)`: the value and the cause of the error. -/
def strconv.ParseUint (s : GoString) : Nat × Option GoError :=
  if s = [] then (0, some strconv.ErrSyntax) else strconv.parseUintLoop s 0

/-- The body of Go `strconv.ParseInt(s, 10, 64)`: the value and the cause of
the error, which the caller puts into a `NumError` with its own name
(9223372036854775808 is 2^63, the cutoff). -/
def strconv.parseInt (s : GoString) : Int × Option GoError :=
  match s with
  | [] => (0, some strconv.ErrSyntax)
  | c :: rest =>
    let neg := c.val = 45
    let digits := if c.val = 43 ∨ c.val = 45 then rest else s
    let un := (strconv.ParseUint digits).1
    let err := (strconv.ParseUint digits).2
    if err ≠ none ∧ err ≠ some strconv.ErrRange then (0, err)
    else if ¬ neg ∧ 9223372036854775808 ≤ un then (9223372036854775807, some strconv.ErrRange)
    else if neg ∧ 9223372036854775808 < un then (-9223372036854775808, some strconv.ErrRange)
    else (if neg then -(un : Int) else (un : Int), none)

/-- Go `strconv.ParseInt(s, 10, 64)`. -/
def strconv.ParseInt (s : GoString) : Int × Option GoError :=
  ((strconv.parseInt s).1, (strconv.parseInt s).2.map (strconv.NumError "ParseInt" s))

/-- The loop of the fast path of Go `strconv.Atoi`: `none` at a byte that is
not a decimal digit. -/
def strconv.atoiLoop : List Byte → Nat → Option Nat
  | [], n => some n
  | ch :: rest, n =>
    if 9 < (ch.val + 256 - 48) % 256 then none
    else strconv.atoiLoop rest (n * 10 + (ch.val + 256 - 48) % 256)

/-- Go `strconv.Atoi` where `int` has 64 bits: a string of 1 to 18 bytes is
read by the fast path, any other by `ParseInt(s, 10, 0)`, whose error gets the
name `Atoi`. -/
def strconv.Atoi (s : GoString) : Int × Option GoError :=
  if 0 < s.length ∧ s.length < 19 then
    match s with
    | [] => (0, some (strconv.NumError "Atoi" s strconv.ErrSyntax))
    | c :: rest =>
      let digits := if c.val = 45 ∨ c.val = 43 then rest else s
      if digits = [] then (0, some (strconv.NumError "Atoi" s strconv.ErrSyntax))
      else
        match strconv.atoiLoop digits 0 with
        | none => (0, some (strconv.NumError "Atoi" s strconv.ErrSyntax))
        | some n => (if c.val = 45 then -(n : Int) else (n : Int), none)
  else ((strconv.parseInt s).1, (strconv.parseInt s).2.map (strconv.NumError "Atoi" s))

/-! ## The runner adapter (`internal/runner/adapter.go`, `internal/env`) -/

/-- Go interface `env.Env`: `Get` gives the value of a variable, `""` when it
is not set. -/
structure env.Env where
  Get : GoString → GoString

/-- Go `env.NewWithStubs`. -/
def env.NewWithStubs (stubs : List (GoString × GoString)) : env.Env where
  Get := fun key =>
    match stubs.lookup key with
    | some found => found
    | none => []

/-- Go `api.BuildFailureExitCodeVariable`, a constant of GitLab Runner's
package `executors/custom/api`. -/
def api.BuildFailureExitCodeVariable : GoString := str "BUILD_FAILURE_EXIT_CODE"

/-- Go `api.SystemFailureExitCodeVariable`, a constant of GitLab Runner's
package `executors/custom/api`. -/
def api.SystemFailureExitCodeVariable : GoString := str "SYSTEM_FAILURE_EXIT_CODE"

/-- Go constant `runnerShortTokenVariable`. -/
def runner.runnerShortTokenVariable : GoString := str "CUSTOM_ENV_CI_RUNNER_SHORT_TOKEN"

/-- Go constant `runnerProjectURLVariable`. -/
def runner.runnerProjectURLVariable : GoString := str "CUSTOM_ENV_CI_PROJECT_URL"

/-- Go constant `runnerPipelineIDVariable`. -/
def runner.runnerPipelineIDVariable : GoString := str "CUSTOM_ENV_CI_PIPELINE_ID"

/-- Go constant `runnerJobIDVariable`. -/
def runner.runnerJobIDVariable : GoString := str "CUSTOM_ENV_CI_JOB_ID"

/-- Go constant `unknownValue`. -/
def runner.unknownValue : GoString := str "unknown"

/-- Go `getExitCodeFromVariable`. -/
def runner.getExitCodeFromVariable (envResolver : env.Env) (variableName : GoString) :
    Int × Option GoError :=
  let value := envResolver.Get variableName
  match strconv.Atoi value with
  | (_, some err) =>
    (-1, some (fmt.Errorf "couldn't parse exit code %q from variable %q: %w"
      [value, variableName] err))
  | (exitCode, none) => (exitCode, none)

/-- Go `getVariableValueOrUnknown`. -/
def runner.getVariableValueOrUnknown (envResolver : env.Env) (variableName : GoString) : GoString :=
  let value := envResolver.Get variableName
  if value ≠ [] then value else runner.unknownValue

/-- Go `getVariableInt64Value`. -/
def runner.getVariableInt64Value (envResolver : env.Env) (variableName : GoString) :
    Int × Option GoError :=
  let value := envResolver.Get variableName
  if value = [] then (0, none)
  else
    match strconv.ParseInt value with
    | (_, some err) =>
      (-1, some (fmt.Errorf "couldn't parse int64 value %q from variable %q: %w"
        [value, variableName] err))
    | (intValue, none) => (intValue, none)

/-- Go `runner.InitAdapter`, over the package variables `envResolver` and
`adapter` (the state; `none` is the nil pointer).  A new adapter is installed
first, and each field is assigned as the function goes, also when the function
that computes it returns an error. -/
def runner.InitAdapter (envResolver : env.Env) : Op (Option runner.Adapter) (Option GoError) :=
  fun _ =>
    let adapter : runner.Adapter := {}
    match runner.getExitCodeFromVariable envResolver api.BuildFailureExitCodeVariable with
    | (code, some err) => (some err, some { adapter with buildFailureExitCode := code })
    | (code, none) =>
      let adapter := { adapter with buildFailureExitCode := code }
      match runner.getExitCodeFromVariable envResolver api.SystemFailureExitCodeVariable with
      | (code, some err) => (some err, some { adapter with systemFailureExitCode := code })
      | (code, none) =>
        let adapter := { adapter with systemFailureExitCode := code }
        let adapter := { adapter with
          shortToken := runner.getVariableValueOrUnknown envResolver
            runner.runnerShortTokenVariable }
        let adapter := { adapter with
          projectURL := runner.getVariableValueOrUnknown envResolver
            runner.runnerProjectURLVariable }
        match runner.getVariableInt64Value envResolver runner.runnerPipelineIDVariable with
        | (value, some err) => (some err, some { adapter with pipelineID := value })
        | (value, none) =>
          let adapter := { adapter with pipelineID := value }
          match runner.getVariableInt64Value envResolver runner.runnerJobIDVariable with
          | (value, some err) => (some err, some { adapter with jobID := value })
          | (value, none) => (none, some { adapter with jobID := value })

/-- Go `runner.GetAdapter`: it panics with "Runner Adapter not initialized.
Must call runner.InitAdapter() first!" when the package variable is nil. -/
def runner.GetAdapter (adapter : Option runner.Adapter) : Completion runner.Adapter :=
  match adapter with
  | none => .panicked
  | some a => .returned a

/-- The environment of the unit tests: the exit codes 1 and 2, with the given
stubs in front. -/
def testEnv (stubs : List (GoString × GoString)) : env.Env :=
  env.NewWithStubs (stubs ++
    [(api.SystemFailureExitCodeVariable, str "1"), (api.BuildFailureExitCodeVariable, str "2")])

/-! ## Decimal integers, as the specification describes them -/

/-- The number that decimal digits denote, most significant digit first,
after the digits that gave `n`. -/
def spec.decimalValueFrom : Nat → List Byte → Nat
  | n, [] => n
  | n, c :: rest => spec.decimalValueFrom (n * 10 + (c.val - 48)) rest

/-- The integer that a string denotes as a decimal integer: an optional sign
`+` or `-`, then one or more decimal digits and nothing else; `none` for any
other string. -/
def spec.decimalInteger (s : GoString) : Option Int :=
  match s with
  | [] => none
  | c :: rest =>
    let digits := if c.val = 43 ∨ c.val = 45 then rest else s
    if digits ≠ [] ∧ digits.all (fun d => 48 ≤ d.val && d.val ≤ 57) = true then
      some (if c.val = 45 then -(spec.decimalValueFrom 0 digits : Int)
        else (spec.decimalValueFrom 0 digits : Int))
    else none

/-- The value of a string that parses as a base-10 `int64`: a decimal integer
from -2^63 to 2^63 - 1. -/
def spec.decimalInt64 (s : GoString) : Option Int :=
  (spec.decimalInteger s).bind fun v =>
    if -9223372036854775808 ≤ v ∧ v < 9223372036854775808 then some v else none

/-! ## The application (`internal/cli`, `commands/custom/custom.go`, `cmd/fargate/main.go`) -/

/-- The state of the process: the package variable `adapter` of
`internal/runner` (`none` is the nil pointer it starts as), the context that
the application hands to every hook and command, and the world. -/
structure Process (σ : Type) where
  adapter : Option runner.Adapter := none
  ctx : cli.Context := {}
  world : World σ

/-- Go `cli.Hook`: a function of the context pointer returning an error; the
context it leaves is returned with the error. -/
abbrev cli.Hook (σ : Type) : Type := cli.Context → Op (World σ) (Option GoError × cli.Context)

/-- Go `cli.NewNopHook`. -/
def cli.NewNopHook {σ : Type} : cli.Hook σ := fun ctx w => ((none, ctx), w)

/-- Go `Hooks.Execute`: the hooks run in order up to the first that fails. -/
def cli.Hooks.Execute {σ : Type} : List (cli.Hook σ) → cli.Hook σ
  | [], cliCtx, w => ((none, cliCtx), w)
  | f :: rest, cliCtx, w =>
    match f cliCtx w with
    | ((some err, cliCtx), w) => ((some (fmt.Errorf "hook failure: %w" [] err), cliCtx), w)
    | ((none, cliCtx), w) => cli.Hooks.Execute rest cliCtx w

/-- Go `cli.App`, for a command line that selects one command: the hooks, the
`Execute` method of the handler of that command, and the function
`NewMultiError` of the library `urfave/cli`, which joins two errors into one
that has no `Unwrap` method. -/
structure cli.App (σ : Type) where
  beforeFunctions : List (cli.Hook σ) := []
  afterFunctions : List (cli.Hook σ) := []
  handler : Op (Process σ) Outcome
  newMultiError : GoError → GoError → GoError

/-- The deferred call of `After` in `(*cli.App).Run` of `urfave/cli`: its
error replaces a nil error and is joined to a non-nil one; a panic goes on. -/
def cli.App.runAfter {σ : Type} (a : cli.App σ) (out : Outcome) : Op (Process σ) Outcome :=
  fun p =>
    match cli.Hooks.Execute a.afterFunctions p.ctx p.world with
    | ((afterErr, ctx), w) =>
      let p := { p with ctx := ctx, world := w }
      match out, afterErr with
      | .panicked, _ => (.panicked, p)
      | .returned err, none => (.returned err, p)
      | .returned none, some afterErr => (.returned (some afterErr), p)
      | .returned (some err), some afterErr => (.returned (some (a.newMultiError err afterErr)), p)

/-- Go `(*App).Run`, which is `(*cli.App).Run` of `urfave/cli` (version 1) with
the `Before` and `After` functions that `cli.New` sets, for a command line
that parses and selects a command: `Before` runs the before hooks; when it
fails its error is returned and the action does not run; else the action of
the command runs the handler; the deferred `After` runs the after hooks in
every case. -/
def cli.App.Run {σ : Type} (a : cli.App σ) : Op (Process σ) Outcome := fun p =>
  match cli.Hooks.Execute a.beforeFunctions p.ctx p.world with
  | ((some beforeErr, ctx), w) =>
    a.runAfter (.returned (some beforeErr)) { p with ctx := ctx, world := w }
  | ((none, ctx), w) =>
    match a.handler { p with ctx := ctx, world := w } with
    | (out, p) => a.runAfter out p

/-- Go `(*abstractCustomCommand).Execute`, over the `CustomExecute` method of
the embedded stage command, which may read the package variable `adapter`. -/
def abstractCustomCommand.Execute {σ : Type} (envResolver : env.Env)
    (CustomExecute : Option runner.Adapter → cli.Context → Op (World σ) Outcome) :
    Op (Process σ) Outcome := fun p =>
  match runner.InitAdapter envResolver p.adapter with
  | (some err, adapter) =>
    (.returned (some (fmt.Errorf "couldn't initialize GitLab Runner Adapter: %w" [] err)),
      { p with adapter := adapter })
  | (none, adapter) =>
    match CustomExecute adapter p.ctx p.world with
    | (out, w) => (out, { p with adapter := adapter, world := w })

/-- Go `globalFlags`: the flags that the hooks modelled here read. -/
structure globalFlags where
  ConfigFile : GoString := str "config.toml"
  TaskDefinition : GoString := []
  PlatformVersion : GoString := []
  deriving DecidableEq, Repr

/-- Go `config.LoadFromFile`, over `ioutil.ReadFile` and `toml.Unmarshal`. -/
def config.LoadFromFile {σ : Type} (readFile : GoString → Op σ (GoBytes × Option GoError))
    (unmarshal : GoBytes → config.Global × Option GoError) (file : GoString) :
    Op (World σ) (config.Global × Option GoError) := fun w =>
  match traced (inWorld (readFile file)) (fun r => Event.ReadFile file r.1 r.2) w with
  | ((_, some err), w) =>
    (({}, some (fmt.Errorf "couldn't read configuration file %q: %w" [file] err)), w)
  | ((data, none), w) =>
    match unmarshal data with
    | (_, some err) =>
      (({}, some (fmt.Errorf "couldn't parse TOML content of the configuration file: %w" []
        err)), w)
    | (cfg, none) => ((cfg, none), w)

/-- Go `loadConfigurationFile`. -/
def loadConfigurationFile {σ : Type} (global : globalFlags)
    (readFile : GoString → Op σ (GoBytes × Option GoError))
    (unmarshal : GoBytes → config.Global × Option GoError) : cli.Hook σ := fun ctx w =>
  match config.LoadFromFile readFile unmarshal global.ConfigFile w with
  | ((_, some err), w) => ((some err, ctx), w)
  | ((cfg, none), w) => ((none, { ctx with config := cfg }), w)

/-- Go `loadCliArgsEnvVars`. -/
def loadCliArgsEnvVars {σ : Type} (global : globalFlags) : cli.Hook σ := fun ctx w =>
  let config := ctx.Config
  let config :=
    if global.TaskDefinition ≠ [] then
      { config with Fargate := { config.Fargate with TaskDefinition := global.TaskDefinition } }
    else config
  let config :=
    if global.PlatformVersion ≠ [] then
      { config with Fargate := { config.Fargate with PlatformVersion := global.PlatformVersion } }
    else config
  ((none, { ctx with config := config }), w)

/-- Go `setUpApplication`, for a command line that selects the command with
the handler `handler`.  The hooks `updateLogLevel`, `updateLogFormat`,
`setLoggingToFile` and `logStartupMessage`, which act on the logger, are
given as `loggingHooks`.  The after hook is the value `closeLogFile` has when
it is added, which is the hook that does nothing. -/
def setUpApplication {σ : Type} (logger : logging.Logger) (global : globalFlags)
    (readFile : GoString → Op σ (GoBytes × Option GoError))
    (unmarshal : GoBytes → config.Global × Option GoError) (loggingHooks : List (cli.Hook σ))
    (handler : Op (Process σ) Outcome) (newMultiError : GoError → GoError → GoError) :
    cli.App σ :=
  { beforeFunctions :=
      [fun ctx w => ((none, { ctx with logger := logger }), w),
       loadConfigurationFile global readFile unmarshal,
       loadCliArgsEnvVars global] ++ loggingHooks
    afterFunctions := [cli.NewNopHook]
    handler := handler
    newMultiError := newMultiError }

/-- Go `main`, from the application `a` that `setUpApplication` returned, over
the function variable `osExiter`: when the run returns an error, it is logged
and `runner.GetAdapter().GenerateExitFromError(err)` is called. -/
def fargate.main {σ : Type} (logger : logging.Logger) (a : cli.App σ) (osExiter : Int → Op σ Unit) :
    Op (Process σ) (Completion Unit) := fun p =>
  match a.Run p with
  | (.panicked, p) => (.panicked, p)
  | (.returned none, p) => (.returned (), p)
  | (.returned (some err), p) =>
    let w := (logger.WithError err).emit "error" "Application execution failed" p.world
    match runner.GetAdapter p.adapter with
    | .panicked => (.panicked, { p with world := w })
    | .returned adapter =>
      match adapter.GenerateExitFromError osExiter (some err) w with
      | (_, w) => (.returned (), { p with world := w })

/-- An exiter that only returns, like the one of the unit tests. -/
def sampleExiter : Int → Op Nat Unit := fun _ n => ((), n)

/-- A stage whose `CustomExecute` returns nil at once. -/
def sampleStage : Option runner.Adapter → cli.Context → Op (World Nat) Outcome :=
  fun _ _ w => (.returned none, w)

/-- A run of `main` for a stage command, in the environment `envResolver`,
where reading the configuration file answers `readErr`. -/
def sampleMain (envResolver : env.Env) (readErr : Option GoError) :
    Completion Unit × Process Nat :=
  fargate.main {}
    (setUpApplication {} {} (fun _ n => ((some [], readErr), n)) (fun _ => ({}, none)) []
      (abstractCustomCommand.Execute envResolver sampleStage)
      (fun _ _ => .errorString "multiple errors"))
    sampleExiter { world := ⟨0, []⟩ }

/-! ## What the AWS adapter reads in a response -/

/-- The value of `*taskOutput.Tasks[0].TaskArn`; `none` when the output is
nil, the index is out of range or a pointer on the way is nil. -/
def aws.taskARNOf (taskOutput : Option ecs.RunTaskOutput) : Option GoString :=
  (taskOutput.bind fun output => output.Tasks.head?.join).bind fun t => t.TaskArn

/-- The input that `RunTask` hands to `RunTaskWithContext`, given the
overrides that `processEnvVariablesToInject` returned. -/
def aws.runTaskInput (taskSettings : aws.TaskSettings) (connection : aws.ConnectionSettings)
    (overrides : Option ecs.TaskOverride) : ecs.RunTaskInput :=
  { TaskDefinition := some taskSettings.TaskDefinition
    Cluster := some taskSettings.Cluster
    NetworkConfiguration := some
      { AwsvpcConfiguration := some
          { SecurityGroups := [some connection.SecurityGroup]
            Subnets := [some connection.Subnet]
            AssignPublicIp := some
              (if connection.EnablePublicIP then str "ENABLED" else str "DISABLED") } }
    Overrides := overrides
    PlatformVersion :=
      if taskSettings.PlatformVersion ≠ [] then some taskSettings.PlatformVersion else none }

/-- The sample adapter after `Init`, over clients that answer RunTask,
DescribeTasks and DescribeNetworkInterfaces with the given outputs and no
error. -/
def sampleAwsFargateOver (runOut : Option ecs.RunTaskOutput)
    (descOut : Option ecs.DescribeTasksOutput)
    (netOut : Option ec2.DescribeNetworkInterfacesOutput) : aws.awsFargate Nat :=
  ((aws.NewFargate (fun _ n => (none, n)) (sampleEcs runOut none none none descOut none)
    (sampleEc2 netOut none) {} (str "us-east-1")).Init ⟨0, []⟩).1.2

/-! ## Reading decimal digits back -/

/-- The number that decimal digits denote, least significant digit first. -/
def decimalValueRev : List Byte → Nat
  | [] => 0
  | c :: rest => (c.val - 48) + 10 * decimalValueRev rest

/-- A byte is one of the ten decimal digits. -/
def isDecimalDigit (c : Byte) : Bool := 48 ≤ c.val && c.val ≤ 57

/-! ## Lemmas on worlds and traces -/

theorem traced_inWorld {σ α : Type} (op : Op σ α) (ev : α → Event) (w : World σ) :
    traced (inWorld op) ev w =
      ((op w.st).1, { st := (op w.st).2, trace := w.trace ++ [ev (op w.st).1] }) := rfl

theorem stopFargateTaskOnError_trace {σ : Type} (fargate : aws.Fargate σ)
    (c : PrepareCommand σ) (ctx : cli.Context) (hf : c.awsFargate = fargate.lift)
    (hl : c.logger = prepareLogger ctx) (hc : c.cfg = ctx.config)
    (taskARN : GoString) (err : GoError) (logMessage : String) (w : World σ) :
    (c.stopFargateTaskOnError taskARN err logMessage w).trace =
      w.trace ++ stopTrace ctx taskARN err logMessage
        (fargate.StopTask taskARN ctx.config.Fargate.Cluster w.st).1 := by
  unfold PrepareCommand.stopFargateTaskOnError stopTrace
  by_cases h : taskARN = []
  · simp [h]
  · simp only [h, if_false, hf, hl, hc, aws.Fargate.lift, traced_inWorld, logging.Logger.emit,
      World.record]
    rcases hs : fargate.StopTask taskARN ctx.config.Fargate.Cluster w.st with ⟨_ | e, s1⟩ <;>
      simp [hs]

/-- Shape lemma: whatever the collaborators answer, a Prepare run started on
an empty trace has one of the shapes of `PrepareRun`. -/
theorem prepare_run_shape {σ : Type} (fargate : aws.Fargate σ) (manager : task.MetadataManager σ)
    (keys : ssh.KeyFactory σ) (ctx : cli.Context) (s : σ) :
    PrepareRun ctx (runPrepare fargate manager keys ctx s).1
      (runPrepare fargate manager keys ctx s).2.trace := by
  simp only [runPrepare, PrepareCommand.CustomExecute, PrepareCommand.init, PrepareCommand.mk0,
    PrepareCommand.startNewFargateTask, PrepareCommand.persistDataForLaterStages,
    PrepareCommand.waitFargateTaskReady, aws.Fargate.lift, task.MetadataManager.lift,
    ssh.KeyFactory.lift, traced_inWorld, World.record, logging.Logger.emit,
    cli.Context.Config, cli.Context.Logger]
  rcases h1 : fargate.Init s with ⟨_ | e1, s1⟩
  swap
  · simp only [h1, traced_inWorld]
    simpa only [prepareWaited, prepareStarted, prepareHead, prepareLogger, prepareTaskSettings, prepareConnection, firstRecord, secondRecord, List.nil_append, List.cons_append, List.append_assoc] using PrepareRun.initFailed e1
  simp only [h1, traced_inWorld]
  rcases h2 : keys.Create defaultBitSize s1 with ⟨⟨kp, _ | e2⟩, s2⟩
  swap
  · simp only [h2, traced_inWorld]
    simpa only [prepareWaited, prepareStarted, prepareHead, prepareLogger, prepareTaskSettings, prepareConnection, firstRecord, secondRecord, List.nil_append, List.cons_append, List.append_assoc] using PrepareRun.createFailed kp e2
  cases kp with
  | none =>
    simp only [h2, traced_inWorld]
    simpa only [prepareWaited, prepareStarted, prepareHead, prepareLogger, prepareTaskSettings, prepareConnection, firstRecord, secondRecord, List.nil_append, List.cons_append, List.append_assoc] using PrepareRun.createNil
  | some kp =>
  simp only [h2, traced_inWorld]
  rcases h3 : fargate.RunTask (prepareTaskSettings ctx kp.PublicKey) (prepareConnection ctx) s2
    with ⟨⟨arn, _ | e3⟩, s3⟩
  swap
  · simp only [prepareTaskSettings, prepareConnection] at h3
    simp only [h3, traced_inWorld]
    rw [stopFargateTaskOnError_trace fargate _ ctx rfl rfl rfl]
    simpa only [prepareWaited, prepareStarted, prepareHead, prepareLogger, prepareTaskSettings, prepareConnection, firstRecord, secondRecord, List.nil_append, List.cons_append, List.append_assoc] using PrepareRun.runTaskFailed kp arn e3 _
  simp only [prepareTaskSettings, prepareConnection] at h3
  simp only [h3, traced_inWorld]
  rcases h4 : manager.Persist (firstRecord arn kp) s3 with ⟨_ | e4, s4⟩
  swap
  · simp only [firstRecord] at h4
    simp only [h4, traced_inWorld]
    rw [stopFargateTaskOnError_trace fargate _ ctx rfl rfl rfl]
    simpa only [prepareWaited, prepareStarted, prepareHead, prepareLogger, prepareTaskSettings, prepareConnection, firstRecord, secondRecord, List.nil_append, List.cons_append, List.append_assoc] using PrepareRun.persistARNFailed kp arn e4 _
  simp only [firstRecord] at h4
  simp only [h4, traced_inWorld]
  rcases h5 : fargate.WaitUntilTaskRunning arn ctx.config.Fargate.Cluster s4 with ⟨_ | e5, s5⟩
  swap
  · simp only [h5, traced_inWorld]
    rw [stopFargateTaskOnError_trace fargate _ ctx rfl rfl rfl]
    simpa only [prepareWaited, prepareStarted, prepareHead, prepareLogger, prepareTaskSettings, prepareConnection, firstRecord, secondRecord, List.nil_append, List.cons_append, List.append_assoc] using PrepareRun.waitFailed kp arn e5 _
  simp only [h5, traced_inWorld]
  rcases h6 : fargate.GetContainerIP arn ctx.config.Fargate.Cluster
    ctx.config.Fargate.EnablePublicIP s5 with ⟨⟨ip, _ | e6⟩, s6⟩
  swap
  · simp only [h6, traced_inWorld]
    rw [stopFargateTaskOnError_trace fargate _ ctx rfl rfl rfl]
    simpa only [prepareWaited, prepareStarted, prepareHead, prepareLogger, prepareTaskSettings, prepareConnection, firstRecord, secondRecord, List.nil_append, List.cons_append, List.append_assoc] using PrepareRun.getContainerIPFailed kp arn ip e6 _
  simp only [h6, traced_inWorld]
  rcases h7 : manager.Persist (secondRecord arn ip kp) s6 with ⟨_ | e7, s7⟩
  swap
  · simp only [secondRecord] at h7
    simp only [h7, traced_inWorld]
    rw [stopFargateTaskOnError_trace fargate _ ctx rfl rfl rfl]
    simpa only [prepareWaited, prepareStarted, prepareHead, prepareLogger, prepareTaskSettings, prepareConnection, firstRecord, secondRecord, List.nil_append, List.cons_append, List.append_assoc] using PrepareRun.persistIPFailed kp arn ip e7 _
  simp only [secondRecord] at h7
  simp only [h7, traced_inWorld]
  simpa only [prepareWaited, prepareStarted, prepareHead, prepareLogger, prepareTaskSettings, prepareConnection, firstRecord, secondRecord, List.nil_append, List.cons_append, List.append_assoc] using PrepareRun.success kp arn ip

/-! ## Theorems: the Prepare stage -/

theorem stopCalls_append (a b : List Event) : stopCalls (a ++ b) = stopCalls a ++ stopCalls b := by
  induction a with
  | nil => rfl
  | cons e a ih => cases e <;> simp [stopCalls, ih]

theorem persisted_append (a b : List Event) : persisted (a ++ b) = persisted a ++ persisted b := by
  induction a with
  | nil => rfl
  | cons e a ih =>
    cases e with
    | Persist data err => cases err <;> simp [persisted, ih]
    | _ => simp [persisted, ih]

theorem stopCalls_stopTrace (ctx : cli.Context) (taskARN : GoString) (err : GoError)
    (logMessage : String) (stopErr : Option GoError) :
    stopCalls (stopTrace ctx taskARN err logMessage stopErr) =
      if taskARN = [] then [] else [(taskARN, ctx.config.Fargate.Cluster)] := by
  unfold stopTrace
  by_cases h : taskARN = []
  · simp [h, stopCalls]
  · cases stopErr <;> simp [h, stopCalls]

theorem persisted_stopTrace (ctx : cli.Context) (taskARN : GoString) (err : GoError)
    (logMessage : String) (stopErr : Option GoError) :
    persisted (stopTrace ctx taskARN err logMessage stopErr) = [] := by
  unfold stopTrace
  by_cases h : taskARN = []
  · simp [h, persisted]
  · cases stopErr <;> simp [h, persisted]

theorem mem_stopTrace (ctx : cli.Context) (taskARN : GoString) (err : GoError)
    (logMessage : String) (stopErr : Option GoError) (x : Event) :
    x ∈ stopTrace ctx taskARN err logMessage stopErr ↔
      taskARN ≠ [] ∧
      (x = Event.log "error" (((prepareLogger ctx).WithField "taskARN" taskARN).WithError err)
            logMessage ∨
       x = Event.StopTask taskARN ctx.config.Fargate.Cluster stopErr ∨
       ∃ e, stopErr = some e ∧
         x = Event.log "error" (((prepareLogger ctx).WithField "taskARN" taskARN).WithError e)
           "Error during stop task") := by
  unfold stopTrace
  by_cases h : taskARN = []
  · simp [h]
  · cases stopErr <;> simp [h]

/-- C1 (counterexample): with an adapter that answers RunTask and
GetContainerIP with empty strings and no error, Prepare returns nil and the
last record persisted has an empty TaskARN and an empty ContainerIP. -/
theorem C1_empty_handle_counterexample :
    (samplePrepare [] [] none none none none []).1 = Outcome.returned none ∧
    (persisted (samplePrepare [] [] none none none none []).2.trace).getLast? =
      some { TaskARN := [], ContainerIP := [], PrivateKey := sampleKeyPair.PrivateKey } := by
  decide

/-- C1 (amended): if Prepare returns nil then exactly two Persist calls
succeeded, and the record passed to the last one carries the handle that
RunTask returned, the address that GetContainerIP returned and the private
key of the key pair that the key factory's Create returned (the pair whose
public key was passed to RunTask); its handle and address are therefore
non-empty whenever the adapter answered with non-empty values. -/
theorem C1_prepare_success_record {σ : Type} (fargate : aws.Fargate σ)
    (manager : task.MetadataManager σ) (keys : ssh.KeyFactory σ) (ctx : cli.Context) (s : σ)
    (h : (runPrepare fargate manager keys ctx s).1 = Outcome.returned none) :
    ∃ (keyPair : ssh.KeyPair) (taskARN containerIP : GoString),
      Event.Create defaultBitSize (some keyPair) none ∈
        (runPrepare fargate manager keys ctx s).2.trace ∧
      Event.RunTask (prepareTaskSettings ctx keyPair.PublicKey) (prepareConnection ctx)
          taskARN none ∈ (runPrepare fargate manager keys ctx s).2.trace ∧
      Event.GetContainerIP taskARN ctx.config.Fargate.Cluster ctx.config.Fargate.EnablePublicIP
          containerIP none ∈ (runPrepare fargate manager keys ctx s).2.trace ∧
      persisted (runPrepare fargate manager keys ctx s).2.trace =
        [{ TaskARN := taskARN, ContainerIP := [], PrivateKey := keyPair.PrivateKey },
         { TaskARN := taskARN, ContainerIP := containerIP, PrivateKey := keyPair.PrivateKey }] ∧
      (taskARN ≠ [] → containerIP ≠ [] →
        ∃ data, (persisted (runPrepare fargate manager keys ctx s).2.trace).getLast? = some data ∧
          data.TaskARN ≠ [] ∧ data.ContainerIP ≠ []) := by
  have hs := prepare_run_shape fargate manager keys ctx s
  generalize (runPrepare fargate manager keys ctx s).1 = out at hs h
  generalize (runPrepare fargate manager keys ctx s).2.trace = tr at hs
  subst h
  cases hs with
  | success keyPair taskARN containerIP =>
    refine ⟨keyPair, taskARN, containerIP, ?_, ?_, ?_, ?_, ?_⟩
    · simp [prepareWaited, prepareStarted, prepareHead]
    · simp [prepareWaited, prepareStarted]
    · simp
    · simp [prepareWaited, prepareStarted, prepareHead, persisted, firstRecord, secondRecord]
    · intro h1 h2
      refine ⟨secondRecord taskARN containerIP keyPair, ?_, h1, h2⟩
      simp [prepareWaited, prepareStarted, prepareHead, persisted, firstRecord, secondRecord]

/-- C1 (witness): the successful run of the unit tests. -/
theorem C1_prepare_success_record_witness :
    (samplePrepare (str "task-arn") (str "1.2.3.4") none none none none []).1
      = Outcome.returned none ∧
    ∃ (keyPair : ssh.KeyPair) (taskARN containerIP : GoString),
      Event.Create defaultBitSize (some keyPair) none ∈
        (samplePrepare (str "task-arn") (str "1.2.3.4") none none none none []).2.trace ∧
      persisted (samplePrepare (str "task-arn") (str "1.2.3.4") none none none none []).2.trace =
        [{ TaskARN := taskARN, ContainerIP := [], PrivateKey := keyPair.PrivateKey },
         { TaskARN := taskARN, ContainerIP := containerIP, PrivateKey := keyPair.PrivateKey }] :=
  ⟨by decide,
   (C1_prepare_success_record
      (sampleFargate (str "task-arn") (str "1.2.3.4") none none none none none)
      (sampleManager {} [] none none) (sampleKeys (some sampleKeyPair) none) testContext 0
      (by decide)).imp fun _ h => h.imp fun _ h => h.imp fun _ h => ⟨h.1, h.2.2.2.1⟩⟩

/-- C2 (counterexample): RunTask answers with the empty handle and no
error, the first Persist fails, and StopTask is not invoked at all. -/
theorem C2_empty_handle_counterexample :
    Event.RunTask (prepareTaskSettings testContext sampleKeyPair.PublicKey)
        (prepareConnection testContext) [] none ∈
      (samplePrepare [] [] none none none none [some testError]).2.trace ∧
    Event.Persist (firstRecord [] sampleKeyPair) (some testError) ∈
      (samplePrepare [] [] none none none none [some testError]).2.trace ∧
    stopCalls (samplePrepare [] [] none none none none [some testError]).2.trace = [] := by
  decide

/-- C2 (amended): in every Prepare run in which RunTask returns a non-empty
handle without error and a later step (first Persist, WaitUntilTaskRunning,
GetContainerIP or second Persist) fails, StopTask is invoked exactly once,
with that handle and the configured cluster, and the run returns an error. -/
theorem C2_prepare_stop_once_after_failure {σ : Type} (fargate : aws.Fargate σ)
    (manager : task.MetadataManager σ) (keys : ssh.KeyFactory σ) (ctx : cli.Context) (s : σ)
    (taskSettings : aws.TaskSettings) (connection : aws.ConnectionSettings)
    (taskARN : GoString) (e : GoError)
    (hrun : Event.RunTask taskSettings connection taskARN none ∈
      (runPrepare fargate manager keys ctx s).2.trace)
    (hne : taskARN ≠ [])
    (hfail : laterStepFailed e (runPrepare fargate manager keys ctx s).2.trace) :
    stopCalls (runPrepare fargate manager keys ctx s).2.trace
        = [(taskARN, ctx.config.Fargate.Cluster)] ∧
      ∃ err, (runPrepare fargate manager keys ctx s).1 = Outcome.returned (some err) := by
  have hs := prepare_run_shape fargate manager keys ctx s
  generalize (runPrepare fargate manager keys ctx s).1 = out at hs ⊢
  generalize (runPrepare fargate manager keys ctx s).2.trace = tr at hs hrun hfail ⊢
  cases hs <;>
    simp [prepareWaited, prepareStarted, prepareHead, mem_stopTrace, laterStepFailed,
      stopCalls_append, stopCalls_stopTrace, stopCalls] at hrun hfail ⊢ <;>
    simp_all

/-- C2 (witness): the unit test in which the first Persist fails. -/
theorem C2_prepare_stop_once_after_failure_witness :
    stopCalls (samplePrepare (str "task-arn") (str "1.2.3.4") none none none none
        [some testError]).2.trace
        = [(str "task-arn", testContext.config.Fargate.Cluster)] ∧
      ∃ err, (samplePrepare (str "task-arn") (str "1.2.3.4") none none none none
        [some testError]).1 = Outcome.returned (some err) :=
  C2_prepare_stop_once_after_failure
    (sampleFargate (str "task-arn") (str "1.2.3.4") none none none none none)
    (sampleManager {} [some testError] none none) (sampleKeys (some sampleKeyPair) none)
    testContext 0 (prepareTaskSettings testContext sampleKeyPair.PublicKey)
    (prepareConnection testContext) (str "task-arn") testError (by decide) (by decide)
    (Or.inl ⟨firstRecord (str "task-arn") sampleKeyPair, by decide⟩)

/-- C3 (counterexample): RunTask answers with the handle "task-arn"
together with an error, and StopTask is invoked with that handle. -/
theorem C3_handle_with_error_counterexample :
    Event.RunTask (prepareTaskSettings testContext sampleKeyPair.PublicKey)
        (prepareConnection testContext) (str "task-arn") (some testError) ∈
      (samplePrepare (str "task-arn") [] (some testError) none none none []).2.trace ∧
    stopCalls (samplePrepare (str "task-arn") [] (some testError) none none none []).2.trace
      = [(str "task-arn", str "cluster")] := by
  decide

/-- C3 (amended): in every Prepare run in which RunTask returns an error,
StopTask is never invoked when the handle returned alongside the error is
empty; when that handle is non-empty StopTask is invoked exactly once, with
it and the configured cluster. -/
theorem C3_prepare_start_failure_stop {σ : Type} (fargate : aws.Fargate σ)
    (manager : task.MetadataManager σ) (keys : ssh.KeyFactory σ) (ctx : cli.Context) (s : σ)
    (taskSettings : aws.TaskSettings) (connection : aws.ConnectionSettings)
    (taskARN : GoString) (e : GoError)
    (hrun : Event.RunTask taskSettings connection taskARN (some e) ∈
      (runPrepare fargate manager keys ctx s).2.trace) :
    stopCalls (runPrepare fargate manager keys ctx s).2.trace =
      if taskARN = [] then [] else [(taskARN, ctx.config.Fargate.Cluster)] := by
  have hs := prepare_run_shape fargate manager keys ctx s
  generalize (runPrepare fargate manager keys ctx s).1 = out at hs ⊢
  generalize (runPrepare fargate manager keys ctx s).2.trace = tr at hs hrun ⊢
  cases hs <;>
    simp [prepareWaited, prepareStarted, prepareHead, mem_stopTrace,
      stopCalls_append, stopCalls_stopTrace, stopCalls] at hrun ⊢ <;>
    simp_all

/-- C3 (witness): the unit test in which RunTask fails with an empty handle. -/
theorem C3_prepare_start_failure_stop_witness :
    stopCalls (samplePrepare [] [] (some testError) none none none []).2.trace = [] :=
  C3_prepare_start_failure_stop
    (sampleFargate [] [] none (some testError) none none none)
    (sampleManager {} [] none none) (sampleKeys (some sampleKeyPair) none)
    testContext 0 (prepareTaskSettings testContext sampleKeyPair.PublicKey)
    (prepareConnection testContext) [] testError (by decide)

theorem errors_Is_refl (e : GoError) : errors.Is e e = true := by
  cases e <;> simp [errors.Is]

theorem errors_Is_Errorf (format : String) (args : List GoString) (err target : GoError)
    (h : errors.Is err target = true) : errors.Is (fmt.Errorf format args err) target = true := by
  simp [fmt.Errorf, errors.Is, h]

/-- The error returned by Prepare does not depend on what StopTask does. -/
theorem prepare_outcome_stop_irrelevant {σ : Type} (fargate : aws.Fargate σ)
    (manager : task.MetadataManager σ) (keys : ssh.KeyFactory σ) (ctx : cli.Context) (s : σ)
    (stopTask : GoString → GoString → Op σ (Option GoError)) :
    (runPrepare { fargate with StopTask := stopTask } manager keys ctx s).1 =
      (runPrepare fargate manager keys ctx s).1 := by
  simp only [runPrepare, PrepareCommand.CustomExecute, PrepareCommand.init, PrepareCommand.mk0,
    PrepareCommand.startNewFargateTask, PrepareCommand.persistDataForLaterStages,
    PrepareCommand.waitFargateTaskReady, aws.Fargate.lift, task.MetadataManager.lift,
    ssh.KeyFactory.lift, traced_inWorld, World.record, logging.Logger.emit,
    cli.Context.Config, cli.Context.Logger]
  rcases h1 : fargate.Init s with ⟨_ | e1, s1⟩ <;> simp only [h1, traced_inWorld]
  rcases h2 : keys.Create defaultBitSize s1 with ⟨⟨_ | kp, _ | e2⟩, s2⟩ <;>
    simp only [h2, traced_inWorld]
  rcases h3 : fargate.RunTask (prepareTaskSettings ctx kp.PublicKey) (prepareConnection ctx) s2
    with ⟨⟨arn, _ | e3⟩, s3⟩ <;>
    simp only [prepareTaskSettings, prepareConnection] at h3 <;>
    simp only [h3, traced_inWorld]
  rcases h4 : manager.Persist (firstRecord arn kp) s3 with ⟨_ | e4, s4⟩ <;>
    simp only [firstRecord] at h4 <;> simp only [h4, traced_inWorld]
  rcases h5 : fargate.WaitUntilTaskRunning arn ctx.config.Fargate.Cluster s4 with ⟨_ | e5, s5⟩ <;>
    simp only [h5, traced_inWorld]
  rcases h6 : fargate.GetContainerIP arn ctx.config.Fargate.Cluster
    ctx.config.Fargate.EnablePublicIP s5 with ⟨⟨ip, _ | e6⟩, s6⟩ <;>
    simp only [h6, traced_inWorld]
  rcases h7 : manager.Persist (secondRecord arn ip kp) s6 with ⟨_ | e7, s7⟩ <;>
    simp only [secondRecord] at h7 <;> simp only [h7, traced_inWorld]

/-- C4: the error Prepare returns is the same whatever the compensating
StopTask does (replacing the adapter's StopTask by any other leaves the
outcome unchanged); when a step after the start failed with `e` the run
returns an error whose cause chain contains `e`; and a StopTask failure is
reported by an error-level log entry carrying it. -/
theorem C4_prepare_primary_error {σ : Type} (fargate : aws.Fargate σ)
    (manager : task.MetadataManager σ) (keys : ssh.KeyFactory σ) (ctx : cli.Context) (s : σ)
    (stopTask : GoString → GoString → Op σ (Option GoError)) :
    (runPrepare { fargate with StopTask := stopTask } manager keys ctx s).1 =
        (runPrepare fargate manager keys ctx s).1 ∧
    (∀ e, laterStepFailed e (runPrepare fargate manager keys ctx s).2.trace →
      ∃ err, (runPrepare fargate manager keys ctx s).1 = Outcome.returned (some err) ∧
        errors.Is err e = true) ∧
    (∀ taskARN cluster stopErr,
      Event.StopTask taskARN cluster (some stopErr) ∈
        (runPrepare fargate manager keys ctx s).2.trace →
      Event.log "error" (((prepareLogger ctx).WithField "taskARN" taskARN).WithError stopErr)
        "Error during stop task" ∈ (runPrepare fargate manager keys ctx s).2.trace) := by
  refine ⟨prepare_outcome_stop_irrelevant fargate manager keys ctx s stopTask, ?_, ?_⟩
  · intro e hfail
    have hs := prepare_run_shape fargate manager keys ctx s
    generalize (runPrepare fargate manager keys ctx s).1 = out at hs ⊢
    generalize (runPrepare fargate manager keys ctx s).2.trace = tr at hs hfail ⊢
    cases hs <;>
      simp [prepareWaited, prepareStarted, prepareHead, mem_stopTrace, laterStepFailed]
        at hfail ⊢ <;>
      (try subst hfail) <;>
      exact errors_Is_Errorf _ _ _ _ (errors_Is_Errorf _ _ _ _ (errors_Is_refl _))
  · intro taskARN cluster stopErr hstop
    have hs := prepare_run_shape fargate manager keys ctx s
    generalize (runPrepare fargate manager keys ctx s).2.trace = tr at hs hstop ⊢
    generalize (runPrepare fargate manager keys ctx s).1 = out at hs
    cases hs <;>
      simp [prepareWaited, prepareStarted, prepareHead, mem_stopTrace] at hstop ⊢ <;>
      (obtain ⟨h0, rfl, rfl, rfl⟩ := hstop; simp [h0])

/-- C4 (witness): the unit test in which WaitUntilTaskRunning fails and
StopTask fails too; the run reports the first error, and the second is logged. -/
theorem C4_prepare_primary_error_witness :
    (∃ err, (samplePrepare (str "task-arn") [] none (some testError) none
        (some testErrorStopTask) []).1 = Outcome.returned (some err) ∧
      errors.Is err testError = true) ∧
    Event.log "error"
      (((prepareLogger testContext).WithField "taskARN" (str "task-arn")).WithError
        testErrorStopTask)
      "Error during stop task" ∈
      (samplePrepare (str "task-arn") [] none (some testError) none
        (some testErrorStopTask) []).2.trace :=
  ⟨(C4_prepare_primary_error
      (sampleFargate (str "task-arn") [] none none (some testError) none (some testErrorStopTask))
      (sampleManager {} [] none none) (sampleKeys (some sampleKeyPair) none) testContext 0
      (fun _ _ s => (none, s))).2.1 testError
      (Or.inr (Or.inl ⟨str "task-arn", str "cluster", by decide⟩)),
   (C4_prepare_primary_error
      (sampleFargate (str "task-arn") [] none none (some testError) none (some testErrorStopTask))
      (sampleManager {} [] none none) (sampleKeys (some sampleKeyPair) none) testContext 0
      (fun _ _ s => (none, s))).2.2 (str "task-arn") (str "cluster") testErrorStopTask
      (by decide)⟩

/-! ## Theorems: the Run and Cleanup stages -/

/-- Shape lemma: whatever the collaborators answer, a Cleanup run started on
an empty trace has one of the shapes of `CleanupRun`. -/
theorem cleanup_run_shape {σ : Type} (fargate : aws.Fargate σ) (manager : task.MetadataManager σ)
    (ctx : cli.Context) (s : σ) :
    CleanupRun ctx (runCleanup fargate manager ctx s).1
      (runCleanup fargate manager ctx s).2.trace := by
  simp only [runCleanup, CleanupCommand.CustomExecute, CleanupCommand.init, CleanupCommand.mk0,
    aws.Fargate.lift, task.MetadataManager.lift, traced_inWorld, World.record,
    logging.Logger.emit, cli.Context.Config, cli.Context.Logger]
  rcases h1 : fargate.Init s with ⟨_ | e1, s1⟩
  swap
  · simp only [h1, traced_inWorld]
    exact CleanupRun.initFailed e1
  simp only [h1, traced_inWorld]
  rcases h2 : manager.Get s1 with ⟨⟨d, _ | e2⟩, s2⟩
  swap
  · simp only [h2, traced_inWorld]
    simpa only [cleanupHead, cleanupLogger, List.nil_append, List.cons_append,
      List.append_assoc] using CleanupRun.getFailed d e2
  simp only [h2, traced_inWorld]
  rcases h3 : fargate.StopTask d.TaskARN ctx.config.Fargate.Cluster s2 with ⟨_ | e3, s3⟩
  swap
  · simp only [h3, traced_inWorld]
    simpa only [cleanupStopped, cleanupHead, cleanupLogger, List.nil_append, List.cons_append,
      List.append_assoc] using CleanupRun.stopFailed d e3
  simp only [h3, traced_inWorld]
  rcases h4 : manager.Clear s3 with ⟨_ | e4, s4⟩
  swap
  · simp only [h4, traced_inWorld]
    simpa only [cleanupCleared, cleanupStopped, cleanupHead, cleanupLogger, List.nil_append,
      List.cons_append, List.append_assoc] using CleanupRun.clearFailed d e4
  simp only [h4, traced_inWorld]
  simpa only [cleanupCleared, cleanupStopped, cleanupHead, cleanupLogger, List.nil_append,
    List.cons_append, List.append_assoc] using CleanupRun.success d

/-- C5: with fewer than two positional arguments Run returns exactly
`ErrMissingRequiredArguments` and leaves the world as it found it: no
constructor and no collaborator is called, whatever they are. -/
theorem C5_run_missing_arguments {σ : Type} (c : RunCommand σ) (ctx : cli.Context)
    (w : World σ) (h : ctx.Args.length < 2) :
    c.CustomExecute ctx w = (some ErrMissingRequiredArguments, w) := by
  have h2 : ctx.NArg < 2 := by
    simp only [cli.Context.NArg]
    omega
  simp [RunCommand.CustomExecute, h2]

/-- C5 (witness): Run invoked with the script path only. -/
theorem C5_run_missing_arguments_witness :
    (runRun (sampleManager {} [] none none) ⟨fun _ _ s => (none, s)⟩
        ⟨fun _ s => ((none, none), s), fun _ _ _ s => (none, s),
         fun _ s => ((true, none), s), fun _ s => (none, s)⟩
        { Args := [str "/path/to/script"] } 0 []).1 = some ErrMissingRequiredArguments ∧
    (runRun (sampleManager {} [] none none) ⟨fun _ _ s => (none, s)⟩
        ⟨fun _ s => ((none, none), s), fun _ _ _ s => (none, s),
         fun _ s => ((true, none), s), fun _ s => (none, s)⟩
        { Args := [str "/path/to/script"] } 0 []).2.trace = [] :=
  ⟨congrArg Prod.fst (C5_run_missing_arguments _ { Args := [str "/path/to/script"] } ⟨0, []⟩
      (by decide)),
   congrArg (fun r => r.2.trace) (C5_run_missing_arguments _
      { Args := [str "/path/to/script"] } ⟨0, []⟩ (by decide))⟩

/-- C6: in Cleanup, if `MetadataManager.Get` fails with `e` then neither
StopTask nor Clear is invoked and the returned error's cause chain contains `e`. -/
theorem C6_cleanup_load_failure {σ : Type} (fargate : aws.Fargate σ)
    (manager : task.MetadataManager σ) (ctx : cli.Context) (s : σ)
    (taskData : task.Data) (e : GoError)
    (hget : Event.Get taskData (some e) ∈ (runCleanup fargate manager ctx s).2.trace) :
    (∀ taskARN cluster r,
      Event.StopTask taskARN cluster r ∉ (runCleanup fargate manager ctx s).2.trace) ∧
    (∀ r, Event.Clear r ∉ (runCleanup fargate manager ctx s).2.trace) ∧
    ∃ err, (runCleanup fargate manager ctx s).1 = some err ∧ errors.Is err e = true := by
  have hs := cleanup_run_shape fargate manager ctx s
  generalize (runCleanup fargate manager ctx s).1 = out at hs ⊢
  generalize (runCleanup fargate manager ctx s).2.trace = tr at hs hget ⊢
  cases hs <;> simp [cleanupCleared, cleanupStopped, cleanupHead] at hget ⊢
  obtain ⟨_, rfl⟩ := hget
  exact errors_Is_Errorf _ _ _ _ (errors_Is_refl _)

/-- C6 (witness): the unit test in which reading the task metadata fails. -/
theorem C6_cleanup_load_failure_witness :
    (∀ taskARN cluster r, Event.StopTask taskARN cluster r ∉
      (sampleCleanup testTaskData none (some testError) none none).2.trace) ∧
    (∀ r, Event.Clear r ∉ (sampleCleanup testTaskData none (some testError) none none).2.trace) ∧
    ∃ err, (sampleCleanup testTaskData none (some testError) none none).1 = some err ∧
      errors.Is err testError = true :=
  C6_cleanup_load_failure (sampleFargate [] [] none none none none none)
    (sampleManager testTaskData [] (some testError) none) testContext 0 testTaskData testError
    (by decide)

/-- C7: in Cleanup, StopTask is called with the TaskARN of the loaded record
and the configured cluster; if it fails with `e` then neither Clear nor
Persist is invoked and the returned error's cause chain contains `e`; and a
Clear call is always preceded in the trace by a StopTask call that succeeded. -/
theorem C7_cleanup_stop_failure {σ : Type} (fargate : aws.Fargate σ)
    (manager : task.MetadataManager σ) (ctx : cli.Context) (s : σ) :
    (∀ taskData, Event.Get taskData none ∈ (runCleanup fargate manager ctx s).2.trace →
      stopCalls (runCleanup fargate manager ctx s).2.trace =
        [(taskData.TaskARN, ctx.config.Fargate.Cluster)]) ∧
    (∀ taskARN cluster e,
      Event.StopTask taskARN cluster (some e) ∈ (runCleanup fargate manager ctx s).2.trace →
      (∀ r, Event.Clear r ∉ (runCleanup fargate manager ctx s).2.trace) ∧
      (∀ data r, Event.Persist data r ∉ (runCleanup fargate manager ctx s).2.trace) ∧
      ∃ err, (runCleanup fargate manager ctx s).1 = some err ∧ errors.Is err e = true) ∧
    (∀ r, Event.Clear r ∈ (runCleanup fargate manager ctx s).2.trace →
      ∃ before after taskARN cluster,
        (runCleanup fargate manager ctx s).2.trace = before ++ Event.Clear r :: after ∧
        Event.StopTask taskARN cluster none ∈ before) := by
  have hs := cleanup_run_shape fargate manager ctx s
  generalize (runCleanup fargate manager ctx s).1 = out at hs ⊢
  generalize (runCleanup fargate manager ctx s).2.trace = tr at hs ⊢
  refine ⟨?_, ?_, ?_⟩
  · intro taskData hget
    cases hs <;>
      simp [cleanupCleared, cleanupStopped, cleanupHead, stopCalls] at hget ⊢ <;>
      simp [hget]
  · intro taskARN cluster e hstop
    cases hs <;> simp [cleanupCleared, cleanupStopped, cleanupHead] at hstop ⊢
    obtain ⟨_, _, rfl⟩ := hstop
    exact errors_Is_Errorf _ _ _ _ (errors_Is_refl _)
  · intro r hclear
    cases hs with
    | clearFailed d e =>
      simp [cleanupCleared, cleanupStopped, cleanupHead] at hclear
      subst hclear
      exact ⟨cleanupStopped ctx d none ++
        [Event.log "info" ((cleanupLogger ctx).WithField "taskARN" d.TaskARN)
          "Clear metadata related to the stopped Fargate Task"], [], d.TaskARN,
        ctx.config.Fargate.Cluster, by simp [cleanupCleared], by simp [cleanupStopped]⟩
    | success d =>
      simp [cleanupCleared, cleanupStopped, cleanupHead] at hclear
      subst hclear
      exact ⟨cleanupStopped ctx d none ++
        [Event.log "info" ((cleanupLogger ctx).WithField "taskARN" d.TaskARN)
          "Clear metadata related to the stopped Fargate Task"], [], d.TaskARN,
        ctx.config.Fargate.Cluster, by simp [cleanupCleared], by simp [cleanupStopped]⟩
    | initFailed e => simp at hclear
    | getFailed d e => simp [cleanupHead] at hclear
    | stopFailed d e => simp [cleanupStopped, cleanupHead] at hclear

/-- C7 (witness): the unit test in which stopping the task fails. -/
theorem C7_cleanup_stop_failure_witness :
    stopCalls (sampleCleanup testTaskData none none (some testError) none).2.trace =
      [(str "task-arn", str "cluster")] ∧
    (∀ r, Event.Clear r ∉ (sampleCleanup testTaskData none none (some testError) none).2.trace) ∧
    ∃ err, (sampleCleanup testTaskData none none (some testError) none).1 = some err ∧
      errors.Is err testError = true :=
  ⟨(C7_cleanup_stop_failure (sampleFargate [] [] none none none none (some testError))
      (sampleManager testTaskData [] none none) testContext 0).1 testTaskData (by decide),
   ((C7_cleanup_stop_failure (sampleFargate [] [] none none none none (some testError))
      (sampleManager testTaskData [] none none) testContext 0).2.1 (str "task-arn")
      (str "cluster") testError (by decide)).1,
   ((C7_cleanup_stop_failure (sampleFargate [] [] none none none none (some testError))
      (sampleManager testTaskData [] none none) testContext 0).2.1 (str "task-arn")
      (str "cluster") testError (by decide)).2.2⟩

/-! ## Theorems: the metadata manager -/

theorem lookup_filter_ne (files : MemFiles) (path : GoString) :
    (files.filter fun entry => entry.1 ≠ path).lookup path = none := by
  induction files with
  | nil => rfl
  | cons entry files ih =>
    by_cases h : entry.1 = path
    · simp [List.filter, h, ih]
      exact fun a b _ h1 h2 => h1 h2.symm
    · have h2 : (path == entry.1) = false := by
        simp only [beq_eq_false_iff_ne, ne_eq]
        exact fun h3 => h h3.symm
      obtain ⟨k, v⟩ := entry
      simp only at h h2
      simp [List.filter, h, List.lookup, h2, ih]
      exact fun a b _ h1 h2 => h1 h2.symm

/-- Get on the file-backed manager, when the filesystem holds no file at the
record's path: the error wraps `os.ErrNotExist` and only `Exists` was called. -/
theorem fileManager_Get_missing {σ : Type} (encoder : encoding.Encoder)
    (runnerAdapter : runner.Adapter) (logger : logging.Logger) (filesDir : GoString)
    (w : World (σ × MemFiles))
    (h : w.st.2.lookup (fileManager σ encoder runnerAdapter logger filesDir).getFullFilePath
      = none) :
    (fileManager σ encoder runnerAdapter logger filesDir).Get w =
      (({}, some (fmt.Errorf "trying to access file %q: %w"
          [(fileManager σ encoder runnerAdapter logger filesDir).getFullFilePath]
          os.ErrNotExist)),
        { st := w.st
          trace := w.trace ++
            [Event.log "debug" logger "[Get] Will get existing metadata",
             Event.Exists (fileManager σ encoder runnerAdapter logger filesDir).getFullFilePath
               false none] }) := by
  generalize hp : (fileManager σ encoder runnerAdapter logger filesDir).getFullFilePath = path at h
  unfold fsMetadataManager.Get fsMetadataManager.errIfFileNotExists
  simp only [hp]
  simp [fileManager, task.NewMetadataManager, memFSBeside, fs.FS.lift, traced_inWorld,
    onSnd, memFS, h, logging.Logger.emit, World.record]

/-- Clear on the file-backed manager: when it returns nil the filesystem no
longer holds a file at the record's path. -/
theorem fileManager_Clear_removes {σ : Type} (encoder : encoding.Encoder)
    (runnerAdapter : runner.Adapter) (logger : logging.Logger) (filesDir : GoString)
    (w : World (σ × MemFiles))
    (h : ((fileManager σ encoder runnerAdapter logger filesDir).Clear w).1 = none) :
    ((fileManager σ encoder runnerAdapter logger filesDir).Clear w).2.st.2.lookup
      (fileManager σ encoder runnerAdapter logger filesDir).getFullFilePath = none := by
  revert h
  generalize hp : (fileManager σ encoder runnerAdapter logger filesDir).getFullFilePath = path
  unfold fsMetadataManager.Clear fsMetadataManager.errIfFileNotExists
  simp only [hp]
  simp only [fileManager, task.NewMetadataManager, memFSBeside, fs.FS.lift, traced_inWorld,
    onSnd, memFS, logging.Logger.emit, World.record]
  cases hl : List.lookup path w.st.2 with
  | none => simp
  | some content =>
    simp only [Option.isSome_some, hl]
    intro _
    exact lookup_filter_ne _ _

theorem traced_def {σ α : Type} (op : Op (World σ) α) (ev : α → Event) (w : World σ) :
    traced op ev w = ((op w).1, (op w).2.record (ev (op w).1)) := rfl

/-- After a Cleanup run over the in-memory filesystem that returned nil, the
record of the job is gone from the filesystem. -/
theorem cleanup_success_removes_record {σ : Type} (fargate : aws.Fargate σ)
    (encoder : encoding.Encoder) (runnerAdapter : runner.Adapter) (ctx : cli.Context) (s : σ)
    (files : MemFiles)
    (h : (runCleanupOnFiles fargate encoder runnerAdapter ctx s files).1 = none) :
    (runCleanupOnFiles fargate encoder runnerAdapter ctx s files).2.st.2.lookup
      (fileManager σ encoder runnerAdapter (cleanupLogger ctx)
        ctx.config.TaskMetadata.Directory).getFullFilePath = none := by
  revert h
  simp only [runCleanupOnFiles, CleanupCommand.CustomExecute, CleanupCommand.init,
    fsMetadataManager.asManager, aws.Fargate.lift, aws.Fargate.besideFiles, traced_inWorld,
    World.record, logging.Logger.emit, cli.Context.Config, cli.Context.Logger, onFst,
    ← cleanupLogger.eq_1]
  rcases h1 : fargate.Init s with ⟨_ | e1, s1⟩ <;> simp only [h1, traced_inWorld, traced_def]
  swap
  · intro h
    exact absurd h (by simp)
  generalize hg : fsMetadataManager.Get _ _ = rg
  rcases rg with ⟨⟨d, _ | eg⟩, w1⟩
  swap
  · intro h
    exact absurd h (by simp)
  simp only []
  generalize hs : inWorld _ _ = rs
  rcases rs with ⟨_ | es, w2⟩
  swap
  · intro h
    exact absurd h (by simp)
  simp only []
  generalize hc : fsMetadataManager.Clear _ _ = rc
  rcases rc with ⟨_ | ec, w3⟩
  swap
  · intro h
    exact absurd h (by simp)
  simp only []
  intro _
  have := fileManager_Clear_removes encoder runnerAdapter (cleanupLogger ctx)
    ctx.config.TaskMetadata.Directory _ (by rw [hc])
  rw [hc] at this
  exact this

/-- A Cleanup run over the in-memory filesystem, when the adapter initialises
and the filesystem holds no record for the job: the run fails with an error
wrapping `os.ErrNotExist` and StopTask is not invoked. -/
theorem cleanup_missing_record {σ : Type} (fargate : aws.Fargate σ)
    (encoder : encoding.Encoder) (runnerAdapter : runner.Adapter) (ctx : cli.Context) (s : σ)
    (files : MemFiles) (hinit : (fargate.Init s).1 = none)
    (hmiss : files.lookup (fileManager σ encoder runnerAdapter (cleanupLogger ctx)
      ctx.config.TaskMetadata.Directory).getFullFilePath = none) :
    (runCleanupOnFiles fargate encoder runnerAdapter ctx s files).1 =
      some (fmt.Errorf "obtaining information about the running task: %w" []
        (fmt.Errorf "trying to access file %q: %w"
          [(fileManager σ encoder runnerAdapter (cleanupLogger ctx)
            ctx.config.TaskMetadata.Directory).getFullFilePath] os.ErrNotExist)) ∧
    stopCalls (runCleanupOnFiles fargate encoder runnerAdapter ctx s files).2.trace = [] := by
  simp only [runCleanupOnFiles, CleanupCommand.CustomExecute, CleanupCommand.init,
    fsMetadataManager.asManager, aws.Fargate.lift, aws.Fargate.besideFiles, traced_inWorld,
    World.record, logging.Logger.emit, cli.Context.Config, cli.Context.Logger, onFst,
    ← cleanupLogger.eq_1]
  rcases h1 : fargate.Init s with ⟨_ | e1, s1⟩
  swap
  · rw [h1] at hinit
    exact absurd hinit (by simp)
  simp only [h1, traced_inWorld, traced_def]
  rw [fileManager_Get_missing encoder runnerAdapter (cleanupLogger ctx)
    ctx.config.TaskMetadata.Directory _ hmiss]
  simp [World.record, stopCalls_append, stopCalls]

/-- C8: over a filesystem that stores what is written, if a Cleanup run
returns nil then a second Cleanup run for the same job identity and directory,
started on the filesystem the first run left and with an adapter whose
initialisation succeeds, fails with an error whose cause chain contains
`os.ErrNotExist` and does not invoke StopTask. -/
theorem C8_second_cleanup_not_found {σ τ : Type} (fargate : aws.Fargate σ)
    (fargate2 : aws.Fargate τ) (encoder : encoding.Encoder) (runnerAdapter : runner.Adapter)
    (ctx : cli.Context) (s : σ) (s2 : τ) (files : MemFiles)
    (hfirst : (runCleanupOnFiles fargate encoder runnerAdapter ctx s files).1 = none)
    (hinit : (fargate2.Init s2).1 = none) :
    ∃ err,
      (runCleanupOnFiles fargate2 encoder runnerAdapter ctx s2
        (runCleanupOnFiles fargate encoder runnerAdapter ctx s files).2.st.2).1 = some err ∧
      errors.Is err os.ErrNotExist = true ∧
      stopCalls (runCleanupOnFiles fargate2 encoder runnerAdapter ctx s2
        (runCleanupOnFiles fargate encoder runnerAdapter ctx s files).2.st.2).2.trace = [] := by
  have hgone := cleanup_success_removes_record fargate encoder runnerAdapter ctx s files hfirst
  have h2 := cleanup_missing_record fargate2 encoder runnerAdapter ctx s2 _ hinit hgone
  exact ⟨_, h2.1, errors_Is_Errorf _ _ _ _ (errors_Is_Errorf _ _ _ _ (errors_Is_refl _)), h2.2⟩

set_option maxRecDepth 100000 in
/-- C8 (witness): a record exists, the first Cleanup succeeds and the second
one reports that the record does not exist. -/
theorem C8_second_cleanup_not_found_witness :
    (runCleanupOnFiles (sampleFargate [] [] none none none none none) sampleEncoder {}
      testContext 0 [(samplePath, str "x")]).1 = none ∧
    ∃ err,
      (runCleanupOnFiles (sampleFargate [] [] none none none none none) sampleEncoder {}
        testContext 0
        (runCleanupOnFiles (sampleFargate [] [] none none none none none) sampleEncoder {}
          testContext 0 [(samplePath, str "x")]).2.st.2).1 = some err ∧
      errors.Is err os.ErrNotExist = true ∧
      stopCalls (runCleanupOnFiles (sampleFargate [] [] none none none none none) sampleEncoder {}
        testContext 0
        (runCleanupOnFiles (sampleFargate [] [] none none none none none) sampleEncoder {}
          testContext 0 [(samplePath, str "x")]).2.st.2).2.trace = [] :=
  ⟨by decide,
   C8_second_cleanup_not_found (sampleFargate [] [] none none none none none)
     (sampleFargate [] [] none none none none none) sampleEncoder {} testContext 0 0
     [(samplePath, str "x")] (by decide) (by decide)⟩

/-! ## Theorems: the storage key -/

theorem isLowerHex_hexDigit (n : Nat) : isLowerHex (hexDigit n) = true := by
  have h : n % 16 < 16 := Nat.mod_lt _ (by decide)
  unfold isLowerHex hexDigit
  by_cases h10 : n % 16 < 10
  · simp only [h10, if_true, Fin.ofNat, Fin.val_mk, Bool.or_eq_true, Bool.and_eq_true,
      decide_eq_true_eq]
    omega
  · simp only [h10, if_false, Fin.ofNat, Fin.val_mk, Bool.or_eq_true, Bool.and_eq_true,
      decide_eq_true_eq]
    omega

theorem formatHex_length (bs : List Byte) : (formatHex bs).length = 2 * bs.length := by
  induction bs with
  | nil => rfl
  | cons b bs ih =>
    simp only [formatHex, List.flatMap_cons, List.length_append, List.length_cons,
      List.length_nil] at ih ⊢
    omega

theorem formatHex_all_lower (bs : List Byte) : (formatHex bs).all isLowerHex = true := by
  induction bs with
  | nil => rfl
  | cons b bs ih =>
    simp only [formatHex, List.flatMap_cons, List.all_append, List.all_cons, List.all_nil,
      isLowerHex_hexDigit, Bool.and_true, Bool.true_and] at ih ⊢
    exact ih

theorem Sum256_length (msg : List Byte) : (sha256.Sum256 msg).length = 32 := by
  simp [sha256.Sum256, sha256.bigEndian]

set_option maxRecDepth 100000 in
/-- C9: `GenerateFilename` is a function of the job identity: the short
token, a hyphen, and the 64 lowercase hexadecimal digits of the SHA-256
digest of ProjectURL + "-" + decimal(PipelineID) + "-" + decimal(JobID); the
identity of the unit test and the zero identity yield the documented keys. -/
theorem C9_GenerateFilename_deterministic :
    (∀ data : task.RunnerData,
      task.GenerateFilename data =
        data.ShortToken ++ str "-" ++
          formatHex (sha256.Sum256
            (data.ProjectURL ++ str "-" ++ formatInt data.PipelineID ++ str "-" ++
              formatInt data.JobID)) ∧
      (formatHex (sha256.Sum256
        (data.ProjectURL ++ str "-" ++ formatInt data.PipelineID ++ str "-" ++
          formatInt data.JobID))).length = 64 ∧
      (formatHex (sha256.Sum256
        (data.ProjectURL ++ str "-" ++ formatInt data.PipelineID ++ str "-" ++
          formatInt data.JobID))).all isLowerHex = true) ∧
    task.GenerateFilename
      { ShortToken := str "test", ProjectURL := str "http://gitlab.example.com/my/project",
        PipelineID := 1, JobID := 1 } =
      str "test-293ac3a36135714f5953037b893ee39de22e40d9c8622a626308e13b91fa0c3f" ∧
    task.GenerateFilename { ShortToken := [], ProjectURL := [], PipelineID := 0, JobID := 0 } =
      str "-76ce04054fc6b568295815cdadc2daf5f2b5e6847592d04a7cdd6cb6c13f06fe" := by
  refine ⟨fun data => ⟨rfl, ?_, formatHex_all_lower _⟩, by decide, by decide⟩
  rw [formatHex_length, Sum256_length]

/-! ## Theorems: UTF-8 -/

theorem byte_ofNat_eq (b : Byte) (n : Nat) (h : n = b.val) : (Fin.ofNat n : Byte) = b := by
  subst h
  apply Fin.ext
  simp only [Fin.ofNat, Fin.val_mk]
  exact Nat.mod_eq_of_lt b.isLt

theorem accept_bounds (p0 b1 : Nat)
    (h : ¬(b1 < (if p0 = 0xE0 then 0xA0 else if p0 = 0xF0 then 0x90 else 0x80) ∨
      (if p0 = 0xED then 0x9F else if p0 = 0xF4 then 0x8F else 0xBF) < b1)) :
    0x80 ≤ b1 ∧ b1 ≤ 0xBF ∧ (p0 = 0xE0 → 0xA0 ≤ b1) ∧ (p0 = 0xED → b1 ≤ 0x9F) ∧
      (p0 = 0xF0 → 0x90 ≤ b1) ∧ (p0 = 0xF4 → b1 ≤ 0x8F) := by
  split_ifs at h <;> omega

/-- What a successful multi-byte `DecodeRune` guarantees: the width is between
2 and the length of the input, encoding the rune gives back the bytes read,
decoding depends on those bytes only, and all of them are at least `0x80`. -/
theorem decodeRune_valid (p0 : Byte) (rest : List Byte) (h80 : 0x80 ≤ p0.val)
    (hv : ¬((utf8.DecodeRune (p0 :: rest)).1 = utf8.RuneError ∧
      (utf8.DecodeRune (p0 :: rest)).2 = 1)) :
    2 ≤ (utf8.DecodeRune (p0 :: rest)).2 ∧
    (utf8.DecodeRune (p0 :: rest)).2 ≤ (p0 :: rest).length ∧
    utf8.EncodeRune (utf8.DecodeRune (p0 :: rest)).1 =
      (p0 :: rest).take (utf8.DecodeRune (p0 :: rest)).2 ∧
    (∀ t, utf8.DecodeRune ((p0 :: rest).take (utf8.DecodeRune (p0 :: rest)).2 ++ t) =
      utf8.DecodeRune (p0 :: rest)) ∧
    (∀ b ∈ (p0 :: rest).take (utf8.DecodeRune (p0 :: rest)).2, 0x80 ≤ b.val) := by
  have h80' : ¬ p0.val < 0x80 := by omega
  by_cases hxx : p0.val < 0xC2 ∨ 0xF4 < p0.val
  · exact absurd (by simp [utf8.DecodeRune, h80', hxx]) hv
  cases rest with
  | nil => exact absurd (by simp [utf8.DecodeRune, h80', hxx]) hv
  | cons b1 rest1 =>
    by_cases hb1 : b1.val < (if p0.val = 0xE0 then 0xA0 else if p0.val = 0xF0 then 0x90 else 0x80) ∨
        (if p0.val = 0xED then 0x9F else if p0.val = 0xF4 then 0x8F else 0xBF) < b1.val
    · exact absurd (by simp [utf8.DecodeRune, h80', hxx, hb1]) hv
    have hacc := accept_bounds _ _ hb1
    have hp0 := p0.isLt
    have hb1lt := b1.isLt
    by_cases h2 : p0.val < 0xE0
    · have hd : ∀ t, utf8.DecodeRune (p0 :: b1 :: t) = (p0.val % 32 * 64 + b1.val % 64, 2) := by
        intro t
        simp [utf8.DecodeRune, h80', hxx, hb1, h2]
      rw [hd rest1]
      refine ⟨by simp, by simp, ?_, ?_, ?_⟩
      · have e1 := byte_ofNat_eq p0 (0xC0 + (p0.val % 32 * 64 + b1.val % 64) / 64) (by omega)
        have e2 := byte_ofNat_eq b1 (0x80 + (p0.val % 32 * 64 + b1.val % 64) % 64) (by omega)
        have hc1 : ¬ (p0.val % 32 * 64 + b1.val % 64 < 0x80) := by omega
        have hc2 : p0.val % 32 * 64 + b1.val % 64 < 0x800 := by omega
        unfold utf8.EncodeRune
        rw [if_neg hc1, if_pos hc2, e1, e2]
        rfl
      · intro t
        simpa using hd t
      · intro b hb
        simp at hb
        rcases hb with rfl | rfl <;> omega
    cases rest1 with
    | nil => exact absurd (by simp [utf8.DecodeRune, h80', hxx, hb1, h2]) hv
    | cons b2 rest2 =>
      by_cases hb2 : b2.val < 0x80 ∨ 0xBF < b2.val
      · exact absurd (by simp [utf8.DecodeRune, h80', hxx, hb1, h2, hb2]) hv
      have hb2lt := b2.isLt
      by_cases h3 : p0.val < 0xF0
      · have hd : ∀ t, utf8.DecodeRune (p0 :: b1 :: b2 :: t) =
            (p0.val % 16 * 4096 + b1.val % 64 * 64 + b2.val % 64, 3) := by
          intro t
          simp [utf8.DecodeRune, h80', hxx, hb1, h2, hb2, h3]
        rw [hd rest2]
        refine ⟨by simp, by simp, ?_, ?_, ?_⟩
        · have e1 := byte_ofNat_eq p0
            (0xE0 + (p0.val % 16 * 4096 + b1.val % 64 * 64 + b2.val % 64) / 4096) (by omega)
          have e2 := byte_ofNat_eq b1
            (0x80 + (p0.val % 16 * 4096 + b1.val % 64 * 64 + b2.val % 64) / 64 % 64) (by omega)
          have e3 := byte_ofNat_eq b2
            (0x80 + (p0.val % 16 * 4096 + b1.val % 64 * 64 + b2.val % 64) % 64) (by omega)
          have hc1 : ¬ (p0.val % 16 * 4096 + b1.val % 64 * 64 + b2.val % 64 < 0x80) := by omega
          have hc2 : ¬ (p0.val % 16 * 4096 + b1.val % 64 * 64 + b2.val % 64 < 0x800) := by omega
          have hc3 : ¬ (0x10FFFF < p0.val % 16 * 4096 + b1.val % 64 * 64 + b2.val % 64 ∨
              (0xD800 ≤ p0.val % 16 * 4096 + b1.val % 64 * 64 + b2.val % 64 ∧
                p0.val % 16 * 4096 + b1.val % 64 * 64 + b2.val % 64 ≤ 0xDFFF)) := by omega
          have hc4 : p0.val % 16 * 4096 + b1.val % 64 * 64 + b2.val % 64 < 0x10000 := by omega
          unfold utf8.EncodeRune
          rw [if_neg hc1, if_neg hc2, if_neg hc3, if_pos hc4, e1, e2, e3]
          rfl
        · intro t
          simpa using hd t
        · intro b hb
          simp at hb
          rcases hb with rfl | rfl | rfl <;> omega
      cases rest2 with
      | nil => exact absurd (by simp [utf8.DecodeRune, h80', hxx, hb1, h2, hb2, h3]) hv
      | cons b3 rest3 =>
        by_cases hb3 : b3.val < 0x80 ∨ 0xBF < b3.val
        · exact absurd (by simp [utf8.DecodeRune, h80', hxx, hb1, h2, hb2, h3, hb3]) hv
        have hb3lt := b3.isLt
        have hd : ∀ t, utf8.DecodeRune (p0 :: b1 :: b2 :: b3 :: t) =
            (p0.val % 8 * 262144 + b1.val % 64 * 4096 + b2.val % 64 * 64 + b3.val % 64, 4) := by
          intro t
          simp [utf8.DecodeRune, h80', hxx, hb1, h2, hb2, h3, hb3]
        rw [hd rest3]
        refine ⟨by simp, by simp, ?_, ?_, ?_⟩
        · have e1 := byte_ofNat_eq p0
            (0xF0 + (p0.val % 8 * 262144 + b1.val % 64 * 4096 + b2.val % 64 * 64 + b3.val % 64)
              / 262144) (by omega)
          have e2 := byte_ofNat_eq b1
            (0x80 + (p0.val % 8 * 262144 + b1.val % 64 * 4096 + b2.val % 64 * 64 + b3.val % 64)
              / 4096 % 64) (by omega)
          have e3 := byte_ofNat_eq b2
            (0x80 + (p0.val % 8 * 262144 + b1.val % 64 * 4096 + b2.val % 64 * 64 + b3.val % 64)
              / 64 % 64) (by omega)
          have e4 := byte_ofNat_eq b3
            (0x80 + (p0.val % 8 * 262144 + b1.val % 64 * 4096 + b2.val % 64 * 64 + b3.val % 64)
              % 64) (by omega)
          have hc1 : ¬ (p0.val % 8 * 262144 + b1.val % 64 * 4096 + b2.val % 64 * 64 +
              b3.val % 64 < 0x80) := by omega
          have hc2 : ¬ (p0.val % 8 * 262144 + b1.val % 64 * 4096 + b2.val % 64 * 64 +
              b3.val % 64 < 0x800) := by omega
          have hc3 : ¬ (0x10FFFF < p0.val % 8 * 262144 + b1.val % 64 * 4096 + b2.val % 64 * 64 +
              b3.val % 64 ∨
              (0xD800 ≤ p0.val % 8 * 262144 + b1.val % 64 * 4096 + b2.val % 64 * 64 +
                b3.val % 64 ∧
                p0.val % 8 * 262144 + b1.val % 64 * 4096 + b2.val % 64 * 64 + b3.val % 64
                  ≤ 0xDFFF)) := by omega
          have hc4 : ¬ (p0.val % 8 * 262144 + b1.val % 64 * 4096 + b2.val % 64 * 64 +
              b3.val % 64 < 0x10000) := by omega
          unfold utf8.EncodeRune
          rw [if_neg hc1, if_neg hc2, if_neg hc3, if_neg hc4, e1, e2, e3, e4]
          rfl
        · intro t
          simpa using hd t
        · intro b hb
          simp at hb
          rcases hb with rfl | rfl | rfl | rfl <;> omega

/-! ## Theorems: JSON strings -/

theorem hexDigit_val (n : Nat) :
    (hexDigit n).val = if n % 16 < 10 then 48 + n % 16 else 87 + n % 16 := by
  have h : n % 16 < 16 := Nat.mod_lt _ (by decide)
  unfold hexDigit
  simp only [Fin.ofNat, Fin.val_mk]
  split <;> omega

theorem isHex_hexDigit (n : Nat) : json.isHex (hexDigit n) = true := by
  have h : n % 16 < 16 := Nat.mod_lt _ (by decide)
  simp only [json.isHex, hexDigit_val, Bool.or_eq_true, Bool.and_eq_true, decide_eq_true_eq]
  split <;> omega

theorem hexValue_hexDigit (n : Nat) : json.hexValue (hexDigit n) = n % 16 := by
  have h : n % 16 < 16 := Nat.mod_lt _ (by decide)
  simp only [json.hexValue, hexDigit_val]
  split_ifs <;> omega

theorem scanString_plain (c : Byte) (t : List Byte) (h1 : c.val ≠ 0x22) (h2 : c.val ≠ 0x5C)
    (h3 : ¬ c.val < 0x20) :
    json.scanString (c :: t) = (json.scanString t).map fun r => (c :: r.1, r.2) := by
  rw [json.scanString.eq_def]
  simp only [h1, h2, h3, if_false]

theorem scanString_high (l t : List Byte) (h : ∀ b ∈ l, 0x80 ≤ b.val) :
    json.scanString (l ++ t) = (json.scanString t).map fun r => (l ++ r.1, r.2) := by
  induction l with
  | nil => simp
  | cons c l ih =>
    have hc := h c (List.mem_cons_self _ _)
    rw [List.cons_append, scanString_plain c _ (by omega) (by omega) (by omega),
      ih fun b hb => h b (List.mem_cons_of_mem _ hb)]
    cases json.scanString t <;> simp

theorem scanString_simpleEscape (e : Byte) (t : List Byte) (h : json.isSimpleEscape e = true) :
    json.scanString (0x5C :: e :: t) =
      (json.scanString t).map fun r => (0x5C :: e :: r.1, r.2) := by
  rw [json.scanString.eq_def]
  simp [h, Fin.coe_ofNat_eq_mod]

theorem scanString_unicodeEscape (h1 h2 h3 h4 : Byte) (t : List Byte)
    (hh1 : json.isHex h1 = true) (hh2 : json.isHex h2 = true) (hh3 : json.isHex h3 = true)
    (hh4 : json.isHex h4 = true) :
    json.scanString (0x5C :: 0x75 :: h1 :: h2 :: h3 :: h4 :: t) =
      (json.scanString t).map fun r => (0x5C :: 0x75 :: h1 :: h2 :: h3 :: h4 :: r.1, r.2) := by
  rw [json.scanString.eq_def]
  simp [hh1, hh2, hh3, hh4, Fin.coe_ofNat_eq_mod, json.isSimpleEscape]

theorem scanString_escapeByte (b : Byte) (t : List Byte) (hb : b.val < 0x80) :
    json.scanString (json.escapeByte b ++ t) =
      (json.scanString t).map fun r => (json.escapeByte b ++ r.1, r.2) := by
  unfold json.escapeByte
  by_cases hs : json.htmlSafe b = true
  · have hs' := hs
    simp only [json.htmlSafe, Bool.and_eq_true, decide_eq_true_eq, bne_iff_ne, ne_eq] at hs'
    simp only [hs, if_true, List.singleton_append]
    exact scanString_plain b t (by omega) (by omega) (by omega)
  simp only [hs, if_false, Bool.false_eq_true]
  by_cases h1 : b.val = 0x5C ∨ b.val = 0x22
  · simp only [h1, if_true, List.cons_append, List.nil_append]
    exact scanString_simpleEscape b t (by
      rcases h1 with h1 | h1 <;> simp [json.isSimpleEscape, h1])
  simp only [h1, if_false]
  by_cases h2 : b.val = 0x0A
  · simp only [h2, if_true, List.cons_append, List.nil_append]
    exact scanString_simpleEscape _ t (by decide)
  simp only [h2, if_false]
  by_cases h3 : b.val = 0x0D
  · simp only [h3, if_true, List.cons_append, List.nil_append]
    exact scanString_simpleEscape _ t (by decide)
  simp only [h3, if_false]
  by_cases h4 : b.val = 0x09
  · simp only [h4, if_true, List.cons_append, List.nil_append]
    exact scanString_simpleEscape _ t (by decide)
  simp only [h4, if_false, List.cons_append, List.nil_append]
  exact scanString_unicodeEscape _ _ _ _ t (by decide) (by decide) (isHex_hexDigit _)
    (isHex_hexDigit _)

/-- The scanner reads back the text the encoder wrote between the quotes,
whatever the string and whatever follows. -/
theorem scanString_stringLoop (n : Nat) (s t : List Byte) :
    json.scanString (json.stringLoop n s ++ t) =
      (json.scanString t).map fun r => (json.stringLoop n s ++ r.1, r.2) := by
  induction n generalizing s with
  | zero =>
    cases s <;> simp [json.stringLoop]
  | succ n ih =>
    cases s with
    | nil => simp [json.stringLoop]
    | cons b rest =>
      rw [json.stringLoop]
      by_cases hb : b.val < 0x80
      · simp only [hb, if_true, List.append_assoc]
        rw [scanString_escapeByte b _ hb, ih]
        cases json.scanString t <;> simp
      simp only [hb, if_false]
      by_cases hinv : (utf8.DecodeRune (b :: rest)).1 = utf8.RuneError ∧
          (utf8.DecodeRune (b :: rest)).2 = 1
      · simp only [hinv, and_self, if_true, List.cons_append, List.nil_append]
        rw [scanString_unicodeEscape _ _ _ _ _ (by decide) (by decide) (by decide) (by decide), ih]
        cases json.scanString t <;> simp
      simp only [hinv, if_false]
      by_cases hsep : (utf8.DecodeRune (b :: rest)).1 = 0x2028 ∨
          (utf8.DecodeRune (b :: rest)).1 = 0x2029
      · simp only [hsep, if_true, List.cons_append, List.nil_append]
        rw [scanString_unicodeEscape _ _ _ _ _ (by decide) (by decide) (by decide)
          (isHex_hexDigit _), ih]
        cases json.scanString t <;> simp
      simp only [hsep, if_false, List.append_assoc]
      have hval := decodeRune_valid b rest (by omega) hinv
      rw [scanString_high _ _ hval.2.2.2.2, ih]
      cases json.scanString t <;> simp

theorem unquoteLoop_succ (m : Nat) (c : Byte) (t : List Byte) :
    json.unquoteLoop (m + 1) (c :: t) =
      match json.unquoteStep (c :: t) with
      | none => none
      | some (out, remaining) => (json.unquoteLoop m remaining).map fun r => out ++ r := rfl

theorem unquoteStep_plain (c : Byte) (t : List Byte) (h1 : c.val ≠ 0x22)
    (h2 : c.val ≠ 0x5C) (h3 : ¬ c.val < 0x20) (h4 : c.val < 0x80) :
    json.unquoteStep (c :: t) = some ([c], t) := by
  rw [json.unquoteStep.eq_def]
  simp only [h1, h2, h3, h4, if_false, if_true, or_self]

theorem unquoteStep_rune (c : Byte) (t : List Byte) (h : 0x80 ≤ c.val) :
    json.unquoteStep (c :: t) =
      some (utf8.EncodeRune (utf8.DecodeRune (c :: t)).1,
        (c :: t).drop (utf8.DecodeRune (c :: t)).2) := by
  have h1 : c.val ≠ 0x22 := by omega
  have h2 : c.val ≠ 0x5C := by omega
  have h3 : ¬ c.val < 0x20 := by omega
  have h4 : ¬ c.val < 0x80 := by omega
  rw [json.unquoteStep.eq_def]
  simp only [h1, h2, h3, h4, if_false, or_self]

theorem unquoteStep_quoteEscape (e : Byte) (t : List Byte)
    (h : e.val = 0x22 ∨ e.val = 0x5C) :
    json.unquoteStep (0x5C :: e :: t) = some ([e], t) := by
  rw [json.unquoteStep.eq_def]
  rcases h with h | h <;> simp [h, Fin.coe_ofNat_eq_mod]

theorem unquoteStep_n (t : List Byte) :
    json.unquoteStep (0x5C :: 0x6E :: t) = some ([0x0A], t) := by
  rw [json.unquoteStep.eq_def]
  simp [Fin.coe_ofNat_eq_mod]

theorem unquoteStep_r (t : List Byte) :
    json.unquoteStep (0x5C :: 0x72 :: t) = some ([0x0D], t) := by
  rw [json.unquoteStep.eq_def]
  simp [Fin.coe_ofNat_eq_mod]

theorem unquoteStep_t (t : List Byte) :
    json.unquoteStep (0x5C :: 0x74 :: t) = some ([0x09], t) := by
  rw [json.unquoteStep.eq_def]
  simp [Fin.coe_ofNat_eq_mod]

theorem unquoteStep_unicodeEscape (h1 h2 h3 h4 : Byte) (t : List Byte)
    (hh1 : json.isHex h1 = true) (hh2 : json.isHex h2 = true) (hh3 : json.isHex h3 = true)
    (hh4 : json.isHex h4 = true)
    (hs : ¬ (0xD800 ≤ ((json.hexValue h1 * 16 + json.hexValue h2) * 16 + json.hexValue h3) * 16
        + json.hexValue h4 ∧
      ((json.hexValue h1 * 16 + json.hexValue h2) * 16 + json.hexValue h3) * 16
        + json.hexValue h4 < 0xE000)) :
    json.unquoteStep (0x5C :: 0x75 :: h1 :: h2 :: h3 :: h4 :: t) =
      some (utf8.EncodeRune (((json.hexValue h1 * 16 + json.hexValue h2) * 16 +
        json.hexValue h3) * 16 + json.hexValue h4), t) := by
  rw [json.unquoteStep.eq_def]
  simp [json.getu4, hh1, hh2, hh3, hh4, hs, Fin.coe_ofNat_eq_mod]

theorem unquoteStep_escapeByte (b : Byte) (t : List Byte) (hb : b.val < 0x80) :
    json.unquoteStep (json.escapeByte b ++ t) = some ([b], t) := by
  unfold json.escapeByte
  by_cases hs : json.htmlSafe b = true
  · have hs' := hs
    simp only [json.htmlSafe, Bool.and_eq_true, decide_eq_true_eq, bne_iff_ne, ne_eq] at hs'
    simp only [hs, if_true, List.singleton_append]
    exact unquoteStep_plain b t (by omega) (by omega) (by omega) (by omega)
  have hs' := hs
  simp only [json.htmlSafe, Bool.and_eq_true, decide_eq_true_eq, bne_iff_ne, ne_eq,
    not_and, Bool.not_eq_true] at hs'
  simp only [hs, if_false, Bool.false_eq_true]
  by_cases h1 : b.val = 0x5C ∨ b.val = 0x22
  · simp only [h1, if_true, List.cons_append, List.nil_append]
    exact unquoteStep_quoteEscape b t (by omega)
  simp only [h1, if_false]
  by_cases h2 : b.val = 0x0A
  · simp only [h2, if_true, List.cons_append, List.nil_append]
    rw [unquoteStep_n, ← byte_ofNat_eq b 0x0A h2.symm]
    rfl
  simp only [h2, if_false]
  by_cases h3 : b.val = 0x0D
  · simp only [h3, if_true, List.cons_append, List.nil_append]
    rw [unquoteStep_r, ← byte_ofNat_eq b 0x0D h3.symm]
    rfl
  simp only [h3, if_false]
  by_cases h4 : b.val = 0x09
  · simp only [h4, if_true, List.cons_append, List.nil_append]
    rw [unquoteStep_t, ← byte_ofNat_eq b 0x09 h4.symm]
    rfl
  simp only [h4, if_false, List.cons_append, List.nil_append]
  have hz : json.hexValue (0x30 : Byte) = 0 := by decide
  have hv : ((json.hexValue (0x30 : Byte) * 16 + json.hexValue (0x30 : Byte)) * 16 +
      json.hexValue (hexDigit (b.val / 16))) * 16 + json.hexValue (hexDigit (b.val % 16))
      = b.val := by
    rw [hz, hexValue_hexDigit, hexValue_hexDigit]
    omega
  rw [unquoteStep_unicodeEscape _ _ _ _ t (by decide) (by decide) (isHex_hexDigit _)
    (isHex_hexDigit _) (by rw [hv]; omega), hv]
  have hlt : b.val < 0x80 := hb
  unfold utf8.EncodeRune
  rw [if_pos hlt, byte_ofNat_eq b b.val rfl]

theorem unquoteLoop_nil (m : Nat) : json.unquoteLoop m [] = some [] := by
  cases m <;> rfl

theorem unquoteLoop_of_step (m : Nat) (x out remaining : List Byte)
    (h : json.unquoteStep x = some (out, remaining)) :
    json.unquoteLoop (m + 1) x = (json.unquoteLoop m remaining).map fun r => out ++ r := by
  cases x with
  | nil => simp [json.unquoteStep] at h
  | cons c t => rw [unquoteLoop_succ, h]

theorem escapeByte_length_pos (b : Byte) : 1 ≤ (json.escapeByte b).length := by
  unfold json.escapeByte
  split_ifs <;> simp

/-- Unquoting the text the encoder wrote for a valid UTF-8 string gives the
string back. -/
theorem unquoteLoop_stringLoop (n : Nat) :
    ∀ (s : List Byte) (m : Nat), utf8.validLoop n s = true →
      (json.stringLoop n s).length ≤ m →
      json.unquoteLoop m (json.stringLoop n s) = some s := by
  induction n with
  | zero =>
    intro s m hv _
    cases s with
    | nil => simp [json.stringLoop, unquoteLoop_nil]
    | cons b rest => simp [utf8.validLoop] at hv
  | succ n ih =>
    intro s m hv hm
    cases s with
    | nil => simp [json.stringLoop, unquoteLoop_nil]
    | cons b rest =>
      rw [json.stringLoop] at hm ⊢
      rw [utf8.validLoop] at hv
      by_cases hb : b.val < 0x80
      · simp only [hb, if_true] at hm hv ⊢
        have hpos := escapeByte_length_pos b
        rw [List.length_append] at hm
        obtain ⟨m', rfl⟩ : ∃ m', m = m' + 1 := ⟨m - 1, by omega⟩
        rw [unquoteLoop_of_step m' _ _ _ (unquoteStep_escapeByte b _ hb),
          ih rest m' hv (by omega)]
        rfl
      simp only [hb, if_false] at hm hv ⊢
      by_cases hinv : (utf8.DecodeRune (b :: rest)).1 = utf8.RuneError ∧
          (utf8.DecodeRune (b :: rest)).2 = 1
      · simp [hinv] at hv
      simp only [hinv, if_false] at hm hv ⊢
      have hval := decodeRune_valid b rest (by omega) hinv
      obtain ⟨hsz2, hszle, henc, hdec, hhigh⟩ := hval
      by_cases hsep : (utf8.DecodeRune (b :: rest)).1 = 0x2028 ∨
          (utf8.DecodeRune (b :: rest)).1 = 0x2029
      · simp only [hsep, if_true, List.cons_append, List.nil_append] at hm ⊢
        simp only [List.length_cons] at hm
        obtain ⟨m', rfl⟩ : ∃ m', m = m' + 1 := ⟨m - 1, by omega⟩
        have hz : json.hexValue (0x30 : Byte) = 0 := by decide
        have h2 : json.hexValue (0x32 : Byte) = 2 := by decide
        have hv4 : ((json.hexValue (0x32 : Byte) * 16 + json.hexValue (0x30 : Byte)) * 16 +
            json.hexValue (0x32 : Byte)) * 16 +
            json.hexValue (hexDigit ((utf8.DecodeRune (b :: rest)).1 % 16))
            = (utf8.DecodeRune (b :: rest)).1 := by
          rw [hz, h2, hexValue_hexDigit]
          rcases hsep with h | h <;> rw [h]
        rw [unquoteLoop_of_step m' _ _ _
          (unquoteStep_unicodeEscape _ _ _ _ _ (by decide) (by decide) (by decide)
            (isHex_hexDigit _) (by rw [hv4]; rcases hsep with h | h <;> rw [h] <;> decide)),
          hv4, ih _ m' hv (by omega), henc]
        simp
      simp only [hsep, if_false] at hm ⊢
      obtain ⟨k, hk⟩ : ∃ k, (utf8.DecodeRune (b :: rest)).2 = k + 1 :=
        ⟨(utf8.DecodeRune (b :: rest)).2 - 1, by omega⟩
      have htake : List.take (utf8.DecodeRune (b :: rest)).2 (b :: rest) =
          b :: List.take k rest := by rw [hk]; rfl
      have hlen : (List.take (utf8.DecodeRune (b :: rest)).2 (b :: rest)).length =
          (utf8.DecodeRune (b :: rest)).2 := by
        rw [List.length_take]
        exact Nat.min_eq_left hszle
      rw [List.length_append, hlen] at hm
      obtain ⟨m', rfl⟩ : ∃ m', m = m' + 1 := ⟨m - 1, by omega⟩
      have hd := hdec (json.stringLoop n (List.drop (utf8.DecodeRune (b :: rest)).2 (b :: rest)))
      have hstep := unquoteStep_rune b
        (List.take k rest ++
          json.stringLoop n (List.drop (utf8.DecodeRune (b :: rest)).2 (b :: rest)))
        (by omega)
      rw [htake, List.cons_append] at hd
      rw [hd] at hstep
      rw [htake, List.cons_append, unquoteLoop_of_step m' _ _ _ hstep]
      have hdrop : List.drop (utf8.DecodeRune (b :: rest)).2
          (b :: (List.take k rest ++
            json.stringLoop n (List.drop (utf8.DecodeRune (b :: rest)).2 (b :: rest)))) =
          json.stringLoop n (List.drop (utf8.DecodeRune (b :: rest)).2 (b :: rest)) := by
        rw [← List.cons_append, ← htake]
        exact List.drop_left' hlen
      rw [hdrop, ih _ m' hv (by omega), henc]
      simp

/-! ## Theorems: JSON values -/

theorem scanString_quote (t : List Byte) : json.scanString (0x22 :: t) = some ([], t) := by
  rw [json.scanString.eq_def]
  rfl

theorem htmlSafe_bounds (c : Byte) (h : json.htmlSafe c = true) :
    c.val ≠ 0x22 ∧ c.val ≠ 0x5C ∧ ¬ c.val < 0x20 ∧ c.val < 0x80 := by
  simp only [json.htmlSafe, Bool.and_eq_true, decide_eq_true_eq, bne_iff_ne, ne_eq] at h
  omega

theorem scanString_safe (x t : List Byte) (h : ∀ c ∈ x, json.htmlSafe c = true) :
    json.scanString (x ++ t) = (json.scanString t).map fun r => (x ++ r.1, r.2) := by
  induction x with
  | nil => simp
  | cons c x ih =>
    have hc := htmlSafe_bounds c (h c (List.mem_cons_self _ _))
    rw [List.cons_append, scanString_plain c _ hc.1 hc.2.1 hc.2.2.1,
      ih fun b hb => h b (List.mem_cons_of_mem _ hb)]
    cases json.scanString t <;> simp

theorem unquoteLoop_safe (x : List Byte) (h : ∀ c ∈ x, json.htmlSafe c = true) :
    ∀ m, x.length ≤ m → json.unquoteLoop m x = some x := by
  induction x with
  | nil => intro m _; exact unquoteLoop_nil m
  | cons c x ih =>
    intro m hm
    have hc := htmlSafe_bounds c (h c (List.mem_cons_self _ _))
    simp only [List.length_cons] at hm
    obtain ⟨m', rfl⟩ : ∃ m', m = m' + 1 := ⟨m - 1, by omega⟩
    rw [unquoteLoop_of_step m' _ _ _ (unquoteStep_plain c x hc.1 hc.2.1 hc.2.2.1 hc.2.2.2),
      ih (fun b hb => h b (List.mem_cons_of_mem _ hb)) m' (by omega)]
    rfl

/-- The text of a valid string between its quotes is scanned up to the closing
quote and unquotes to the string. -/
theorem string_literal (s : GoString) (h : utf8.ValidString s = true) (t : List Byte) :
    json.scanString (json.stringLoop s.length s ++ 0x22 :: t) =
      some (json.stringLoop s.length s, t) ∧
    json.unquote (json.stringLoop s.length s) = some s := by
  constructor
  · rw [scanString_stringLoop, scanString_quote]
    simp
  · exact unquoteLoop_stringLoop s.length s _ h (Nat.le_refl _)

/-! ## Theorems: base64 -/

theorem all_base64 : ∀ v, v < 64 →
    base64.decodeChar (base64.encodeChar v) = some v ∧ base64.encodeChar v ≠ 61 ∧
      json.htmlSafe (base64.encodeChar v) = true := by decide

theorem encode_safe : ∀ (b : List Byte), ∀ c ∈ base64.encode b, json.htmlSafe c = true
  | [] => by simp [base64.encode]
  | [a] => by
    intro c hc
    have ha := a.isLt
    simp only [base64.encode, List.mem_cons, List.mem_singleton, List.not_mem_nil, or_false] at hc
    rcases hc with rfl | rfl | rfl | rfl
    · exact (all_base64 _ (by omega)).2.2
    · exact (all_base64 _ (by omega)).2.2
    · decide
    · decide
  | [a, b] => by
    intro c hc
    have ha := a.isLt
    have hb := b.isLt
    simp only [base64.encode, List.mem_cons, List.mem_singleton, List.not_mem_nil, or_false] at hc
    rcases hc with rfl | rfl | rfl | rfl
    · exact (all_base64 _ (by omega)).2.2
    · exact (all_base64 _ (by omega)).2.2
    · exact (all_base64 _ (by omega)).2.2
    · decide
  | a :: b :: c :: rest => by
    intro x hx
    have ha := a.isLt
    have hb := b.isLt
    have hc := c.isLt
    simp only [base64.encode, List.mem_cons] at hx
    rcases hx with rfl | rfl | rfl | rfl | hx
    · exact (all_base64 _ (by omega)).2.2
    · exact (all_base64 _ (by omega)).2.2
    · exact (all_base64 _ (by omega)).2.2
    · exact (all_base64 _ (by omega)).2.2
    · exact encode_safe rest x hx

theorem decodeQuanta_encode : ∀ (b : List Byte), base64.decodeQuanta (base64.encode b) = some b
  | [] => by simp [base64.encode, base64.decodeQuanta]
  | [a] => by
    have ha := a.isLt
    have h0 := all_base64 (a.val / 4) (by omega)
    have h1 := all_base64 (a.val % 4 * 16) (by omega)
    simp only [base64.encode, base64.decodeQuanta, h0.1, h1.1, if_true, and_self]
    congr 1
    congr 1
    exact byte_ofNat_eq a _ (by omega)
  | [a, b] => by
    have ha := a.isLt
    have hb := b.isLt
    have h0 := all_base64 (a.val / 4) (by omega)
    have h1 := all_base64 (a.val % 4 * 16 + b.val / 16) (by omega)
    have h2 := all_base64 (b.val % 16 * 4) (by omega)
    simp only [base64.encode, base64.decodeQuanta, h0.1, h1.1, h2.1, h2.2.1, if_true, if_false]
    congr 1
    rw [byte_ofNat_eq a _ (by omega), byte_ofNat_eq b _ (by omega)]
  | a :: b :: c :: rest => by
    have ha := a.isLt
    have hb := b.isLt
    have hc := c.isLt
    have h0 := all_base64 (a.val / 4) (by omega)
    have h1 := all_base64 (a.val % 4 * 16 + b.val / 16) (by omega)
    have h2 := all_base64 (b.val % 16 * 4 + c.val / 64) (by omega)
    have h3 := all_base64 (c.val % 64) (by omega)
    simp only [base64.encode, base64.decodeQuanta, h0.1, h1.1, h2.1, h2.2.1, h3.1, h3.2.1,
      if_false, decodeQuanta_encode rest, Option.map_some']
    rw [byte_ofNat_eq a _ (by omega), byte_ofNat_eq b _ (by omega), byte_ofNat_eq c _ (by omega)]

/-- Decoding the base64 text of a byte sequence gives the sequence back. -/
theorem decode_encode (b : List Byte) : base64.decode (base64.encode b) = some b := by
  unfold base64.decode
  rw [List.filter_eq_self.mpr, decodeQuanta_encode]
  intro c hc
  have h := htmlSafe_bounds c (encode_safe b c hc)
  have h10 : c ≠ 10 := fun e => by rw [e] at h; exact h.2.2.1 (by decide)
  have h13 : c ≠ 13 := fun e => by rw [e] at h; exact h.2.2.1 (by decide)
  simp [h10, h13]

/-! ## Theorems: decoding what the encoder wrote -/

theorem skipSpace_cons (c : Byte) (t : List Byte) (h : json.isSpace c = false) :
    json.skipSpace (c :: t) = c :: t := by
  simp [json.skipSpace, h]

theorem members_succ (fuel : Nat) (q : Byte) (rest : List Byte) (target : task.Data)
    (saved : Option GoError) (h : q.val = 0x22) :
    json.members (fuel + 1) (q :: rest) target saved =
        match json.scanString rest with
        | none => none
        | some (keyLiteral, rest1) =>
          match json.unquote keyLiteral with
          | none => none
          | some key =>
            match json.skipSpace rest1 with
            | [] => none
            | colon :: rest2 =>
              if colon.val ≠ 0x3A then none
              else
                let stored : Option ((task.Data × Option GoError) × List Byte) :=
                  match json.skipSpace rest2 with
                  | [] => none
                  | v :: rest3 =>
                    if v.val = 0x22 then
                      match json.scanString rest3 with
                      | none => none
                      | some (literal, rest4) =>
                        match json.unquote literal with
                        | none => none
                        | some s =>
                          some (json.storeString target saved (json.fieldOf key) s, rest4)
                    else if (v :: rest3).take 4 = str "null" then
                      some ((json.storeNull target (json.fieldOf key), saved), rest3.drop 3)
                    else none
                match stored with
                | none => none
                | some ((target1, saved1), rest5) =>
                  match json.skipSpace rest5 with
                  | [] => none
                  | sep :: rest6 =>
                    if sep.val = 0x2C then
                      json.members fuel (json.skipSpace rest6) target1 saved1
                    else if sep.val = 0x7D then some (target1, saved1)
                    else none := by
  have h' : ¬ q.val ≠ 0x22 := by omega
  show (if q.val ≠ 0x22 then none else _) = _
  exact (if_neg h').trans rfl

/-- A member whose key is plain text and whose value is a string literal. -/
theorem members_string (fuel : Nat) (key lit s : List Byte) (sep : Byte) (t : List Byte)
    (target : task.Data) (saved : Option GoError)
    (hk : ∀ c ∈ key, json.htmlSafe c = true)
    (hl1 : ∀ r, json.scanString (lit ++ 0x22 :: r) = some (lit, r))
    (hl2 : json.unquote lit = some s) (hsep : json.isSpace sep = false) :
    json.members (fuel + 1)
        (0x22 :: (key ++ 0x22 :: 0x3A :: 0x22 :: (lit ++ 0x22 :: sep :: t))) target saved =
      if sep.val = 0x2C then
        json.members fuel (json.skipSpace t)
          (json.storeString target saved (json.fieldOf key) s).1
          (json.storeString target saved (json.fieldOf key) s).2
      else if sep.val = 0x7D then some (json.storeString target saved (json.fieldOf key) s)
      else none := by
  have hkey : json.unquote key = some key := unquoteLoop_safe key hk _ (Nat.le_refl _)
  have hc : json.skipSpace (0x3A :: 0x22 :: (lit ++ 0x22 :: sep :: t)) =
      0x3A :: 0x22 :: (lit ++ 0x22 :: sep :: t) := skipSpace_cons _ _ (by decide)
  have hq : json.skipSpace (0x22 :: (lit ++ 0x22 :: sep :: t)) =
      0x22 :: (lit ++ 0x22 :: sep :: t) := skipSpace_cons _ _ (by decide)
  rw [members_succ _ _ _ _ _ rfl, scanString_safe key _ hk, scanString_quote]
  simp only [Option.map_some', List.append_nil, hkey, hc, hq, hl1, hl2]
  rw [if_neg (by decide), if_pos (by decide)]
  rcases json.storeString target saved (json.fieldOf key) s with ⟨target1, saved1⟩
  simp only [skipSpace_cons sep t hsep]

/-- A member whose key is plain text and whose value is `null`. -/
theorem members_null (fuel : Nat) (key : List Byte) (sep : Byte) (t : List Byte)
    (target : task.Data) (saved : Option GoError)
    (hk : ∀ c ∈ key, json.htmlSafe c = true) (hsep : json.isSpace sep = false) :
    json.members (fuel + 1)
        (0x22 :: (key ++ 0x22 :: 0x3A :: 0x6E :: 0x75 :: 0x6C :: 0x6C :: sep :: t)) target saved =
      if sep.val = 0x2C then
        json.members fuel (json.skipSpace t) (json.storeNull target (json.fieldOf key)) saved
      else if sep.val = 0x7D then some (json.storeNull target (json.fieldOf key), saved)
      else none := by
  have hkey : json.unquote key = some key := unquoteLoop_safe key hk _ (Nat.le_refl _)
  have hc : json.skipSpace (0x3A :: 0x6E :: 0x75 :: 0x6C :: 0x6C :: sep :: t) =
      0x3A :: 0x6E :: 0x75 :: 0x6C :: 0x6C :: sep :: t := skipSpace_cons _ _ (by decide)
  have hq : json.skipSpace (0x6E :: 0x75 :: 0x6C :: 0x6C :: sep :: t) =
      0x6E :: 0x75 :: 0x6C :: 0x6C :: sep :: t := skipSpace_cons _ _ (by decide)
  have hn : str "null" = [0x6E, 0x75, 0x6C, 0x6C] := by decide
  have hnull : List.take 4 ((0x6E : Byte) :: 0x75 :: 0x6C :: 0x6C :: sep :: t) = str "null" := by
    rw [hn]
    rfl
  rw [members_succ _ _ _ _ _ rfl, scanString_safe key _ hk, scanString_quote]
  simp only [Option.map_some', List.append_nil, hkey, hc, hq]
  rw [if_neg (by decide), if_neg (by decide), if_pos hnull]
  simp only [List.drop_succ_cons, List.drop_zero, skipSpace_cons sep t hsep]

set_option maxRecDepth 100000 in
theorem marshal_texts :
    str "\x7b\"TaskARN\":" = 0x7B :: 0x22 :: (str "TaskARN" ++ [0x22, 0x3A]) ∧
    str ",\"ContainerIP\":" = 0x2C :: 0x22 :: (str "ContainerIP" ++ [0x22, 0x3A]) ∧
    str ",\"PrivateKey\":" = 0x2C :: 0x22 :: (str "PrivateKey" ++ [0x22, 0x3A]) ∧
    str "\x7d" = [0x7D] ∧ str "null" = [0x6E, 0x75, 0x6C, 0x6C] := by decide

set_option maxRecDepth 100000 in
theorem marshal_keys :
    ((∀ c ∈ str "TaskARN", json.htmlSafe c = true) ∧
      json.fieldOf (str "TaskARN") = some json.Field.TaskARN) ∧
    ((∀ c ∈ str "ContainerIP", json.htmlSafe c = true) ∧
      json.fieldOf (str "ContainerIP") = some json.Field.ContainerIP) ∧
    ((∀ c ∈ str "PrivateKey", json.htmlSafe c = true) ∧
      json.fieldOf (str "PrivateKey") = some json.Field.PrivateKey) := by decide

theorem Marshal_shape (d : task.Data) :
    json.Marshal d ++ [0x0A] =
      0x7B :: 0x22 :: (str "TaskARN" ++ 0x22 :: 0x3A :: 0x22 ::
        (json.stringLoop d.TaskARN.length d.TaskARN ++ 0x22 :: 0x2C :: 0x22 ::
          (str "ContainerIP" ++ 0x22 :: 0x3A :: 0x22 ::
            (json.stringLoop d.ContainerIP.length d.ContainerIP ++ 0x22 :: 0x2C :: 0x22 ::
              (str "PrivateKey" ++ 0x22 :: 0x3A ::
                (json.encodeBytes d.PrivateKey ++ [0x7D, 0x0A])))))) := by
  unfold json.Marshal json.encodeString
  rw [marshal_texts.1, marshal_texts.2.1, marshal_texts.2.2.1, marshal_texts.2.2.2.1]
  simp only [List.append_assoc, List.cons_append, List.nil_append, List.singleton_append]

theorem Decode_object (body : List Byte) (target : task.Data) :
    json.Decode (0x7B :: 0x22 :: body) target =
      match json.members (body.length + 2) (0x22 :: body) target none with
      | none => (target, some json.errRejected)
      | some (data, saved) => (data, saved) := by
  unfold json.Decode
  rw [skipSpace_cons _ _ (by decide)]
  simp only
  rw [if_neg (by decide), skipSpace_cons _ _ (by decide)]
  simp only
  rw [if_neg (by decide)]
  rfl

/-- The last member of what the encoder wrote: the private key. -/
theorem members_privateKey (fuel : Nat) (key : GoBytes) (target : task.Data) :
    json.members (fuel + 1)
        (0x22 :: (str "PrivateKey" ++ 0x22 :: 0x3A :: (json.encodeBytes key ++ [0x7D, 0x0A])))
        target none =
      some ({ target with PrivateKey := key }, none) := by
  cases key with
  | none =>
    have h : json.encodeBytes none ++ [0x7D, 0x0A] =
        0x6E :: 0x75 :: 0x6C :: 0x6C :: 0x7D :: [0x0A] := by
      unfold json.encodeBytes
      rw [marshal_texts.2.2.2.2]
      rfl
    rw [h, members_null fuel _ _ _ _ _ marshal_keys.2.2.1 (by decide), marshal_keys.2.2.2,
      if_neg (by decide), if_pos (by decide)]
    rfl
  | some b =>
    have h : json.encodeBytes (some b) ++ [0x7D, 0x0A] =
        0x22 :: (base64.encode b ++ 0x22 :: 0x7D :: [0x0A]) := by
      unfold json.encodeBytes
      simp only [List.append_assoc, List.cons_append, List.nil_append]
    rw [h, members_string fuel _ _ (base64.encode b) _ _ _ _ marshal_keys.2.2.1
        (fun r => by rw [scanString_safe _ _ (encode_safe b), scanString_quote]; simp)
        (unquoteLoop_safe _ (encode_safe b) _ (Nat.le_refl _)) (by decide),
      marshal_keys.2.2.2, if_neg (by decide), if_pos (by decide)]
    simp only [json.storeString, decode_encode]

/-- Decoding what the encoder wrote for a record whose strings are valid UTF-8
gives the record back, whatever the private key. -/
theorem Decode_Encode (d : task.Data) (h1 : utf8.ValidString d.TaskARN = true)
    (h2 : utf8.ValidString d.ContainerIP = true) :
    json.Decode (json.Encode d).1 {} = (d, none) := by
  have hs1 := string_literal d.TaskARN h1
  have hs2 := string_literal d.ContainerIP h2
  show json.Decode (json.Marshal d ++ [0x0A]) {} = (d, none)
  rw [Marshal_shape, Decode_object]
  generalize hfuel : (str "TaskARN" ++ 0x22 :: 0x3A :: 0x22 ::
        (json.stringLoop d.TaskARN.length d.TaskARN ++ 0x22 :: 0x2C :: 0x22 ::
          (str "ContainerIP" ++ 0x22 :: 0x3A :: 0x22 ::
            (json.stringLoop d.ContainerIP.length d.ContainerIP ++ 0x22 :: 0x2C :: 0x22 ::
              (str "PrivateKey" ++ 0x22 :: 0x3A ::
                (json.encodeBytes d.PrivateKey ++ [0x7D, 0x0A])))))).length = fuel
  obtain ⟨n, rfl⟩ : ∃ n, fuel = n + 1 := by
    refine ⟨fuel - 1, ?_⟩
    simp only [List.length_append, List.length_cons] at hfuel
    omega
  rw [members_string (n + 2) _ _ d.TaskARN _ _ _ _ marshal_keys.1.1
      (fun r => (hs1 r).1) (hs1 []).2 (by decide),
    if_pos (by decide), skipSpace_cons _ _ (by decide), marshal_keys.1.2,
    members_string (n + 1) _ _ d.ContainerIP _ _ _ _ marshal_keys.2.1.1
      (fun r => (hs2 r).1) (hs2 []).2 (by decide),
    if_pos (by decide), skipSpace_cons _ _ (by decide), marshal_keys.2.1.2]
  simp only [json.storeString]
  rw [members_privateKey]

/-! ## Theorems: persisting and loading a record -/

/-- Persist then Get on the file-backed manager with the JSON encoder, over
the in-memory filesystem: Persist returns nil and Get returns what the decoder
makes of the encoded record. -/
theorem persistThenGet_fileManager {σ : Type} (runnerAdapter : runner.Adapter)
    (logger : logging.Logger) (filesDir : GoString) (d : task.Data) (w : World (σ × MemFiles)) :
    persistThenGet (fileManager σ encoding.NewJSON runnerAdapter logger filesDir) d w =
      (none,
        match json.Decode (json.Encode d).1 {} with
        | (data, some err) => (data, some (fmt.Errorf "decoding JSON: %w" [] err))
        | (data, none) => (data, none)) := by
  have hne : json.Marshal d ++ [0x0A] ≠ [] := by simp
  unfold persistThenGet fsMetadataManager.Persist fsMetadataManager.Get
    fsMetadataManager.errIfFileNotExists
  generalize hp : (fileManager σ encoding.NewJSON runnerAdapter logger filesDir).getFullFilePath
    = path
  simp only [fileManager, task.NewMetadataManager, memFSBeside, fs.FS.lift, traced_inWorld,
    onSnd, memFS, logging.Logger.emit, World.record, encoding.NewJSON, json.Encode, bufferBytes,
    hne, if_false, traced_def, inWorld, Option.getD_some, List.lookup, beq_self_eq_true,
    Option.isSome_some]
  rcases json.Decode (json.Marshal d ++ [0x0A]) {} with ⟨data, _ | err⟩ <;> rfl

set_option maxRecDepth 100000 in
/-- C10 (as stated) fails: for the record whose TaskARN is the single byte
`0xFF`, Persist then Get over the in-memory filesystem with the JSON encoder
both succeed, but the record returned has the TaskARN `EF BF BD` (U+FFFD),
which differs from the TaskARN persisted. -/
theorem C10_invalid_utf8_counterexample :
    persistThenGet
        (fileManager Nat encoding.NewJSON {} (cleanupLogger testContext)
          testContext.config.TaskMetadata.Directory)
        invalidHandleData ⟨(0, []), []⟩ =
      (none, { TaskARN := [0xEF, 0xBF, 0xBD] }, none) ∧
    ([0xEF, 0xBF, 0xBD] : GoString) ≠ invalidHandleData.TaskARN := by
  rw [persistThenGet_fileManager]
  decide

/-- C10 (amended): for every record `d` whose TaskARN and ContainerIP are valid
UTF-8, with any PrivateKey (nil, empty or any bytes), Persist(d) followed by
Get on the same file-backed metadata manager with the JSON encoder, over the
in-memory filesystem in any state, succeeds in both calls and Get returns a
record equal to `d` in all three fields. -/
theorem C10_persist_get_round_trip {σ : Type} (runnerAdapter : runner.Adapter)
    (logger : logging.Logger) (filesDir : GoString) (d : task.Data) (w : World (σ × MemFiles))
    (h1 : utf8.ValidString d.TaskARN = true) (h2 : utf8.ValidString d.ContainerIP = true) :
    persistThenGet (fileManager σ encoding.NewJSON runnerAdapter logger filesDir) d w =
      (none, d, none) := by
  rw [persistThenGet_fileManager, Decode_Encode d h1 h2]

/-- C10 witness: the record of `TestPersist` has valid UTF-8 strings and comes
back unchanged. -/
theorem C10_persist_get_round_trip_witness :
    utf8.ValidString testData.TaskARN = true ∧ utf8.ValidString testData.ContainerIP = true ∧
    persistThenGet
        (fileManager Nat encoding.NewJSON {} (cleanupLogger testContext)
          testContext.config.TaskMetadata.Directory)
        testData ⟨(0, []), []⟩ = (none, testData, none) :=
  ⟨by decide, by decide,
    C10_persist_get_round_trip {} (cleanupLogger testContext)
      testContext.config.TaskMetadata.Directory testData ⟨(0, []), []⟩ (by decide) (by decide)⟩

/-! ## Theorems: the AWS adapter -/

theorem errIfNotInitialized_unset {σ : Type} (a : aws.awsFargate σ)
    (h : a.ecsSvc = none ∨ a.ec2Svc = none) :
    a.errIfNotInitialized = some aws.ErrNotInitialized := by
  unfold aws.awsFargate.errIfNotInitialized
  rcases h with h | h <;> simp [h]

theorem errIfNotInitialized_set {σ : Type} (a : aws.awsFargate σ) (ecsSvc : aws.ecsClient σ)
    (ec2Svc : aws.ec2Client σ) (h1 : a.ecsSvc = some ecsSvc) (h2 : a.ec2Svc = some ec2Svc) :
    a.errIfNotInitialized = none := by
  unfold aws.awsFargate.errIfNotInitialized
  simp [h1, h2]

/-- An Init whose session creation fails leaves the adapter as it was, so with
both clients unset when it was new. -/
theorem Init_failure_keeps_adapter {σ : Type} (a : aws.awsFargate σ) (w : World σ) (e : GoError)
    (h : (a.sessionCreator a.awsRegion w.st).1 = some e) : (a.Init w).1.2 = a := by
  unfold aws.awsFargate.Init
  rcases hs : a.sessionCreator a.awsRegion w.st with ⟨r, s1⟩
  rw [hs] at h
  simp only at h
  subst h
  simp only [traced_inWorld, hs]

/-- C12: on an adapter with a client unset (as before a successful Init),
RunTask, WaitUntilTaskRunning, StopTask and GetContainerIP each return an
error whose chain contains `ErrNotInitialized`, the two with a string result
return the empty string, and each leaves the world as it found it: no ECS or
EC2 call is made. -/
theorem C12_not_initialized {σ : Type} (a : aws.awsFargate σ)
    (h : a.ecsSvc = none ∨ a.ec2Svc = none) (taskSettings : aws.TaskSettings)
    (connection : aws.ConnectionSettings) (taskARN cluster : GoString) (usePublicIP : Bool)
    (w : World σ) :
    (∃ err, a.RunTask taskSettings connection w = (.returned ([], some err), w) ∧
      errors.Is err aws.ErrNotInitialized = true) ∧
    (∃ err, a.WaitUntilTaskRunning taskARN cluster w = (.returned (some err), w) ∧
      errors.Is err aws.ErrNotInitialized = true) ∧
    (∃ err, a.StopTask taskARN cluster w = (.returned (some err), w) ∧
      errors.Is err aws.ErrNotInitialized = true) ∧
    (∃ err, a.GetContainerIP taskARN cluster usePublicIP w = (.returned ([], some err), w) ∧
      errors.Is err aws.ErrNotInitialized = true) := by
  have hn := errIfNotInitialized_unset a h
  refine ⟨⟨fmt.Errorf "could not start AWS Fargate Task: %w" [] aws.ErrNotInitialized, ?_,
      errors_Is_Errorf _ _ _ _ (errors_Is_refl _)⟩,
    ⟨fmt.Errorf "could not wait AWS Fargate task: %w" [] aws.ErrNotInitialized, ?_,
      errors_Is_Errorf _ _ _ _ (errors_Is_refl _)⟩,
    ⟨fmt.Errorf "could not stop AWS Fargate Task: %w" [] aws.ErrNotInitialized, ?_,
      errors_Is_Errorf _ _ _ _ (errors_Is_refl _)⟩,
    ⟨fmt.Errorf "could not get container IP: %w" [] aws.ErrNotInitialized, ?_,
      errors_Is_Errorf _ _ _ _ (errors_Is_refl _)⟩⟩
  · simp only [aws.awsFargate.RunTask, hn]
  · simp only [aws.awsFargate.WaitUntilTaskRunning, hn]
  · simp only [aws.awsFargate.StopTask, hn]
  · simp only [aws.awsFargate.GetContainerIP, hn]

/-- C12 (witness): the adapter that `NewFargate` returns has both clients unset. -/
theorem C12_not_initialized_witness :
    (sampleNewFargate.ecsSvc = none ∨ sampleNewFargate.ec2Svc = none) ∧
    (∃ err, sampleNewFargate.GetContainerIP (str "param1") (str "param2") true ⟨0, []⟩ =
        (.returned ([], some err), ⟨0, []⟩) ∧
      errors.Is err aws.ErrNotInitialized = true) :=
  ⟨Or.inl rfl,
    (C12_not_initialized sampleNewFargate (Or.inl rfl) {} {} (str "param1") (str "param2") true
      ⟨0, []⟩).2.2.2⟩

theorem ec2Calls_append (l1 l2 : List Event) : ec2Calls (l1 ++ l2) = ec2Calls l1 ++ ec2Calls l2 := by
  simp [ec2Calls, List.filterMap_append]

theorem scanDetails_present (details : List (GoString × GoString)) :
    aws.scanDetails (details.map fun d => some { Name := some d.1, Value := some d.2 }) =
      some (spec.networkInterfaceID details) := by
  induction details with
  | nil => rfl
  | cons d rest ih =>
    by_cases h : d.1 = str "networkInterfaceId"
    · simp [aws.scanDetails, spec.networkInterfaceID, List.find?, h]
    · simp only [List.map_cons, aws.scanDetails, h, if_false, ih]
      simp [spec.networkInterfaceID, List.find?, h]

/-- C19: GetContainerIP on an initialised adapter.  If the describe-task call
fails, the result is the empty string and an error wrapping the cause, and
EC2 is not called.  If it succeeds and `usePublicIP` is false, the result is
the private IPv4 address of the first network interface of the first
container of the first task, and EC2 is not called.  If it succeeds and
`usePublicIP` is true, EC2 is called exactly once, for the value of the first
detail named `networkInterfaceId` of the first attachment of the first task
(the empty string if no detail has that name); its error gives the empty
string and an error wrapping the cause, and its answer gives the public IP of
the association of the first interface.  The description presupposes what it
names: the response holds the first task, container, network interface and
attachment, every detail has a name and a value, and the EC2 answer holds the
first interface with its association. -/
theorem C19_GetContainerIP {σ : Type} (a : aws.awsFargate σ) (ecsSvc : aws.ecsClient σ)
    (ec2Svc : aws.ec2Client σ) (h1 : a.ecsSvc = some ecsSvc) (h2 : a.ec2Svc = some ec2Svc)
    (taskARN cluster : GoString) (usePublicIP : Bool) (w : World σ) :
    let described :=
      ecsSvc.DescribeTasksWithContext { Cluster := some cluster, Tasks := [some taskARN] } w.st
    let run := a.GetContainerIP taskARN cluster usePublicIP w
    (∀ e, described.1.2 = some e →
      (∃ err, run.1 = .returned ([], some err) ∧ errors.Is err e = true) ∧
        ec2Calls run.2.trace = ec2Calls w.trace) ∧
    (described.1.2 = none → usePublicIP = false →
      ∀ ip, aws.privateIPOf described.1.1 = some ip →
        run.1 = .returned (ip, none) ∧ ec2Calls run.2.trace = ec2Calls w.trace) ∧
    (described.1.2 = none → usePublicIP = true →
      ∀ details : List (GoString × GoString),
        aws.detailsOf described.1.1 =
          some (details.map fun d => some { Name := some d.1, Value := some d.2 }) →
        let input : ec2.DescribeNetworkInterfacesInput :=
          { NetworkInterfaceIds := [some (spec.networkInterfaceID details)] }
        let answered := ec2Svc.DescribeNetworkInterfacesWithContext input described.2
        ec2Calls run.2.trace = ec2Calls w.trace ++ [input] ∧
        (∀ e, answered.1.2 = some e →
          ∃ err, run.1 = .returned ([], some err) ∧ errors.Is err e = true) ∧
        (answered.1.2 = none → ∀ ip, aws.publicIPOf answered.1.1 = some ip →
          run.1 = .returned (ip, none))) := by
  intro described run
  have hn := errIfNotInitialized_set a ecsSvc ec2Svc h1 h2
  rcases hd : ecsSvc.DescribeTasksWithContext
    { Cluster := some cluster, Tasks := [some taskARN] } w.st with ⟨⟨out, derr⟩, s1⟩
  have hdd : described = ((out, derr), s1) := hd
  simp only [hdd]
  refine ⟨?_, ?_, ?_⟩
  · rintro e rfl
    simp only [run, aws.awsFargate.GetContainerIP, hn, aws.awsFargate.getTaskDetails, h1,
      traced_inWorld, logging.Logger.emit, World.record, hd]
    refine ⟨⟨_, rfl, errors_Is_Errorf _ _ _ _ (errors_Is_Errorf _ _ _ _ (errors_Is_refl _))⟩, ?_⟩
    simp [ec2Calls_append, ec2Calls]
  · rintro rfl rfl ip hip
    simp only [run, aws.awsFargate.GetContainerIP, hn, aws.awsFargate.getTaskDetails, h1,
      traced_inWorld, logging.Logger.emit, World.record, hd, aws.awsFargate.extractPrivateIP, hip]
    simp [ec2Calls_append, ec2Calls]
  · rintro rfl rfl details hdet
    have hscan : (aws.detailsOf out).bind aws.scanDetails =
        some (spec.networkInterfaceID details) := by
      rw [hdet]
      exact scanDetails_present details
    rcases ha : ec2Svc.DescribeNetworkInterfacesWithContext
      { NetworkInterfaceIds := [some (spec.networkInterfaceID details)] } s1 with
      ⟨⟨dni, nerr⟩, s2⟩
    simp only []
    cases nerr with
    | some e =>
      simp only [run, aws.awsFargate.GetContainerIP, hn, aws.awsFargate.getTaskDetails, h1,
        traced_inWorld, logging.Logger.emit, World.record, hd,
        aws.awsFargate.extractNetworkInterfaceID, hscan, aws.awsFargate.getPublicIP, h2, ha]
      refine ⟨?_, ?_, ?_⟩
      · simp [ec2Calls_append, ec2Calls]
      · rintro e' he'
        cases he'
        exact ⟨_, rfl, errors_Is_Errorf _ _ _ _ (errors_Is_Errorf _ _ _ _ (errors_Is_refl _))⟩
      · intro hne
        cases hne
    | none =>
      refine ⟨?_, ?_, ?_⟩
      · simp only [run, aws.awsFargate.GetContainerIP, hn, aws.awsFargate.getTaskDetails, h1,
          traced_inWorld, logging.Logger.emit, World.record, hd,
          aws.awsFargate.extractNetworkInterfaceID, hscan, aws.awsFargate.getPublicIP, h2, ha]
        cases aws.publicIPOf dni <;> simp [ec2Calls_append, ec2Calls]
      · rintro e' he'
        cases he'
      · intro _ ip hip
        simp only [run, aws.awsFargate.GetContainerIP, hn, aws.awsFargate.getTaskDetails, h1,
          traced_inWorld, logging.Logger.emit, World.record, hd,
          aws.awsFargate.extractNetworkInterfaceID, hscan, aws.awsFargate.getPublicIP, h2, ha,
          hip]
        simp

set_option maxRecDepth 100000 in
/-- C19 (witness): the adapter of `TestGetContainerIP` after Init; the private
address is `10.0.0.1` without an EC2 call, the public one is `172.0.0.1` after
one EC2 call for `eni-1`, the first detail named `networkInterfaceId`. -/
theorem C19_GetContainerIP_witness :
    sampleAwsFargate.ecsSvc =
      some (sampleEcs none none none none (some testDescribeOutput) none) ∧
    sampleAwsFargate.ec2Svc = some (sampleEc2 (some testNetworkOutput) none) ∧
    ((sampleAwsFargate.GetContainerIP (str "param1") (str "param2") false ⟨0, []⟩).1 =
        .returned (str "10.0.0.1", none) ∧
      ec2Calls (sampleAwsFargate.GetContainerIP (str "param1") (str "param2") false
        ⟨0, []⟩).2.trace = []) ∧
    ec2Calls (sampleAwsFargate.GetContainerIP (str "param1") (str "param2") true
        ⟨0, []⟩).2.trace = [{ NetworkInterfaceIds := [some (str "eni-1")] }] ∧
    (sampleAwsFargate.GetContainerIP (str "param1") (str "param2") true ⟨0, []⟩).1 =
        .returned (str "172.0.0.1", none) := by
  have hid : spec.networkInterfaceID
      [(str "subnetId", str "subnet-1"), (str "networkInterfaceId", str "eni-1"),
        (str "networkInterfaceId", str "eni-2")] = str "eni-1" := by decide
  have hpub := (C19_GetContainerIP sampleAwsFargate _ _ rfl rfl (str "param1") (str "param2")
    true ⟨0, []⟩).2.2 rfl rfl
    [(str "subnetId", str "subnet-1"), (str "networkInterfaceId", str "eni-1"),
      (str "networkInterfaceId", str "eni-2")] rfl
  rw [hid] at hpub
  exact ⟨rfl, rfl,
    (C19_GetContainerIP sampleAwsFargate _ _ rfl rfl (str "param1") (str "param2") false
      ⟨0, []⟩).2.1 rfl rfl (str "10.0.0.1") rfl,
    hpub.1, hpub.2.2 rfl (str "172.0.0.1") rfl⟩

/-! ## Theorems: the SSH executor -/

theorem execute_run_shape {σ : Type} (s : ssh.executor σ)
    (connection : executors.ConnectionSettings) (script : GoBytes) (st : σ) :
    ExecuteRun s connection script (runExecute s connection script st).1.1
      (runExecute s connection script st).1.2.client
      (runExecute s connection script st).2.trace := by
  simp only [runExecute, ssh.executor.Execute, ssh.executor.connect, logging.Logger.emit,
    World.record, List.nil_append]
  rcases hk : s.ParsePrivateKey connection.PrivateKey with ⟨signer, _ | ke⟩
  swap
  · simp only [hk]
    exact ExecuteRun.keyInvalid ke
  simp only [hk, traced_inWorld, ← executeAddr.eq_1, ← executeConfig.eq_1]
  rcases hc : s.transport.connectClient (str "tcp") (executeAddr connection)
    (executeConfig connection signer) st with ⟨⟨cli, _ | ce⟩, s1⟩
  swap
  · simp only [hc]
    exact ExecuteRun.connectFailed signer cli ce
  simp only [hc, ssh.executor.executeScript, ssh.executor.disconnect, logging.Logger.emit,
    World.record, traced_inWorld]
  cases cli with
  | none =>
    simp only []
    exact ExecuteRun.notConnected signer
  | some cli =>
    simp only []
    rcases hn : s.transport.NewSession cli s.stdout s.stderr s1 with ⟨⟨sess, _ | ne⟩, s2⟩
    swap
    · simp only [hn]
      rcases hd : s.transport.Disconnect cli s2 with ⟨_ | de, s3⟩ <;> simp only [hd]
      · simpa only [executeConnected, executeHead, disconnectTrace, clientAfter, List.nil_append,
          List.cons_append, List.append_assoc, List.append_nil]
          using @ExecuteRun.sessionFailed σ s connection script signer cli sess ne none
      · simpa only [executeConnected, executeHead, disconnectTrace, clientAfter, List.nil_append,
          List.cons_append, List.append_assoc, List.append_nil]
          using @ExecuteRun.sessionFailed σ s connection script signer cli sess ne (some de)
    cases sess with
    | none =>
      simp only [hn]
      rcases hd : s.transport.Disconnect cli s2 with ⟨_ | de, s3⟩ <;> simp only [hd]
      · simpa only [executeConnected, executeHead, disconnectTrace, clientAfter, List.nil_append,
          List.cons_append, List.append_assoc, List.append_nil]
          using @ExecuteRun.sessionNil σ s connection script signer cli none
      · simpa only [executeConnected, executeHead, disconnectTrace, clientAfter, List.nil_append,
          List.cons_append, List.append_assoc, List.append_nil]
          using @ExecuteRun.sessionNil σ s connection script signer cli (some de)
    | some sess =>
      simp only [hn]
      rcases he : s.transport.ExecuteScript sess script.toGoString s2 with ⟨_ | ee, s3⟩ <;>
        simp only [he] <;>
        rcases hcl : s.transport.Close sess s3 with ⟨u, s4⟩ <;>
        simp only [hcl] <;>
        rcases hd : s.transport.Disconnect cli s4 with ⟨_ | de, s5⟩ <;>
        simp only [hd]
      · simpa only [executeConnected, executeHead, disconnectTrace, clientAfter, List.nil_append,
          List.cons_append, List.append_assoc, List.append_nil, Option.map_none']
          using @ExecuteRun.scriptDone σ s connection script signer cli sess none
      · simpa only [executeConnected, executeHead, disconnectTrace, clientAfter, List.nil_append,
          List.cons_append, List.append_assoc, List.append_nil, Option.map_some']
          using @ExecuteRun.scriptDone σ s connection script signer cli sess (some de)
      · simpa only [executeConnected, executeHead, disconnectTrace, clientAfter, List.nil_append,
          List.cons_append, List.append_assoc, List.append_nil]
          using @ExecuteRun.scriptFailed σ s connection script signer cli sess ee none
      · simpa only [executeConnected, executeHead, disconnectTrace, clientAfter, List.nil_append,
          List.cons_append, List.append_assoc, List.append_nil]
          using @ExecuteRun.scriptFailed σ s connection script signer cli sess ee (some de)

theorem connectionCalls_append (l1 l2 : List Event) :
    connectionCalls (l1 ++ l2) = connectionCalls l1 ++ connectionCalls l2 := by
  simp [connectionCalls]

theorem disconnectCalls_append (l1 l2 : List Event) :
    disconnectCalls (l1 ++ l2) = disconnectCalls l1 ++ disconnectCalls l2 := by
  simp [disconnectCalls, List.filterMap_append]

theorem closeCalls_append (l1 l2 : List Event) :
    closeCalls (l1 ++ l2) = closeCalls l1 ++ closeCalls l2 := by
  simp [closeCalls, List.filterMap_append]

theorem disconnectCalls_disconnectTrace (logger : logging.Logger) (cli : client.Client)
    (r : Option GoError) : disconnectCalls (disconnectTrace logger cli r) = [cli] := by
  cases r <;> rfl

theorem closeCalls_disconnectTrace (logger : logging.Logger) (cli : client.Client)
    (r : Option GoError) : closeCalls (disconnectTrace logger cli r) = [] := by
  cases r <;> rfl

theorem mem_disconnectTrace (logger : logging.Logger) (cli : client.Client) (r : Option GoError)
    (e : Event) :
    e ∈ disconnectTrace logger cli r ↔
      e = Event.log "debug" logger "[disconnect] Will disconnect from server" ∨
      e = Event.Disconnect cli r ∨
      (r = none ∧
        e = Event.log "debug" logger "[disconnect] Successfully disconnected from server") := by
  cases r <;> simp [disconnectTrace]

/-- C13: when the private key of the connection settings does not parse,
Execute returns an error that matches `errInvalidPrivateKey`, and the world it
leaves differs from the one it found by two log entries only: the connect
function, NewSession and Disconnect are not called. -/
theorem C13_invalid_private_key {σ : Type} (s : ssh.executor σ)
    (connection : executors.ConnectionSettings) (script : GoBytes) (st : σ) (e : GoError)
    (h : (s.ParsePrivateKey connection.PrivateKey).2 = some e) :
    (∃ err, (runExecute s connection script st).1.1 = .returned (some err) ∧
      errors.Is err GoError.invalidPrivateKeyNil = true) ∧
    connectionCalls (runExecute s connection script st).2.trace = [] ∧
    (runExecute s connection script st).2.st = st := by
  rcases hk : s.ParsePrivateKey connection.PrivateKey with ⟨signer, ke⟩
  rw [hk] at h
  simp only at h
  subst h
  simp only [runExecute, ssh.executor.Execute, ssh.executor.connect, logging.Logger.emit,
    World.record, List.nil_append, hk]
  exact ⟨⟨_, rfl, rfl⟩, rfl, trivial⟩

set_option maxRecDepth 100000 in
/-- C13 (witness): the unit test `Private key invalid`. -/
theorem C13_invalid_private_key_witness :
    (sampleParsePrivateKey (testConnection false).PrivateKey).2 =
      some (.errorString "ssh: no key found") ∧
    (∃ err, (runExecute (sampleExecutor (sampleTransport none none none none none none))
        (testConnection false) testScript 0).1.1 = .returned (some err) ∧
      errors.Is err GoError.invalidPrivateKeyNil = true) ∧
    connectionCalls (runExecute (sampleExecutor (sampleTransport none none none none none none))
      (testConnection false) testScript 0).2.trace = [] ∧
    (runExecute (sampleExecutor (sampleTransport none none none none none none))
      (testConnection false) testScript 0).2.st = 0 :=
  ⟨by decide,
    C13_invalid_private_key (sampleExecutor (sampleTransport none none none none none none))
      (testConnection false) testScript 0 (.errorString "ssh: no key found") (by decide)⟩

/-- C14: in every Execute call in which the connect function returned the
client `cli` without an error, Disconnect is called exactly once, on `cli`;
if NewSession returned a session without an error, Close is called exactly
once, on that session, and before Disconnect; and if Execute returns nil the
executor holds no client afterwards. -/
theorem C14_disconnect_once {σ : Type} (s : ssh.executor σ)
    (connection : executors.ConnectionSettings) (script : GoBytes) (st : σ)
    (network addr : GoString) (config : ssh.ClientConfig) (cli : client.Client)
    (h : Event.connectClient network addr config (some cli) none ∈
      (runExecute s connection script st).2.trace) :
    disconnectCalls (runExecute s connection script st).2.trace = [cli] ∧
    (∀ sess stdout stderr,
      Event.NewSession cli stdout stderr (some sess) none ∈
        (runExecute s connection script st).2.trace →
      closeCalls (runExecute s connection script st).2.trace = [sess] ∧
      ∃ pre mid post r, (runExecute s connection script st).2.trace =
        pre ++ Event.Close sess :: mid ++ Event.Disconnect cli r :: post) ∧
    ((runExecute s connection script st).1.1 = .returned none →
      (runExecute s connection script st).1.2.client = none) := by
  have hs := execute_run_shape s connection script st
  generalize (runExecute s connection script st).1.1 = out at hs ⊢
  generalize (runExecute s connection script st).1.2.client = after at hs ⊢
  generalize (runExecute s connection script st).2.trace = tr at hs h ⊢
  cases hs with
  | keyInvalid e => simp [executeHead] at h
  | connectFailed signer c e => simp [executeHead] at h
  | notConnected signer => simp [executeConnected, executeHead] at h
  | sessionFailed signer c sess e r =>
    simp [executeConnected, executeHead, mem_disconnectTrace] at h
    obtain ⟨_, _, _, rfl⟩ := h
    refine ⟨?_, ?_, ?_⟩
    · simp only [disconnectCalls_append, disconnectCalls_disconnectTrace]
      rfl
    · intro sess1 so se hn
      simp [executeConnected, executeHead, mem_disconnectTrace] at hn
    · intro ho
      simp at ho
  | sessionNil signer c r =>
    simp [executeConnected, executeHead, mem_disconnectTrace] at h
    obtain ⟨_, _, _, rfl⟩ := h
    refine ⟨?_, ?_, ?_⟩
    · simp only [disconnectCalls_append, disconnectCalls_disconnectTrace]
      rfl
    · intro sess1 so se hn
      simp [executeConnected, executeHead, mem_disconnectTrace] at hn
    · intro ho
      simp at ho
  | scriptFailed signer c sess e r =>
    simp [executeConnected, executeHead, mem_disconnectTrace] at h
    obtain ⟨_, _, _, rfl⟩ := h
    refine ⟨?_, ?_, ?_⟩
    · simp only [disconnectCalls_append, disconnectCalls_disconnectTrace]
      rfl
    · intro sess1 so se hn
      simp [executeConnected, executeHead, mem_disconnectTrace] at hn
      obtain ⟨_, _, rfl⟩ := hn
      refine ⟨?_, ?_⟩
      · simp only [closeCalls_append, closeCalls_disconnectTrace]
        rfl
      · refine ⟨executeConnected s.logger connection signer (some cli) ++
            [Event.NewSession cli s.stdout s.stderr (some sess1) none,
             Event.ExecuteScript sess1 script.toGoString (some e)],
          [Event.log "debug" s.logger "[disconnect] Will disconnect from server"],
          (match r with
            | some _ => []
            | none =>
              [Event.log "debug" s.logger "[disconnect] Successfully disconnected from server"]),
          r, ?_⟩
        simp [disconnectTrace]
    · intro ho
      simp at ho
  | scriptDone signer c sess r =>
    simp [executeConnected, executeHead, mem_disconnectTrace] at h
    obtain ⟨_, _, _, rfl⟩ := h
    refine ⟨?_, ?_, ?_⟩
    · simp only [disconnectCalls_append, disconnectCalls_disconnectTrace]
      rfl
    · intro sess1 so se hn
      simp [executeConnected, executeHead, mem_disconnectTrace] at hn
      obtain ⟨_, _, rfl⟩ := hn
      refine ⟨?_, ?_⟩
      · simp only [closeCalls_append, closeCalls_disconnectTrace]
        rfl
      · refine ⟨executeConnected s.logger connection signer (some cli) ++
            [Event.NewSession cli s.stdout s.stderr (some sess1) none,
             Event.ExecuteScript sess1 script.toGoString none,
             Event.log "debug" s.logger "[executeScript] Command executed"],
          [Event.log "debug" s.logger "[Execute] Successfully executed script",
           Event.log "debug" s.logger "[disconnect] Will disconnect from server"],
          (match r with
            | some _ => []
            | none =>
              [Event.log "debug" s.logger "[disconnect] Successfully disconnected from server"]),
          r, ?_⟩
        simp [disconnectTrace]
    · intro ho
      cases r with
      | none => rfl
      | some e => simp at ho

set_option maxRecDepth 100000 in
/-- C14 (witness): the unit test `Execute with success`. -/
theorem C14_disconnect_once_witness :
    Event.connectClient (str "tcp") (str "localhost:22")
        (executeConfig (testConnection true) (some ⟨str "valid key"⟩)) (some ⟨7⟩) none ∈
      (runExecute (sampleExecutor (sampleTransport (some ⟨7⟩) none (some ⟨3⟩) none none none))
        (testConnection true) testScript 0).2.trace ∧
    disconnectCalls
      (runExecute (sampleExecutor (sampleTransport (some ⟨7⟩) none (some ⟨3⟩) none none none))
        (testConnection true) testScript 0).2.trace = [⟨7⟩] ∧
    closeCalls
      (runExecute (sampleExecutor (sampleTransport (some ⟨7⟩) none (some ⟨3⟩) none none none))
        (testConnection true) testScript 0).2.trace = [⟨3⟩] ∧
    (runExecute (sampleExecutor (sampleTransport (some ⟨7⟩) none (some ⟨3⟩) none none none))
      (testConnection true) testScript 0).1.2.client = none := by
  have h := C14_disconnect_once
    (sampleExecutor (sampleTransport (some ⟨7⟩) none (some ⟨3⟩) none none none))
    (testConnection true) testScript 0 (str "tcp") (str "localhost:22")
    (executeConfig (testConnection true) (some ⟨str "valid key"⟩)) ⟨7⟩ (by decide)
  exact ⟨by decide, h.1, (h.2.1 ⟨3⟩ os.Stdout os.Stderr (by decide)).1, h.2.2 (by decide)⟩

theorem errors_chain_Errorf (format : String) (args : List GoString) (err : GoError) :
    errors.chain (fmt.Errorf format args err) = fmt.Errorf format args err :: errors.chain err :=
  rfl

theorem errors_Is_Errorf_eq (format : String) (args : List GoString) (err target : GoError) :
    errors.Is (fmt.Errorf format args err) target =
      (decide (fmt.Errorf format args err = target) || errors.Is err target) := rfl

/-- C15: the error Execute returns once the connect step has succeeded.  If
NewSession or ExecuteScript fails with `e1`, Execute returns the error
`executing script: ...` wrapping `e1`, whatever Disconnect answers: its chain
is two wrappers followed by the chain of `e1`, so an error `e2` of Disconnect
is matched only if it is one of these.  If ExecuteScript succeeds and
Disconnect fails with `e2`, Execute returns an error wrapping `e2`.  Execute
returns nil only if ExecuteScript and Disconnect both returned nil. -/
theorem C15_execute_errors {σ : Type} (s : ssh.executor σ)
    (connection : executors.ConnectionSettings) (script : GoBytes) (st : σ) :
    (∀ e1,
      ((∃ cli stdout stderr sess, Event.NewSession cli stdout stderr sess (some e1) ∈
          (runExecute s connection script st).2.trace) ∨
        (∃ sess text, Event.ExecuteScript sess text (some e1) ∈
          (runExecute s connection script st).2.trace)) →
      ∃ inner,
        (runExecute s connection script st).1.1 =
          .returned (some (fmt.Errorf "executing script: %w" [] inner)) ∧
        (inner = fmt.Errorf "creating session for ssh client: %w" [] e1 ∨
          inner = fmt.Errorf "executing remote script: %w" [] e1) ∧
        errors.Is (fmt.Errorf "executing script: %w" [] inner) e1 = true ∧
        errors.chain (fmt.Errorf "executing script: %w" [] inner) =
          fmt.Errorf "executing script: %w" [] inner :: inner :: errors.chain e1 ∧
        ∀ e2, e2 ≠ fmt.Errorf "executing script: %w" [] inner → e2 ≠ inner →
          errors.Is e1 e2 = false →
          errors.Is (fmt.Errorf "executing script: %w" [] inner) e2 = false) ∧
    (∀ e2 cli,
      (∃ sess text, Event.ExecuteScript sess text none ∈
        (runExecute s connection script st).2.trace) →
      Event.Disconnect cli (some e2) ∈ (runExecute s connection script st).2.trace →
      ∃ err, (runExecute s connection script st).1.1 = .returned (some err) ∧
        errors.Is err e2 = true) ∧
    ((runExecute s connection script st).1.1 = .returned none →
      (∃ sess text, Event.ExecuteScript sess text none ∈
        (runExecute s connection script st).2.trace) ∧
      (∃ cli, Event.Disconnect cli none ∈ (runExecute s connection script st).2.trace)) := by
  have hs := execute_run_shape s connection script st
  generalize (runExecute s connection script st).1.1 = out at hs ⊢
  generalize (runExecute s connection script st).1.2.client = after at hs
  generalize (runExecute s connection script st).2.trace = tr at hs ⊢
  have hwrap : ∀ (format : String) (e1 : GoError),
      errors.Is (fmt.Errorf "executing script: %w" [] (fmt.Errorf format [] e1)) e1 = true ∧
      errors.chain (fmt.Errorf "executing script: %w" [] (fmt.Errorf format [] e1)) =
        fmt.Errorf "executing script: %w" [] (fmt.Errorf format [] e1) ::
          fmt.Errorf format [] e1 :: errors.chain e1 ∧
      ∀ e2, e2 ≠ fmt.Errorf "executing script: %w" [] (fmt.Errorf format [] e1) →
        e2 ≠ fmt.Errorf format [] e1 → errors.Is e1 e2 = false →
        errors.Is (fmt.Errorf "executing script: %w" [] (fmt.Errorf format [] e1)) e2 = false := by
    intro format e1
    refine ⟨errors_Is_Errorf _ _ _ _ (errors_Is_Errorf _ _ _ _ (errors_Is_refl _)), rfl, ?_⟩
    intro e2 h1 h2 h3
    rw [errors_Is_Errorf_eq, errors_Is_Errorf_eq, h3]
    simp [Ne.symm h1, Ne.symm h2]
  cases hs with
  | keyInvalid e => simp [executeHead]
  | connectFailed signer c e => simp [executeHead]
  | notConnected signer => simp [executeConnected, executeHead]
  | sessionFailed signer c sess e r =>
    refine ⟨?_, ?_, ?_⟩
    · intro e1 h1
      have he : e1 = e := by
        simpa [executeConnected, executeHead, mem_disconnectTrace, eq_comm] using h1
      subst he
      exact ⟨_, rfl, Or.inl rfl, hwrap _ _⟩
    · intro e2 cli hx
      simp [executeConnected, executeHead, mem_disconnectTrace] at hx
    · simp
  | sessionNil signer c r =>
    refine ⟨?_, ?_, ?_⟩
    · intro e1 h1
      simp [executeConnected, executeHead, mem_disconnectTrace] at h1
    · intro e2 cli hx
      simp [executeConnected, executeHead, mem_disconnectTrace] at hx
    · simp
  | scriptFailed signer c sess e r =>
    refine ⟨?_, ?_, ?_⟩
    · intro e1 h1
      have he : e1 = e := by
        simpa [executeConnected, executeHead, mem_disconnectTrace, eq_comm] using h1
      subst he
      exact ⟨_, rfl, Or.inr rfl, hwrap _ _⟩
    · intro e2 cli hx
      simp [executeConnected, executeHead, mem_disconnectTrace] at hx
    · simp
  | scriptDone signer c sess r =>
    refine ⟨?_, ?_, ?_⟩
    · intro e1 h1
      simp [executeConnected, executeHead, mem_disconnectTrace] at h1
    · intro e2 cli _ hd
      simp [executeConnected, executeHead, mem_disconnectTrace] at hd
      obtain ⟨_, rfl⟩ := hd
      exact ⟨_, rfl, errors_Is_Errorf _ _ _ _ (errors_Is_Errorf _ _ _ _ (errors_Is_refl _))⟩
    · intro ho
      cases r with
      | some e => simp at ho
      | none =>
        refine ⟨⟨sess, script.toGoString, ?_⟩, ⟨c, ?_⟩⟩
        · simp [executeConnected, executeHead]
        · simp [executeConnected, executeHead, mem_disconnectTrace]

set_option maxRecDepth 100000 in
/-- C15 (witness): the unit test `Error on disconnect from server when script
execution also failed`: the script error is reported, not the one of Disconnect. -/
theorem C15_execute_errors_witness :
    Event.Disconnect ⟨7⟩ (some testError) ∈
      (runExecute (sampleExecutor
          (sampleTransport (some ⟨7⟩) none (some ⟨3⟩) none (some testErrorScript) (some testError)))
        (testConnection true) testScript 0).2.trace ∧
    ∃ inner,
      (runExecute (sampleExecutor
          (sampleTransport (some ⟨7⟩) none (some ⟨3⟩) none (some testErrorScript) (some testError)))
        (testConnection true) testScript 0).1.1 =
          .returned (some (fmt.Errorf "executing script: %w" [] inner)) ∧
      (inner = fmt.Errorf "creating session for ssh client: %w" [] testErrorScript ∨
        inner = fmt.Errorf "executing remote script: %w" [] testErrorScript) ∧
      errors.Is (fmt.Errorf "executing script: %w" [] inner) testErrorScript = true ∧
      errors.chain (fmt.Errorf "executing script: %w" [] inner) =
        fmt.Errorf "executing script: %w" [] inner :: inner :: errors.chain testErrorScript ∧
      ∀ e2, e2 ≠ fmt.Errorf "executing script: %w" [] inner → e2 ≠ inner →
        errors.Is testErrorScript e2 = false →
        errors.Is (fmt.Errorf "executing script: %w" [] inner) e2 = false :=
  ⟨by decide,
    (C15_execute_errors (sampleExecutor
        (sampleTransport (some ⟨7⟩) none (some ⟨3⟩) none (some testErrorScript) (some testError)))
      (testConnection true) testScript 0).1 testErrorScript
      (Or.inr ⟨⟨3⟩, str "echo 1", by decide⟩)⟩

/-! ## Theorems: a session -/

/-- C16: `ExecuteScript` starts the remote command and waits on the `select`
statement once.  If the context is done first, it then sends exactly one
signal, SIGINT, and returns at once, without closing the session and without
waiting again: it returns nil if the signal was sent without an error, else
an error wrapping that of `Signal`.  If the result of the command is received
first, no signal is sent and `ExecuteScript` returns nil exactly when the
command returned no error. -/
theorem C16_execute_script_select {σ : Type} (rt : session.Runtime σ) (script : GoString)
    (st : σ) :
    (Event.selected .ctxDone ∈
        (session.defaultSession.ExecuteScript rt script ⟨st, []⟩).2.trace →
      ∃ r, (session.defaultSession.ExecuteScript rt script ⟨st, []⟩).2.trace =
          [Event.goRun script, Event.selected .ctxDone, Event.Signal ssh.SIGINT r] ∧
        signalsSent (session.defaultSession.ExecuteScript rt script ⟨st, []⟩).2.trace =
          [ssh.SIGINT] ∧
        (session.defaultSession.ExecuteScript rt script ⟨st, []⟩).1 =
          r.map (fmt.Errorf "killing SSH command: %w" []) ∧
        (r = none → (session.defaultSession.ExecuteScript rt script ⟨st, []⟩).1 = none)) ∧
    (∀ e, Event.selected (.waitErr e) ∈
        (session.defaultSession.ExecuteScript rt script ⟨st, []⟩).2.trace →
      (session.defaultSession.ExecuteScript rt script ⟨st, []⟩).2.trace =
          [Event.goRun script, Event.selected (.waitErr e)] ∧
        signalsSent (session.defaultSession.ExecuteScript rt script ⟨st, []⟩).2.trace = [] ∧
        ((session.defaultSession.ExecuteScript rt script ⟨st, []⟩).1 = none ↔ e = none)) := by
  simp only [session.defaultSession.ExecuteScript, traced_inWorld, List.nil_append]
  rcases hg : rt.goRun script st with ⟨u, s1⟩
  simp only []
  rcases hsel : rt.select s1 with ⟨sel, s2⟩
  cases sel with
  | ctxDone =>
    simp only []
    rcases hsig : rt.Signal ssh.SIGINT s2 with ⟨_ | se, s3⟩
    · simp only [hsig]
      refine ⟨fun _ => ⟨none, ?_⟩, ?_⟩
      · simp [signalsSent]
      · intro e he
        simp at he
    · simp only [hsig]
      refine ⟨fun _ => ⟨some se, ?_⟩, ?_⟩
      · simp [signalsSent]
      · intro e he
        simp at he
  | waitErr e =>
    cases e with
    | none =>
      simp only []
      refine ⟨fun h => by simp at h, ?_⟩
      intro e1 he
      simp at he
      subst he
      exact ⟨rfl, rfl, by simp⟩
    | some e =>
      simp only []
      refine ⟨fun h => by simp at h, ?_⟩
      intro e1 he
      simp at he
      subst he
      exact ⟨rfl, rfl, by simp⟩

/-! ## Theorems: the exit code -/

theorem errors_Is_buildFailure (e : GoError) :
    errors.Is e (GoError.buildFailureNil "") = (errors.chain e).any GoError.isBuildFailure := by
  induction e with
  | errorString text => simp [errors.Is, errors.chain, GoError.isBuildFailure]
  | wrapError format args err ih =>
    simp [errors.Is, errors.chain, GoError.isBuildFailure, ih]
  | invalidPrivateKey inner ih =>
    simp [errors.Is, errors.chain, GoError.isBuildFailure, GoError.isInvalidPrivateKey, ih]
  | invalidPrivateKeyNil =>
    simp [errors.Is, errors.chain, GoError.isBuildFailure, GoError.isInvalidPrivateKey]
  | buildFailure msg err ih => simp [errors.Is, errors.chain, GoError.isBuildFailure]
  | buildFailureNil msg => simp [errors.Is, errors.chain, GoError.isBuildFailure]

theorem exitCalls_append (l1 l2 : List Event) :
    exitCalls (l1 ++ l2) = exitCalls l1 ++ exitCalls l2 := by
  simp [exitCalls, List.filterMap_append]

/-- C17: `GenerateExitFromError` calls the exiter exactly once: with the
build-failure exit code if the chain of the error contains a
`BuildFailureError`, at any depth, and with the system-failure exit code for
every other error (and for nil). -/
theorem C17_exit_code {σ : Type} (a : runner.Adapter) (osExiter : Int → Op σ Unit)
    (err : Option GoError) (w : World σ) :
    exitCalls (a.GenerateExitFromError osExiter err w).2.trace =
      exitCalls w.trace ++
        [if (match err with
            | none => false
            | some e => (errors.chain e).any GoError.isBuildFailure)
          then a.buildFailureExitCode else a.systemFailureExitCode] := by
  simp only [runner.Adapter.GenerateExitFromError, traced_inWorld, exitCalls_append]
  cases err with
  | none => rfl
  | some e =>
    simp only [errors_Is_buildFailure]
    rfl

set_option maxRecDepth 100000 in
/-- C16 (witness): a context that is done before the command finishes, as in
the integration test `context finished before command`. -/
theorem C16_execute_script_select_witness :
    Event.selected .ctxDone ∈
      (session.defaultSession.ExecuteScript (sampleRuntime .ctxDone none) (str "echo 1")
        ⟨0, []⟩).2.trace ∧
    ∃ r, (session.defaultSession.ExecuteScript (sampleRuntime .ctxDone none) (str "echo 1")
          ⟨0, []⟩).2.trace =
        [Event.goRun (str "echo 1"), Event.selected .ctxDone, Event.Signal ssh.SIGINT r] ∧
      signalsSent (session.defaultSession.ExecuteScript (sampleRuntime .ctxDone none)
        (str "echo 1") ⟨0, []⟩).2.trace = [ssh.SIGINT] ∧
      (session.defaultSession.ExecuteScript (sampleRuntime .ctxDone none) (str "echo 1")
        ⟨0, []⟩).1 = r.map (fmt.Errorf "killing SSH command: %w" []) ∧
      (r = none → (session.defaultSession.ExecuteScript (sampleRuntime .ctxDone none)
        (str "echo 1") ⟨0, []⟩).1 = none) :=
  ⟨by decide,
    (C16_execute_script_select (sampleRuntime .ctxDone none) (str "echo 1") 0).1 (by decide)⟩

set_option maxRecDepth 100000 in
/-- C17 (witness): the unit tests `build error` and `other error`, each error
under one more layer. -/
theorem C17_exit_code_witness :
    exitCalls (testExitAdapter.GenerateExitFromError (fun _ (n : Nat) => ((), n + 1))
      (some (fmt.Errorf "another error layer: %w" []
        (runner.NewBuildFailureError (some testError)))) ⟨0, []⟩).2.trace = [2] ∧
    exitCalls (testExitAdapter.GenerateExitFromError (fun _ (n : Nat) => ((), n + 1))
      (some (fmt.Errorf "another error layer: %w" [] testError)) ⟨0, []⟩).2.trace = [1] :=
  ⟨(C17_exit_code testExitAdapter (fun _ (n : Nat) => ((), n + 1))
      (some (fmt.Errorf "another error layer: %w" []
        (runner.NewBuildFailureError (some testError)))) ⟨0, []⟩).trans (by decide),
   (C17_exit_code testExitAdapter (fun _ (n : Nat) => ((), n + 1))
      (some (fmt.Errorf "another error layer: %w" [] testError)) ⟨0, []⟩).trans (by decide)⟩

/-! ## Theorems: Run, Prepare and Persist -/

/-- C18: in every Run in which the record `d` was loaded, the script had been
read from the path given as first argument, and Execute is invoked exactly
once: with that script and with the Hostname equal to the ContainerIP of `d`
(whatever it is), the configured Username, the PrivateKey of `d`, and the
configured Port when it is at least 1, else the default port 22. -/
theorem C18_run_execute_once {σ : Type} (manager : task.MetadataManager σ)
    (executor : executors.Executor σ) (files : fs.FS σ) (ctx : cli.Context) (s : σ)
    (d : task.Data)
    (h : Event.Get d none ∈ (runRun manager executor files ctx s []).2.trace) :
    ∃ script,
      Event.ReadFile (ctx.ArgsGet 0) script none ∈
        (runRun manager executor files ctx s []).2.trace ∧
      executeCalls (runRun manager executor files ctx s []).2.trace =
        [({ Hostname := d.ContainerIP
            Port := if 1 ≤ ctx.config.SSH.Port then ctx.config.SSH.Port else 22
            Username := ctx.config.SSH.Username
            PrivateKey := d.PrivateKey }, script)] := by
  have hport : (if ctx.config.SSH.Port < 1 then executors.DefaultPort else ctx.config.SSH.Port) =
      (if 1 ≤ ctx.config.SSH.Port then ctx.config.SSH.Port else 22) := by
    unfold executors.DefaultPort
    split_ifs <;> first | rfl | omega
  revert h
  simp only [runRun, RunCommand.CustomExecute, RunCommand.mk0]
  by_cases hargs : ctx.NArg < 2
  · simp [hargs]
  simp only [hargs, if_false, RunCommand.init, RunCommand.readFileContent,
    RunCommand.obtainTaskData, RunCommand.executeScriptOnTaskContainer, fs.FS.lift,
    task.MetadataManager.lift, executors.Executor.lift, traced_inWorld, logging.Logger.emit,
    World.record, cli.Context.Config, cli.Context.Logger, hport]
  rcases hr : files.ReadFile (ctx.ArgsGet 0) s with ⟨⟨script, _ | re⟩, s1⟩
  swap
  · simp [hr]
  simp only [hr]
  rcases hg : manager.Get s1 with ⟨⟨data, _ | ge⟩, s2⟩
  swap
  · simp [hg]
  simp only [hg]
  rcases hx : executor.Execute
    { Hostname := data.ContainerIP
      Port := if 1 ≤ ctx.config.SSH.Port then ctx.config.SSH.Port else 22
      Username := ctx.config.SSH.Username
      PrivateKey := data.PrivateKey } script s2 with ⟨_ | xe, s3⟩ <;>
    simp only [hx] <;>
    intro h <;>
    simp at h <;>
    subst h <;>
    exact ⟨script, by simp, by simp [executeCalls]⟩

set_option maxRecDepth 100000 in
/-- C18 (witness): a Run over the record of `TestPersist`, with no port
configured: Execute is called once, on port 22. -/
theorem C18_run_execute_once_witness :
    Event.Get testData none ∈
      (runRun (sampleManager testData [] none none) (sampleRunExecutor none) sampleScriptFiles
        testRunContext 0 []).2.trace ∧
    ∃ script,
      Event.ReadFile (str "/path/to/script") script none ∈
        (runRun (sampleManager testData [] none none) (sampleRunExecutor none) sampleScriptFiles
          testRunContext 0 []).2.trace ∧
      executeCalls (runRun (sampleManager testData [] none none) (sampleRunExecutor none)
          sampleScriptFiles testRunContext 0 []).2.trace =
        [({ Hostname := str "192.168.0.1", Port := 22, Username := str "root",
            PrivateKey := some (str "Testing") }, script)] :=
  ⟨by decide,
    C18_run_execute_once (sampleManager testData [] none none) (sampleRunExecutor none)
      sampleScriptFiles testRunContext 0 testData (by decide)⟩

theorem persistCallsFrom_stopTrace (waited resolved : Bool) (ctx : cli.Context)
    (taskARN : GoString) (err : GoError) (logMessage : String) (stopErr : Option GoError) :
    persistCallsFrom waited resolved (stopTrace ctx taskARN err logMessage stopErr) = [] := by
  unfold stopTrace
  split_ifs
  · rfl
  · cases stopErr <;> rfl

theorem persistCallsFrom_append_stopTrace (l : List Event) (ctx : cli.Context)
    (taskARN : GoString) (err : GoError) (logMessage : String) (stopErr : Option GoError) :
    ∀ waited resolved,
      persistCallsFrom waited resolved (l ++ stopTrace ctx taskARN err logMessage stopErr) =
        persistCallsFrom waited resolved l := by
  induction l with
  | nil =>
    intro waited resolved
    simp [persistCallsFrom_stopTrace, persistCallsFrom]
  | cons e rest ih =>
    intro waited resolved
    cases e with
    | WaitUntilTaskRunning taskARN1 cluster r =>
      cases r
      · exact ih true resolved
      · exact ih waited resolved
    | GetContainerIP taskARN1 cluster usePublicIP containerIP r =>
      cases r
      · exact ih waited true
      · exact ih waited resolved
    | Persist data r => exact congrArg (List.cons (data, waited, resolved)) (ih waited resolved)
    | _ => exact ih waited resolved

/-- C20: the records Prepare hands to Persist.  A run makes no Persist call,
or one, or two.  The first call receives the handle RunTask returned, an
empty ContainerIP and the private key of the generated pair, before any
WaitUntilTaskRunning or GetContainerIP call has succeeded; the second
receives the same handle and key with the address GetContainerIP returned,
after both have succeeded.  So no record with a non-empty ContainerIP is
handed to Persist before both calls have succeeded. -/
theorem C20_prepare_persist_records {σ : Type} (fargate : aws.Fargate σ)
    (manager : task.MetadataManager σ) (keys : ssh.KeyFactory σ) (ctx : cli.Context) (s : σ) :
    (persistCallsFrom false false (runPrepare fargate manager keys ctx s).2.trace = [] ∨
      (∃ (keyPair : ssh.KeyPair) (taskARN : GoString) (taskSettings : aws.TaskSettings)
          (connection : aws.ConnectionSettings),
        Event.Create defaultBitSize (some keyPair) none ∈
          (runPrepare fargate manager keys ctx s).2.trace ∧
        Event.RunTask taskSettings connection taskARN none ∈
          (runPrepare fargate manager keys ctx s).2.trace ∧
        persistCallsFrom false false (runPrepare fargate manager keys ctx s).2.trace =
          [({ TaskARN := taskARN, ContainerIP := [], PrivateKey := keyPair.PrivateKey },
            false, false)]) ∨
      (∃ (keyPair : ssh.KeyPair) (taskARN containerIP : GoString)
          (taskSettings : aws.TaskSettings) (connection : aws.ConnectionSettings)
          (cluster : GoString) (usePublicIP : Bool),
        Event.Create defaultBitSize (some keyPair) none ∈
          (runPrepare fargate manager keys ctx s).2.trace ∧
        Event.RunTask taskSettings connection taskARN none ∈
          (runPrepare fargate manager keys ctx s).2.trace ∧
        Event.GetContainerIP taskARN cluster usePublicIP containerIP none ∈
          (runPrepare fargate manager keys ctx s).2.trace ∧
        persistCallsFrom false false (runPrepare fargate manager keys ctx s).2.trace =
          [({ TaskARN := taskARN, ContainerIP := [], PrivateKey := keyPair.PrivateKey },
            false, false),
           ({ TaskARN := taskARN, ContainerIP := containerIP,
              PrivateKey := keyPair.PrivateKey }, true, true)])) ∧
    ∀ call ∈ persistCallsFrom false false (runPrepare fargate manager keys ctx s).2.trace,
      call.1.ContainerIP ≠ [] → call.2.1 = true ∧ call.2.2 = true := by
  have hs := prepare_run_shape fargate manager keys ctx s
  generalize (runPrepare fargate manager keys ctx s).1 = out at hs
  generalize (runPrepare fargate manager keys ctx s).2.trace = tr at hs ⊢
  cases hs with
  | initFailed e => simp [persistCallsFrom]
  | createFailed keyPair e => simp [persistCallsFrom]
  | createNil => simp [persistCallsFrom]
  | runTaskFailed keyPair taskARN e stopErr =>
    have hp : persistCallsFrom false false (prepareHead ctx keyPair ++
        [Event.RunTask (prepareTaskSettings ctx keyPair.PublicKey) (prepareConnection ctx)
          taskARN (some e)]) = [] := rfl
    refine ⟨Or.inl ?_, ?_⟩
    · rw [persistCallsFrom_append_stopTrace, hp]
    · rw [persistCallsFrom_append_stopTrace, hp]
      simp
  | persistARNFailed keyPair taskARN e stopErr =>
    have hp : persistCallsFrom false false (prepareStarted ctx keyPair taskARN (some e)) =
        [(firstRecord taskARN keyPair, false, false)] := rfl
    refine ⟨Or.inr (Or.inl ⟨keyPair, taskARN, prepareTaskSettings ctx keyPair.PublicKey,
      prepareConnection ctx, ?_, ?_, ?_⟩), ?_⟩
    · simp [prepareStarted, prepareHead]
    · simp [prepareStarted, prepareHead]
    · rw [persistCallsFrom_append_stopTrace, hp]
      rfl
    · rw [persistCallsFrom_append_stopTrace, hp]
      simp [firstRecord]
  | waitFailed keyPair taskARN e stopErr =>
    have hp : persistCallsFrom false false (prepareWaited ctx keyPair taskARN (some e)) =
        [(firstRecord taskARN keyPair, false, false)] := rfl
    refine ⟨Or.inr (Or.inl ⟨keyPair, taskARN, prepareTaskSettings ctx keyPair.PublicKey,
      prepareConnection ctx, ?_, ?_, ?_⟩), ?_⟩
    · simp [prepareWaited, prepareStarted, prepareHead]
    · simp [prepareWaited, prepareStarted, prepareHead]
    · rw [persistCallsFrom_append_stopTrace, hp]
      rfl
    · rw [persistCallsFrom_append_stopTrace, hp]
      simp [firstRecord]
  | getContainerIPFailed keyPair taskARN containerIP e stopErr =>
    have hp : persistCallsFrom false false (prepareWaited ctx keyPair taskARN none ++
        [Event.GetContainerIP taskARN ctx.config.Fargate.Cluster
          ctx.config.Fargate.EnablePublicIP containerIP (some e)]) =
        [(firstRecord taskARN keyPair, false, false)] := rfl
    refine ⟨Or.inr (Or.inl ⟨keyPair, taskARN, prepareTaskSettings ctx keyPair.PublicKey,
      prepareConnection ctx, ?_, ?_, ?_⟩), ?_⟩
    · simp [prepareWaited, prepareStarted, prepareHead]
    · simp [prepareWaited, prepareStarted, prepareHead]
    · rw [persistCallsFrom_append_stopTrace, hp]
      rfl
    · rw [persistCallsFrom_append_stopTrace, hp]
      simp [firstRecord]
  | persistIPFailed keyPair taskARN containerIP e stopErr =>
    have hp : persistCallsFrom false false (prepareWaited ctx keyPair taskARN none ++
        [Event.GetContainerIP taskARN ctx.config.Fargate.Cluster
          ctx.config.Fargate.EnablePublicIP containerIP none,
         Event.log "info" ((prepareLogger ctx).WithField "taskARN" taskARN)
           "Persisting data that will be used by other commands",
         Event.Persist (secondRecord taskARN containerIP keyPair) (some e)]) =
        [(firstRecord taskARN keyPair, false, false),
         (secondRecord taskARN containerIP keyPair, true, true)] := rfl
    refine ⟨Or.inr (Or.inr ⟨keyPair, taskARN, containerIP,
      prepareTaskSettings ctx keyPair.PublicKey, prepareConnection ctx,
      ctx.config.Fargate.Cluster, ctx.config.Fargate.EnablePublicIP, ?_, ?_, ?_, ?_⟩), ?_⟩
    · simp [prepareWaited, prepareStarted, prepareHead]
    · simp [prepareWaited, prepareStarted, prepareHead]
    · simp [prepareWaited, prepareStarted, prepareHead]
    · rw [persistCallsFrom_append_stopTrace, hp]
      rfl
    · rw [persistCallsFrom_append_stopTrace, hp]
      simp [firstRecord]
  | success keyPair taskARN containerIP =>
    have hp : persistCallsFrom false false (prepareWaited ctx keyPair taskARN none ++
        [Event.GetContainerIP taskARN ctx.config.Fargate.Cluster
          ctx.config.Fargate.EnablePublicIP containerIP none,
         Event.log "info" ((prepareLogger ctx).WithField "taskARN" taskARN)
           "Persisting data that will be used by other commands",
         Event.Persist (secondRecord taskARN containerIP keyPair) none]) =
        [(firstRecord taskARN keyPair, false, false),
         (secondRecord taskARN containerIP keyPair, true, true)] := rfl
    refine ⟨Or.inr (Or.inr ⟨keyPair, taskARN, containerIP,
      prepareTaskSettings ctx keyPair.PublicKey, prepareConnection ctx,
      ctx.config.Fargate.Cluster, ctx.config.Fargate.EnablePublicIP, ?_, ?_, ?_, ?_⟩), ?_⟩
    · simp [prepareWaited, prepareStarted, prepareHead]
    · simp [prepareWaited, prepareStarted, prepareHead]
    · simp [prepareWaited, prepareStarted, prepareHead]
    · rw [hp]
      rfl
    · rw [hp]
      simp [firstRecord]

set_option maxRecDepth 100000 in
/-- C20 (witness): the successful Prepare run of the unit tests. -/
theorem C20_prepare_persist_records_witness :
    persistCallsFrom false false
        (samplePrepare (str "task-arn") (str "192.168.0.1") none none none none []).2.trace =
      [({ TaskARN := str "task-arn", ContainerIP := [],
          PrivateKey := some (str "Private key") }, false, false),
       ({ TaskARN := str "task-arn", ContainerIP := str "192.168.0.1",
          PrivateKey := some (str "Private key") }, true, true)] ∧
    ∀ call ∈ persistCallsFrom false false
        (samplePrepare (str "task-arn") (str "192.168.0.1") none none none none []).2.trace,
      call.1.ContainerIP ≠ [] → call.2.1 = true ∧ call.2.2 = true :=
  ⟨by decide,
    (C20_prepare_persist_records
      (sampleFargate (str "task-arn") (str "192.168.0.1") none none none none none)
      (sampleManager {} [] none none) (sampleKeys (some sampleKeyPair) none) testContext 0).2⟩

theorem writeCalls_append (l1 l2 : List Event) :
    writeCalls (l1 ++ l2) = writeCalls l1 ++ writeCalls l2 := by
  simp [writeCalls, List.filterMap_append]

/-- Persist on the manager that `NewMetadataManager` builds, with an encoder
that writes the non-empty `buf` for the record: one WriteFile call, with the
full file path, `buf` and the mode 0600. -/
theorem persist_writeCalls {σ : Type} (osFS : fs.FS σ) (encoder : encoding.Encoder)
    (runnerAdapter : runner.Adapter) (logger : logging.Logger) (filesDir : GoString)
    (d : task.Data) (w : World σ) (buf : List Byte) (hb : buf ≠ [])
    (he : encoder.Encode d = (buf, none)) :
    writeCalls ((task.NewMetadataManager osFS.lift encoder runnerAdapter logger
        filesDir).Persist d w).2.trace =
      writeCalls w.trace ++
        [(filepath.Join filesDir (task.GenerateFilename (runnerDataOf runnerAdapter) ++
            str ".json"), some buf, 0o600)] := by
  unfold fsMetadataManager.Persist
  simp only [task.NewMetadataManager, he, fs.FS.lift, traced_inWorld, logging.Logger.emit,
    World.record, bufferBytes, hb, if_false, fsMetadataManager.getFullFilePath]
  rcases osFS.WriteFile _ _ _ w.st with ⟨_ | we, s1⟩ <;>
    simp [writeCalls_append, writeCalls, runnerDataOf]

set_option maxRecDepth 100000 in
/-- C11 (as stated) fails: for the record of `TestPersist` without a private
key, Persist writes `null` for the member `PrivateKey`, which is not the
base64 text of the (empty) key in a JSON string. -/
theorem C11_nil_key_counterexample :
    writeCalls ((task.NewMetadataManager sampleScriptFiles.lift encoding.NewJSON testRunnerAdapter
        {} (str "directory")).Persist testDataWithoutPrivateKey ⟨0, []⟩).2.trace =
      [(filepath.Join (str "directory")
          (task.GenerateFilename (runnerDataOf testRunnerAdapter) ++ str ".json"),
        some (str
          "\x7b\"TaskARN\":\"task-arn\",\"ContainerIP\":\"192.168.0.1\",\"PrivateKey\":null\x7d\n"),
        0o600)] ∧
    spec.recordBody testDataWithoutPrivateKey =
      str "\x7b\"TaskARN\":\"task-arn\",\"ContainerIP\":\"192.168.0.1\",\"PrivateKey\":\"\"\x7d" ∧
    str "\x7b\"TaskARN\":\"task-arn\",\"ContainerIP\":\"192.168.0.1\",\"PrivateKey\":null\x7d\n" ≠
      spec.recordBody testDataWithoutPrivateKey ++ str "\n" := by
  refine ⟨?_, by decide, by decide⟩
  rw [persist_writeCalls sampleScriptFiles encoding.NewJSON testRunnerAdapter {} (str "directory")
    testDataWithoutPrivateKey ⟨0, []⟩
    (str "\x7b\"TaskARN\":\"task-arn\",\"ContainerIP\":\"192.168.0.1\",\"PrivateKey\":null\x7d\n")
    (by decide) (by decide)]
  rfl

/-- C11 (amended): Persist, on the manager that `NewMetadataManager` builds
with the JSON encoder, makes exactly one WriteFile call: with the file mode
0600, to the path `filepath.Join(directory, GenerateFilename(identity) +
".json")`, and with a content that is a function of the three fields of the
record only: a JSON object whose members are, in this order, `TaskARN` (a
JSON string), `ContainerIP` (a JSON string) and `PrivateKey` (the standard
base64 text of the private key in a JSON string, or `null` when the private
key is nil), followed by a line feed. -/
theorem C11_persist_file {σ : Type} (osFS : fs.FS σ) (runnerAdapter : runner.Adapter)
    (logger : logging.Logger) (filesDir : GoString) (d : task.Data) (w : World σ) :
    writeCalls ((task.NewMetadataManager osFS.lift encoding.NewJSON runnerAdapter logger
        filesDir).Persist d w).2.trace =
      writeCalls w.trace ++
        [(filepath.Join filesDir (task.GenerateFilename (runnerDataOf runnerAdapter) ++
            str ".json"),
          some (str "\x7b\"TaskARN\":" ++ json.encodeString d.TaskARN ++
            str ",\"ContainerIP\":" ++ json.encodeString d.ContainerIP ++
            str ",\"PrivateKey\":" ++
            (match d.PrivateKey with
              | none => str "null"
              | some key => str "\"" ++ base64.encode key ++ str "\"") ++
            str "\x7d\n"),
          0o600)] := by
  have hq : str "\"" = [0x22] := by decide
  have hend : str "\x7d\n" = str "\x7d" ++ [0x0A] := by decide
  have hbody : (str "\x7b\"TaskARN\":" ++ json.encodeString d.TaskARN ++
      str ",\"ContainerIP\":" ++ json.encodeString d.ContainerIP ++
      str ",\"PrivateKey\":" ++
      (match d.PrivateKey with
        | none => str "null"
        | some key => str "\"" ++ base64.encode key ++ str "\"") ++
      str "\x7d\n") = json.Marshal d ++ [0x0A] := by
    unfold json.Marshal json.encodeBytes
    rw [hend, hq]
    cases d.PrivateKey <;> simp only [List.append_assoc, List.cons_append, List.nil_append]
  rw [hbody]
  exact persist_writeCalls osFS encoding.NewJSON runnerAdapter logger filesDir d w
    (json.Marshal d ++ [0x0A]) (by simp) rfl

set_option maxRecDepth 100000 in
/-- The path of the record for the identity of `TestGenerateFilename` in the
directory `directory`. -/
theorem persist_path_example :
    filepath.Join (str "directory")
        (task.GenerateFilename (runnerDataOf testRunnerAdapter) ++ str ".json") =
      str "directory/test-293ac3a36135714f5953037b893ee39de22e40d9c8622a626308e13b91fa0c3f.json" := by
  decide

/-! ## Theorems: the order of the calls of Prepare -/

theorem prepareSteps_stopTrace (ctx : cli.Context) (taskARN : GoString) (err : GoError)
    (logMessage : String) (stopErr : Option GoError) :
    prepareSteps (stopTrace ctx taskARN err logMessage stopErr) = [] := by
  unfold stopTrace
  split_ifs
  · rfl
  · cases stopErr <;> rfl

theorem prepareSteps_append (l1 l2 : List Event) :
    prepareSteps (l1 ++ l2) = prepareSteps l1 ++ prepareSteps l2 := by
  induction l1 with
  | nil => rfl
  | cons e rest ih =>
    cases e with
    | Init err => exact congrArg (List.cons _) ih
    | Create bitSize keyPair err => exact congrArg (List.cons _) ih
    | RunTask taskSettings connection taskARN err => exact congrArg (List.cons _) ih
    | Persist data err => exact congrArg (List.cons _) ih
    | WaitUntilTaskRunning taskARN cluster err => exact congrArg (List.cons _) ih
    | GetContainerIP taskARN cluster usePublicIP containerIP err =>
      exact congrArg (List.cons _) ih
    | _ => exact ih

/-- C21: in every run of Prepare, the collaborator calls other than StopTask
are the first `n` of Init, Create(4096), RunTask, Persist,
WaitUntilTaskRunning, GetContainerIP, Persist, for some `n`, and all of them
but the last returned a nil error; the run returns nil exactly when all seven
calls were made and returned a nil error, and then StopTask is not called. -/
theorem C21_prepare_call_sequence {σ : Type} (fargate : aws.Fargate σ)
    (manager : task.MetadataManager σ) (keys : ssh.KeyFactory σ) (ctx : cli.Context) (s : σ) :
    (∃ n, (prepareSteps (runPrepare fargate manager keys ctx s).2.trace).map Prod.fst =
      prepareSequence.take n) ∧
    (∀ step ∈ (prepareSteps (runPrepare fargate manager keys ctx s).2.trace).dropLast,
      step.2 = true) ∧
    ((runPrepare fargate manager keys ctx s).1 = .returned none ↔
      ((prepareSteps (runPrepare fargate manager keys ctx s).2.trace).map Prod.fst =
          prepareSequence ∧
        ∀ step ∈ prepareSteps (runPrepare fargate manager keys ctx s).2.trace,
          step.2 = true)) ∧
    ((runPrepare fargate manager keys ctx s).1 = .returned none →
      stopCalls (runPrepare fargate manager keys ctx s).2.trace = []) := by
  have hs := prepare_run_shape fargate manager keys ctx s
  generalize (runPrepare fargate manager keys ctx s).1 = out at hs ⊢
  generalize (runPrepare fargate manager keys ctx s).2.trace = tr at hs ⊢
  cases hs with
  | initFailed e =>
    exact ⟨⟨1, rfl⟩, by simp [prepareSteps], by simp [prepareSteps, prepareSequence],
      by simp⟩
  | createFailed keyPair e =>
    exact ⟨⟨2, rfl⟩, by simp [prepareSteps], by simp [prepareSteps, prepareSequence],
      by simp⟩
  | createNil =>
    exact ⟨⟨2, rfl⟩, by simp [prepareSteps], by simp [prepareSteps, prepareSequence],
      by simp⟩
  | runTaskFailed keyPair taskARN e stopErr =>
    simp only [prepareSteps_append, prepareSteps_stopTrace, List.append_nil]
    exact ⟨⟨3, rfl⟩, by simp [prepareSteps, prepareHead],
      by simp [prepareSteps, prepareHead, prepareSequence], by simp⟩
  | persistARNFailed keyPair taskARN e stopErr =>
    simp only [prepareSteps_append, prepareSteps_stopTrace, List.append_nil]
    exact ⟨⟨4, rfl⟩, by simp [prepareSteps, prepareHead, prepareStarted],
      by simp [prepareSteps, prepareHead, prepareStarted, prepareSequence], by simp⟩
  | waitFailed keyPair taskARN e stopErr =>
    simp only [prepareSteps_append, prepareSteps_stopTrace, List.append_nil]
    exact ⟨⟨5, rfl⟩, by simp [prepareSteps, prepareHead, prepareStarted, prepareWaited],
      by simp [prepareSteps, prepareHead, prepareStarted, prepareWaited, prepareSequence],
      by simp⟩
  | getContainerIPFailed keyPair taskARN containerIP e stopErr =>
    simp only [prepareSteps_append, prepareSteps_stopTrace, List.append_nil]
    exact ⟨⟨6, rfl⟩, by simp [prepareSteps, prepareHead, prepareStarted, prepareWaited],
      by simp [prepareSteps, prepareHead, prepareStarted, prepareWaited, prepareSequence],
      by simp⟩
  | persistIPFailed keyPair taskARN containerIP e stopErr =>
    simp only [prepareSteps_append, prepareSteps_stopTrace, List.append_nil]
    exact ⟨⟨7, rfl⟩, by simp [prepareSteps, prepareHead, prepareStarted, prepareWaited],
      by simp [prepareSteps, prepareHead, prepareStarted, prepareWaited, prepareSequence],
      by simp⟩
  | success keyPair taskARN containerIP =>
    simp only [prepareSteps_append]
    exact ⟨⟨7, rfl⟩, by simp [prepareSteps, prepareHead, prepareStarted, prepareWaited],
      by simp [prepareSteps, prepareHead, prepareStarted, prepareWaited, prepareSequence,
        defaultBitSize],
      fun _ => rfl⟩

/-! ## Theorems: what Prepare passes to the Fargate adapter -/

theorem fargateCalls_append (l1 l2 : List Event) :
    fargateCalls (l1 ++ l2) = fargateCalls l1 ++ fargateCalls l2 := by
  induction l1 with
  | nil => rfl
  | cons e rest ih =>
    cases e with
    | RunTask taskSettings connection taskARN err => exact congrArg (List.cons _) ih
    | WaitUntilTaskRunning taskARN cluster err => exact congrArg (List.cons _) ih
    | GetContainerIP taskARN cluster usePublicIP containerIP err =>
      exact congrArg (List.cons _) ih
    | StopTask taskARN cluster err => exact congrArg (List.cons _) ih
    | _ => exact ih

theorem fargateCalls_stopTrace (ctx : cli.Context) (taskARN : GoString) (err : GoError)
    (logMessage : String) (stopErr : Option GoError) :
    fargateCalls (stopTrace ctx taskARN err logMessage stopErr) =
      if taskARN = [] then [] else [.StopTask taskARN ctx.config.Fargate.Cluster] := by
  unfold stopTrace
  split_ifs
  · rfl
  · cases stopErr <;> rfl

theorem handles_append (l1 l2 : List Event) : handles (l1 ++ l2) = handles l1 ++ handles l2 := by
  induction l1 with
  | nil => rfl
  | cons e rest ih =>
    cases e with
    | RunTask taskSettings connection taskARN err => exact congrArg (List.cons _) ih
    | _ => exact ih

theorem handles_stopTrace (ctx : cli.Context) (taskARN : GoString) (err : GoError)
    (logMessage : String) (stopErr : Option GoError) :
    handles (stopTrace ctx taskARN err logMessage stopErr) = [] := by
  unfold stopTrace
  split_ifs
  · rfl
  · cases stopErr <;> rfl

theorem persistedKeys_append (l1 l2 : List Event) :
    persistedKeys (l1 ++ l2) = persistedKeys l1 ++ persistedKeys l2 := by
  induction l1 with
  | nil => rfl
  | cons e rest ih =>
    cases e with
    | Persist data err => exact congrArg (List.cons _) ih
    | _ => exact ih

theorem persistedKeys_stopTrace (ctx : cli.Context) (taskARN : GoString) (err : GoError)
    (logMessage : String) (stopErr : Option GoError) :
    persistedKeys (stopTrace ctx taskARN err logMessage stopErr) = [] := by
  unfold stopTrace
  split_ifs
  · rfl
  · cases stopErr <;> rfl

/-- In a run of Prepare in which the key factory returned the key pair
`keyPair`, every call to the Fargate adapter passes arguments built from the
configuration, the public key and the one handle RunTask returned; the
environment of RunTask is the public key alone, and every Persist call
receives the private key. -/
theorem prepare_fargateCalls_determined {σ : Type} (fargate : aws.Fargate σ)
    (manager : task.MetadataManager σ) (keys : ssh.KeyFactory σ) (ctx : cli.Context) (s : σ)
    (keyPair : ssh.KeyPair)
    (hc : Event.Create defaultBitSize (some keyPair) none ∈
      (runPrepare fargate manager keys ctx s).2.trace) :
    (∀ c ∈ fargateCalls (runPrepare fargate manager keys ctx s).2.trace,
      ∃ taskARN, handles (runPrepare fargate manager keys ctx s).2.trace = [taskARN] ∧
        c ∈ prepareFargateCalls ctx keyPair.PublicKey taskARN) ∧
    (∀ taskSettings connection taskARN err,
      Event.RunTask taskSettings connection taskARN err ∈
          (runPrepare fargate manager keys ctx s).2.trace →
        taskSettings.EnvironmentVariables =
          [(str "SSH_PUBLIC_KEY", keyPair.PublicKey.toGoString)]) ∧
    (∀ k ∈ persistedKeys (runPrepare fargate manager keys ctx s).2.trace,
      k = keyPair.PrivateKey) := by
  have hs := prepare_run_shape fargate manager keys ctx s
  generalize (runPrepare fargate manager keys ctx s).1 = out at hs ⊢
  generalize (runPrepare fargate manager keys ctx s).2.trace = tr at hs hc ⊢
  cases hs <;>
    simp [prepareWaited, prepareStarted, prepareHead, mem_stopTrace, fargateCalls_append,
      fargateCalls_stopTrace, handles_append, handles_stopTrace, persistedKeys_append,
      persistedKeys_stopTrace, fargateCalls, handles, persistedKeys, prepareFargateCalls,
      prepareTaskSettings, firstRecord, secondRecord] at hc ⊢ <;>
    subst hc <;> simp_all

/-- C22: take two runs of Prepare over the same configuration whose key
factories returned key pairs with the same public key (the private keys are
arbitrary). Every call to the Fargate adapter passes arguments built from the
configuration, the public key and the handle RunTask returned, so calls to
the same method pass identical arguments: the RunTask calls always, the
others when both runs got the same handle; the environment of RunTask is the
single entry SSH_PUBLIC_KEY with the public key, and the private key is what
every Persist call receives. -/
theorem C22_private_key_confined {σ τ : Type} (fargate1 : aws.Fargate σ)
    (manager1 : task.MetadataManager σ) (keys1 : ssh.KeyFactory σ) (s1 : σ)
    (fargate2 : aws.Fargate τ) (manager2 : task.MetadataManager τ) (keys2 : ssh.KeyFactory τ)
    (s2 : τ) (ctx : cli.Context) (keyPair1 keyPair2 : ssh.KeyPair)
    (hc1 : Event.Create defaultBitSize (some keyPair1) none ∈
      (runPrepare fargate1 manager1 keys1 ctx s1).2.trace)
    (hc2 : Event.Create defaultBitSize (some keyPair2) none ∈
      (runPrepare fargate2 manager2 keys2 ctx s2).2.trace)
    (hpub : keyPair1.PublicKey = keyPair2.PublicKey) :
    (∀ c1 ∈ fargateCalls (runPrepare fargate1 manager1 keys1 ctx s1).2.trace,
      ∀ c2 ∈ fargateCalls (runPrepare fargate2 manager2 keys2 ctx s2).2.trace,
        c1.method = c2.method →
          (c1.method = "RunTask" ∨
            handles (runPrepare fargate1 manager1 keys1 ctx s1).2.trace =
              handles (runPrepare fargate2 manager2 keys2 ctx s2).2.trace) →
          c1 = c2) ∧
    (∀ c ∈ fargateCalls (runPrepare fargate1 manager1 keys1 ctx s1).2.trace,
      ∃ taskARN, handles (runPrepare fargate1 manager1 keys1 ctx s1).2.trace = [taskARN] ∧
        c ∈ prepareFargateCalls ctx keyPair1.PublicKey taskARN) ∧
    (∀ taskSettings connection taskARN err,
      Event.RunTask taskSettings connection taskARN err ∈
          (runPrepare fargate1 manager1 keys1 ctx s1).2.trace →
        taskSettings.EnvironmentVariables =
          [(str "SSH_PUBLIC_KEY", keyPair1.PublicKey.toGoString)]) ∧
    (∀ k ∈ persistedKeys (runPrepare fargate1 manager1 keys1 ctx s1).2.trace,
      k = keyPair1.PrivateKey) := by
  have h1 := prepare_fargateCalls_determined fargate1 manager1 keys1 ctx s1 keyPair1 hc1
  have h2 := prepare_fargateCalls_determined fargate2 manager2 keys2 ctx s2 keyPair2 hc2
  refine ⟨?_, h1.1, h1.2.1, h1.2.2⟩
  intro c1 hm1 c2 hm2 hmeth hh
  obtain ⟨arn1, ha1, hp1⟩ := h1.1 c1 hm1
  obtain ⟨arn2, ha2, hp2⟩ := h2.1 c2 hm2
  rw [← hpub] at hp2
  simp only [prepareFargateCalls, List.mem_cons, List.mem_singleton, List.not_mem_nil,
    or_false] at hp1 hp2
  rcases hh with hrun | hh
  · rcases hp1 with rfl | rfl | rfl | rfl <;> rcases hp2 with rfl | rfl | rfl | rfl <;>
      first
      | rfl
      | (simp only [FargateCall.method] at hmeth; exact absurd hmeth (by decide))
      | (simp only [FargateCall.method] at hrun; exact absurd hrun (by decide))
  · rw [ha1, ha2] at hh
    have harn : arn1 = arn2 := by simpa using hh
    subst harn
    rcases hp1 with rfl | rfl | rfl | rfl <;> rcases hp2 with rfl | rfl | rfl | rfl <;>
      first
      | rfl
      | (simp only [FargateCall.method] at hmeth; exact absurd hmeth (by decide))

set_option maxRecDepth 100000 in
/-- C22 (witness): two successful runs of the unit test's Prepare, the second
with another private key. -/
theorem C22_private_key_confined_witness :
    sampleKeyPair.PrivateKey ≠ otherKeyPair.PrivateKey ∧
    fargateCalls (samplePrepare (str "task-arn") (str "1.2.3.4") none none none none []).2.trace =
      fargateCalls (runPrepare (sampleFargate (str "task-arn") (str "1.2.3.4") none none none
        none none) (sampleManager {} [] none none) (sampleKeys (some otherKeyPair) none)
        testContext 0).2.trace ∧
    ∀ k ∈ persistedKeys
        (samplePrepare (str "task-arn") (str "1.2.3.4") none none none none []).2.trace,
      k = sampleKeyPair.PrivateKey :=
  ⟨by decide, by decide,
    (C22_private_key_confined
      (sampleFargate (str "task-arn") (str "1.2.3.4") none none none none none)
      (sampleManager {} [] none none) (sampleKeys (some sampleKeyPair) none) 0
      (sampleFargate (str "task-arn") (str "1.2.3.4") none none none none none)
      (sampleManager {} [] none none) (sampleKeys (some otherKeyPair) none) 0
      testContext sampleKeyPair otherKeyPair (by decide) (by decide) rfl).2.2.2⟩

theorem errors_chain_self (e : GoError) : e ∈ errors.chain e := by
  cases e <;> simp [errors.chain]

/-- C23: in every Prepare run in which RunTask returns an error `e` together
with the handle `taskARN`, StopTask is invoked exactly once, with that handle
and the configured cluster, when the handle is non-empty, and not at all when
it is empty; no Persist call is made, WaitUntilTaskRunning and GetContainerIP
are not called, and the run returns an error whose chain contains `e`. -/
theorem C23_start_failure_compensation {σ : Type} (fargate : aws.Fargate σ)
    (manager : task.MetadataManager σ) (keys : ssh.KeyFactory σ) (ctx : cli.Context) (s : σ)
    (taskSettings : aws.TaskSettings) (connection : aws.ConnectionSettings)
    (taskARN : GoString) (e : GoError)
    (hrun : Event.RunTask taskSettings connection taskARN (some e) ∈
      (runPrepare fargate manager keys ctx s).2.trace) :
    stopCalls (runPrepare fargate manager keys ctx s).2.trace =
      (if taskARN = [] then [] else [(taskARN, ctx.config.Fargate.Cluster)]) ∧
    persistedKeys (runPrepare fargate manager keys ctx s).2.trace = [] ∧
    (∀ step ∈ prepareSteps (runPrepare fargate manager keys ctx s).2.trace,
      step.1 ≠ .Persist ∧ step.1 ≠ .WaitUntilTaskRunning ∧ step.1 ≠ .GetContainerIP) ∧
    ∃ err, (runPrepare fargate manager keys ctx s).1 = .returned (some err) ∧
      e ∈ errors.chain err ∧ errors.Is err e = true := by
  have hs := prepare_run_shape fargate manager keys ctx s
  generalize (runPrepare fargate manager keys ctx s).1 = out at hs ⊢
  generalize (runPrepare fargate manager keys ctx s).2.trace = tr at hs hrun ⊢
  cases hs with
  | runTaskFailed keyPair arn e1 stopErr =>
    simp [prepareHead, mem_stopTrace] at hrun
    obtain ⟨-, -, rfl, rfl⟩ := hrun
    refine ⟨?_, ?_, ?_, _, rfl, ?_, ?_⟩
    · simp [prepareHead, stopCalls_append, stopCalls_stopTrace, stopCalls]
    · simp [prepareHead, persistedKeys_append, persistedKeys_stopTrace, persistedKeys]
    · simp [prepareHead, prepareSteps_append, prepareSteps_stopTrace, prepareSteps]
    · simp [errors_chain_Errorf, errors_chain_self]
    · simp [errors_Is_Errorf, errors_Is_refl]
  | _ => simp [prepareWaited, prepareStarted, prepareHead, mem_stopTrace] at hrun

set_option maxRecDepth 100000 in
/-- C23 (witness): RunTask fails and returns the handle "task-arn"; StopTask
is called once with it. -/
theorem C23_start_failure_compensation_witness :
    stopCalls (samplePrepare (str "task-arn") [] (some testError) none none none []).2.trace =
      [(str "task-arn", str "cluster")] :=
  (C23_start_failure_compensation
    (sampleFargate (str "task-arn") [] none (some testError) none none none)
    (sampleManager {} [] none none) (sampleKeys (some sampleKeyPair) none)
    testContext 0 (prepareTaskSettings testContext sampleKeyPair.PublicKey)
    (prepareConnection testContext) (str "task-arn") testError (by decide)).1

/-! ## Theorems: the calls of Run -/

/-- C24: in every Run with at least two arguments, the collaborator calls are
the first `n` of ReadFile(first argument), Get, Execute, for some `n`, and all
of them but the last returned a nil error; no Persist, Clear, StopTask,
WriteFile or Remove call is made; and when a step failed with `e`, Run returns
an error whose chain contains `e`. -/
theorem C24_run_no_compensation {σ : Type} (manager : task.MetadataManager σ)
    (executor : executors.Executor σ) (files : fs.FS σ) (ctx : cli.Context) (s : σ)
    (hargs : 2 ≤ ctx.NArg) :
    (∃ n, (runSteps (runRun manager executor files ctx s []).2.trace).map Prod.fst =
      (runSequence ctx).take n) ∧
    (∀ step ∈ (runSteps (runRun manager executor files ctx s []).2.trace).dropLast,
      step.2 = true) ∧
    changingCalls (runRun manager executor files ctx s []).2.trace = [] ∧
    (∀ e, runStepFailed e (runRun manager executor files ctx s []).2.trace →
      ∃ err, (runRun manager executor files ctx s []).1 = some err ∧
        e ∈ errors.chain err ∧ errors.Is err e = true) := by
  have hn : ¬ ctx.NArg < 2 := by omega
  simp only [runRun, RunCommand.CustomExecute, RunCommand.mk0, hn, if_false, RunCommand.init,
    RunCommand.readFileContent, RunCommand.obtainTaskData,
    RunCommand.executeScriptOnTaskContainer, fs.FS.lift, task.MetadataManager.lift,
    executors.Executor.lift, traced_inWorld, logging.Logger.emit, World.record,
    cli.Context.Config, cli.Context.Logger, runStepFailed]
  rcases hr : files.ReadFile (ctx.ArgsGet 0) s with ⟨⟨script, _ | re⟩, s1⟩
  swap
  · simp only [hr]
    refine ⟨⟨1, rfl⟩, by simp [runSteps], by simp [changingCalls], ?_⟩
    intro e he
    simp at he
    subst he
    exact ⟨_, rfl, by simp [errors_chain_Errorf, errors_chain_self],
      by simp [errors_Is_Errorf, errors_Is_refl]⟩
  simp only [hr]
  rcases hg : manager.Get s1 with ⟨⟨data, _ | ge⟩, s2⟩
  swap
  · simp only [hg]
    refine ⟨⟨2, rfl⟩, by simp [runSteps], by simp [changingCalls], ?_⟩
    intro e he
    simp at he
    subst he
    exact ⟨_, rfl, by simp [errors_chain_Errorf, errors_chain_self],
      by simp [errors_Is_Errorf, errors_Is_refl]⟩
  simp only [hg]
  generalize hset : ({ Hostname := data.ContainerIP
                       Port := if ctx.config.SSH.Port < 1 then executors.DefaultPort
                         else ctx.config.SSH.Port
                       Username := ctx.config.SSH.Username
                       PrivateKey := data.PrivateKey } : executors.ConnectionSettings) = settings
  rcases hx : executor.Execute settings script s2 with ⟨_ | xe, s3⟩
  · simp only [hx]
    refine ⟨⟨3, rfl⟩, by simp [runSteps], by simp [changingCalls], ?_⟩
    intro e he
    simp at he
  · simp only [hx]
    refine ⟨⟨3, rfl⟩, by simp [runSteps], by simp [changingCalls], ?_⟩
    intro e he
    simp at he
    subst he
    exact ⟨_, rfl, by simp [errors_chain_Errorf, errors_chain_self],
      by simp [errors_Is_Errorf, errors_Is_refl]⟩

set_option maxRecDepth 100000 in
/-- C24 (witness): the unit test in which Execute fails: the three calls are
made, nothing is changed, and Run returns an error wrapping the failure. -/
theorem C24_run_no_compensation_witness :
    2 ≤ testRunContext.NArg ∧
    runStepFailed testError
      (runRun (sampleManager testData [] none none) (sampleRunExecutor (some testError))
        sampleScriptFiles testRunContext 0 []).2.trace ∧
    changingCalls (runRun (sampleManager testData [] none none)
      (sampleRunExecutor (some testError)) sampleScriptFiles testRunContext 0 []).2.trace = [] ∧
    ∃ err, (runRun (sampleManager testData [] none none) (sampleRunExecutor (some testError))
        sampleScriptFiles testRunContext 0 []).1 = some err ∧
      testError ∈ errors.chain err ∧ errors.Is err testError = true :=
  have hfail : runStepFailed testError
      (runRun (sampleManager testData [] none none) (sampleRunExecutor (some testError))
        sampleScriptFiles testRunContext 0 []).2.trace :=
    Or.inr (Or.inr ⟨executors.ConnectionSettings.mk (str "192.168.0.1") 22 (str "root")
      (some (str "Testing")), some (str "echo 1"), by decide⟩)
  have h := C24_run_no_compensation (sampleManager testData [] none none)
    (sampleRunExecutor (some testError)) sampleScriptFiles testRunContext 0 (by decide)
  ⟨by decide, hfail, h.2.2.1, h.2.2.2 testError hfail⟩

/-! ## Theorems: `strconv` reads decimal integers -/

set_option maxRecDepth 100000 in
theorem strconv_examples :
    strconv.Atoi (str "2") = (2, none) ∧ strconv.Atoi (str "-17") = (-17, none) ∧
    (strconv.Atoi (str "abcd")).2 = some (strconv.NumError "Atoi" (str "abcd") strconv.ErrSyntax) ∧
    (strconv.Atoi []).2 = some (strconv.NumError "Atoi" [] strconv.ErrSyntax) ∧
    strconv.ParseInt (str "123") = (123, none) ∧
    strconv.ParseInt (str "-9223372036854775808") = (-9223372036854775808, none) ∧
    (strconv.ParseInt (str "9223372036854775808")).2 =
      some (strconv.NumError "ParseInt" (str "9223372036854775808") strconv.ErrRange) ∧
    (runner.InitAdapter (testEnv []) none).1 = none := by
  decide

theorem strconv_parseUintLoop_error (l : List Byte) :
    ∀ n, (strconv.parseUintLoop l n).2 = none ∨
      (strconv.parseUintLoop l n).2 = some strconv.ErrSyntax ∨
      (strconv.parseUintLoop l n).2 = some strconv.ErrRange := by
  induction l with
  | nil => intro n; exact Or.inl rfl
  | cons d l ih =>
    intro n
    simp only [strconv.parseUintLoop]
    split_ifs
    · exact Or.inr (Or.inr rfl)
    · exact Or.inr (Or.inr rfl)
    · exact ih _
    · exact Or.inr (Or.inl rfl)

theorem strconv_ParseUint_error (l : List Byte) :
    (strconv.ParseUint l).2 = none ∨ (strconv.ParseUint l).2 = some strconv.ErrSyntax ∨
      (strconv.ParseUint l).2 = some strconv.ErrRange := by
  unfold strconv.ParseUint
  split_ifs
  · exact Or.inr (Or.inl rfl)
  · exact strconv_parseUintLoop_error l 0

theorem strconv_parseInt_error (s : GoString) :
    (strconv.parseInt s).2 = none ∨ (strconv.parseInt s).2 = some strconv.ErrSyntax ∨
      (strconv.parseInt s).2 = some strconv.ErrRange := by
  cases s with
  | nil => exact Or.inr (Or.inl rfl)
  | cons c rest =>
    simp only [strconv.parseInt]
    generalize (if c.val = 43 ∨ c.val = 45 then rest else c :: rest) = digits
    split_ifs with h1 h2 h3
    · rcases strconv_ParseUint_error digits with h4 | h4 | h4
      · exact absurd h4 h1.1
      · exact Or.inr (Or.inl h4)
      · exact absurd h4 h1.2
    · exact Or.inr (Or.inr rfl)
    · exact Or.inr (Or.inr rfl)
    · exact Or.inl rfl
    · exact Or.inl rfl

theorem strconv_Atoi_error (s : GoString) (e : GoError) (h : (strconv.Atoi s).2 = some e) :
    e = strconv.NumError "Atoi" s strconv.ErrSyntax ∨
      e = strconv.NumError "Atoi" s strconv.ErrRange := by
  unfold strconv.Atoi at h
  split_ifs at h with hlen
  · cases s with
    | nil => simp at hlen
    | cons c rest =>
      simp only at h
      generalize (if c.val = 45 ∨ c.val = 43 then rest else c :: rest) = digits at h
      by_cases hd : digits = []
      · simp [hd] at h
        exact Or.inl h.symm
      · simp only [hd, if_false] at h
        cases hl : strconv.atoiLoop digits 0 <;> simp [hl] at h
        exact Or.inl h.symm
  · rcases strconv_parseInt_error s with hp | hp | hp <;> rw [hp] at h <;> simp at h
    · exact Or.inl h.symm
    · exact Or.inr h.symm

theorem decimalValueFrom_ge (l : List Byte) : ∀ n, n ≤ spec.decimalValueFrom n l := by
  induction l with
  | nil => intro n; exact Nat.le_refl n
  | cons c rest ih =>
    intro n
    have h := ih (n * 10 + (c.val - 48))
    have h1 : n ≤ n * 10 + (c.val - 48) := by
      generalize c.val - 48 = d
      omega
    show n ≤ spec.decimalValueFrom (n * 10 + (c.val - 48)) rest
    exact Nat.le_trans h1 h

theorem parseUintLoop_step (c : Byte) (rest : List Byte) (n : Nat)
    (hc : 48 ≤ c.val ∧ c.val ≤ 57) :
    strconv.parseUintLoop (c :: rest) n =
      if 1844674407370955162 ≤ n ∨ 18446744073709551616 ≤ n * 10 + (c.val - 48) then
        (strconv.maxUint64, some strconv.ErrRange)
      else strconv.parseUintLoop rest (n * 10 + (c.val - 48)) := by
  have hd : c.val - 48 ≤ 9 := by
    generalize c.val = v at hc
    omega
  generalize hdv : c.val - 48 = d at hd
  have hcut : strconv.maxUint64 / 10 + 1 = 1844674407370955162 := by decide
  simp only [strconv.parseUintLoop, hc, and_self, if_true, hcut, hdv]
  by_cases h1 : 1844674407370955162 ≤ n
  · simp only [h1, if_true, true_or]
  · have hn10 : n * 10 % 18446744073709551616 = n * 10 := by omega
    simp only [h1, if_false, false_or, hn10, strconv.maxUint64]
    by_cases h2 : 18446744073709551616 ≤ n * 10 + d
    · have h3 : (n * 10 + d) % 18446744073709551616 < n * 10 := by omega
      simp only [h2, h3, true_or, if_true]
    · have h3 : (n * 10 + d) % 18446744073709551616 = n * 10 + d := by omega
      have h4 : ¬ (n * 10 + d < n * 10 ∨ 18446744073709551615 < n * 10 + d) := by omega
      simp only [h2, h3, h4, if_false]

theorem parseUintLoop_spec (l : List Byte) :
    ∀ n,
      (l.all (fun d => 48 ≤ d.val && d.val ≤ 57) = true →
        spec.decimalValueFrom n l < 18446744073709551616 →
        strconv.parseUintLoop l n = (spec.decimalValueFrom n l, none)) ∧
      (l ≠ [] → l.all (fun d => 48 ≤ d.val && d.val ≤ 57) = true →
        18446744073709551616 ≤ spec.decimalValueFrom n l →
        strconv.parseUintLoop l n = (strconv.maxUint64, some strconv.ErrRange)) ∧
      (l.all (fun d => 48 ≤ d.val && d.val ≤ 57) = false →
        (strconv.parseUintLoop l n).2 ≠ none) := by
  induction l with
  | nil =>
    intro n
    exact ⟨fun _ _ => rfl, fun h => absurd rfl h, fun h => by simp at h⟩
  | cons c rest ih =>
    intro n
    have hge := decimalValueFrom_ge rest (n * 10 + (c.val - 48))
    have hval : spec.decimalValueFrom n (c :: rest) =
        spec.decimalValueFrom (n * 10 + (c.val - 48)) rest := rfl
    by_cases hc : 48 ≤ c.val ∧ c.val ≤ 57
    · have hall : ∀ b, (List.all (c :: rest) (fun d => 48 ≤ d.val && d.val ≤ 57) = b) ↔
          (List.all rest (fun d => 48 ≤ d.val && d.val ≤ 57) = b) := by
        intro b
        simp [List.all_cons, hc]
      rw [parseUintLoop_step c rest n hc, hval]
      simp only [hall]
      generalize c.val - 48 = d at hge ⊢
      generalize hv : spec.decimalValueFrom (n * 10 + d) rest = v at hge
      have ih1 := ih (n * 10 + d)
      rw [hv] at ih1
      by_cases hcond : 1844674407370955162 ≤ n ∨ 18446744073709551616 ≤ n * 10 + d
      · simp only [hcond, if_true]
        have hbig : 18446744073709551616 ≤ v := by omega
        exact ⟨fun _ h => by omega, fun _ _ _ => trivial, fun _ => by simp⟩
      · simp only [hcond, if_false]
        refine ⟨ih1.1, fun _ hall1 hbig => ?_, ih1.2.2⟩
        by_cases hrest : rest = []
        · subst hrest
          have hv1 : n * 10 + d = v := hv
          omega
        · exact ih1.2.1 hrest hall1 hbig
    · have hall : List.all (c :: rest) (fun d => 48 ≤ d.val && d.val ≤ 57) = false := by
        simp only [List.all_cons, Bool.and_eq_false_imp, Bool.and_eq_true, decide_eq_true_eq]
        intro h
        exact absurd h hc
      refine ⟨fun h => ?_, fun _ h => ?_, fun _ => ?_⟩
      · rw [hall] at h
        cases h
      · rw [hall] at h
        cases h
      · simp [strconv.parseUintLoop, hc]

theorem parseUintLoop_range (l : List Byte) :
    ∀ n, (strconv.parseUintLoop l n).2 = some strconv.ErrRange →
      (strconv.parseUintLoop l n).1 = strconv.maxUint64 := by
  induction l with
  | nil => intro n h; cases h
  | cons d l ih =>
    intro n
    simp only [strconv.parseUintLoop]
    split_ifs
    · exact fun _ => rfl
    · exact fun _ => rfl
    · exact ih _
    · intro h
      exact absurd h (by decide)

/-- The body of `ParseInt` reads the decimal integers of the `int64` range. -/
theorem strconv_parseInt_spec (s : GoString) :
    match spec.decimalInt64 s with
    | some v => strconv.parseInt s = (v, none)
    | none => (strconv.parseInt s).2 ≠ none := by
  cases s with
  | nil => exact fun h => by cases h
  | cons c rest =>
    simp only [spec.decimalInt64, spec.decimalInteger, strconv.parseInt, strconv.ParseUint]
    generalize (if c.val = 43 ∨ c.val = 45 then rest else c :: rest) = digits
    by_cases hd : digits = []
    · subst hd
      simp [strconv.ErrSyntax, strconv.ErrRange]
    · simp only [hd, if_false, ne_eq, not_false_eq_true, true_and]
      have hspec := parseUintLoop_spec digits 0
      have hrange := parseUintLoop_range digits 0
      have herr := strconv_parseUintLoop_error digits 0
      generalize spec.decimalValueFrom 0 digits = v0 at hspec ⊢
      cases hall : digits.all (fun d => 48 ≤ d.val && d.val ≤ 57) with
      | false =>
        have hne := hspec.2.2 hall
        generalize strconv.parseUintLoop digits 0 = r at hne hrange herr ⊢
        rcases r with ⟨un, err⟩
        simp only at hne hrange herr ⊢
        simp only [Bool.false_eq_true, if_false, Option.none_bind]
        rcases herr with h | h | h
        · exact absurd h hne
        · subst h
          rw [if_pos ⟨by decide, by decide⟩]
          decide
        · subst h
          have hun := hrange rfl
          subst hun
          rw [if_neg (fun h => h.2 rfl)]
          by_cases hneg : c.val = 45
          · rw [if_neg (fun h => h.1 hneg), if_pos ⟨hneg, by decide⟩]
            decide
          · rw [if_pos ⟨hneg, by decide⟩]
            decide
      | true =>
        simp only [if_true, Option.some_bind]
        have hc1 : ¬(¬(none : Option GoError) = none ∧
            ¬(none : Option GoError) = some strconv.ErrRange) := fun h => h.1 rfl
        have hc2 : ¬(¬(some strconv.ErrRange) = none ∧
            ¬(some strconv.ErrRange) = some strconv.ErrRange) := fun h => h.2 rfl
        have hmax : (9223372036854775808 : Nat) < strconv.maxUint64 := by decide
        by_cases hneg : c.val = 45
        · have hA : ∀ x : Nat, ¬(¬c.val = 45 ∧ 9223372036854775808 ≤ x) := fun _ h => h.1 hneg
          rcases Nat.lt_or_ge 9223372036854775808 v0 with hbig | hsmall
          · have h1 : ¬(-9223372036854775808 ≤ -(v0 : Int) ∧
                -(v0 : Int) < 9223372036854775808) := by omega
            by_cases hv : v0 < 18446744073709551616
            · have hB : c.val = 45 ∧ 9223372036854775808 < v0 := ⟨hneg, hbig⟩
              rewrite [hspec.1 hall hv]
              dsimp only
              rewrite [if_neg hc1, if_pos hneg, if_neg (hA v0), if_pos hB, if_neg h1]
              exact fun h => by cases h
            · have hB : c.val = 45 ∧ 9223372036854775808 < strconv.maxUint64 := ⟨hneg, hmax⟩
              rewrite [hspec.2.1 hd hall (by omega)]
              dsimp only
              rewrite [if_neg hc2, if_pos hneg, if_neg (hA _), if_pos hB, if_neg h1]
              exact fun h => by cases h
          · have h1 : -9223372036854775808 ≤ -(v0 : Int) ∧
                -(v0 : Int) < 9223372036854775808 := by omega
            have hB : ¬(c.val = 45 ∧ 9223372036854775808 < v0) :=
              fun h => absurd h.2 (Nat.not_lt.mpr hsmall)
            rewrite [hspec.1 hall (by omega)]
            dsimp only
            rewrite [if_neg hc1, if_pos hneg, if_neg (hA v0), if_neg hB, if_pos h1]
            exact rfl
        · have hB : ∀ x : Nat, ¬(c.val = 45 ∧ 9223372036854775808 < x) := fun _ h => hneg h.1
          rcases Nat.lt_or_ge v0 9223372036854775808 with hsmall | hbig
          · have h1 : -9223372036854775808 ≤ (v0 : Int) ∧
                (v0 : Int) < 9223372036854775808 := by omega
            have hA : ¬(¬c.val = 45 ∧ 9223372036854775808 ≤ v0) :=
              fun h => absurd hsmall (Nat.not_lt.mpr h.2)
            rewrite [hspec.1 hall (by omega)]
            dsimp only
            rewrite [if_neg hc1, if_neg hneg, if_neg hA, if_neg (hB v0), if_pos h1]
            exact rfl
          · have h1 : ¬(-9223372036854775808 ≤ (v0 : Int) ∧
                (v0 : Int) < 9223372036854775808) := by omega
            by_cases hv : v0 < 18446744073709551616
            · have hA : ¬c.val = 45 ∧ 9223372036854775808 ≤ v0 := ⟨hneg, hbig⟩
              rewrite [hspec.1 hall hv]
              dsimp only
              rewrite [if_neg hc1, if_neg hneg, if_pos hA, if_neg h1]
              exact fun h => by cases h
            · have hA : ¬c.val = 45 ∧ 9223372036854775808 ≤ strconv.maxUint64 :=
                ⟨hneg, Nat.le_of_lt hmax⟩
              rewrite [hspec.2.1 hd hall (by omega)]
              dsimp only
              rewrite [if_neg hc2, if_neg hneg, if_pos hA, if_neg h1]
              exact fun h => by cases h

/-- The function `ParseInt(s, 10, 64)` reads the decimal integers of the `int64` range. -/
theorem strconv_ParseInt_spec (s : GoString) :
    match spec.decimalInt64 s with
    | some v => strconv.ParseInt s = (v, none)
    | none => (strconv.ParseInt s).2 ≠ none := by
  have h := strconv_parseInt_spec s
  cases hs : spec.decimalInt64 s with
  | none =>
    rewrite [hs] at h
    show (strconv.ParseInt s).2 ≠ none
    unfold strconv.ParseInt
    cases hp : (strconv.parseInt s).2 with
    | none => exact absurd hp h
    | some e => exact fun h2 => by cases h2
  | some v =>
    rewrite [hs] at h
    show strconv.ParseInt s = (v, none)
    unfold strconv.ParseInt
    rewrite [h]
    exact rfl

theorem atoiLoop_spec (l : List Byte) :
    ∀ n, strconv.atoiLoop l n =
      if l.all (fun d => 48 ≤ d.val && d.val ≤ 57) = true then
        some (spec.decimalValueFrom n l)
      else none := by
  induction l with
  | nil => intro n; exact rfl
  | cons c rest ih =>
    intro n
    have hval : spec.decimalValueFrom n (c :: rest) =
        spec.decimalValueFrom (n * 10 + (c.val - 48)) rest := rfl
    have hlt : c.val < 256 := c.isLt
    by_cases hc : 48 ≤ c.val ∧ c.val ≤ 57
    · have h1 : ¬ 9 < (c.val + 256 - 48) % 256 := by
        generalize c.val = v at hc hlt
        omega
      have h2 : (c.val + 256 - 48) % 256 = c.val - 48 := by
        generalize c.val = v at hc hlt
        omega
      have hall : List.all (c :: rest) (fun d => 48 ≤ d.val && d.val ≤ 57) =
          List.all rest (fun d => 48 ≤ d.val && d.val ≤ 57) := by
        simp [List.all_cons, hc]
      rewrite [hall, hval]
      show (if 9 < (c.val + 256 - 48) % 256 then none
        else strconv.atoiLoop rest (n * 10 + (c.val + 256 - 48) % 256)) = _
      rewrite [if_neg h1, h2]
      exact ih _
    · have h1 : 9 < (c.val + 256 - 48) % 256 := by
        generalize c.val = v at hc hlt
        omega
      have hall : List.all (c :: rest) (fun d => 48 ≤ d.val && d.val ≤ 57) = false := by
        simp only [List.all_cons, Bool.and_eq_false_imp, Bool.and_eq_true, decide_eq_true_eq]
        intro h
        exact absurd h hc
      rewrite [hall]
      show (if 9 < (c.val + 256 - 48) % 256 then none
        else strconv.atoiLoop rest (n * 10 + (c.val + 256 - 48) % 256)) = _
      rewrite [if_pos h1]
      exact rfl

theorem decimalValueFrom_lt (l : List Byte)
    (hall : l.all (fun d => 48 ≤ d.val && d.val ≤ 57) = true) :
    ∀ n, spec.decimalValueFrom n l < (n + 1) * 10 ^ l.length := by
  induction l with
  | nil =>
    intro n
    show n < (n + 1) * 1
    omega
  | cons c rest ih =>
    intro n
    simp only [List.all_cons, Bool.and_eq_true, decide_eq_true_eq] at hall
    have h1 := ih hall.2 (n * 10 + (c.val - 48))
    have h2 : n * 10 + (c.val - 48) + 1 ≤ (n + 1) * 10 := by
      have hc := hall.1
      generalize c.val = v at hc
      omega
    have h3 : (n * 10 + (c.val - 48) + 1) * 10 ^ rest.length ≤
        (n + 1) * 10 * 10 ^ rest.length := Nat.mul_le_mul_right _ h2
    show spec.decimalValueFrom (n * 10 + (c.val - 48)) rest < (n + 1) * 10 ^ (rest.length + 1)
    rw [Nat.pow_succ, Nat.mul_comm (10 ^ rest.length) 10, ← Nat.mul_assoc]
    exact Nat.lt_of_lt_of_le h1 h3

/-- The function `Atoi` reads the decimal integers of the `int64` range. -/
theorem strconv_Atoi_spec (s : GoString) :
    match spec.decimalInt64 s with
    | some v => strconv.Atoi s = (v, none)
    | none => (strconv.Atoi s).2 ≠ none := by
  by_cases hlen : 0 < s.length ∧ s.length < 19
  swap
  · have h := strconv_parseInt_spec s
    have hA : strconv.Atoi s =
        ((strconv.parseInt s).1, (strconv.parseInt s).2.map (strconv.NumError "Atoi" s)) := by
      unfold strconv.Atoi
      rewrite [if_neg hlen]
      exact rfl
    cases hs : spec.decimalInt64 s with
    | none =>
      rewrite [hs] at h
      show (strconv.Atoi s).2 ≠ none
      rewrite [hA]
      cases hp : (strconv.parseInt s).2 with
      | none => exact absurd hp h
      | some e => exact fun h2 => by cases h2
    | some v =>
      rewrite [hs] at h
      show strconv.Atoi s = (v, none)
      rewrite [hA, h]
      exact rfl
  · cases s with
    | nil => exact absurd hlen.1 (by decide)
    | cons c rest =>
      have hdl : (if c.val = 45 ∨ c.val = 43 then rest else c :: rest).length ≤ 18 := by
        have h2 := hlen.2
        simp only [List.length_cons] at h2
        split_ifs
        · omega
        · simp only [List.length_cons]
          omega
      have hor : (c.val = 43 ∨ c.val = 45) ↔ (c.val = 45 ∨ c.val = 43) := Or.comm
      have hA : strconv.Atoi (c :: rest) =
          if (if c.val = 45 ∨ c.val = 43 then rest else c :: rest) = [] then
            (0, some (strconv.NumError "Atoi" (c :: rest) strconv.ErrSyntax))
          else
            match strconv.atoiLoop (if c.val = 45 ∨ c.val = 43 then rest else c :: rest) 0 with
            | none => (0, some (strconv.NumError "Atoi" (c :: rest) strconv.ErrSyntax))
            | some n => (if c.val = 45 then -(n : Int) else (n : Int), none) := by
        unfold strconv.Atoi
        rewrite [if_pos hlen]
        exact rfl
      have hS : spec.decimalInteger (c :: rest) =
          if (if c.val = 45 ∨ c.val = 43 then rest else c :: rest) ≠ [] ∧
              (if c.val = 45 ∨ c.val = 43 then rest else c :: rest).all
                (fun d => 48 ≤ d.val && d.val ≤ 57) = true then
            some (if c.val = 45 then
                -(spec.decimalValueFrom 0
                  (if c.val = 45 ∨ c.val = 43 then rest else c :: rest) : Int)
              else (spec.decimalValueFrom 0
                (if c.val = 45 ∨ c.val = 43 then rest else c :: rest) : Int))
          else none := by
        simp only [spec.decimalInteger, hor]
      generalize (if c.val = 45 ∨ c.val = 43 then rest else c :: rest) = digits at hdl hA hS
      by_cases hd : digits = []
      · have hS2 : spec.decimalInt64 (c :: rest) = none := by
          unfold spec.decimalInt64
          rewrite [hS, if_neg (fun h => h.1 hd)]
          exact rfl
        rewrite [hS2, hA, if_pos hd]
        exact fun h => by cases h
      · rewrite [atoiLoop_spec digits 0] at hA
        cases hall : digits.all (fun d => 48 ≤ d.val && d.val ≤ 57) with
        | false =>
          have hS2 : spec.decimalInt64 (c :: rest) = none := by
            unfold spec.decimalInt64
            rewrite [hS, hall, if_neg (fun h => by cases h.2)]
            exact rfl
          rewrite [hall] at hA
          rewrite [hS2, hA, if_neg hd]
          exact fun h => by cases h
        | true =>
          have hbound := decimalValueFrom_lt digits hall 0
          have hpow : 10 ^ digits.length ≤ 10 ^ 18 := Nat.pow_le_pow_right (by decide) hdl
          have hp18 : (10 : Nat) ^ 18 = 1000000000000000000 := by norm_num
          rewrite [hp18] at hpow
          generalize 10 ^ digits.length = p at hbound hpow
          rewrite [hall] at hA
          rewrite [if_neg hd, if_pos rfl] at hA
          generalize spec.decimalValueFrom 0 digits = v0 at hbound hA hS
          have hA2 : strconv.Atoi (c :: rest) =
              (if c.val = 45 then -(v0 : Int) else (v0 : Int), none) := hA
          by_cases hneg : c.val = 45
          · have h1 : -9223372036854775808 ≤ -(v0 : Int) ∧
                -(v0 : Int) < 9223372036854775808 := by omega
            have hS2 : spec.decimalInt64 (c :: rest) = some (-(v0 : Int)) := by
              unfold spec.decimalInt64
              rewrite [hS, hall, if_pos ⟨hd, rfl⟩, if_pos hneg]
              rewrite [Option.some_bind, if_pos h1]
              exact rfl
            rewrite [hS2, hA2, if_pos hneg]
            exact rfl
          · have h1 : -9223372036854775808 ≤ (v0 : Int) ∧
                (v0 : Int) < 9223372036854775808 := by omega
            have hS2 : spec.decimalInt64 (c :: rest) = some (v0 : Int) := by
              unfold spec.decimalInt64
              rewrite [hS, hall, if_pos ⟨hd, rfl⟩, if_neg hneg]
              rewrite [Option.some_bind, if_pos h1]
              exact rfl
            rewrite [hS2, hA2, if_neg hneg]
            exact rfl

/-! ## Theorems: the runner adapter -/

/-- InitAdapter in terms of `strconv`: it returns nil exactly when `Atoi`
accepts both exit-code variables and each of the pipeline-id and job-id
variables is empty or accepted by `ParseInt`; the fields it then leaves. -/
theorem InitAdapter_strconv (envResolver : env.Env) (previous : Option runner.Adapter) :
    ((runner.InitAdapter envResolver previous).1 = none ↔
      ((strconv.Atoi (envResolver.Get api.BuildFailureExitCodeVariable)).2 = none ∧
       (strconv.Atoi (envResolver.Get api.SystemFailureExitCodeVariable)).2 = none ∧
       (envResolver.Get runner.runnerPipelineIDVariable = [] ∨
         (strconv.ParseInt (envResolver.Get runner.runnerPipelineIDVariable)).2 = none) ∧
       (envResolver.Get runner.runnerJobIDVariable = [] ∨
         (strconv.ParseInt (envResolver.Get runner.runnerJobIDVariable)).2 = none))) ∧
    ((runner.InitAdapter envResolver previous).1 = none →
      ∃ a, (runner.InitAdapter envResolver previous).2 = some a ∧
        a.ShortToken =
          (if envResolver.Get runner.runnerShortTokenVariable = [] then str "unknown"
           else envResolver.Get runner.runnerShortTokenVariable) ∧
        a.ProjectURL =
          (if envResolver.Get runner.runnerProjectURLVariable = [] then str "unknown"
           else envResolver.Get runner.runnerProjectURLVariable) ∧
        a.PipelineID =
          (if envResolver.Get runner.runnerPipelineIDVariable = [] then 0
           else (strconv.ParseInt (envResolver.Get runner.runnerPipelineIDVariable)).1) ∧
        a.JobID =
          (if envResolver.Get runner.runnerJobIDVariable = [] then 0
           else (strconv.ParseInt (envResolver.Get runner.runnerJobIDVariable)).1)) := by
  simp only [runner.InitAdapter, runner.getExitCodeFromVariable, runner.getVariableInt64Value,
    runner.getVariableValueOrUnknown, runner.unknownValue, runner.Adapter.ShortToken,
    runner.Adapter.ProjectURL, runner.Adapter.PipelineID, runner.Adapter.JobID]
  rcases hb : strconv.Atoi (envResolver.Get api.BuildFailureExitCodeVariable) with ⟨b, _ | be⟩
  swap
  · simp
  rcases hs : strconv.Atoi (envResolver.Get api.SystemFailureExitCodeVariable) with ⟨c, _ | se⟩
  swap
  · simp
  by_cases hp : envResolver.Get runner.runnerPipelineIDVariable = []
  · by_cases hj : envResolver.Get runner.runnerJobIDVariable = []
    · simp [hp, hj]
    · rcases hjv : strconv.ParseInt (envResolver.Get runner.runnerJobIDVariable)
        with ⟨j, _ | je⟩ <;> simp [hp, hj, hjv]
  · rcases hpv : strconv.ParseInt (envResolver.Get runner.runnerPipelineIDVariable)
      with ⟨p, _ | pe⟩
    swap
    · simp [hp, hpv]
    by_cases hj : envResolver.Get runner.runnerJobIDVariable = []
    · simp [hp, hpv, hj]
    · rcases hjv : strconv.ParseInt (envResolver.Get runner.runnerJobIDVariable)
        with ⟨j, _ | je⟩ <;> simp [hp, hpv, hj, hjv]

theorem strconv_Atoi_ok (s : GoString) :
    ((strconv.Atoi s).2 = none ↔ (spec.decimalInt64 s).isSome = true) ∧
    ((strconv.Atoi s).2 = none → spec.decimalInt64 s = some (strconv.Atoi s).1) := by
  have h := strconv_Atoi_spec s
  cases hs : spec.decimalInt64 s with
  | none =>
    rewrite [hs] at h
    exact ⟨⟨fun h1 => absurd h1 h, fun h1 => by cases h1⟩, fun h1 => absurd h1 h⟩
  | some v =>
    rewrite [hs] at h
    have h2 : strconv.Atoi s = (v, none) := h
    rewrite [h2]
    exact ⟨⟨fun _ => rfl, fun _ => rfl⟩, fun _ => rfl⟩

theorem strconv_ParseInt_ok (s : GoString) :
    ((strconv.ParseInt s).2 = none ↔ (spec.decimalInt64 s).isSome = true) ∧
    ((strconv.ParseInt s).2 = none → spec.decimalInt64 s = some (strconv.ParseInt s).1) := by
  have h := strconv_ParseInt_spec s
  cases hs : spec.decimalInt64 s with
  | none =>
    rewrite [hs] at h
    exact ⟨⟨fun h1 => absurd h1 h, fun h1 => by cases h1⟩, fun h1 => absurd h1 h⟩
  | some v =>
    rewrite [hs] at h
    have h2 : strconv.ParseInt s = (v, none) := h
    rewrite [h2]
    exact ⟨⟨fun _ => rfl, fun _ => rfl⟩, fun _ => rfl⟩

/-- C25: InitAdapter returns nil exactly when both exit-code variables hold a
decimal integer of the `int64` range (an optional sign and one or more
decimal digits; `int` has 64 bits) and each of the pipeline-id and job-id
variables is empty or holds such an integer.  It then leaves an adapter
installed whose ShortToken and ProjectURL are the values of their variables,
or "unknown" when the value is empty (as it is for a variable not set), and
whose PipelineID and JobID are the integers their variables hold, or 0 when
the value is empty. -/
theorem C25_InitAdapter (envResolver : env.Env) (previous : Option runner.Adapter) :
    ((runner.InitAdapter envResolver previous).1 = none ↔
      ((spec.decimalInt64 (envResolver.Get api.BuildFailureExitCodeVariable)).isSome = true ∧
       (spec.decimalInt64 (envResolver.Get api.SystemFailureExitCodeVariable)).isSome = true ∧
       (envResolver.Get runner.runnerPipelineIDVariable = [] ∨
         (spec.decimalInt64 (envResolver.Get runner.runnerPipelineIDVariable)).isSome = true) ∧
       (envResolver.Get runner.runnerJobIDVariable = [] ∨
         (spec.decimalInt64 (envResolver.Get runner.runnerJobIDVariable)).isSome = true))) ∧
    ((runner.InitAdapter envResolver previous).1 = none →
      ∃ a, (runner.InitAdapter envResolver previous).2 = some a ∧
        a.ShortToken =
          (if envResolver.Get runner.runnerShortTokenVariable = [] then str "unknown"
           else envResolver.Get runner.runnerShortTokenVariable) ∧
        a.ProjectURL =
          (if envResolver.Get runner.runnerProjectURLVariable = [] then str "unknown"
           else envResolver.Get runner.runnerProjectURLVariable) ∧
        (envResolver.Get runner.runnerPipelineIDVariable = [] → a.PipelineID = 0) ∧
        (envResolver.Get runner.runnerPipelineIDVariable ≠ [] →
          spec.decimalInt64 (envResolver.Get runner.runnerPipelineIDVariable) =
            some a.PipelineID) ∧
        (envResolver.Get runner.runnerJobIDVariable = [] → a.JobID = 0) ∧
        (envResolver.Get runner.runnerJobIDVariable ≠ [] →
          spec.decimalInt64 (envResolver.Get runner.runnerJobIDVariable) = some a.JobID)) := by
  have h := InitAdapter_strconv envResolver previous
  have hb := strconv_Atoi_ok (envResolver.Get api.BuildFailureExitCodeVariable)
  have hs := strconv_Atoi_ok (envResolver.Get api.SystemFailureExitCodeVariable)
  have hp := strconv_ParseInt_ok (envResolver.Get runner.runnerPipelineIDVariable)
  have hj := strconv_ParseInt_ok (envResolver.Get runner.runnerJobIDVariable)
  have hiff : (runner.InitAdapter envResolver previous).1 = none ↔
      ((spec.decimalInt64 (envResolver.Get api.BuildFailureExitCodeVariable)).isSome = true ∧
       (spec.decimalInt64 (envResolver.Get api.SystemFailureExitCodeVariable)).isSome = true ∧
       (envResolver.Get runner.runnerPipelineIDVariable = [] ∨
         (spec.decimalInt64 (envResolver.Get runner.runnerPipelineIDVariable)).isSome = true) ∧
       (envResolver.Get runner.runnerJobIDVariable = [] ∨
         (spec.decimalInt64 (envResolver.Get runner.runnerJobIDVariable)).isSome = true)) := by
    rw [h.1, hb.1, hs.1, hp.1, hj.1]
  refine ⟨hiff, fun hnil => ?_⟩
  obtain ⟨a, ha, h1, h2, h3, h4⟩ := h.2 hnil
  have hok := h.1.mp hnil
  refine ⟨a, ha, h1, h2, fun he => ?_, fun hne => ?_, fun he => ?_, fun hne => ?_⟩
  · rw [h3, if_pos he]
  · rw [h3, if_neg hne]
    exact hp.2 (hok.2.2.1.resolve_left hne)
  · rw [h4, if_pos he]
  · rw [h4, if_neg hne]
    exact hj.2 (hok.2.2.2.resolve_left hne)

set_option maxRecDepth 100000 in
/-- The environments of the unit tests: the default one is accepted and gives
the exit codes 2 and 1; a pipeline id that is not an integer is refused. -/
theorem InitAdapter_examples :
    runner.InitAdapter (testEnv [(runner.runnerPipelineIDVariable, str "123")]) none =
      (none, some { buildFailureExitCode := 2, systemFailureExitCode := 1,
                    shortToken := str "unknown", projectURL := str "unknown",
                    pipelineID := 123, jobID := 0 }) ∧
    (runner.InitAdapter (testEnv [(runner.runnerPipelineIDVariable, str "abc")]) none).1 ≠
      none := by
  decide

/-! ## Theorems: the exit of the process -/

set_option maxRecDepth 100000 in
theorem main_examples :
    (sampleMain (testEnv []) none).1 = .returned () ∧
    exitCalls (sampleMain (testEnv []) none).2.world.trace = [] ∧
    (sampleMain (testEnv []) (some os.ErrNotExist)).1 = .panicked ∧
    exitCalls (sampleMain (testEnv [(api.BuildFailureExitCodeVariable, [])]) none).2.world.trace
      = [0] ∧
    exitCalls (sampleMain (testEnv [(api.SystemFailureExitCodeVariable, [])]) none).2.world.trace
      = [-1] := by
  decide

/-- C27 (the code at the failing input): in every environment in which
`strconv.Atoi` rejects the value of the build-failure exit-code variable (as
it does when the variable is not set), InitAdapter returns an error `e` at
once and leaves an adapter whose buildFailureExitCode is -1 and whose
systemFailureExitCode is still 0, the value it was created with.  The error is
not a build failure, so the exit code GenerateExitFromError selects for it,
bare or wrapped by `abstractCustomCommand.Execute`, is 0. -/
theorem C27_init_failure_exit_code {σ : Type} (envResolver : env.Env)
    (previous : Option runner.Adapter) (osExiter : Int → Op σ Unit) (w : World σ)
    (h : (strconv.Atoi (envResolver.Get api.BuildFailureExitCodeVariable)).2 ≠ none) :
    ∃ e a, runner.InitAdapter envResolver previous = (some e, some a) ∧
      a.buildFailureExitCode = -1 ∧ a.systemFailureExitCode = 0 ∧
      (a.GenerateExitFromError osExiter (some e) w).2.trace = w.trace ++ [Event.osExiter 0] ∧
      (a.GenerateExitFromError osExiter
        (some (fmt.Errorf "couldn't initialize GitLab Runner Adapter: %w" [] e)) w).2.trace =
          w.trace ++ [Event.osExiter 0] := by
  rcases hb : strconv.Atoi (envResolver.Get api.BuildFailureExitCodeVariable) with ⟨b, _ | be⟩
  · rw [hb] at h
    exact absurd rfl h
  · have hshape := strconv_Atoi_error _ be (by rw [hb])
    refine ⟨fmt.Errorf "couldn't parse exit code %q from variable %q: %w"
        [envResolver.Get api.BuildFailureExitCodeVariable, api.BuildFailureExitCodeVariable] be,
      { buildFailureExitCode := -1 },
      by simp only [runner.InitAdapter, runner.getExitCodeFromVariable, hb],
      rfl, rfl, ?_, ?_⟩ <;>
    · simp only [runner.Adapter.GenerateExitFromError, traced_inWorld, errors_Is_buildFailure]
      rcases hshape with rfl | rfl <;> rfl

set_option maxRecDepth 100000 in
/-- C27 (witness): the unit test "build exit code variable undefined", in
which the system-failure exit code is 1: the failed InitAdapter leaves the
system-failure exit code 0, and `main` exits with 0. -/
theorem C27_init_failure_exit_code_witness :
    exitCalls (sampleMain (testEnv [(api.BuildFailureExitCodeVariable, [])]) none).2.world.trace
      = [0] ∧
    ∃ e a, runner.InitAdapter (testEnv [(api.BuildFailureExitCodeVariable, [])]) none =
        (some e, some a) ∧
      a.buildFailureExitCode = -1 ∧ a.systemFailureExitCode = 0 ∧
      (a.GenerateExitFromError sampleExiter (some e) ⟨0, []⟩).2.trace = [] ++ [Event.osExiter 0] ∧
      (a.GenerateExitFromError sampleExiter
        (some (fmt.Errorf "couldn't initialize GitLab Runner Adapter: %w" [] e)) ⟨0, []⟩).2.trace =
          [] ++ [Event.osExiter 0] :=
  ⟨by decide,
    C27_init_failure_exit_code (testEnv [(api.BuildFailureExitCodeVariable, [])]) none
      sampleExiter ⟨0, []⟩ (by decide)⟩

/-- C28 (the code at the failing input): when a before hook fails in a process
whose runner adapter is not initialised, the handler of the command does not
run, the adapter is still nil when `main` calls GetAdapter, and `main` panics;
no exit code is selected by GenerateExitFromError. -/
theorem C28_before_hook_failure_panics {σ : Type} (logger : logging.Logger) (a : cli.App σ)
    (osExiter : Int → Op σ Unit) (p : Process σ) (e : GoError)
    (hadapter : p.adapter = none)
    (hbefore : (cli.Hooks.Execute a.beforeFunctions p.ctx p.world).1.1 = some e) :
    (fargate.main logger a osExiter p).1 = .panicked ∧
    (fargate.main logger a osExiter p).2.adapter = none := by
  rcases hb : cli.Hooks.Execute a.beforeFunctions p.ctx p.world with ⟨⟨be, ctx1⟩, w1⟩
  rw [hb] at hbefore
  simp only at hbefore
  subst hbefore
  rcases ha : cli.Hooks.Execute a.afterFunctions ctx1 w1 with ⟨⟨_ | ae, ctx2⟩, w2⟩ <;>
    simp [fargate.main, cli.App.Run, cli.App.runAfter, hb, ha, runner.GetAdapter, hadapter]

set_option maxRecDepth 100000 in
/-- C28 (witness): the configuration file does not exist: the hook
`loadConfigurationFile` fails, and `main` panics at GetAdapter without any
call of the exiter. -/
theorem C28_before_hook_failure_panics_witness :
    exitCalls (sampleMain (testEnv []) (some os.ErrNotExist)).2.world.trace = [] ∧
    (sampleMain (testEnv []) (some os.ErrNotExist)).1 = .panicked ∧
    (sampleMain (testEnv []) (some os.ErrNotExist)).2.adapter = none :=
  ⟨by decide,
    C28_before_hook_failure_panics {}
      (setUpApplication {} {} (fun _ n => ((some [], some os.ErrNotExist), n))
        (fun _ => ({}, none)) [] (abstractCustomCommand.Execute (testEnv []) sampleStage)
        (fun _ _ => .errorString "multiple errors"))
      sampleExiter { world := ⟨0, []⟩ }
      (fmt.Errorf "hook failure: %w" []
        (fmt.Errorf "couldn't read configuration file %q: %w" [str "config.toml"]
          os.ErrNotExist))
      rfl (by decide)⟩

/-! ## Theorems: the AWS adapter under Prepare -/

/-- Every RunTask event in the trace of a Prepare run records an answer of the
adapter's RunTask. -/
theorem prepare_RunTask_answer {σ : Type} (fargate : aws.Fargate σ)
    (manager : task.MetadataManager σ) (keys : ssh.KeyFactory σ) (ctx : cli.Context) (s : σ)
    (taskSettings : aws.TaskSettings) (connection : aws.ConnectionSettings)
    (taskARN : GoString) (err : Option GoError)
    (hmem : Event.RunTask taskSettings connection taskARN err ∈
      (runPrepare fargate manager keys ctx s).2.trace) :
    ∃ st, (fargate.RunTask taskSettings connection st).1 = (taskARN, err) := by
  revert hmem
  simp only [runPrepare, PrepareCommand.CustomExecute, PrepareCommand.init, PrepareCommand.mk0,
    PrepareCommand.startNewFargateTask, PrepareCommand.persistDataForLaterStages,
    PrepareCommand.waitFargateTaskReady, aws.Fargate.lift, task.MetadataManager.lift,
    ssh.KeyFactory.lift, traced_inWorld, World.record, logging.Logger.emit,
    cli.Context.Config, cli.Context.Logger]
  rcases h1 : fargate.Init s with ⟨_ | e1, s1⟩
  swap
  · simp [h1]
  simp only [h1, traced_inWorld]
  rcases h2 : keys.Create defaultBitSize s1 with ⟨⟨kp, _ | e2⟩, s2⟩
  swap
  · simp [h2]
  cases kp with
  | none => simp [h2]
  | some kp =>
  simp only [h2, traced_inWorld]
  rcases h3 : fargate.RunTask (prepareTaskSettings ctx kp.PublicKey) (prepareConnection ctx) s2
    with ⟨⟨arn, r3⟩, s3⟩
  have key : ∀ tr : List Event,
      (∀ ts conn a r, Event.RunTask ts conn a r ∈ tr →
        ts = prepareTaskSettings ctx kp.PublicKey ∧ conn = prepareConnection ctx ∧ a = arn ∧
          r = r3) →
      Event.RunTask taskSettings connection taskARN err ∈ tr →
      ∃ st, (fargate.RunTask taskSettings connection st).1 = (taskARN, err) := by
    intro tr htr hm
    obtain ⟨rfl, rfl, rfl, rfl⟩ := htr _ _ _ _ hm
    exact ⟨s2, by rw [h3]⟩
  cases r3 with
  | some e3 =>
    simp only [prepareTaskSettings, prepareConnection] at h3
    simp only [h3, traced_inWorld]
    rw [stopFargateTaskOnError_trace fargate _ ctx rfl rfl rfl]
    apply key
    intro ts conn a r hm
    simp [mem_stopTrace] at hm
    simpa [prepareTaskSettings, prepareConnection] using hm
  | none =>
  simp only [prepareTaskSettings, prepareConnection] at h3
  simp only [h3, traced_inWorld]
  rcases h4 : manager.Persist (firstRecord arn kp) s3 with ⟨_ | e4, s4⟩
  swap
  · simp only [firstRecord] at h4
    simp only [h4, traced_inWorld]
    rw [stopFargateTaskOnError_trace fargate _ ctx rfl rfl rfl]
    apply key
    intro ts conn a r hm
    simp [mem_stopTrace] at hm
    simpa [prepareTaskSettings, prepareConnection] using hm
  simp only [firstRecord] at h4
  simp only [h4, traced_inWorld]
  rcases h5 : fargate.WaitUntilTaskRunning arn ctx.config.Fargate.Cluster s4 with ⟨_ | e5, s5⟩
  swap
  · simp only [h5, traced_inWorld]
    rw [stopFargateTaskOnError_trace fargate _ ctx rfl rfl rfl]
    apply key
    intro ts conn a r hm
    simp [mem_stopTrace] at hm
    simpa [prepareTaskSettings, prepareConnection] using hm
  simp only [h5, traced_inWorld]
  rcases h6 : fargate.GetContainerIP arn ctx.config.Fargate.Cluster
    ctx.config.Fargate.EnablePublicIP s5 with ⟨⟨ip, _ | e6⟩, s6⟩
  swap
  · simp only [h6, traced_inWorld]
    rw [stopFargateTaskOnError_trace fargate _ ctx rfl rfl rfl]
    apply key
    intro ts conn a r hm
    simp [mem_stopTrace] at hm
    simpa [prepareTaskSettings, prepareConnection] using hm
  simp only [h6, traced_inWorld]
  rcases h7 : manager.Persist (secondRecord arn ip kp) s6 with ⟨_ | e7, s7⟩
  swap
  · simp only [secondRecord] at h7
    simp only [h7, traced_inWorld]
    rw [stopFargateTaskOnError_trace fargate _ ctx rfl rfl rfl]
    apply key
    intro ts conn a r hm
    simp [mem_stopTrace] at hm
    simpa [prepareTaskSettings, prepareConnection] using hm
  simp only [secondRecord] at h7
  simp only [h7, traced_inWorld]
  apply key
  intro ts conn a r hm
  simp at hm
  simpa [prepareTaskSettings, prepareConnection] using hm

/-- C26: whenever `awsFargate.RunTask` returns a non-nil error, the handle it
returns is the empty string, and the error says that the adapter is not
initialised or wraps the error of the control-plane call RunTaskWithContext.
Hence, in every Prepare run over a Fargate adapter whose RunTask returns the
empty handle with every error, the handle of a failed start is empty and
StopTask is not invoked. -/
theorem C26_failed_start_empty_handle {σ τ : Type} (a : aws.awsFargate σ)
    (taskSettings : aws.TaskSettings) (connection : aws.ConnectionSettings) (w : World σ) :
    (∀ taskARN e, (a.RunTask taskSettings connection w).1 = .returned (taskARN, some e) →
      taskARN = [] ∧
      ((a.errIfNotInitialized ≠ none ∧
          e = fmt.Errorf "could not start AWS Fargate Task: %w" [] aws.ErrNotInitialized) ∨
        ∃ input output err,
          Event.RunTaskWithContext input output (some err) ∈
            (a.RunTask taskSettings connection w).2.trace ∧
          e = fmt.Errorf "error starting AWS Fargate Task: %w" [] err)) ∧
    (∀ (fargate : aws.Fargate τ) (manager : task.MetadataManager τ) (keys : ssh.KeyFactory τ)
      (ctx : cli.Context) (s : τ),
      (∀ ts conn st, (fargate.RunTask ts conn st).1.2 ≠ none →
        (fargate.RunTask ts conn st).1.1 = []) →
      ∀ ts conn taskARN e,
        Event.RunTask ts conn taskARN (some e) ∈ (runPrepare fargate manager keys ctx s).2.trace →
        taskARN = [] ∧ stopCalls (runPrepare fargate manager keys ctx s).2.trace = []) := by
  constructor
  · intro taskARN e
    rcases hn : a.errIfNotInitialized with _ | err0
    · simp only [aws.awsFargate.RunTask, hn]
      rcases hp : a.processEnvVariablesToInject taskSettings.EnvironmentVariables
        (a.logger.emit "debug" "[RunTask] Will start a new Fargate Task" w) with ⟨overrides, w1⟩
      simp only []
      cases hecs : a.ecsSvc with
      | none => simp
      | some ecsSvc =>
        simp only [traced_inWorld]
        generalize hin : ({ TaskDefinition := some taskSettings.TaskDefinition
                            Cluster := some taskSettings.Cluster
                            NetworkConfiguration := some
                              { AwsvpcConfiguration := some
                                  { SecurityGroups := [some connection.SecurityGroup]
                                    Subnets := [some connection.Subnet]
                                    AssignPublicIp := some
                                      (if connection.EnablePublicIP then str "ENABLED"
                                       else str "DISABLED") } }
                            Overrides := overrides
                            PlatformVersion :=
                              if taskSettings.PlatformVersion ≠ [] then
                                some taskSettings.PlatformVersion
                              else none } : ecs.RunTaskInput) = input
        rcases hr : ecsSvc.RunTaskWithContext input w1.st with ⟨⟨output, _ | err⟩, s1⟩
        · simp only []
          cases hout : (output.bind fun o => o.Tasks.head?.join).bind fun t => t.TaskArn <;>
            simp
        · simp only []
          intro h
          simp at h
          obtain ⟨rfl, rfl⟩ := h
          exact ⟨rfl, Or.inr ⟨input, output, err, by simp, rfl⟩⟩
    · have herr : err0 = aws.ErrNotInitialized := by
        unfold aws.awsFargate.errIfNotInitialized at hn
        split_ifs at hn
        exact (Option.some.inj hn).symm
      subst herr
      simp only [aws.awsFargate.RunTask, hn]
      intro h
      simp at h
      obtain ⟨rfl, rfl⟩ := h
      exact ⟨rfl, Or.inl ⟨by simp, rfl⟩⟩
  · intro fargate manager keys ctx s hempty ts conn taskARN e hmem
    obtain ⟨st, hst⟩ := prepare_RunTask_answer fargate manager keys ctx s ts conn taskARN
      (some e) hmem
    have harn : taskARN = [] := by
      have := hempty ts conn st (by rw [hst]; simp)
      rw [hst] at this
      exact this
    refine ⟨harn, ?_⟩
    subst harn
    have hs := prepare_run_shape fargate manager keys ctx s
    generalize (runPrepare fargate manager keys ctx s).1 = out at hs
    generalize (runPrepare fargate manager keys ctx s).2.trace = tr at hs hmem ⊢
    cases hs <;>
      simp [prepareWaited, prepareStarted, prepareHead, mem_stopTrace,
        stopCalls_append, stopCalls_stopTrace, stopCalls] at hmem ⊢
    exact hmem.2.2.1

/-! ## Theorems: the responses the AWS adapter can handle -/

set_option maxRecDepth 100000 in
/-- C30 (counterexample): the control plane answers RunTaskWithContext without
an error and with a response that holds no task; RunTask panics. -/
theorem C30_no_task_counterexample :
    Event.RunTaskWithContext (aws.runTaskInput {} {} none) (some { Tasks := [] }) none ∈
      ((sampleAwsFargateOver (some { Tasks := [] }) none none).RunTask {} {} ⟨0, []⟩).2.trace ∧
    ((sampleAwsFargateOver (some { Tasks := [] }) none none).RunTask {} {} ⟨0, []⟩).1 =
      .panicked := by
  decide

/-- C30 (amended): on an initialised adapter, for every control-plane response
returned without error, RunTask and GetContainerIP return a value without a
panic exactly when the response holds the elements they read, and panic when
one is missing.  RunTask reads the ARN of the first task.  GetContainerIP
reads, for the private address, the address of the first network interface of
the first container of the first task; for the public address, the details of
the first attachment of the first task, each with its name up to the first one
named `networkInterfaceId` and the value of that one, and then, in the EC2
response, the public IP of the association of the first interface. -/
theorem C30_response_handling {σ : Type} (a : aws.awsFargate σ) (ecsSvc : aws.ecsClient σ)
    (ec2Svc : aws.ec2Client σ) (h1 : a.ecsSvc = some ecsSvc) (h2 : a.ec2Svc = some ec2Svc) :
    (∀ (taskSettings : aws.TaskSettings) (connection : aws.ConnectionSettings) (w : World σ),
      let injected := a.processEnvVariablesToInject taskSettings.EnvironmentVariables
        (a.logger.emit "debug" "[RunTask] Will start a new Fargate Task" w)
      let answered := ecsSvc.RunTaskWithContext
        (aws.runTaskInput taskSettings connection injected.1) injected.2.st
      answered.1.2 = none →
        ((a.RunTask taskSettings connection w).1 = .panicked ↔
          aws.taskARNOf answered.1.1 = none) ∧
        ∀ taskARN, aws.taskARNOf answered.1.1 = some taskARN →
          (a.RunTask taskSettings connection w).1 = .returned (taskARN, none)) ∧
    (∀ (taskARN cluster : GoString) (usePublicIP : Bool) (w : World σ),
      let described :=
        ecsSvc.DescribeTasksWithContext { Cluster := some cluster, Tasks := [some taskARN] } w.st
      let run := a.GetContainerIP taskARN cluster usePublicIP w
      described.1.2 = none →
        (usePublicIP = false →
          (run.1 = .panicked ↔ aws.privateIPOf described.1.1 = none) ∧
          ∀ ip, aws.privateIPOf described.1.1 = some ip → run.1 = .returned (ip, none)) ∧
        (usePublicIP = true →
          ((aws.detailsOf described.1.1).bind aws.scanDetails = none → run.1 = .panicked) ∧
          ∀ networkInterfaceID,
            (aws.detailsOf described.1.1).bind aws.scanDetails = some networkInterfaceID →
            let answered := ec2Svc.DescribeNetworkInterfacesWithContext
              { NetworkInterfaceIds := [some networkInterfaceID] } described.2
            answered.1.2 = none →
              (run.1 = .panicked ↔ aws.publicIPOf answered.1.1 = none) ∧
              ∀ ip, aws.publicIPOf answered.1.1 = some ip → run.1 = .returned (ip, none))) := by
  have hn := errIfNotInitialized_set a ecsSvc ec2Svc h1 h2
  constructor
  · intro taskSettings connection w injected answered hok
    rcases hp : a.processEnvVariablesToInject taskSettings.EnvironmentVariables
      (a.logger.emit "debug" "[RunTask] Will start a new Fargate Task" w) with ⟨overrides, w1⟩
    have hinj : injected = (overrides, w1) := hp
    rcases hr : ecsSvc.RunTaskWithContext (aws.runTaskInput taskSettings connection overrides)
      w1.st with ⟨⟨output, rerr⟩, s1⟩
    have hans : answered = ((output, rerr), s1) := by
      simp only [answered, hinj]
      exact hr
    rw [hans] at hok
    simp only at hok
    subst hok
    simp only [hans]
    simp only [aws.runTaskInput] at hr
    simp only [aws.awsFargate.RunTask, hn, hp, h1, traced_inWorld, hr, aws.taskARNOf]
    cases hout : (output.bind fun o => o.Tasks.head?.join).bind fun t => t.TaskArn <;> simp
  · intro taskARN cluster usePublicIP w described run hok
    rcases hd : ecsSvc.DescribeTasksWithContext
      { Cluster := some cluster, Tasks := [some taskARN] } w.st with ⟨⟨out, derr⟩, s1⟩
    have hdd : described = ((out, derr), s1) := hd
    rw [hdd] at hok
    simp only at hok
    subst hok
    simp only [hdd]
    constructor
    · rintro rfl
      simp only [run, aws.awsFargate.GetContainerIP, hn, aws.awsFargate.getTaskDetails, h1,
        traced_inWorld, logging.Logger.emit, World.record, hd, aws.awsFargate.extractPrivateIP]
      cases hip : aws.privateIPOf out <;> simp
    · rintro rfl
      constructor
      · intro hscan
        simp only [run, aws.awsFargate.GetContainerIP, hn, aws.awsFargate.getTaskDetails, h1,
          traced_inWorld, logging.Logger.emit, World.record, hd,
          aws.awsFargate.extractNetworkInterfaceID, hscan]
        simp
      · intro networkInterfaceID hscan
        rcases ha : ec2Svc.DescribeNetworkInterfacesWithContext
          { NetworkInterfaceIds := [some networkInterfaceID] } s1 with ⟨⟨dni, nerr⟩, s2⟩
        simp only []
        rintro rfl
        simp only [run, aws.awsFargate.GetContainerIP, hn, aws.awsFargate.getTaskDetails, h1,
          traced_inWorld, logging.Logger.emit, World.record, hd,
          aws.awsFargate.extractNetworkInterfaceID, hscan, aws.awsFargate.getPublicIP, h2, ha]
        cases hpub : aws.publicIPOf dni <;> simp

set_option maxRecDepth 100000 in
/-- C30 (witness): an initialised adapter whose task description holds a task
without containers: asked for the private address, GetContainerIP panics; and
RunTask returns the ARN of the first task of the response. -/
theorem C30_response_handling_witness :
    (((sampleAwsFargateOver (some { Tasks := [some { TaskArn := some (str "task-arn") }] })
        (some { Tasks := [some {}] }) none).GetContainerIP (str "task-arn") (str "cluster")
        false ⟨0, []⟩).1 = .panicked ↔
      aws.privateIPOf (some { Tasks := [some {}] }) = none) ∧
    ((sampleAwsFargateOver (some { Tasks := [some { TaskArn := some (str "task-arn") }] })
        (some { Tasks := [some {}] }) none).RunTask {} {} ⟨0, []⟩).1 =
      .returned (str "task-arn", none) :=
  have h := C30_response_handling
    (sampleAwsFargateOver (some { Tasks := [some { TaskArn := some (str "task-arn") }] })
      (some { Tasks := [some {}] }) none) _ _ rfl rfl
  ⟨((h.2 (str "task-arn") (str "cluster") false ⟨0, []⟩ rfl).1 rfl).1,
    (h.1 {} {} ⟨0, []⟩ rfl).2 (str "task-arn") rfl⟩

/-! ## Theorems: the string that is hashed -/

theorem decimalDigit_val (n : Nat) : (decimalDigit n).val = 48 + n % 10 := by
  have h : n % 10 < 10 := Nat.mod_lt _ (by decide)
  simp only [decimalDigit, Fin.ofNat, Fin.val_mk]
  omega

theorem decimalValueRev_decimalRev (fuel : Nat) :
    ∀ n, n < fuel → decimalValueRev (decimalRev fuel n) = n := by
  induction fuel with
  | zero => intro n h; omega
  | succ fuel ih =>
    intro n h
    unfold decimalRev
    split_ifs with h10
    · simp only [decimalValueRev, decimalDigit_val]
      omega
    · simp only [decimalValueRev, decimalDigit_val]
      rw [ih (n / 10) (by omega)]
      omega

theorem decimalRev_digits (fuel : Nat) :
    ∀ n, ∀ c ∈ decimalRev fuel n, isDecimalDigit c = true := by
  induction fuel with
  | zero => intro n c h; simp [decimalRev] at h
  | succ fuel ih =>
    intro n c h
    have hd : isDecimalDigit (decimalDigit n) = true := by
      have h10 : n % 10 < 10 := Nat.mod_lt _ (by decide)
      simp only [isDecimalDigit, decimalDigit_val, Bool.and_eq_true, decide_eq_true_eq]
      omega
    unfold decimalRev at h
    split_ifs at h
    · simp only [List.mem_singleton] at h
      rw [h]
      exact hd
    · rcases List.mem_cons.mp h with h | h
      · rw [h]
        exact hd
      · exact ih _ c h

theorem formatNat_injective (a b : Nat) (h : formatNat a = formatNat b) : a = b := by
  have h1 := decimalValueRev_decimalRev (a + 1) a (by omega)
  have h2 := decimalValueRev_decimalRev (b + 1) b (by omega)
  have h3 : decimalRev (a + 1) a = decimalRev (b + 1) b := List.reverse_injective h
  rw [h3] at h1
  omega

theorem formatNat_no_hyphen (a : Nat) : (45 : Byte) ∉ formatNat a := by
  intro h
  have h1 := decimalRev_digits (a + 1) a 45 (List.mem_reverse.mp h)
  revert h1
  decide

theorem append_separator_injective {α : Type} (sep : α) (y1 y2 : List α) (h1 : sep ∉ y1)
    (h2 : sep ∉ y2) :
    ∀ x1 x2 : List α, x1 ++ sep :: y1 = x2 ++ sep :: y2 → x1 = x2 ∧ y1 = y2 := by
  intro x1
  induction x1 with
  | nil =>
    intro x2 h
    cases x2 with
    | nil => exact ⟨rfl, (List.cons.inj h).2⟩
    | cons c x2 =>
      have h3 := (List.cons.inj h).2
      exact absurd (h3 ▸ List.mem_append_right x2 (List.mem_cons_self sep y2)) h1
  | cons c x1 ih =>
    intro x2 h
    cases x2 with
    | nil =>
      have h3 := (List.cons.inj h).2
      exact absurd (h3 ▸ List.mem_append_right x1 (List.mem_cons_self sep y1)) h2
    | cons c2 x2 =>
      have h3 := List.cons.inj h
      obtain ⟨h4, h5⟩ := ih x2 h3.2
      exact ⟨by rw [h3.1, h4], h5⟩

theorem hexDigit_pair_injective :
    ∀ a b : Byte, hexDigit (a.val / 16) = hexDigit (b.val / 16) →
      hexDigit (a.val % 16) = hexDigit (b.val % 16) → a = b := by
  have key : ∀ m n : Fin 16, hexDigit m.val = hexDigit n.val → m = n := by decide
  intro a b h1 h2
  have ha : a.val / 16 < 16 := by have := a.isLt; omega
  have hb : b.val / 16 < 16 := by have := b.isLt; omega
  have ha2 : a.val % 16 < 16 := Nat.mod_lt _ (by decide)
  have hb2 : b.val % 16 < 16 := Nat.mod_lt _ (by decide)
  have k1 := key ⟨a.val / 16, ha⟩ ⟨b.val / 16, hb⟩ h1
  have k2 := key ⟨a.val % 16, ha2⟩ ⟨b.val % 16, hb2⟩ h2
  have k3 : a.val / 16 = b.val / 16 := congrArg Fin.val k1
  have k4 : a.val % 16 = b.val % 16 := congrArg Fin.val k2
  apply Fin.ext
  omega

theorem formatHex_injective : ∀ xs ys : List Byte, formatHex xs = formatHex ys → xs = ys := by
  intro xs
  induction xs with
  | nil =>
    intro ys h
    cases ys with
    | nil => rfl
    | cons b ys => simp [formatHex] at h
  | cons a xs ih =>
    intro ys h
    cases ys with
    | nil => simp [formatHex] at h
    | cons b ys =>
      simp only [formatHex, List.flatMap_cons, List.cons_append, List.nil_append,
        List.cons.injEq] at h
      obtain ⟨h1, h2, h3⟩ := h
      rw [hexDigit_pair_injective a b h1 h2, ih ys h3]

theorem formatInt_nonneg (i : Int) (h : 0 ≤ i) : formatInt i = formatNat i.natAbs := by
  unfold formatInt
  rw [if_neg (by omega)]

theorem longID_injective (d1 d2 : task.RunnerData) (hp1 : 0 ≤ d1.PipelineID)
    (hj1 : 0 ≤ d1.JobID) (hp2 : 0 ≤ d2.PipelineID) (hj2 : 0 ≤ d2.JobID)
    (h : task.longID d1 = task.longID d2) :
    d1.ProjectURL = d2.ProjectURL ∧ d1.PipelineID = d2.PipelineID ∧ d1.JobID = d2.JobID := by
  have hsep : str "-" = [(45 : Byte)] := by decide
  simp only [task.longID, formatInt_nonneg _ hp1, formatInt_nonneg _ hj1,
    formatInt_nonneg _ hp2, formatInt_nonneg _ hj2, hsep, List.append_assoc,
    List.singleton_append] at h
  have h' : (d1.ProjectURL ++ 45 :: formatNat d1.PipelineID.natAbs) ++
      45 :: formatNat d1.JobID.natAbs =
      (d2.ProjectURL ++ 45 :: formatNat d2.PipelineID.natAbs) ++
      45 :: formatNat d2.JobID.natAbs := by
    simpa only [List.append_assoc, List.cons_append] using h
  obtain ⟨h3, h4⟩ := append_separator_injective 45 _ _ (formatNat_no_hyphen _)
    (formatNat_no_hyphen _) _ _ h'
  obtain ⟨h5, h6⟩ := append_separator_injective 45 _ _ (formatNat_no_hyphen _)
    (formatNat_no_hyphen _) _ _ h3
  have h7 := formatNat_injective _ _ h4
  have h8 := formatNat_injective _ _ h6
  exact ⟨h5, by omega, by omega⟩

/-- C29: for job identities whose PipelineID and JobID are not negative, the
string that GenerateFilename hashes determines ProjectURL, PipelineID and
JobID, whatever bytes ProjectURL holds; so two such identities with the same
short token and the same storage key are equal in all three attributes, or
their different strings have the same SHA-256 digest. -/
theorem C29_storage_key_injective (d1 d2 : task.RunnerData) (hp1 : 0 ≤ d1.PipelineID)
    (hj1 : 0 ≤ d1.JobID) (hp2 : 0 ≤ d2.PipelineID) (hj2 : 0 ≤ d2.JobID) :
    (task.longID d1 = task.longID d2 →
      d1.ProjectURL = d2.ProjectURL ∧ d1.PipelineID = d2.PipelineID ∧ d1.JobID = d2.JobID) ∧
    (d1.ShortToken = d2.ShortToken → task.GenerateFilename d1 = task.GenerateFilename d2 →
      (d1.ProjectURL = d2.ProjectURL ∧ d1.PipelineID = d2.PipelineID ∧ d1.JobID = d2.JobID) ∨
      (task.longID d1 ≠ task.longID d2 ∧
        sha256.Sum256 (task.longID d1) = sha256.Sum256 (task.longID d2))) := by
  refine ⟨longID_injective d1 d2 hp1 hj1 hp2 hj2, ?_⟩
  intro ht hf
  simp only [task.GenerateFilename, ht] at hf
  have hsum := formatHex_injective _ _ (List.append_cancel_left hf)
  by_cases hid : task.longID d1 = task.longID d2
  · exact Or.inl (longID_injective d1 d2 hp1 hj1 hp2 hj2 hid)
  · exact Or.inr ⟨hid, hsum⟩

set_option maxRecDepth 100000 in
/-- C29 (witness): two identities whose project URLs end in digits and
hyphens, with the same string only if they are the same; with a negative
PipelineID the string `a--1-2` is shared by two identities. -/
theorem C29_storage_key_injective_witness :
    (task.longID { ProjectURL := str "a-1", PipelineID := 2, JobID := 3 } =
        task.longID { ProjectURL := str "a", PipelineID := 12, JobID := 3 } →
      str "a-1" = str "a" ∧ (2 : Int) = 12 ∧ (3 : Int) = 3) ∧
    task.longID { ProjectURL := str "a-1", PipelineID := 2, JobID := 3 } = str "a-1-2-3" ∧
    task.longID { ProjectURL := str "a", PipelineID := -1, JobID := 2 } =
      task.longID { ProjectURL := str "a-", PipelineID := 1, JobID := 2 } :=
  ⟨(C29_storage_key_injective { ProjectURL := str "a-1", PipelineID := 2, JobID := 3 }
      { ProjectURL := str "a", PipelineID := 12, JobID := 3 } (by decide) (by decide)
      (by decide) (by decide)).1,
    by decide, by decide⟩
